import Mathlib

/-! # kiesnet-token: a shallow embedding of the ledger core

The chaincode keeps its world state in a key/value store.  Here every kind of
document has its own table (`State`), keyed by the same key strings the
source builds (`CreateKey`, `CreatePendingKey`, ...).  Go values of type
`Amount` (a `big.Int`) are integers (`Int`), a `txtime.Time` is its number of
nanoseconds since the Unix epoch (`Int`), a byte is a natural below 256, and
a Go `string` is a Lean `String`.  Where the source measures or cuts a text
that comes from the caller (`ParseAddress`, the memo limit), `len` and the
slices count the bytes of its UTF-8 encoding (`byteLen`, `byteSlice`), and
upper-casing follows `unicode.ToUpper` beyond ASCII (`unicodeToUpper`).  On
the ids, keys and addresses the chaincode builds itself, which are ASCII, a
text is read character by character (`String.length`, `strSlice`); the two
readings agree there.

A function that only reads the store takes the state and returns
`Except Error _`; a function that writes returns the new state as well; an
entry point (`transfer`, `pay`, ...) returns its `Response` together with the
state holding whatever was written before it returned.
-/

namespace Kiesnet

/-! ## Errors, time, documents -/

/-- Go error value: its message, and whether it implements `ResponsibleError`. -/
structure Error where
  responsible : Bool
  msg : String
  deriving DecidableEq, Repr

deriving instance DecidableEq for Except

/-- Model of `errors.New`. -/
def errorsNew (m : String) : Error := ⟨false, m⟩

/-- Model of `errors.Wrap`: the wrapper is not a `ResponsibleError`. -/
def errorsWrap (e : Error) (m : String) : Error := ⟨false, m ++ ": " ++ e.msg⟩

/-- Model of `txtime.Unix(seconds, nanos)`: a `txtime.Time` is its number of
nanoseconds since the Unix epoch. -/
def txtimeUnix (seconds nanos : Int) : Int := seconds * 1000000000 + nanos

/-- One element of a contract document (`[]interface{}` after `json.Unmarshal`):
a string, an array (each element a string or not), or anything else. -/
inductive DocVal where
  | str (s : String)
  | arr (xs : List (Option String))
  | other
  deriving DecidableEq, Repr

/-- Value of `contract.Contract` as this chaincode uses it: `GetID` and
`GetExpiryTime`. -/
structure Contract where
  id : String
  expiryTime : Except Error Int
  deriving DecidableEq

/-! ## The key/value tables -/

/-- Rows of one table, most recently written first; a key occurs at most once
in a table built by `kvPut` and `kvDel`. -/
abbrev KV (V : Type) := List (String × V)

/-- Model of `GetState`: the row stored under a key, if any. -/
def kvGet {V : Type} : KV V → String → Option V
  | [], _ => none
  | (k', v) :: rest, k => if k' = k then some v else kvGet rest k

/-- Model of `DelState`. -/
def kvDel {V : Type} : KV V → String → KV V
  | [], _ => []
  | (k', v) :: rest, k => if k' = k then kvDel rest k else (k', v) :: kvDel rest k

/-- Model of `PutState`: the row replaces whatever the key held. -/
def kvPut {V : Type} (m : KV V) (k : String) (v : V) : KV V :=
  (k, v) :: kvDel m k

/-! ## Amount (amount.go) -/

/-- `Amount.MulRat`: `a.Int.Div(a.Int.Mul(&a.Int, r.Num()), r.Denom())`;
`big.Int.Div` is Euclidean division and the denominator of a `big.Rat` is
positive. -/
def Amount.MulRat (a : Int) (r : ℚ) : Int :=
  Int.ediv (a * r.num) (r.den : Int)

/-! ## Strings -/

/-- Model of `strings.Map` for a mapping that drops no rune: the mapping applied
to every rune of the text.  A Go string is a sequence of bytes; a `String` is
the text those bytes encode, with U+FFFD for a byte that is no UTF-8, which is
how `strings.Map` reads such a byte. -/
def stringsMap (mapping : Char → Char) (s : String) : String :=
  String.mk (s.data.map mapping)

/-- Model of `unicode.ToUpper` (a table of the library): the ASCII letters, and
the two runes outside ASCII whose upper case is an ASCII letter, U+017F (long
s, to `S`) and U+0131 (dotless i, to `I`).  The upper case of every other rune
outside ASCII is a rune outside ASCII; the model leaves such a rune as it is. -/
def unicodeToUpper (c : Char) : Char :=
  if c.toNat = 0x17F then 'S' else if c.toNat = 0x131 then 'I' else c.toUpper

/-- Model of `strings.ToUpper`: `strings.Map(unicode.ToUpper, s)`. -/
def toUpper (s : String) : String := stringsMap unicodeToUpper s

/-- Go slice expression `s[i:j]`, by characters. -/
def strSlice (s : String) (i j : Nat) : String := String.mk ((s.data.take j).drop i)

/-- Model of `utf8.RuneLen`: the number of bytes of a rune in UTF-8. -/
def runeLen (c : Char) : Nat :=
  if c.toNat < 0x80 then 1 else if c.toNat < 0x800 then 2 else if c.toNat < 0x10000 then 3 else 4

/-- Go `len(s)` of a string: the number of its bytes. -/
def byteLen (s : String) : Nat := (s.data.map runeLen).sum

/-- The runes of a text that starts at byte offset `off`, cut to the bytes
from offset `i` up to offset `j`: a rune that lies in the range is kept, and
every byte in the range of a rune that the range cuts is read as U+FFFD. -/
def byteSliceFrom (i j : Nat) : Nat → List Char → List Char
  | _, [] => []
  | off, c :: cs =>
    (if i ≤ off ∧ off + runeLen c ≤ j then [c]
     else List.replicate (min (off + runeLen c) j - max off i) (Char.ofNat 0xFFFD))
      ++ byteSliceFrom i j (off + runeLen c) cs

/-- Go slice expression `s[i:j]` on a string, by bytes.  The bytes of a rune
that the slice cuts are no UTF-8; they are read as U+FFFD each, as
`strings.Map` and `range` read them (no hex digit and no `A-Z0-9`
either way). -/
def byteSlice (s : String) (i j : Nat) : String := String.mk (byteSliceFrom i j 0 s.data)

/-! ## Documents (balance.go, fee.go, pay.go, token.go, account.go) -/

/-- The account type bytes (`AccountType` is a byte). -/
def AccountTypeUnknown : Nat := 0
def AccountTypePersonal : Nat := 1
def AccountTypeJoint : Nat := 2

structure Balance where
  DOCTYPEID : String
  Amount : Int
  CreatedTime : Option Int
  UpdatedTime : Option Int
  LastPrunedPayID : String
  deriving DecidableEq, Repr

/-- `Balance.GetID`. -/
def Balance.GetID (b : Balance) : String := b.DOCTYPEID

inductive BalanceLogType where
  | Mint | Burn | Send | Receive | Deposit | Withdraw | Pay | Refund | PrunePay | PruneFee
  deriving DecidableEq, Repr

structure BalanceLog where
  DOCTYPEID : String
  Typ : BalanceLogType
  RID : String
  Diff : Int
  Fee : Option Int
  Amount : Int
  Memo : String
  CreatedTime : Option Int
  PruneStartID : String
  PruneEndID : String
  PayID : String
  deriving DecidableEq, Repr

/-- The constant `MemoMaxLength`. -/
def MemoMaxLength : Nat := 1024

inductive PendingBalanceType where
  | Account | Contract
  deriving DecidableEq, Repr

structure PendingBalance where
  DOCTYPEID : String
  Typ : PendingBalanceType
  Account : String
  RID : String
  Amount : Int
  Fee : Option Int
  Memo : String
  CreatedTime : Option Int
  PendingTime : Option Int
  deriving DecidableEq, Repr

structure Fee where
  DOCTYPEID : String
  FeeID : String
  Account : String
  Amount : Int
  CreatedTime : Option Int
  deriving DecidableEq, Repr

/-- `FeeRate`: `Rate` is the rational that `big.Rat.SetString` reads from the
stored rate string (`ParseFeePolicy` stores only strings it accepts). -/
structure FeeRate where
  Rate : ℚ
  MaxAmount : Int
  deriving DecidableEq, Repr

/-- `FeePolicy`: `Rates` is the Go map, as a list of entries looked up by key. -/
structure FeePolicy where
  TargetAddress : String
  Rates : List (String × FeeRate)
  deriving DecidableEq, Repr

structure FeeSum where
  Sum : Int
  Count : Nat
  Start : String
  End : String
  HasMore : Bool
  deriving DecidableEq, Repr

structure Pay where
  DOCTYPEID : String
  PayID : String
  Amount : Int
  Fee : Int
  TotalRefund : Int
  RID : String
  ParentID : String
  OrderID : String
  Memo : String
  CreatedTime : Option Int
  deriving DecidableEq, Repr

structure PaySum where
  Sum : Int
  Fee : Int
  Count : Nat
  Start : String
  End : String
  HasMore : Bool
  deriving DecidableEq, Repr

structure PayResult where
  Pay : Option Kiesnet.Pay
  BalanceLog : Option Kiesnet.BalanceLog
  deriving DecidableEq, Repr

structure Token where
  DOCTYPEID : String
  Decimal : Int
  MaxSupply : Int
  Supply : Int
  LastPrunedFeeID : String
  GenesisAccount : String
  FeePolicy : Option Kiesnet.FeePolicy
  CreatedTime : Option Int
  UpdatedTime : Option Int
  deriving DecidableEq, Repr

structure Account where
  DOCTYPEID : String
  Token : String
  Typ : Nat
  CreatedTime : Option Int
  UpdatedTime : Option Int
  SuspendedTime : Option Int
  deriving DecidableEq, Repr

/-- `JointAccount`: an `Account` with its holder set (`stringset.Set`, here
a list without repetition). -/
structure JointAccount where
  Account : Kiesnet.Account
  Holders : List String
  deriving DecidableEq, Repr

/-- The dynamic type behind an `AccountInterface` value. -/
inductive AccountDoc where
  | personal (a : Account)
  | joint (a : JointAccount)
  deriving DecidableEq, Repr

structure Holder where
  DOCTYPEID : String
  Address : String
  Token : String
  Typ : Nat
  CreatedTime : Option Int
  deriving DecidableEq, Repr

/-- The world state: one table per document kind. -/
structure State where
  accounts : KV AccountDoc
  holders : KV Holder
  balances : KV Balance
  balanceLogs : KV BalanceLog
  pendingBalances : KV PendingBalance
  tokens : KV Token
  fees : KV Fee
  pays : KV Pay
  deriving DecidableEq, Repr

/-- What a transaction gets from outside the ledger: its id and time, the
invoker resolved by `kid.GetID`, the calling chaincode resolved by
`ccid.GetID`, the hash behind addresses (`sha3.ShakeSum256`), the two
collaborating chaincodes (contract service, token metadata), and the library
decoders the ledger does not implement itself (`json.Unmarshal` of a contract
document and of the token metadata, `big.Rat.SetString`). -/
structure Ctx where
  txID : String
  txTime : Except Error Int
  kid : Except Error String
  ccid : Except Error String
  shake : Nat → List Nat → List Nat
  createContract : List DocVal → Int → List String → Except Error Contract
  invokeKNT : String → List String → Except Error String
  unmarshalDoc : String → Except Error (List DocVal)
  unmarshalMeta : String → Except Error (List (String × String))
  parseRat : String → Option ℚ

/-- Model of `txtime.GetTime`. -/
def GetTime (ctx : Ctx) : Except Error Int := ctx.txTime

/-- An `Identifiable` argument of `NewPendingBalance`: a balance or a contract. -/
inductive Identifiable where
  | balance (b : Balance)
  | contract (c : Contract)

/-- `Identifiable.GetID`. -/
def Identifiable.GetID : Identifiable → String
  | .balance b => b.GetID
  | .contract c => c.id

/-! ## balance.go: logs and pending balances -/

/-- Go zero value of `BalanceLog`. -/
def BalanceLog.zero : BalanceLog :=
  { DOCTYPEID := "", Typ := .Mint, RID := "", Diff := 0, Fee := none, Amount := 0, Memo := "",
    CreatedTime := none, PruneStartID := "", PruneEndID := "", PayID := "" }

/-- The assignment `log.CreatedTime = ts`. -/
def BalanceLog.created (log : BalanceLog) (ts : Int) : BalanceLog :=
  { log with CreatedTime := some ts }

/-- The assignment `pb.CreatedTime = ts`. -/
def PendingBalance.created (pb : PendingBalance) (ts : Int) : PendingBalance :=
  { pb with CreatedTime := some ts }

/-- The escrowed total `applied`: the amount, plus the fee when it is not nil. -/
def appliedAmount (amount : Int) (fee : Option Int) : Int :=
  match fee with
  | some f => amount + f
  | none => amount

def NewBalanceSupplyLog (bal : Balance) (diff : Int) : BalanceLog :=
  if diff < 0 then
    { BalanceLog.zero with DOCTYPEID := bal.DOCTYPEID, Typ := .Burn, Diff := diff, Amount := bal.Amount }
  else
    { BalanceLog.zero with DOCTYPEID := bal.DOCTYPEID, Typ := .Mint, Diff := diff, Amount := bal.Amount }

def NewBalanceTransferLog (sender receiver : Balance) (diff : Int) (fee : Option Int)
    (memo : String) : BalanceLog :=
  if diff < 0 then
    { BalanceLog.zero with DOCTYPEID := sender.DOCTYPEID, Typ := .Send, RID := receiver.DOCTYPEID,
                           Diff := diff, Fee := fee, Amount := sender.Amount, Memo := memo }
  else
    { BalanceLog.zero with DOCTYPEID := receiver.DOCTYPEID, Typ := .Receive, RID := sender.DOCTYPEID,
                           Diff := diff, Amount := receiver.Amount, Memo := memo }

def NewBalanceDepositLog (bal : Balance) (pb : PendingBalance) : BalanceLog :=
  { BalanceLog.zero with DOCTYPEID := bal.DOCTYPEID, Typ := .Deposit, RID := pb.RID,
                         Diff := -pb.Amount, Fee := pb.Fee, Amount := bal.Amount, Memo := pb.Memo }

def NewBalanceWithdrawLog (bal : Balance) (pb : PendingBalance) : BalanceLog :=
  { BalanceLog.zero with DOCTYPEID := bal.DOCTYPEID, Typ := .Withdraw, RID := pb.RID,
                         Diff := appliedAmount pb.Amount pb.Fee, Amount := bal.Amount, Memo := pb.Memo }

def NewBalancePayLog (bal : Balance) (pay : Pay) : BalanceLog :=
  { BalanceLog.zero with DOCTYPEID := bal.DOCTYPEID, Typ := .Pay, RID := pay.DOCTYPEID,
                         Diff := -pay.Amount, Amount := bal.Amount, Memo := pay.Memo, PayID := pay.PayID }

def NewBalanceRefundLog (bal : Balance) (pay : Pay) : BalanceLog :=
  { BalanceLog.zero with DOCTYPEID := bal.DOCTYPEID, Typ := .Refund, RID := pay.DOCTYPEID,
                         Diff := -pay.Amount, Amount := bal.Amount, Memo := pay.Memo }

def NewBalancePrunePayLog (bal : Balance) (amount : Int) (Start End : String) : BalanceLog :=
  { BalanceLog.zero with DOCTYPEID := bal.DOCTYPEID, Typ := .PrunePay, Diff := amount,
                         Amount := bal.Amount, PruneStartID := Start, PruneEndID := End }

def NewBalancePruneFeeLog (bal : Balance) (amount : Int) (Start End : String) : BalanceLog :=
  { BalanceLog.zero with DOCTYPEID := bal.DOCTYPEID, Typ := .PruneFee, Diff := amount,
                         Amount := bal.Amount, PruneStartID := Start, PruneEndID := End }

def NewPendingBalance (id : String) (owner rel : Identifiable) (amount : Int)
    (fee : Option Int) (memo : String) (pTime : Option Int) : PendingBalance :=
  let ptype : PendingBalanceType := match rel with
    | .contract _ => .Contract
    | .balance _ => .Account
  { DOCTYPEID := id, Typ := ptype, Account := owner.GetID, RID := rel.GetID, Amount := amount,
    Fee := fee, Memo := memo, CreatedTime := none, PendingTime := pTime }

/-! ## address.go: the token code of an address string -/

/-- `ParseCode`. -/
def ParseCode (addr : String) : Except Error String :=
  let l := addr.length
  if l < 50 then .error ⟨true, "invalid account address: [length]"⟩
  else .ok (toUpper (strSlice addr 0 (l - 50)))

/-! ## fee_stub.go: recording a fee -/

def FeeStub.CreateKey (id : String) : String := "FEE_" ++ id

def FeeStub.PutFee (st : State) (fee : Fee) : State :=
  { st with fees := kvPut st.fees (FeeStub.CreateKey fee.FeeID) fee }

/-- `FeeStub.CreateFee`: nothing is stored for a zero amount. -/
def FeeStub.CreateFee (ctx : Ctx) (st : State) (addr : String) (amount : Int) :
    Except Error (Option Fee) × State :=
  if amount = 0 then (.ok none, st)
  else
    match GetTime ctx with
    | .error e => (.error (errorsWrap e "failed to get the timestamp"), st)
    | .ok ts =>
      let code := match ParseCode addr with
        | .ok c => c
        | .error _ => ""
      let fee : Fee := { DOCTYPEID := code, FeeID := toString ts ++ ctx.txID, Account := addr,
                         Amount := amount, CreatedTime := some ts }
      (.ok (some fee), FeeStub.PutFee st fee)

/-! ## balance_stub.go -/

def BalanceStub.CreateKey (id : String) : String := "BLC_" ++ id

def BalanceStub.PutBalance (st : State) (balance : Balance) : State :=
  { st with balances := kvPut st.balances (BalanceStub.CreateKey balance.DOCTYPEID) balance }

def BalanceStub.CreateBalance (ctx : Ctx) (st : State) (id : String) :
    Except Error Balance × State :=
  match GetTime ctx with
  | .error e => (.error (errorsWrap e "failed to get the timestamp"), st)
  | .ok ts =>
    let balance : Balance := { DOCTYPEID := id, Amount := 0, CreatedTime := some ts,
                               UpdatedTime := some ts, LastPrunedPayID := "" }
    (.ok balance, BalanceStub.PutBalance st balance)

def BalanceStub.GetBalance (st : State) (id : String) : Except Error Balance :=
  match kvGet st.balances (BalanceStub.CreateKey id) with
  | some balance => .ok balance
  | none => .error (errorsNew "balance is not exists")

def BalanceStub.CreateLogKey (id : String) (seq : Int) : String :=
  "BLOG_" ++ id ++ "_" ++ toString seq

/-- `BalanceStub.PutBalanceLog`; every caller has set `CreatedTime` before. -/
def BalanceStub.PutBalanceLog (st : State) (log : BalanceLog) : State :=
  let key := BalanceStub.CreateLogKey log.DOCTYPEID (log.CreatedTime.getD 0)
  { st with balanceLogs := kvPut st.balanceLogs key log }

def BalanceStub.CreatePendingKey (id : String) : String := "PBLC_" ++ id

def BalanceStub.GetPendingBalance (st : State) (id : String) : Except Error PendingBalance :=
  match kvGet st.pendingBalances (BalanceStub.CreatePendingKey id) with
  | some balance => .ok balance
  | none => .error (errorsNew "the pending balance is not exists")

def BalanceStub.PutPendingBalance (st : State) (balance : PendingBalance) : State :=
  let key := BalanceStub.CreatePendingKey balance.DOCTYPEID
  { st with pendingBalances := kvPut st.pendingBalances key balance }

/-- `DelState(bb.CreatePendingKey(id))`. -/
def BalanceStub.DelPendingBalance (st : State) (id : String) : State :=
  { st with pendingBalances := kvDel st.pendingBalances (BalanceStub.CreatePendingKey id) }

/-- `BalanceStub.Supply` (mint and burn): the result carries the log and the
balance as the call leaves it. -/
def BalanceStub.Supply (ctx : Ctx) (st : State) (bal : Balance) (amount : Int) :
    Except Error (BalanceLog × Balance) × State :=
  match GetTime ctx with
  | .error e => (.error (errorsWrap e "failed to get the timestamp"), st)
  | .ok ts =>
    let bal1 : Balance := { bal with Amount := bal.Amount + amount, UpdatedTime := some ts }
    let st1 := BalanceStub.PutBalance st bal1
    let log : BalanceLog := (NewBalanceSupplyLog bal1 amount).created ts
    (.ok (log, bal1), BalanceStub.PutBalanceLog st1 log)

/-- The test `pendingTime != nil && pendingTime.Cmp(ts) > 0`. -/
def timeLocked (pendingTime : Option Int) (ts : Int) : Bool :=
  match pendingTime with
  | some pt => decide (pt > ts)
  | none => false

/-- `BalanceStub.Transfer`: the result carries the sender's log and the two
balances as the call leaves them (sender, receiver). -/
def BalanceStub.Transfer (ctx : Ctx) (st : State) (sender receiver : Balance)
    (amount fee : Int) (memo : String) (pendingTime : Option Int) :
    Except Error (BalanceLog × Balance × Balance) × State :=
  match GetTime ctx with
  | .error e => (.error (errorsWrap e "failed to get the timestamp"), st)
  | .ok ts =>
    let step : Balance × State :=
      if timeLocked pendingTime ts then
        let pb : PendingBalance :=
          (NewPendingBalance ctx.txID (.balance receiver) (.balance sender) amount none memo
              pendingTime).created ts
        (receiver, BalanceStub.PutPendingBalance st pb)
      else
        let receiver1 : Balance :=
          { receiver with Amount := receiver.Amount + amount, UpdatedTime := some ts }
        let st1 := BalanceStub.PutBalance st receiver1
        let rbl : BalanceLog :=
          (NewBalanceTransferLog sender receiver1 amount none memo).created ts
        (receiver1, BalanceStub.PutBalanceLog st1 rbl)
    let receiver1 := step.1
    let amountNeg : Int := -amount
    let sender1 : Balance :=
      { sender with Amount := sender.Amount + amountNeg + (-fee), UpdatedTime := some ts }
    let st2 := BalanceStub.PutBalance step.2 sender1
    let sbl : BalanceLog :=
      (NewBalanceTransferLog sender1 receiver1 amountNeg (some fee) memo).created ts
    let st3 := BalanceStub.PutBalanceLog st2 sbl
    match FeeStub.CreateFee ctx st3 sender1.GetID fee with
    | (.error e, st4) => (.error e, st4)
    | (.ok _, st4) => (.ok (sbl, sender1, receiver1), st4)

/-- `BalanceStub.TransferPendingBalance`: the result carries the receiver's
balance as the call leaves it. -/
def BalanceStub.TransferPendingBalance (ctx : Ctx) (st : State) (pb : PendingBalance)
    (receiver : Balance) (pendingTime : Option Int) : Except Error Balance × State :=
  match GetTime ctx with
  | .error e => (.error (errorsWrap e "failed to get the timestamp"), st)
  | .ok ts =>
    let sender : Balance := { DOCTYPEID := pb.Account, Amount := 0, CreatedTime := none,
                              UpdatedTime := none, LastPrunedPayID := "" }
    let step : Balance × State :=
      if timeLocked pendingTime ts then
        let pb1 : PendingBalance :=
          (NewPendingBalance ctx.txID (.balance receiver) (.balance sender) pb.Amount none pb.Memo
              pendingTime).created ts
        (receiver, BalanceStub.PutPendingBalance st pb1)
      else
        let receiver1 : Balance :=
          { receiver with Amount := receiver.Amount + pb.Amount, UpdatedTime := some ts }
        let st1 := BalanceStub.PutBalance st receiver1
        let rbl : BalanceLog :=
          (NewBalanceTransferLog sender receiver1 pb.Amount none pb.Memo).created ts
        (receiver1, BalanceStub.PutBalanceLog st1 rbl)
    let feeStep : Except Error Unit × State :=
      match pb.Fee with
      | some f =>
        match FeeStub.CreateFee ctx step.2 pb.Account f with
        | (.error e, st2) => (.error e, st2)
        | (.ok _, st2) => (.ok (), st2)
      | none => (.ok (), step.2)
    match feeStep with
    | (.error e, st2) => (.error e, st2)
    | (.ok _, st2) => (.ok step.1, BalanceStub.DelPendingBalance st2 pb.DOCTYPEID)

/-- `BalanceStub.Deposit`: the result carries the log and the sender's balance
as the call leaves it. -/
def BalanceStub.Deposit (ctx : Ctx) (st : State) (id : String) (sender : Balance)
    (con : Contract) (amount : Int) (fee : Option Int) (memo : String) :
    Except Error (BalanceLog × Balance) × State :=
  match GetTime ctx with
  | .error e => (.error (errorsWrap e "failed to get the timestamp"), st)
  | .ok ts =>
    match con.expiryTime with
    | .error e => (.error (errorsWrap e "failed to get the expiry time"), st)
    | .ok expiryTime =>
      let pb : PendingBalance :=
        (NewPendingBalance id (.balance sender) (.contract con) amount fee memo
            (some expiryTime)).created ts
      let st1 := BalanceStub.PutPendingBalance st pb
      let applied : Int := appliedAmount amount fee
      let sender1 : Balance :=
        { sender with Amount := sender.Amount + (-applied), UpdatedTime := some ts }
      let st2 := BalanceStub.PutBalance st1 sender1
      let log : BalanceLog := (NewBalanceDepositLog sender1 pb).created ts
      (.ok (log, sender1), BalanceStub.PutBalanceLog st2 log)

/-- `BalanceStub.Withdraw`. -/
def BalanceStub.Withdraw (ctx : Ctx) (st : State) (pb : PendingBalance) :
    Except Error BalanceLog × State :=
  match GetTime ctx with
  | .error e => (.error (errorsWrap e "failed to get the timestamp"), st)
  | .ok ts =>
    match BalanceStub.GetBalance st pb.Account with
    | .error e => (.error e, st)
    | .ok bal =>
      let applied : Int := appliedAmount pb.Amount pb.Fee
      let bal1 : Balance := { bal with Amount := bal.Amount + applied, UpdatedTime := some ts }
      let st1 := BalanceStub.PutBalance st bal1
      let log : BalanceLog := (NewBalanceWithdrawLog bal1 pb).created ts
      let st2 := BalanceStub.PutBalanceLog st1 log
      (.ok log, BalanceStub.DelPendingBalance st2 pb.DOCTYPEID)

/-! ## Sample values, used to instantiate the statements below -/

/-- A holder id: 40 hex digits. -/
def sampleKid : String := "00000000000000000000000000000000000000a1"

/-- A transaction context: time 1000, id `tx1`, invoker `sampleKid`, a constant
hash, a contract service that accepts every document. -/
def sampleCtx : Ctx :=
  { txID := "tx1", txTime := .ok 1000, kid := .ok sampleKid, ccid := .ok "kiesnet-contract",
    shake := fun n _ => List.replicate n 0,
    createContract := fun _ _ _ => .ok { id := "c1", expiryTime := .ok 2000 },
    invokeKNT := fun _ _ => .error ⟨false, "no token chaincode"⟩,
    unmarshalDoc := fun _ => .error ⟨false, "no document"⟩,
    unmarshalMeta := fun _ => .error ⟨false, "no metadata"⟩,
    parseRat := fun _ => none }

/-- The store with no rows. -/
def emptyState : State :=
  { accounts := [], holders := [], balances := [], balanceLogs := [], pendingBalances := [],
    tokens := [], fees := [], pays := [] }

/-- A balance of the given amount under the given id. -/
def sampleBalance (id : String) (amount : Int) : Balance :=
  { DOCTYPEID := id, Amount := amount, CreatedTime := some 1, UpdatedTime := some 1,
    LastPrunedPayID := "" }

/-! ## address.go -/

/-- An `Address`: token code, type byte, and the 24 bytes of `Hash` (the
20-byte id followed by the 4-byte checksum).  Bytes are naturals below 256. -/
structure Address where
  Code : String
  Typ : Nat
  Hash : List Nat
  deriving DecidableEq, Repr

/-- The bytes of a Go string (`[]byte(s)`): its UTF-8 encoding. -/
def stringBytes (s : String) : List Nat :=
  s.data.flatMap (fun c => (String.utf8EncodeChar c).map UInt8.toNat)

/-- Upper-case hex digit of a value below 16 (`%X`). -/
def hexDigitUpper (n : Nat) : Char :=
  if n < 10 then Char.ofNat (48 + n) else Char.ofNat (55 + n)

/-- Lower-case hex digit of a value below 16 (`hex.EncodeToString`). -/
def hexDigitLower (n : Nat) : Char :=
  if n < 10 then Char.ofNat (48 + n) else Char.ofNat (87 + n)

/-- Two upper-case hex digits of a byte (`%02X`, and `%X` on each byte of a slice). -/
def hexByteUpper (b : Nat) : List Char := [hexDigitUpper (b / 16), hexDigitUpper (b % 16)]

/-- Model of `fmt.Sprintf("%X", bytes)`. -/
def hexEncodeUpper (bs : List Nat) : List Char := bs.flatMap hexByteUpper

/-- Model of `hex.EncodeToString`. -/
def hexEncodeLower (bs : List Nat) : List Char :=
  bs.flatMap (fun b => [hexDigitLower (b / 16), hexDigitLower (b % 16)])

/-- Model of `fromHexChar` of `encoding/hex`. -/
def fromHexChar (c : Char) : Option Nat :=
  if '0' ≤ c ∧ c ≤ '9' then some (c.toNat - 48)
  else if 'a' ≤ c ∧ c ≤ 'f' then some (c.toNat - 97 + 10)
  else if 'A' ≤ c ∧ c ≤ 'F' then some (c.toNat - 65 + 10)
  else none

/-- Model of `hex.Decode`: pairs of hex digits to bytes; `none` where Go
returns an error (a character that is no hex digit, or an odd length). -/
def hexDecode : List Char → Option (List Nat)
  | [] => some []
  | [_] => none
  | a :: b :: rest =>
    match fromHexChar a, fromHexChar b, hexDecode rest with
    | some x, some y, some r => some ((x * 16 + y) :: r)
    | _, _, _ => none

/-- Model of `hex.DecodeString`, on the characters of the text: a character
outside ASCII stands for bytes that are no hex digits, and the result is
`none` as it is for those bytes. -/
def hexDecodeString (s : String) : Option (List Nat) := hexDecode s.data

/-- A character of the class `[A-Z0-9]`. -/
def isCodeChar (c : Char) : Bool :=
  decide (('A' ≤ c ∧ c ≤ 'Z') ∨ ('0' ≤ c ∧ c ≤ '9'))

/-- The match of `^[A-Z0-9]{3,6}$`. -/
def _validateTokenCode (code : String) : Bool :=
  decide (3 ≤ code.length) && decide (code.length ≤ 6) && code.data.all isCodeChar

/-- `ValidateTokenCode` (token.go) over the table `up` of `unicode.ToUpper`:
the upper-cased code, when it matches. -/
def ValidateTokenCodeWith (up : Char → Char) (code : String) : Except Error String :=
  let code := stringsMap up code
  if !_validateTokenCode code then .error (errorsNew "token code must be 3~6 length alphanum")
  else .ok code

/-- `ValidateTokenCode` (token.go), with the model `unicodeToUpper` of the
table. -/
def ValidateTokenCode (code : String) : Except Error String :=
  ValidateTokenCodeWith unicodeToUpper code

/-- `InvalidAccountAddrError{reason}`. -/
def InvalidAccountAddrError (reason : String) : Error :=
  ⟨true, if reason.length > 0 then "invalid account address: [" ++ reason ++ "]"
         else "invalid account address"⟩

/-- `Address.Checksum`: 4 bytes of SHAKE-256 over code, type byte and hash. -/
def Address.Checksum (H : Nat → List Nat → List Nat) (addr : Address) (hash : List Nat) :
    List Nat :=
  H 4 (stringBytes addr.Code ++ [addr.Typ] ++ hash)

/-- `NewAddress`: the id is the 20 bytes an id of 40 hex digits decodes to, else
20 bytes of SHAKE-256 of the id; the checksum follows. -/
def NewAddress (H : Nat → List Nat → List Nat) (tokenCode : String) (typeCode : Nat)
    (id : String) : Address :=
  let addr : Address := { Code := tokenCode, Typ := typeCode, Hash := [] }
  let idh : List Nat :=
    match hexDecodeString id with
    | some bs => if bs.length ≠ 20 then H 20 (stringBytes id) else bs
    | none => H 20 (stringBytes id)
  { addr with Hash := idh ++ addr.Checksum H idh }

/-- `Address.ID`. -/
def Address.ID (addr : Address) : String := String.mk (hexEncodeLower (addr.Hash.take 20))

/-- `Address.Equal`. -/
def Address.Equal (addr a : Address) : Bool :=
  decide (addr.Code = a.Code) && decide (addr.Typ = a.Typ) && decide (addr.Hash = a.Hash)

/-- `Address.String`: code, two hex digits of the type, upper-case hex of the hash. -/
def Address.String (addr : Address) : String :=
  addr.Code ++ String.mk (hexByteUpper addr.Typ) ++ String.mk (hexEncodeUpper addr.Hash)

/-- `Address.Validate` over the table `up` of `unicode.ToUpper`. -/
def Address.ValidateWith (up : Char → Char) (H : Nat → List Nat → List Nat) (addr : Address) :
    Except Error Unit :=
  match ValidateTokenCodeWith up addr.Code with
  | .error _ => .error (InvalidAccountAddrError "token code")
  | .ok _ =>
    if addr.Typ ≤ AccountTypeUnknown ∨ addr.Typ > AccountTypeJoint then
      .error (InvalidAccountAddrError "account type")
    else
      let checksum := addr.Checksum H (addr.Hash.take 20)
      if checksum <:+ addr.Hash then .ok ()
      else .error (InvalidAccountAddrError "checksum")

/-- `Address.Validate`, with the model `unicodeToUpper` of the table. -/
def Address.Validate (H : Nat → List Nat → List Nat) (addr : Address) : Except Error Unit :=
  addr.ValidateWith unicodeToUpper H

/-- `ParseAddress` over the table `up` of `unicode.ToUpper`: `len` and the
slices count bytes. -/
def ParseAddressWith (up : Char → Char) (H : Nat → List Nat → List Nat) (addr : String) :
    Except Error Address :=
  let addr := stringsMap up addr
  let l := byteLen addr
  if l < 50 then .error (InvalidAccountAddrError "length")
  else
    let i := l - 50
    match hexDecodeString (byteSlice addr i l) with
    | none => .error (InvalidAccountAddrError "hex")
    | some idh =>
      let _addr : Address := { Code := byteSlice addr 0 i, Typ := idh.headD 0, Hash := idh.tail }
      match _addr.ValidateWith up H with
      | .error e => .error e
      | .ok _ => .ok _addr

/-- `ParseAddress`, with the model `unicodeToUpper` of the table. -/
def ParseAddress (H : Nat → List Nat → List Nat) (addr : String) : Except Error Address :=
  ParseAddressWith unicodeToUpper H addr

/-! ## token_stub.go -/

def TokenStub.CreateKey (code : String) : String := "TKN_" ++ code

/-- `NotIssuedTokenError{code}`. -/
def NotIssuedTokenError (code : String) : Error :=
  ⟨true, "the token [" ++ code ++ "] is not issued"⟩

/-- `SupplyError{reason}`. -/
def SupplyError (reason : String) : Error := ⟨true, reason⟩

def TokenStub.GetToken (st : State) (code : String) : Except Error Token :=
  match kvGet st.tokens (TokenStub.CreateKey code) with
  | some token => .ok token
  | none => .error (NotIssuedTokenError code)

def TokenStub.PutToken (st : State) (token : Token) : State :=
  { st with tokens := kvPut st.tokens (TokenStub.CreateKey token.DOCTYPEID) token }

/-- `TokenStub.Burn`: the result carries the token and the balance as the call
leaves them, and the log when something was burnt. -/
def TokenStub.Burn (ctx : Ctx) (st : State) (token : Token) (bal : Balance) (amount : Int) :
    Except Error (Token × Balance × Option BalanceLog) × State :=
  match GetTime ctx with
  | .error e => (.error (errorsWrap e "failed to get the timestamp"), st)
  | .ok ts =>
    if token.Supply = 0 then (.error (SupplyError "no supply"), st)
    else
      let amount1 : Int := if bal.Amount < amount then bal.Amount else amount
      if amount1 ≤ 0 then (.ok (token, bal, none), st)
      else
        let amount2 : Int := -amount1
        match BalanceStub.Supply ctx st bal amount2 with
        | (.error e, st1) => (.error (errorsWrap e "failed to burn"), st1)
        | (.ok (log, bal1), st1) =>
          let token1 : Token :=
            { token with Supply := token.Supply + amount2, UpdatedTime := some ts }
          (.ok (token1, bal1, some log), TokenStub.PutToken st1 token1)

/-- `TokenStub.Mint`: the result carries the token and the balance as the call
leaves them, and the log. -/
def TokenStub.Mint (ctx : Ctx) (st : State) (token : Token) (bal : Balance) (amount : Int) :
    Except Error (Token × Balance × BalanceLog) × State :=
  match GetTime ctx with
  | .error e => (.error (errorsWrap e "failed to get the timestamp"), st)
  | .ok ts =>
    if token.Supply ≥ token.MaxSupply then (.error (SupplyError "max supplied"), st)
    else
      let supply1 : Int := token.Supply + amount
      let step : Int × Int :=
        if token.MaxSupply < supply1 then
          (amount + token.MaxSupply + (-supply1), token.MaxSupply)
        else (amount, supply1)
      let token1 : Token := { token with Supply := step.2, UpdatedTime := some ts }
      let st1 := TokenStub.PutToken st token1
      match BalanceStub.Supply ctx st1 bal step.1 with
      | (.error e, st2) => (.error (errorsWrap e "failed to mint"), st2)
      | (.ok (log, bal1), st2) => (.ok (token1, bal1, log), st2)

/-! ## fee_stub.go: the fee of an operation -/

/-- `FeeStub.CalcFee`. -/
def FeeStub.CalcFee (st : State) (payer : Address) (fn : String) (amount : Int) :
    Except Error Int :=
  match TokenStub.GetToken st payer.Code with
  | .error e => .error e
  | .ok token =>
    match token.FeePolicy with
    | some policy =>
      match policy.Rates.lookup fn with
      | some feeRate =>
        let payerAddr := payer.String
        if token.GenesisAccount ≠ payerAddr ∧ policy.TargetAddress ≠ payerAddr then
          let feeAmount := Amount.MulRat amount feeRate.Rate
          if feeAmount < 0 then .ok 0
          else if feeRate.MaxAmount > 0 ∧ feeAmount > feeRate.MaxAmount then .ok feeRate.MaxAmount
          else .ok feeAmount
        else .ok 0
      | none => .ok 0
    | none => .ok 0

/-- The reference definition of the fee, in the words of the specification:
zero without a policy, without a rate for the operation kind, or for an exempt
payer (the policy's target address or the genesis account); otherwise
`floor(amount × rate)`, replaced by zero when negative and by `maxAmount` when
`maxAmount > 0` is exceeded. -/
def calcFeeReference (token : Token) (payerAddr : String) (fn : String) (amount : Int) :
    Int :=
  match token.FeePolicy with
  | none => 0
  | some policy =>
    match policy.Rates.lookup fn with
    | none => 0
    | some rate =>
      if payerAddr = policy.TargetAddress ∨ payerAddr = token.GenesisAccount then 0
      else
        let q : Int := ⌊(amount : ℚ) * rate.Rate⌋
        if q < 0 then 0
        else if rate.MaxAmount > 0 ∧ q > rate.MaxAmount then rate.MaxAmount
        else q

/-- The hash behind addresses returns as many bytes as it is asked for. -/
def ShakeOK (H : Nat → List Nat → List Nat) : Prop :=
  ∀ n d, (H n d).length = n ∧ ∀ b ∈ H n d, b < 256

/-- The personal address of holder `k1` for token `ABC` under `sampleCtx`. -/
def sampleAddress : Address := NewAddress sampleCtx.shake "ABC" AccountTypePersonal "k1"

/-- The rate 1/10, in lowest terms. -/
def rateTenth : ℚ := { num := 1, den := 10, den_nz := by decide, reduced := by decide }

/-- The rate 1/100, in lowest terms. -/
def rateHundredth : ℚ := { num := 1, den := 100, den_nz := by decide, reduced := by decide }

/-- A token `ABC` with supply 100 of at most 1000, whose policy charges 10%
on transfers (no cap) and 1% on pays (at most 5), to the address of `k1`. -/
def sampleToken : Token :=
  { DOCTYPEID := "ABC", Decimal := 0, MaxSupply := 1000, Supply := 100, LastPrunedFeeID := "",
    GenesisAccount := "ABC02000000000000000000000000000000000000000000000000",
    FeePolicy := some { TargetAddress := "ABC01000000000000000000000000000000000000000000000000",
                        Rates := [("transfer", ⟨rateTenth, 0⟩), ("pay", ⟨rateHundredth, 5⟩)] },
    CreatedTime := some 1, UpdatedTime := some 1 }

/-- The store holding `sampleToken` only. -/
def sampleTokenState : State := TokenStub.PutToken emptyState sampleToken

/-! ## Parsing of numbers and flags (library functions, modelled) -/

/-- The value of a non-empty string of decimal digits. -/
def parseDigits (cs : List Char) : Option Nat :=
  if cs = [] then none
  else cs.foldlM (fun acc c => if c.isDigit then some (acc * 10 + (c.toNat - 48)) else none) 0

/-- Model of `big.Int.SetString(s, 10)`: an optional sign, then digits. -/
def parseInt10 (s : String) : Option Int :=
  match s.data with
  | '-' :: rest => (parseDigits rest).map (fun n => -(n : Int))
  | '+' :: rest => (parseDigits rest).map (fun n => (n : Int))
  | cs => (parseDigits cs).map (fun n => (n : Int))

/-- `NewAmount`: the empty string is zero. -/
def NewAmount (val : String) : Except Error Int :=
  if val.length > 0 then
    match parseInt10 val with
    | some a => .ok a
    | none => .error (errorsNew "invalid amount value: must be integer")
  else .ok 0

/-- Model of `strconv.ParseInt(s, 10, 64)`: the value and whether it parsed;
on a syntax error the value is 0, out of range it is the nearest bound. -/
def strconvParseInt (s : String) : Int × Bool :=
  match parseInt10 s with
  | none => (0, false)
  | some v =>
    if v < -9223372036854775808 then (-9223372036854775808, false)
    else if v > 9223372036854775807 then (9223372036854775807, false)
    else (v, true)

/-- Model of `strconv.ParseBool`. -/
def strconvParseBool (s : String) : Option Bool :=
  if s ∈ ["1", "t", "T", "TRUE", "true", "True"] then some true
  else if s ∈ ["0", "f", "F", "FALSE", "false", "False"] then some false
  else none

/-! ## Responses -/

/-- What a successful response carries. -/
inductive Payload where
  | empty
  | log (l : BalanceLog)
  | payResult (r : PayResult)
  | tokenResult (token : Option Token) (log : Option BalanceLog) (contract : Option Contract)
  | token (t : Token)
  | contract (c : Contract)
  | paySum (s : PaySum)
  | feeSum (s : FeeSum)
  | account (a : AccountDoc) (b : Balance)
  deriving DecidableEq

/-- Outcome of an entry point: `shim.Success`, `shim.Error`, or a run-time
panic (a failed type assertion, an index out of range, a nil dereference). -/
inductive Response where
  | success (p : Payload)
  | error (msg : String)
  | panic
  deriving DecidableEq

/-- `responseError`: the message, followed by the error's own message when the
error is a `ResponsibleError`. -/
def responseError (err : Error) (msg : String) : Response :=
  if err.responsible then
    if msg.length > 0 then .error (msg ++ "|" ++ err.msg) else .error err.msg
  else .error msg

/-! ## String sets (`stringset.Set`) -/

/-- `Set.Add`. -/
def ssAdd (s : List String) (x : String) : List String := if x ∈ s then s else s ++ [x]

/-- `Set.AppendSlice` and `Set.AppendSet`. -/
def ssAppend (s : List String) (xs : List String) : List String := xs.foldl ssAdd s

/-- `stringset.New(xs...)`. -/
def ssNew (xs : List String) : List String := ssAppend [] xs

/-- `Set.Remove`. -/
def ssRemove (s : List String) (x : String) : List String := s.filter (fun y => decide (y ≠ x))

/-! ## account.go, account_stub.go -/

/-- `AccountInterface.GetID`. -/
def AccountDoc.GetID : AccountDoc → String
  | .personal a => a.DOCTYPEID
  | .joint a => a.Account.DOCTYPEID

/-- Model of `strings.ToLower` on ASCII text. -/
def toLower (s : String) : String := String.mk (s.data.map Char.toLower)

/-- `Account.Holder`: the 40 hex digits of the id inside the address string. -/
def Account.Holder (a : Account) : String :=
  let i := a.DOCTYPEID.length - 48
  toLower (strSlice a.DOCTYPEID i (i + 40))

/-- `HasHolder` of `Account` and of `JointAccount`. -/
def AccountDoc.HasHolder (a : AccountDoc) (kid : String) : Bool :=
  match a with
  | .personal a => decide (a.Holder = kid)
  | .joint a => decide (kid ∈ a.Holders)

/-- `IsSuspended`. -/
def AccountDoc.IsSuspended : AccountDoc → Bool
  | .personal a => a.SuspendedTime.isSome
  | .joint a => a.Account.SuspendedTime.isSome

def AccountStub.CreateKey (id : String) : String := "ACC_" ++ id

/-- `NotExistedAccountError{addr}`. -/
def NotExistedAccountError (addr : String) : Error :=
  ⟨true, if addr.length > 0 then "the account [" ++ addr ++ "] doest not exist"
         else "the account does not exist"⟩

def AccountStub.GetAccountState (st : State) (addr : String) : Except Error AccountDoc :=
  match kvGet st.accounts (AccountStub.CreateKey addr) with
  | some data => .ok data
  | none => .error (NotExistedAccountError addr)

/-- `AccountStub.GetAccount`: the stored document read as the kind the address
type asks for. -/
def AccountStub.GetAccount (st : State) (addr : Address) : Except Error AccountDoc :=
  match AccountStub.GetAccountState st addr.String with
  | .error e => .error e
  | .ok data =>
    if addr.Typ = AccountTypePersonal then
      match data with
      | .personal a => .ok (.personal a)
      | .joint a => .ok (.personal a.Account)
    else if addr.Typ = AccountTypeJoint then
      match data with
      | .joint a => .ok (.joint a)
      | .personal a => .ok (.joint { Account := a, Holders := [] })
    else .error (InvalidAccountAddrError "")

/-- `AccountStub.GetSignableIDs`. -/
def AccountStub.GetSignableIDs (H : Nat → List Nat → List Nat) (st : State) (token : String)
    (addr : String) : Except Error (List String) :=
  match ParseAddress H addr with
  | .error e => .error (errorsWrap e ("failed to parse the account address: [" ++ addr ++ "]"))
  | .ok _addr =>
    if _addr.Code ≠ token then .error (errorsNew ("mismatched token account: [" ++ addr ++ "]"))
    else
      match AccountStub.GetAccount st _addr with
      | .error e => .error (errorsWrap e ("failed to get the account: [" ++ addr ++ "]"))
      | .ok (.personal pac) => .ok [pac.Holder]
      | .ok (.joint jac) => .ok jac.Holders

def AccountStub.PutAccount (st : State) (account : AccountDoc) : State :=
  { st with accounts := kvPut st.accounts (AccountStub.CreateKey account.GetID) account }

def AccountStub.CreateHolderKey (id addr : String) : String := "HLD_" ++ id ++ "_" ++ addr

def AccountStub.PutHolder (st : State) (holder : Holder) : State :=
  let key := AccountStub.CreateHolderKey holder.DOCTYPEID holder.Address
  { st with holders := kvPut st.holders key holder }

/-- `NewHolder`, with the creation time its callers set. -/
def NewHolder (kid : String) (account : Account) (ts : Int) : Holder :=
  { DOCTYPEID := kid, Address := account.DOCTYPEID, Token := account.Token, Typ := account.Typ,
    CreatedTime := some ts }

/-- `AccountStub.CreateJointAccount`: the address comes from the transaction id. -/
def AccountStub.CreateJointAccount (ctx : Ctx) (st : State) (token : String)
    (holders : List String) : Except Error (JointAccount × Balance) × State :=
  match GetTime ctx with
  | .error e => (.error (errorsWrap e "failed to get the timestamp"), st)
  | .ok ts =>
    let addr := NewAddress ctx.shake token AccountTypeJoint ctx.txID
    match AccountStub.GetAccount st addr with
    | .ok _ => (.error (errorsNew "failed to create a random address"), st)
    | .error e =>
      if e ≠ NotExistedAccountError addr.String then
        (.error (errorsWrap e "failed to get an existed account"), st)
      else
        let account : JointAccount :=
          { Account := { DOCTYPEID := addr.String, Token := token, Typ := AccountTypeJoint,
                         CreatedTime := some ts, UpdatedTime := some ts, SuspendedTime := none },
            Holders := holders }
        let st1 := AccountStub.PutAccount st (.joint account)
        match BalanceStub.CreateBalance ctx st1 account.Account.DOCTYPEID with
        | (.error e, st2) => (.error (errorsWrap e "failed to create an account balance"), st2)
        | (.ok balance, st2) =>
          let st3 := holders.foldl
            (fun s kid => AccountStub.PutHolder s (NewHolder kid account.Account ts)) st2
          (.ok (account, balance), st3)

/-- `AccountStub.AddHolder`. -/
def AccountStub.AddHolder (ctx : Ctx) (st : State) (account : JointAccount) (kid : String) :
    Except Error JointAccount × State :=
  if kid ∈ account.Holders then (.error (errorsNew "already existed holder"), st)
  else
    match GetTime ctx with
    | .error e => (.error (errorsWrap e "failed to get the timestamp"), st)
    | .ok ts =>
      let account1 : JointAccount :=
        { Account := { account.Account with UpdatedTime := some ts },
          Holders := ssAdd account.Holders kid }
      let st1 := AccountStub.PutAccount st (.joint account1)
      (.ok account1, AccountStub.PutHolder st1 (NewHolder kid account1.Account ts))

/-- `AccountStub.RemoveHolder`. -/
def AccountStub.RemoveHolder (ctx : Ctx) (st : State) (account : JointAccount) (kid : String) :
    Except Error JointAccount × State :=
  if kid ∉ account.Holders then (.error (errorsNew "not existed holder"), st)
  else
    match GetTime ctx with
    | .error e => (.error (errorsWrap e "failed to get the timestamp"), st)
    | .ok ts =>
      let account1 : JointAccount :=
        { Account := { account.Account with UpdatedTime := some ts },
          Holders := ssRemove account.Holders kid }
      let st1 := AccountStub.PutAccount st (.joint account1)
      let key := AccountStub.CreateHolderKey kid account1.Account.DOCTYPEID
      (.ok account1, { st1 with holders := kvDel st1.holders key })

/-! ## pay.go, pay_stub.go -/

/-- The constant `PaysPruneSize`. -/
def PaysPruneSize : Nat := 900

/-- The constant `FeePruneSize`. -/
def FeePruneSize : Nat := 900

def PayStub.CreateKey (id : String) : String := if id = "" then "" else "PAY_" ++ id

/-- `NotExistedPayError{id}`. -/
def NotExistedPayError (id : String) : Error :=
  ⟨true, if id.length > 0 then "the pay id [" ++ id ++ "] does not exist"
         else "the pay does not exist"⟩

def PayStub.GetPay (st : State) (id : String) : Except Error Pay :=
  match kvGet st.pays (PayStub.CreateKey id) with
  | some pay => .ok pay
  | none => .error (NotExistedPayError id)

def PayStub.PutPay (st : State) (pay : Pay) : State :=
  { st with pays := kvPut st.pays (PayStub.CreateKey pay.PayID) pay }

def PayStub.PutParentPay (st : State) (key : String) (pay : Pay) : State :=
  { st with pays := kvPut st.pays key pay }

def NewPay (id payid : String) (amount fee : Int) (rid pid orderID memo : String)
    (ts : Int) : Pay :=
  { DOCTYPEID := id, PayID := payid, Amount := amount, Fee := fee, TotalRefund := 0, RID := rid,
    ParentID := pid, OrderID := orderID, Memo := memo, CreatedTime := some ts }

/-- `PayStub.Pay`: the result carries the pay result and the sender's balance
as the call leaves it. -/
def PayStub.Pay (ctx : Ctx) (st : State) (sender : Balance) (receiver : String)
    (amount fee : Int) (orderID memo : String) : Except Error (PayResult × Balance) × State :=
  match GetTime ctx with
  | .error e => (.error (errorsWrap e "failed to get the timestamp"), st)
  | .ok ts =>
    let payid := toString ts ++ ctx.txID
    let pay := NewPay receiver payid amount fee sender.GetID "" orderID memo ts
    let st1 := PayStub.PutPay st pay
    let amountNeg : Int := -amount
    let sender1 : Balance :=
      { sender with Amount := sender.Amount + amountNeg, UpdatedTime := some ts }
    let st2 := BalanceStub.PutBalance st1 sender1
    let sbl : BalanceLog := (NewBalancePayLog sender1 pay).created ts
    let st3 := BalanceStub.PutBalanceLog st2 sbl
    (.ok ({ Pay := some pay, BalanceLog := some sbl }, sender1), st3)

/-- `PayStub.Refund`: the result carries the log, the receiver's balance and
the parent pay as the call leaves them. -/
def PayStub.Refund (ctx : Ctx) (st : State) (sender receiver : Balance) (amount fee : Int)
    (memo : String) (parentPay : Kiesnet.Pay) :
    Except Error (BalanceLog × Balance × Kiesnet.Pay) × State :=
  match GetTime ctx with
  | .error e => (.error (errorsWrap e "failed to get the timestamp"), st)
  | .ok ts =>
    let payid := toString ts ++ ctx.txID
    let pay := NewPay sender.GetID payid (-amount) (-fee) receiver.GetID parentPay.PayID "" memo ts
    let st1 := PayStub.PutPay st pay
    let parentPay1 : Kiesnet.Pay := { parentPay with TotalRefund := parentPay.TotalRefund + amount }
    let st2 := PayStub.PutParentPay st1 (PayStub.CreateKey parentPay1.PayID) parentPay1
    let receiver1 : Balance :=
      { receiver with Amount := receiver.Amount + amount, UpdatedTime := some ts }
    let st3 := BalanceStub.PutBalance st2 receiver1
    let rbl : BalanceLog := (NewBalanceRefundLog receiver1 pay).created ts
    let st4 := BalanceStub.PutBalanceLog st3 rbl
    (.ok (rbl, receiver1, parentPay1), st4)

/-- Whether a creation time lies in the half-open range `(stime, etime]`. -/
def inPruneRange (created : Option Int) (stime etime : Int) : Bool :=
  match created with
  | some t => decide (stime < t) && decide (t ≤ etime)
  | none => false

/-- Modelled from the query text `QueryPrunePays` (the store executes it): the
pay rows of one account created in `(stime, etime]`, oldest first. -/
def queryPrunePays (st : State) (id : String) (stime etime : Int) : List Pay :=
  ((st.pays.reverse.map Prod.snd).filter
    (fun p => decide (p.DOCTYPEID = id) && inPruneRange p.CreatedTime stime etime)).insertionSort
    (fun a b => a.CreatedTime.getD 0 ≤ b.CreatedTime.getD 0)

/-- The loop of `GetPaySumByTime` over the rows still to read, with the
counter and the sums so far. -/
def paySumLoop : List Pay → Nat → PaySum → PaySum
  | [], cnt, cs => { cs with Count := cnt }
  | c :: rest, cnt, cs =>
    let cnt1 := cnt + 1
    let cs1 : PaySum := if cnt1 = 1 then { cs with Start := c.PayID } else cs
    if cnt1 > PaysPruneSize then { cs1 with HasMore := true, Count := cnt1 - 1 }
    else paySumLoop rest cnt1
      { cs1 with Sum := cs1.Sum + c.Amount, Fee := cs1.Fee + c.Fee, End := c.PayID }

/-- `PayStub.GetPaySumByTime`. -/
def PayStub.GetPaySumByTime (st : State) (id : String) (stime etime : Int) : PaySum :=
  paySumLoop (queryPrunePays st id stime etime) 0
    { Sum := 0, Fee := 0, Count := 0, Start := "", End := "", HasMore := false }

/-- `PayStub.PayPendingBalance`; `memo` and `orderID` in the order of the
source's parameter list. -/
def PayStub.PayPendingBalance (ctx : Ctx) (st : State) (pbalance : PendingBalance)
    (fee : Int) (merchant memo orderID : String) : Except Error Unit × State :=
  match GetTime ctx with
  | .error e => (.error e, st)
  | .ok ts =>
    let payid := toString ts ++ ctx.txID
    let pay := NewPay merchant payid pbalance.Amount fee pbalance.Account "" orderID memo ts
    let st1 := PayStub.PutPay st pay
    (.ok (), BalanceStub.DelPendingBalance st1 pbalance.DOCTYPEID)

/-! ## fee_stub.go: the sum of the fees to prune -/

/-- A condition that a query selector puts on one field of a fee row: the
field equals a text, or is a time after (`$gt`) or not after (`$lte`) a bound. -/
inductive FeeCond where
  | eq (v : String)
  | gt (t : Int)
  | lte (t : Int)
  deriving DecidableEq, Repr

/-- The selector object of the query text `QueryPruneFee` (queries.go) as
`CreateQueryPruneFee` fills it in, entry by entry in the order of the text.
The text writes the key `created_time` twice in the one object, first with the
`$gt` bound and then with the `$lte` bound (`QueryPrunePays` puts its two
bounds under `$and`). -/
def QueryPruneFee (tokenCode : String) (stime etime : Int) : List (String × FeeCond) :=
  [("@fee", .eq tokenCode), ("created_time", .gt stime), ("created_time", .lte etime)]

/-- Decoding of a JSON object: every key holds one value, and of a key that
the text writes more than once the value written last stays. -/
def jsonObject {V : Type} (entries : List (String × V)) : KV V :=
  entries.foldl (fun m e => kvPut m e.1 e.2) []

/-- Whether a fee row satisfies one entry of a decoded selector; a row without
a creation time satisfies no bound on it. -/
def feeFieldHolds (f : Fee) (e : String × FeeCond) : Bool :=
  if e.1 = "@fee" then
    match e.2 with
    | .eq v => decide (f.DOCTYPEID = v)
    | _ => false
  else if e.1 = "created_time" then
    match f.CreatedTime, e.2 with
    | some c, .gt t => decide (t < c)
    | some c, .lte t => decide (c ≤ t)
    | _, _ => false
  else false

/-- Modelled from the query text `QueryPruneFee` (the store executes it): the
fee rows that satisfy every entry of the decoded selector, oldest first.  Of
the two entries under `created_time` the decoded selector holds the second, so
the rows are those of the token created up to `etime`; the bound `stime` is
not applied. -/
def queryPruneFee (st : State) (tokenCode : String) (stime etime : Int) : List Fee :=
  ((st.fees.reverse.map Prod.snd).filter
    (fun f => (jsonObject (QueryPruneFee tokenCode stime etime)).all
      (feeFieldHolds f))).insertionSort
    (fun a b => a.CreatedTime.getD 0 ≤ b.CreatedTime.getD 0)

/-- The loop of `GetFeeSumByTime` over the rows still to read. -/
def feeSumLoop : List Fee → Nat → FeeSum → FeeSum
  | [], cnt, fs => { fs with Count := cnt }
  | fee :: rest, cnt, fs =>
    let cnt1 := cnt + 1
    let fs1 : FeeSum := if cnt1 = 1 then { fs with Start := fee.FeeID } else fs
    if cnt1 > FeePruneSize then { fs1 with HasMore := true, Count := cnt1 - 1 }
    else feeSumLoop rest cnt1 { fs1 with Sum := fs1.Sum + fee.Amount, End := fee.FeeID }

/-- `FeeStub.GetFeeSumByTime`. -/
def FeeStub.GetFeeSumByTime (st : State) (tokenCode : String) (stime etime : Int) : FeeSum :=
  feeSumLoop (queryPruneFee st tokenCode stime etime) 0
    { Sum := 0, Count := 0, Start := "", End := "", HasMore := false }

/-! ## fee.go: the fee policy text -/

/-- `isValidFn`. -/
def isValidFn (fn : String) : Bool := decide (fn = "transfer") || decide (fn = "pay")

/-- The assignment `rates[k] = v` on the Go map. -/
def ratesSet (rates : List (String × FeeRate)) (k : String) (v : FeeRate) :
    List (String × FeeRate) :=
  (k, v) :: rates.filter (fun p => decide (p.1 ≠ k))

/-- The loop of `ParseFeePolicy` over the `;`-separated entries. -/
def parseFeeEntries (parseRat : String → Option ℚ) :
    List String → List (String × FeeRate) → Except Error (List (String × FeeRate))
  | [], rates => .ok rates
  | f :: rest, rates =>
    match f.splitOn "=" with
    | k :: v :: _ =>
      if !isValidFn k then .error (errorsNew "invalid fee rate type")
      else
        let rm := v.splitOn ","
        match parseRat (rm.headD "") with
        | none => .error (errorsNew "failed to parse rate")
        | some rate =>
          match rm with
          | _ :: m :: _ =>
            let r := strconvParseInt m
            if !r.2 then .error (errorsNew "failed to parse max fee amount")
            else parseFeeEntries parseRat rest (ratesSet rates k ⟨rate, r.1⟩)
          | _ => parseFeeEntries parseRat rest (ratesSet rates k ⟨rate, 0⟩)
    | _ => parseFeeEntries parseRat rest rates

/-- `ParseFeePolicy`. -/
def ParseFeePolicy (parseRat : String → Option ℚ) (s : String) : Except Error FeePolicy :=
  match parseFeeEntries parseRat (s.splitOn ";") [] with
  | .error e => .error e
  | .ok rates => .ok { TargetAddress := "", Rates := rates }

/-! ## token_stub.go, token_tx.go: creation -/

/-- `TokenStub.CreateToken`. -/
def TokenStub.CreateToken (ctx : Ctx) (st : State) (code : String) (decimal : Int)
    (maxSupply supply : Int) (feePolicy : Option FeePolicy) (holders : List String) :
    Except Error Token × State :=
  match AccountStub.CreateJointAccount ctx st code holders with
  | (.error e, st1) => (.error (errorsWrap e "failed to create the genesis account"), st1)
  | (.ok (account, balance), st1) =>
    let target : Except Error (Option FeePolicy) :=
      match feePolicy with
      | some policy =>
        if policy.TargetAddress.length > 0 then
          match AccountStub.GetAccountState st1 policy.TargetAddress with
          | .error e => .error e
          | .ok _ => .ok (some policy)
        else .ok (some { policy with TargetAddress := account.Account.DOCTYPEID })
      | none => .ok none
    match target with
    | .error e => (.error e, st1)
    | .ok feePolicy1 =>
      let minted : Except Error Unit × State :=
        if supply > 0 then
          match BalanceStub.Supply ctx st1 balance supply with
          | (.error e, st2) => (.error (errorsWrap e "failed to mint initial supply"), st2)
          | (.ok _, st2) => (.ok (), st2)
        else (.ok (), st1)
      match minted with
      | (.error e, st2) => (.error e, st2)
      | (.ok _, st2) =>
        match GetTime ctx with
        | .error e => (.error (errorsWrap e "failed to get the timestamp"), st2)
        | .ok ts =>
          let token : Token :=
            { DOCTYPEID := code, Decimal := decimal, MaxSupply := maxSupply, Supply := supply,
              LastPrunedFeeID := "", GenesisAccount := account.Account.DOCTYPEID,
              FeePolicy := feePolicy1, CreatedTime := some ts, UpdatedTime := some ts }
          (.ok token, TokenStub.PutToken st2 token)

/-- The lookup `metaMap[key]` on a Go `map[string]string`. -/
def metaGet (m : List (String × String)) (key : String) : String := (m.lookup key).getD ""

/-- `getValidatedTokenMeta`. -/
def getValidatedTokenMeta (ctx : Ctx) (code : String) :
    Except Error (Int × Int × Int × Option FeePolicy) :=
  match ctx.invokeKNT code ["token"] with
  | .error e => .error (errorsWrap e "failed to get the token meta")
  | .ok doc =>
    match ctx.unmarshalMeta doc with
    | .error e => .error (errorsWrap e "failed to unmarshal the token meta")
    | .ok metaMap =>
      let decimal := strconvParseInt (metaGet metaMap "decimal")
      if !decimal.2 ∨ decimal.1 < 0 ∨ decimal.1 > 18 then
        .error (errorsNew "decimal must be integer between 0 and 18")
      else
        match NewAmount (metaGet metaMap "max_supply") with
        | .error _ => .error (errorsNew "max supply must be positive integer")
        | .ok maxSupply =>
          if maxSupply < 0 then .error (errorsNew "max supply must be positive integer")
          else
            let bad := errorsNew
              "initial supply must be positive integer and less(or equal) than max supply"
            match NewAmount (metaGet metaMap "initial_supply") with
            | .error _ => .error bad
            | .ok supply =>
              if supply < 0 ∨ supply > maxSupply then .error bad
              else
                let fee := metaGet metaMap "fee"
                if fee.length > 0 then
                  match ParseFeePolicy ctx.parseRat fee with
                  | .error e => .error e
                  | .ok policy =>
                    .ok (decimal.1, maxSupply, supply,
                      some { policy with TargetAddress := metaGet metaMap "target_address" })
                else .ok (decimal.1, maxSupply, supply, none)

/-! ## transfer_tx.go -/

/-- Go index `params[i]`, which the length checks around it keep in range. -/
def param (params : List String) (i : Nat) : String := params.getD i ""

/-- A memo cut to `MemoMaxLength` bytes (`memo[:MemoMaxLength]` when `len(memo)`
is above the limit). -/
def truncMemo (memo : String) : String :=
  if byteLen memo > MemoMaxLength then byteSlice memo 0 MemoMaxLength else memo

/-- The sender's address of `transfer` and `pay`: `params[0]` when it is given
(it must be of the receiver's token), else the invoker's personal address.
The error is the parse error, or `none` for an address of another token. -/
def senderAddress (ctx : Ctx) (params : List String) (rAddr : Address) (kid : String) :
    Except (Option Error) Address :=
  if (param params 0).length > 0 then
    match ParseAddress ctx.shake (param params 0) with
    | .error e => .error (some e)
    | .ok sAddr =>
      if rAddr.Code ≠ sAddr.Code then .error none
      else .ok sAddr
  else .ok (NewAddress ctx.shake rAddr.Code AccountTypePersonal kid)

/-- The holders behind the extra signer addresses, added to the signers (the
loop over `addrs.Map()` of `transfer`). -/
def appendSignableIDs (ctx : Ctx) (st : State) (token : String) :
    List String → List String → Except Error (List String)
  | [], signers => .ok signers
  | addr :: rest, signers =>
    match AccountStub.GetSignableIDs ctx.shake st token addr with
    | .error e => .error e
    | .ok kids => appendSignableIDs ctx st token rest (ssAppend signers kids)

/-- The options of `transfer` (`params[3:]`): memo, pending time, expiry and
the signers; an error is the message of the response. -/
def transferOptions (ctx : Ctx) (st : State) (token : String) (params : List String)
    (signers : List String) : Except String (String × Option Int × Int × List String) :=
  if params.length > 3 then
    let memo := truncMemo (param params 3)
    if params.length > 4 then
      let seconds := strconvParseInt (param params 4)
      if !seconds.2 then .error "invalid pending time: need seconds since 1970"
      else
        match ctx.txTime with
        | .error _ => .error "failed to get the timestamp"
        | .ok ts =>
          let pendingTime : Option Int :=
            if Int.ediv ts 1000000000 < seconds.1 then some (txtimeUnix seconds.1 0) else none
          if params.length > 5 ∧ (param params 5).length > 0 then
            let expiry := strconvParseInt (param params 5)
            if !expiry.2 then .error "invalid expiry: need seconds"
            else if params.length > 6 then
              match appendSignableIDs ctx st token (ssNew (params.drop 6)) signers with
              | .error e => .error e.msg
              | .ok signers1 => .ok (memo, pendingTime, expiry.1, signers1)
            else .ok (memo, pendingTime, expiry.1, signers)
          else .ok (memo, pendingTime, 0, signers)
    else .ok (memo, none, 0, signers)
  else .ok ("", none, 0, signers)

/-- The signers an operation starts from: the invoker, and the holders of a
joint sender. -/
def initialSigners (kid : String) (sender : AccountDoc) : List String :=
  match sender with
  | .joint a => ssAppend (ssNew [kid]) a.Holders
  | .personal _ => ssNew [kid]

/-- `transfer`. -/
def transfer (ctx : Ctx) (st : State) (params : List String) : Response × State :=
  if params.length < 3 then (.error "incorrect number of parameters. expecting 3+", st)
  else
    match ctx.kid with
    | .error e => (.error e.msg, st)
    | .ok kid =>
    match NewAmount (param params 2) with
    | .error e => (.error e.msg, st)
    | .ok amount =>
    if amount ≤ 0 then (.error "invalid amount. must be greater than 0", st)
    else
    match ParseAddress ctx.shake (param params 1) with
    | .error _ => (.error "failed to parse the receiver's account address", st)
    | .ok rAddr =>
    match senderAddress ctx params rAddr kid with
    | .error none => (.error "different token accounts", st)
    | .error (some _) => (.error "failed to parse the sender's account address", st)
    | .ok sAddr =>
    if sAddr.Equal rAddr then (.error "can't transfer to self", st)
    else
    match AccountStub.GetAccount st sAddr with
    | .error _ => (.error "failed to get the sender account", st)
    | .ok sender =>
    if !sender.HasHolder kid then (.error "invoker is not holder", st)
    else if sender.IsSuspended then (.error "the sender account is suspended", st)
    else
    match AccountStub.GetAccount st rAddr with
    | .error _ => (.error "failed to get the receiver account", st)
    | .ok receiver =>
    if receiver.IsSuspended then (.error "the receiver account is suspended", st)
    else
    match BalanceStub.GetBalance st sender.GetID with
    | .error _ => (.error "failed to get the sender's balance", st)
    | .ok sBal =>
    match FeeStub.CalcFee st sAddr "transfer" amount with
    | .error _ => (.error "failed to get the fee amount", st)
    | .ok fee =>
    let applied : Int := amount + fee
    if sBal.Amount < applied then (.error "not enough balance", st)
    else
    match BalanceStub.GetBalance st receiver.GetID with
    | .error _ => (.error "failed to get the receiver's balance", st)
    | .ok rBal =>
    match transferOptions ctx st rAddr.Code params (initialSigners kid sender) with
    | .error msg => (.error msg, st)
    | .ok (memo, pendingTime, expiry, signers) =>
    if signers.length > 1 then
      if signers.length > 128 then (.error "too many signers", st)
      else
        let pbID := ctx.txID
        let ptStr := if pendingTime.isSome then param params 4 else "0"
        let doc : List DocVal :=
          [.str "transfer", .str pbID, .str sender.GetID, .str receiver.GetID,
           .str (toString amount), .str (toString fee), .str memo, .str ptStr]
        match ctx.createContract doc expiry signers with
        | .error e => (.error e.msg, st)
        | .ok con =>
          match BalanceStub.Deposit ctx st pbID sBal con amount (some fee) memo with
          | (.error _, st1) => (.error "failed to create the pending balance", st1)
          | (.ok (log, _), st1) => (.success (.log log), st1)
    else
      match BalanceStub.Transfer ctx st sBal rBal amount fee memo pendingTime with
      | (.error _, st1) => (.error "failed to transfer", st1)
      | (.ok (log, _, _), st1) => (.success (.log log), st1)

/-- The type assertion `doc[i].(string)`. -/
def docString (doc : List DocVal) (i : Nat) : Option String :=
  match doc.get? i with
  | some (.str s) => some s
  | _ => none

/-- `cancelTransfer`. -/
def cancelTransfer (ctx : Ctx) (st : State) (cid : String) (doc : List DocVal) :
    Response × State :=
  if doc.length < 2 then (.error "invalid contract document", st)
  else
    match docString doc 1 with
    | none => (.panic, st)
    | some id =>
    match BalanceStub.GetPendingBalance st id with
    | .error _ => (.error "failed to get the pending balance", st)
    | .ok pb =>
    if pb.Typ ≠ PendingBalanceType.Contract ∨ pb.RID ≠ cid then
      (.error "invalid pending balance", st)
    else
      match BalanceStub.Withdraw ctx st pb with
      | (.error _, st1) => (.error "failed to withdraw", st1)
      | (.ok _, st1) => (.success .empty, st1)

/-- `executeTransfer`. -/
def executeTransfer (ctx : Ctx) (st : State) (cid : String) (doc : List DocVal) :
    Response × State :=
  if doc.length < 8 then (.error "invalid contract document", st)
  else
    match docString doc 1 with
    | none => (.panic, st)
    | some id =>
    match BalanceStub.GetPendingBalance st id with
    | .error _ => (.error "failed to get the pending balance", st)
    | .ok pb =>
    if pb.Typ ≠ PendingBalanceType.Contract ∨ pb.RID ≠ cid then
      (.error "invalid pending balance", st)
    else
    match docString doc 3 with
    | none => (.panic, st)
    | some rid =>
    match BalanceStub.GetBalance st rid with
    | .error _ => (.error "failed to get the receiver's balance", st)
    | .ok rBal =>
    match docString doc 7 with
    | none => (.panic, st)
    | some ptStr =>
    let pending : Except String (Option Int) :=
      if ptStr ≠ "" ∧ ptStr ≠ "0" then
        let seconds := strconvParseInt ptStr
        if !seconds.2 then .error "invalid pending time"
        else .ok (some (txtimeUnix seconds.1 0))
      else .ok none
    match pending with
    | .error msg => (.error msg, st)
    | .ok pendingTime =>
      match BalanceStub.TransferPendingBalance ctx st pb rBal pendingTime with
      | (.error _, st1) => (.error "failed to transfer a pending balance", st1)
      | (.ok _, st1) => (.success .empty, st1)

/-! ## pay_tx.go -/

/-- The options of `pay` (`params[3:]`): order id, memo and expiry.  A bad
expiry is not rejected: the response built for it is dropped, and the value
`strconv.ParseInt` returned with its error is used. -/
def payOptions (params : List String) : String × String × Int :=
  if params.length > 3 then
    let orderID := param params 3
    if params.length > 4 then
      let memo := truncMemo (param params 4)
      if params.length > 5 ∧ (param params 5).length > 0 then
        (orderID, memo, (strconvParseInt (param params 5)).1)
      else (orderID, memo, 0)
    else (orderID, "", 0)
  else ("", "", 0)

/-- `pay`. -/
def pay (ctx : Ctx) (st : State) (params : List String) : Response × State :=
  if params.length < 3 then (.error "incorrect number of parameters. expecting 3+", st)
  else
    match ctx.kid with
    | .error e => (.error e.msg, st)
    | .ok kid =>
    match ParseAddress ctx.shake (param params 1) with
    | .error e => (responseError e "failed to parse the receiver's account address", st)
    | .ok rAddr =>
    match senderAddress ctx params rAddr kid with
    | .error none => (.error "different token accounts", st)
    | .error (some e) => (responseError e "failed to parse the sender's account address", st)
    | .ok sAddr =>
    if sAddr.Equal rAddr then (.error "can't pay to self", st)
    else
    match NewAmount (param params 2) with
    | .error e => (.error e.msg, st)
    | .ok amount =>
    if amount < 1 then (.error "invalid amount. must be greater than 0", st)
    else
    match AccountStub.GetAccount st sAddr with
    | .error e => (responseError e "failed to get the sender account", st)
    | .ok sender =>
    if !sender.HasHolder kid then (.error "invoker is not holder", st)
    else if sender.IsSuspended then (.error "the sender account is suspended", st)
    else
    match AccountStub.GetAccount st rAddr with
    | .error e => (responseError e "failed to get the receiver account", st)
    | .ok receiver =>
    if receiver.IsSuspended then (.error "the receiver account is suspended", st)
    else
    match BalanceStub.GetBalance st sender.GetID with
    | .error e => (responseError e "failed to get the sender's balance", st)
    | .ok sBal =>
    if sBal.Amount < amount then (.error "not enough balance", st)
    else
    let opts := payOptions params
    let orderID := opts.1
    let memo := opts.2.1
    let expiry := opts.2.2
    let signers := initialSigners kid sender
    if signers.length > 1 then
      if signers.length > 128 then (.error "too many signers", st)
      else
        let pbID := ctx.txID
        let doc : List DocVal :=
          [.str "pay", .str pbID, .str sender.GetID, .str receiver.GetID,
           .str (toString amount), .str orderID, .str memo]
        match ctx.createContract doc expiry signers with
        | .error e => (responseError e "failed to create a contract", st)
        | .ok con =>
          match BalanceStub.Deposit ctx st pbID sBal con amount none memo with
          | (.error e, st1) => (responseError e "failed to create the pending balance", st1)
          | (.ok (log, _), st1) =>
            (.success (.payResult { Pay := none, BalanceLog := some log }), st1)
    else
      match FeeStub.CalcFee st rAddr "pay" amount with
      | .error e => (responseError e "failed to get the fee amount", st)
      | .ok feeAmount =>
        match PayStub.Pay ctx st sBal receiver.GetID amount feeAmount orderID memo with
        | (.error e, st1) => (responseError e "failed to pay", st1)
        | (.ok (payResult, _), st1) => (.success (.payResult payResult), st1)

/-- `payRefund`.  `big.Rat.SetFrac` panics on a zero denominator. -/
def payRefund (ctx : Ctx) (st : State) (params : List String) : Response × State :=
  if params.length < 2 then (.error "incorrect number of parameters. expecting 2+", st)
  else
    match ctx.kid with
    | .error e => (.error e.msg, st)
    | .ok kid =>
    match NewAmount (param params 1) with
    | .error e => (.error e.msg, st)
    | .ok amount =>
    if amount < 1 then (.error "invalid amount. must be greater than 0", st)
    else
    let parentID := param params 0
    match PayStub.GetPay st parentID with
    | .error e => (responseError e "failed to get the original payment", st)
    | .ok parentPay =>
    match ParseAddress ctx.shake parentPay.DOCTYPEID with
    | .error e => (responseError e "failed to get the account", st)
    | .ok sAddr =>
    let rid := parentPay.RID
    match ParseAddress ctx.shake rid with
    | .error e => (responseError e "failed to parse the receiver's account address", st)
    | .ok rAddr =>
    if rAddr.Code ≠ sAddr.Code then (.error "different token accounts", st)
    else if sAddr.Equal rAddr then (.error "can't refund to self", st)
    else if parentPay.Amount < parentPay.TotalRefund + amount then
      (.error "can't exceed the original pay amount", st)
    else
    match AccountStub.GetAccount st sAddr with
    | .error e => (responseError e "failed to get the sender account", st)
    | .ok sender =>
    if !sender.HasHolder kid then (.error "invoker is not holder", st)
    else if sender.IsSuspended then (.error "the sender account is suspended", st)
    else
    match AccountStub.GetAccount st rAddr with
    | .error e => (responseError e "failed to get the receiver account", st)
    | .ok receiver =>
    if receiver.IsSuspended then (.error "the receiver account is suspended", st)
    else
    match BalanceStub.GetBalance st sender.GetID with
    | .error e => (responseError e "failed to get the sender's balance", st)
    | .ok sBal =>
    match BalanceStub.GetBalance st receiver.GetID with
    | .error e => (responseError e "failed to get the receiver's balance", st)
    | .ok rBal =>
    let memo := if params.length > 2 then truncMemo (param params 2) else ""
    if amount ≠ parentPay.Amount ∧ parentPay.Amount = 0 then (.panic, st)
    else
    let feeAmount : Int :=
      if amount ≠ parentPay.Amount then
        Amount.MulRat amount (Rat.divInt parentPay.Fee parentPay.Amount)
      else parentPay.Fee
    match PayStub.Refund ctx st sBal rBal amount feeAmount memo parentPay with
    | (.error e, st1) => (responseError e "failed to pay", st1)
    | (.ok (log, _, _), st1) => (.success (.log log), st1)

/-- The start time of a prune: the time inside the last pruned id (ten digits
of seconds, nine of nanoseconds), or the epoch when nothing was pruned yet.
`none` is the panic of slicing an id shorter than 19 characters; an error is
the message for a part that is no number. -/
def pruneStartTime (lastID : String) : Option (Except String Int) :=
  if 0 < lastID.length then
    if lastID.length < 19 then none
    else
      let s := strconvParseInt (strSlice lastID 0 10)
      if !s.2 then some (.error "failed to get seconds from timestamp")
      else
        let n := strconvParseInt (strSlice lastID 10 19)
        if !n.2 then some (.error "failed to get nanoseconds from timestamp")
        else some (.ok (txtimeUnix s.1 n.1))
  else some (.ok (txtimeUnix 0 0))

/-- The end time of a prune: `params[2]` in seconds when given, else the
transaction time; with the flag set, at most ten minutes before the
transaction time.  An error is the message of the response. -/
def pruneEndTime (params : List String) (ts : Int) (flagMsg : String) : Except String Int :=
  let given : Except String Int :=
    if params.length > 2 then
      let seconds := strconvParseInt (param params 2)
      if !seconds.2 then .error "failed to parse the end time"
      else .ok (txtimeUnix seconds.1 0)
    else .ok ts
  match given with
  | .error msg => .error msg
  | .ok etime =>
    match strconvParseBool (param params 1) with
    | none => .error flagMsg
    | some b =>
      if b then
        let safeTime : Int := ts + (-600000000000)
        if etime > safeTime then .ok safeTime else .ok etime
      else .ok etime

/-- The account `payPrune`, `payList`, ... work on: the invoker's personal
account when `params[0]` is a token code, else the account at that address. -/
def codeOrAddress (ctx : Ctx) (p : String) (kid : String) : Except Error Address :=
  match ValidateTokenCode p with
  | .ok code => .ok (NewAddress ctx.shake code AccountTypePersonal kid)
  | .error _ => ParseAddress ctx.shake p

/-- `payPrune`. -/
def payPrune (ctx : Ctx) (st : State) (params : List String) : Response × State :=
  if params.length < 2 then (.error "incorrect number of parameters. expecting 2+", st)
  else
    match ctx.kid with
    | .error e => (.error e.msg, st)
    | .ok kid =>
    match codeOrAddress ctx (param params 0) kid with
    | .error e => (responseError e "failed to get the account", st)
    | .ok addr =>
    match AccountStub.GetAccount st addr with
    | .error e => (responseError e "failed to get the account", st)
    | .ok account =>
    if !account.HasHolder kid then (.error "invoker is not holder", st)
    else if account.IsSuspended then (.error "the account is suspended", st)
    else
    match BalanceStub.GetBalance st account.GetID with
    | .error e => (responseError e "failed to get the balance", st)
    | .ok bal =>
    match pruneStartTime bal.LastPrunedPayID with
    | none => (.panic, st)
    | some (.error msg) => (.error msg, st)
    | some (.ok stime) =>
    match GetTime ctx with
    | .error e => (responseError e "failed to get the timestamp", st)
    | .ok ts =>
    match pruneEndTime params ts "wrong first params value. the value must be true or false" with
    | .error msg => (.error msg, st)
    | .ok etime =>
    let paySum := PayStub.GetPaySumByTime st account.GetID stime etime
    let applied : Int := paySum.Sum + (-paySum.Fee)
    let bal1 : Balance :=
      { bal with Amount := bal.Amount + applied, UpdatedTime := some ts,
                 LastPrunedPayID := if paySum.End.length ≠ 0 then paySum.End
                                    else bal.LastPrunedPayID }
    let st1 := BalanceStub.PutBalance st bal1
    match FeeStub.CreateFee ctx st1 account.GetID paySum.Fee with
    | (.error e, st2) => (.error e.msg, st2)
    | (.ok _, st2) =>
      let rbl : BalanceLog :=
        (NewBalancePrunePayLog bal1 applied paySum.Start paySum.End).created ts
      (.success (.paySum paySum), BalanceStub.PutBalanceLog st2 rbl)

/-- `executePay`. -/
def executePay (ctx : Ctx) (st : State) (cid : String) (doc : List DocVal) :
    Response × State :=
  if doc.length < 7 then (.error "invalid contract document", st)
  else
    match docString doc 1 with
    | none => (.panic, st)
    | some id =>
    match BalanceStub.GetPendingBalance st id with
    | .error e => (responseError e "failed to get the pending balance", st)
    | .ok pb =>
    if pb.Typ ≠ PendingBalanceType.Contract ∨ pb.RID ≠ cid then
      (.error "invalid pending balance", st)
    else
    match docString doc 3 with
    | none => (.panic, st)
    | some merchant =>
    match ParseAddress ctx.shake merchant with
    | .error _ => (.panic, st)
    | .ok rAddr =>
    match FeeStub.CalcFee st rAddr "pay" pb.Amount with
    | .error e => (responseError e "failed to get the fee amount", st)
    | .ok feeAmount =>
    match docString doc 5, docString doc 6 with
    | some d5, some d6 =>
      match PayStub.PayPendingBalance ctx st pb feeAmount merchant d5 d6 with
      | (.error e, st1) => (responseError e "failed to pay a pending balance", st1)
      | (.ok _, st1) => (.success .empty, st1)
    | _, _ => (.panic, st)

/-! ## fee_tx.go -/

/-- `feePrune`. -/
def feePrune (ctx : Ctx) (st : State) (params : List String) : Response × State :=
  if params.length < 2 then (.error "incorrect number of parameters. expecting 2+", st)
  else
    match ValidateTokenCode (param params 0) with
    | .error e => (.error e.msg, st)
    | .ok code =>
    match TokenStub.GetToken st code with
    | .error e => (responseError e "failed to get the token", st)
    | .ok token =>
    match ctx.kid with
    | .error e => (.error e.msg, st)
    | .ok kid =>
    match token.FeePolicy with
    | none =>
      (.success (.feeSum { Sum := 0, Count := 0, Start := "", End := "", HasMore := false }), st)
    | some policy =>
    match ParseAddress ctx.shake policy.TargetAddress with
    | .error _ => (.panic, st)
    | .ok addr =>
    match AccountStub.GetAccount st addr with
    | .error e => (responseError e "failed to get the target account", st)
    | .ok account =>
    if !account.HasHolder kid then (.error "no authority", st)
    else
    match pruneStartTime token.LastPrunedFeeID with
    | none => (.panic, st)
    | some (.error msg) => (.error msg, st)
    | some (.ok stime) =>
    match GetTime ctx with
    | .error e => (responseError e "failed to get the timestamp", st)
    | .ok ts =>
    match pruneEndTime params ts "invalid boolean flag" with
    | .error msg => (.error msg, st)
    | .ok etime =>
    let feeSum := FeeStub.GetFeeSumByTime st code stime etime
    match BalanceStub.GetBalance st account.GetID with
    | .error e => (responseError e "failed to get the target account balance", st)
    | .ok bal =>
    let step : Balance × State :=
      if feeSum.Count > 0 then
        let bal1 : Balance :=
          { bal with Amount := bal.Amount + feeSum.Sum, UpdatedTime := some ts }
        let st1 := BalanceStub.PutBalance st bal1
        (bal1, TokenStub.PutToken st1 { token with LastPrunedFeeID := feeSum.End })
      else (bal, st)
    let pruneLog : BalanceLog :=
      (NewBalancePruneFeeLog step.1 feeSum.Sum feeSum.Start feeSum.End).created ts
    (.success (.feeSum feeSum), BalanceStub.PutBalanceLog step.2 pruneLog)

/-! ## token_tx.go -/

/-- `tokenBurn`. -/
def tokenBurn (ctx : Ctx) (st : State) (params : List String) : Response × State :=
  if params.length ≠ 2 then (.error "incorrect number of parameters. expecting 2", st)
  else
    match ValidateTokenCode (param params 0) with
    | .error e => (.error e.msg, st)
    | .ok code =>
    match TokenStub.GetToken st code with
    | .error e => (responseError e "failed to get the token", st)
    | .ok token =>
    match ctx.kid with
    | .error e => (.error e.msg, st)
    | .ok kid =>
    match ParseAddress ctx.shake token.GenesisAccount with
    | .error _ => (.panic, st)
    | .ok addr =>
    match AccountStub.GetAccount st addr with
    | .error e => (responseError e "failed to get the genesis account", st)
    | .ok account =>
    if !account.HasHolder kid then (.error "no authority", st)
    else
    match BalanceStub.GetBalance st account.GetID with
    | .error e => (responseError e "failed to get the genesis account balance", st)
    | .ok bal =>
    if bal.Amount = 0 then (.error "genesis account balance is 0", st)
    else
    match NewAmount (param params 1) with
    | .error e => (.error e.msg, st)
    | .ok _amount =>
    match ctx.invokeKNT code ["burn", toString token.Supply, toString bal.Amount,
        toString _amount] with
    | .error e => (responseError e "failed to get the burnable amount", st)
    | .ok burnable =>
    match NewAmount burnable with
    | .error _ => (.error "not burnable", st)
    | .ok amount =>
    if amount < 0 then (.error "not burnable", st)
    else if token.Supply < amount then
      (.error "amount must be less or equal than total supply", st)
    else
    match account with
    | .personal _ => (.panic, st)
    | .joint jac =>
    if jac.Holders.length > 1 then
      let doc : List DocVal := [.str "token/burn", .str code, .str (toString amount)]
      match ctx.createContract doc 0 jac.Holders with
      | .error e => (.error e.msg, st)
      | .ok con => (.success (.tokenResult none none (some con)), st)
    else
      match TokenStub.Burn ctx st token bal amount with
      | (.error e, st1) => (responseError e "failed to burn", st1)
      | (.ok (token1, _, log), st1) => (.success (.tokenResult (some token1) log none), st1)

/-- `tokenMint`. -/
def tokenMint (ctx : Ctx) (st : State) (params : List String) : Response × State :=
  if params.length ≠ 2 then (.error "incorrect number of parameters. expecting 2", st)
  else
    match ValidateTokenCode (param params 0) with
    | .error e => (.error e.msg, st)
    | .ok code =>
    match TokenStub.GetToken st code with
    | .error e => (responseError e "failed to get the token", st)
    | .ok token =>
    if token.Supply ≥ token.MaxSupply then (.error "max supplied", st)
    else
    match ctx.kid with
    | .error e => (.error e.msg, st)
    | .ok kid =>
    match ParseAddress ctx.shake token.GenesisAccount with
    | .error _ => (.panic, st)
    | .ok addr =>
    match AccountStub.GetAccount st addr with
    | .error e => (responseError e "failed to get the genesis account", st)
    | .ok account =>
    if !account.HasHolder kid then (.error "no authority", st)
    else
    match BalanceStub.GetBalance st account.GetID with
    | .error e => (responseError e "failed to get the genesis account balance", st)
    | .ok bal =>
    match NewAmount (param params 1) with
    | .error e => (.error e.msg, st)
    | .ok _amount =>
    match ctx.invokeKNT code ["mint", toString token.Supply, toString bal.Amount,
        toString _amount] with
    | .error e => (responseError e "failed to get the mintable amount", st)
    | .ok mintable =>
    match NewAmount mintable with
    | .error _ => (.error "not mintable", st)
    | .ok amount =>
    if amount < 0 then (.error "not mintable", st)
    else
    match account with
    | .personal _ => (.panic, st)
    | .joint jac =>
    if jac.Holders.length > 1 then
      let doc : List DocVal := [.str "token/mint", .str code, .str (toString amount)]
      match ctx.createContract doc 0 jac.Holders with
      | .error e => (.error e.msg, st)
      | .ok con => (.success (.tokenResult none none (some con)), st)
    else
      match TokenStub.Mint ctx st token bal amount with
      | (.error e, st1) => (responseError e "failed to mint", st1)
      | (.ok (token1, _, log), st1) =>
        (.success (.tokenResult (some token1) (some log) none), st1)

/-- `executeTokenBurn`. -/
def executeTokenBurn (ctx : Ctx) (st : State) (_cid : String) (doc : List DocVal) :
    Response × State :=
  if doc.length ≠ 3 then (.error "invalid contract document", st)
  else
    match docString doc 1, docString doc 2 with
    | some code, some amountStr =>
      match NewAmount amountStr with
      | .error _ => (.error "invalid amount", st)
      | .ok amount =>
      match TokenStub.GetToken st code with
      | .error e => (responseError e "failed to get the token", st)
      | .ok token =>
      match BalanceStub.GetBalance st token.GenesisAccount with
      | .error e => (responseError e "failed to get the genesis account balance", st)
      | .ok bal =>
      match TokenStub.Burn ctx st token bal amount with
      | (.error e, st1) => (responseError e "failed to burn", st1)
      | (.ok _, st1) => (.success .empty, st1)
    | _, _ => (.panic, st)

/-- The type assertions of `doc[2].([]interface{})` and of each element to a
string. -/
def docStrings (doc : List DocVal) (i : Nat) : Option (List String) :=
  match doc.get? i with
  | some (.arr xs) => xs.mapM id
  | _ => none

/-- `executeTokenCreate`. -/
def executeTokenCreate (ctx : Ctx) (st : State) (_cid : String) (doc : List DocVal) :
    Response × State :=
  if doc.length ≠ 3 then (.error "invalid contract document", st)
  else
    match docString doc 1 with
    | none => (.panic, st)
    | some code =>
    match kvGet st.tokens (TokenStub.CreateKey code) with
    | some _ => (.error ("already issued token : [" ++ code ++ "]"), st)
    | none =>
    match getValidatedTokenMeta ctx code with
    | .error e => (.error e.msg, st)
    | .ok (decimal, maxSupply, supply, feePolicy) =>
    match docStrings doc 2 with
    | none => (.panic, st)
    | some kids =>
      match TokenStub.CreateToken ctx st code decimal maxSupply supply feePolicy (ssNew kids) with
      | (.error e, st1) => (responseError e "failed to create the token", st1)
      | (.ok _, st1) => (.success .empty, st1)

/-- `executeTokenMint`. -/
def executeTokenMint (ctx : Ctx) (st : State) (_cid : String) (doc : List DocVal) :
    Response × State :=
  if doc.length ≠ 3 then (.error "invalid contract document", st)
  else
    match docString doc 1, docString doc 2 with
    | some code, some amountStr =>
      match NewAmount amountStr with
      | .error _ => (.error "invalid amount", st)
      | .ok amount =>
      match TokenStub.GetToken st code with
      | .error e => (responseError e "failed to get the token", st)
      | .ok token =>
      match BalanceStub.GetBalance st token.GenesisAccount with
      | .error e => (responseError e "failed to get the genesis account balance", st)
      | .ok bal =>
      match TokenStub.Mint ctx st token bal amount with
      | (.error e, st1) => (responseError e "failed to mint", st1)
      | (.ok _, st1) => (.success .empty, st1)
    | _, _ => (.panic, st)

/-! ## balance_tx.go -/

/-- `balancePendingWithdraw`; comparing a nil pending time panics. -/
def balancePendingWithdraw (ctx : Ctx) (st : State) (params : List String) :
    Response × State :=
  if params.length ≠ 1 then (.error "incorrect number of parameters. expecting 1", st)
  else
    match GetTime ctx with
    | .error e => (responseError e "failed to get the timestamp", st)
    | .ok ts =>
    match ctx.kid with
    | .error e => (.error e.msg, st)
    | .ok kid =>
    match BalanceStub.GetPendingBalance st (param params 0) with
    | .error e => (responseError e "failed to get the pending balance", st)
    | .ok pb =>
    match pb.PendingTime with
    | none => (.panic, st)
    | some pendingTime =>
    if pendingTime > ts then (.error "too early to withdraw", st)
    else
    match ParseAddress ctx.shake pb.Account with
    | .error _ => (.panic, st)
    | .ok addr =>
    match AccountStub.GetAccount st addr with
    | .error e => (responseError e "failed to get the account", st)
    | .ok account =>
    if !account.HasHolder kid then (.error "invoker is not holder", st)
    else if account.IsSuspended then (.error "the account is suspended", st)
    else
      match BalanceStub.Withdraw ctx st pb with
      | (.error e, st1) => (responseError e "failed to withdraw", st1)
      | (.ok log, st1) => (.success (.log log), st1)

/-! ## account_tx.go: the contract callbacks -/

/-- The joint account a holder callback works on; `none` is a panic (an
element that is no string, or an account that is not joint). -/
def holderCallbackAccount (ctx : Ctx) (st : State) (doc : List DocVal) (failed : String) :
    Option (Except Response (JointAccount × String)) :=
  match docString doc 1 with
  | none => none
  | some a =>
    match ParseAddress ctx.shake a with
    | .error e => some (.error (responseError e failed))
    | .ok addr =>
      match docString doc 2 with
      | none => none
      | some holder =>
        match AccountStub.GetAccount st addr with
        | .error e => some (.error (responseError e failed))
        | .ok (.joint jac) => some (.ok (jac, holder))
        | .ok (.personal _) => none

/-- `executeAccountCreate`. -/
def executeAccountCreate (ctx : Ctx) (st : State) (_cid : String) (doc : List DocVal) :
    Response × State :=
  if doc.length < 3 then (.error "invalid contract document", st)
  else
    match docString doc 1, docStrings doc 2 with
    | some code, some kids =>
      match AccountStub.CreateJointAccount ctx st code (ssNew kids) with
      | (.error e, st1) => (responseError e "failed to create a joint account", st1)
      | (.ok _, st1) => (.success .empty, st1)
    | _, _ => (.panic, st)

/-- `executeAccountHolderAdd`. -/
def executeAccountHolderAdd (ctx : Ctx) (st : State) (_cid : String) (doc : List DocVal) :
    Response × State :=
  if doc.length < 3 then (.error "invalid contract document", st)
  else
    match holderCallbackAccount ctx st doc "failed to add the holder" with
    | none => (.panic, st)
    | some (.error r) => (r, st)
    | some (.ok (jac, holder)) =>
      if jac.Holders.length > 127 then (.error "already has max holders (128)", st)
      else if holder ∈ jac.Holders then (.error "existed holder", st)
      else
        match AccountStub.AddHolder ctx st jac holder with
        | (.error e, st1) => (responseError e "failed to add the holder", st1)
        | (.ok _, st1) => (.success .empty, st1)

/-- `executeAccountHolderRemove`. -/
def executeAccountHolderRemove (ctx : Ctx) (st : State) (_cid : String) (doc : List DocVal) :
    Response × State :=
  if doc.length < 3 then (.error "invalid contract document", st)
  else
    match holderCallbackAccount ctx st doc "failed to remove the holder" with
    | none => (.panic, st)
    | some (.error r) => (r, st)
    | some (.ok (jac, holder)) =>
      if jac.Holders.length < 3 then (.error "the account has minimum holders (2)", st)
      else if holder ∉ jac.Holders then (.error "not existed holder", st)
      else
        match AccountStub.RemoveHolder ctx st jac holder with
        | (.error e, st1) => (responseError e "failed to remove the holder", st1)
        | (.ok _, st1) => (.success .empty, st1)

/-! ## account_tx.go, token_tx.go: creation and holder changes -/

/-- `ExistedAccountError{addr}`. -/
def ExistedAccountError (addr : String) : Error :=
  ⟨true, "the account [" ++ addr ++ "] already exists"⟩

/-- `AccountStub.CreateAccount`: the personal account of a holder. -/
def AccountStub.CreateAccount (ctx : Ctx) (st : State) (token kid : String) :
    Except Error (Account × Balance) × State :=
  match GetTime ctx with
  | .error e => (.error (errorsWrap e "failed to get the timestamp"), st)
  | .ok ts =>
    let addr := NewAddress ctx.shake token AccountTypePersonal kid
    match AccountStub.GetAccount st addr with
    | .ok _ => (.error (ExistedAccountError addr.String), st)
    | .error e =>
      if e ≠ NotExistedAccountError addr.String then
        (.error (errorsWrap e "failed to get an existed account"), st)
      else
        let account : Account :=
          { DOCTYPEID := addr.String, Token := token, Typ := AccountTypePersonal,
            CreatedTime := some ts, UpdatedTime := some ts, SuspendedTime := none }
        let st1 := AccountStub.PutAccount st (.personal account)
        match BalanceStub.CreateBalance ctx st1 account.DOCTYPEID with
        | (.error e, st2) => (.error (errorsWrap e "failed to create an account balance"), st2)
        | (.ok balance, st2) =>
          (.ok (account, balance), AccountStub.PutHolder st2 (NewHolder kid account ts))

/-- `invokeContract` (contract_tx.go): the contract service is asked to create
a contract over the document, without expiry, for the signers. -/
def invokeContract (ctx : Ctx) (st : State) (doc : List DocVal) (signers : List String) :
    Response × State :=
  match ctx.createContract doc 0 signers with
  | .error e => (responseError e "failed to create a contract", st)
  | .ok con => (.success (.contract con), st)

/-- `accountCreate`: a personal account for one parameter, else the contract
that creates a joint account. -/
def accountCreate (ctx : Ctx) (st : State) (params : List String) : Response × State :=
  if params.length < 1 then (.error "incorrect number of parameters. expecting 1+", st)
  else
    match ValidateTokenCode (param params 0) with
    | .error e => (.error e.msg, st)
    | .ok code =>
    let available : Except String Unit :=
      match kvGet st.tokens (TokenStub.CreateKey code) with
      | some _ => .ok ()
      | none =>
        match ctx.invokeKNT code ["token"] with
        | .error _ => .error "failed to get the token meta"
        | .ok _ => .ok ()
    match available with
    | .error msg => (.error msg, st)
    | .ok _ =>
    match ctx.kid with
    | .error e => (.error e.msg, st)
    | .ok kid =>
    if params.length < 2 then
      match AccountStub.CreateAccount ctx st code kid with
      | (.error e, st1) => (responseError e "failed to create a personal account", st1)
      | (.ok (account, balance), st1) => (.success (.account (.personal account) balance), st1)
    else
      match AccountStub.GetAccount st (NewAddress ctx.shake code AccountTypePersonal kid) with
      | .error e => (responseError e "failed to get invoker's personal account", st)
      | .ok _ =>
      if (ssNew (params.drop 1)).length > 128 then (.error "too many holders", st)
      else
        match appendSignableIDs ctx st code (ssNew (params.drop 1)) (ssNew [kid]) with
        | .error e => (responseError e "invalid co-holder", st)
        | .ok holders =>
          if holders.length < 2 then (.error "joint account needs co-holders", st)
          else
            invokeContract ctx st
              [.str "account/create", .str code, .arr (holders.map some)] holders

/-- `getValidatedAccountHolderParameters`; `none` is the panic of the type
assertion to a joint account. -/
def getValidatedAccountHolderParameters (ctx : Ctx) (st : State) (params : List String) :
    Option (Except Error (JointAccount × Address)) :=
  if params.length ≠ 2 then some (.error (errorsNew "incorrect number of parameters. expecting 2"))
  else
    match ParseAddress ctx.shake (param params 0) with
    | .error e => some (.error (errorsWrap e "failed to parse the account address"))
    | .ok addr =>
      if addr.Typ ≠ AccountTypeJoint then
        some (.error (errorsNew "the account must be joint account"))
      else
        match ParseAddress ctx.shake (param params 1) with
        | .error e =>
          some (.error (errorsWrap e "failed to parse the co-holder's account address"))
        | .ok taddr =>
          if taddr.Typ ≠ AccountTypePersonal then
            some (.error (errorsNew "the co-holder's account must be personal account"))
          else if addr.Code ≠ taddr.Code then
            some (.error (errorsNew "mismatched token accounts"))
          else
            match AccountStub.GetAccount st addr with
            | .error e => some (.error (errorsWrap e "failed to get the account"))
            | .ok (.joint jac) => some (.ok (jac, taddr))
            | .ok (.personal _) => none

/-- `accountHolderAdd`. -/
def accountHolderAdd (ctx : Ctx) (st : State) (params : List String) : Response × State :=
  match getValidatedAccountHolderParameters ctx st params with
  | none => (.panic, st)
  | some (.error e) => (.error e.msg, st)
  | some (.ok (jac, taddr)) =>
    if jac.Holders.length > 127 then (.error "already has max holders (128)", st)
    else
      match ctx.kid with
      | .error e => (.error e.msg, st)
      | .ok kid =>
        if kid ∉ jac.Holders then (.error "no authority", st)
        else
          match AccountStub.GetAccount st taddr with
          | .error e => (responseError e "failed to get the holder", st)
          | .ok (.joint _) => (.panic, st)
          | .ok (.personal pac) =>
            if pac.Holder ∈ jac.Holders then (.error "existed holder", st)
            else
              invokeContract ctx st
                [.str "account/holder/add", .str jac.Account.DOCTYPEID, .str pac.Holder]
                (ssAppend (ssNew [pac.Holder]) jac.Holders)

/-- `accountHolderRemove`: a holder leaves at once, another holder is removed
by a contract. -/
def accountHolderRemove (ctx : Ctx) (st : State) (params : List String) : Response × State :=
  match getValidatedAccountHolderParameters ctx st params with
  | none => (.panic, st)
  | some (.error e) => (.error e.msg, st)
  | some (.ok (jac, taddr)) =>
    if jac.Holders.length < 3 then (.error "the account has minimum holders (2)", st)
    else
      match ctx.kid with
      | .error e => (.error e.msg, st)
      | .ok kid =>
        if kid ∉ jac.Holders then (.error "no authority", st)
        else if taddr.ID = kid then
          match AccountStub.RemoveHolder ctx st jac kid with
          | (.error e, st1) => (responseError e "failed to remove the holder", st1)
          | (.ok jac1, st1) =>
            match BalanceStub.GetBalance st1 jac1.Account.DOCTYPEID with
            | .error e => (responseError e "failed to get updated account", st1)
            | .ok balance => (.success (.account (.joint jac1) balance), st1)
        else if taddr.ID ∉ jac.Holders then (.error "not existed holder", st)
        else
          invokeContract ctx st
            [.str "account/holder/remove", .str jac.Account.DOCTYPEID, .str taddr.ID]
            (ssRemove (ssAppend (ssNew []) jac.Holders) taddr.ID)

/-- `tokenCreate`: the token is created at once when the invoker is the only
holder of the genesis account, else by a contract. -/
def tokenCreate (ctx : Ctx) (st : State) (params : List String) : Response × State :=
  if params.length < 1 then (.error "incorrect number of parameters. expecting 1+", st)
  else
    match ValidateTokenCode (param params 0) with
    | .error e => (.error e.msg, st)
    | .ok code =>
    match kvGet st.tokens (TokenStub.CreateKey code) with
    | some _ => (.error ("already issued token : [" ++ code ++ "]"), st)
    | none =>
    match getValidatedTokenMeta ctx code with
    | .error e => (.error e.msg, st)
    | .ok (decimal, maxSupply, supply, feePolicy) =>
    match ctx.kid with
    | .error e => (.error e.msg, st)
    | .ok kid =>
    let collected : Except Error (List String) :=
      if params.length > 1 then
        appendSignableIDs ctx st code (ssNew (params.drop 1)) (ssNew [kid])
      else .ok (ssNew [kid])
    match collected with
    | .error e => (responseError e "invalid co-holder", st)
    | .ok holders =>
      if holders.length > 1 then
        invokeContract ctx st [.str "token/create", .str code, .arr (holders.map some)] holders
      else
        match TokenStub.CreateToken ctx st code decimal maxSupply supply feePolicy holders with
        | (.error e, st1) => (responseError e "failed to create the token", st1)
        | (.ok token, st1) => (.success (.token token), st1)

/-! ## contract_tx.go -/

/-- `contractVoid`. -/
def contractVoid (_ctx : Ctx) (st : State) (_cid : String) (_doc : List DocVal) :
    Response × State :=
  (.success .empty, st)

/-- A contract function (`CtrFunc`). -/
abbrev CtrFunc := Ctx → State → String → List DocVal → Response × State

/-- The map `ctrRoutes`: the cancel and the execute function of each
contract type. -/
def ctrRoutes : List (String × List CtrFunc) :=
  [("account/create", [contractVoid, executeAccountCreate]),
   ("account/holder/add", [contractVoid, executeAccountHolderAdd]),
   ("account/holder/remove", [contractVoid, executeAccountHolderRemove]),
   ("pay", [cancelTransfer, executePay]),
   ("token/burn", [contractVoid, executeTokenBurn]),
   ("token/create", [contractVoid, executeTokenCreate]),
   ("token/mint", [contractVoid, executeTokenMint]),
   ("transfer", [cancelTransfer, executeTransfer])]

/-- `contractCallback`: indexing an empty document, asserting a first element
that is no string, and indexing the nil slice of an unknown type all panic. -/
def contractCallback (ctx : Ctx) (st : State) (fnIdx : Nat) (params : List String) :
    Response × State :=
  if params.length ≠ 2 then (.error "incorrect number of parameters. expecting 2", st)
  else
    match ctx.ccid with
    | .error _ => (.error "failed to get ccid", st)
    | .ok ccid =>
    if "kiesnet-contract" ≠ ccid ∧ "kiesnet-cc-contract" ≠ ccid then (.error "invalid access", st)
    else
    match ctx.kid with
    | .error e => (.error e.msg, st)
    | .ok _ =>
    let cid := param params 0
    match ctx.unmarshalDoc (param params 1) with
    | .error e => (responseError e "failed to unmarshal the contract document", st)
    | .ok doc =>
    match docString doc 0 with
    | none => (.panic, st)
    | some dtype =>
    match ((ctrRoutes.lookup dtype).getD []).get? fnIdx with
    | none => (.panic, st)
    | some ctrFn => ctrFn ctx st cid doc

/-- `contractCancel`. -/
def contractCancel (ctx : Ctx) (st : State) (params : List String) : Response × State :=
  contractCallback ctx st 0 params

/-- `contractExecute`. -/
def contractExecute (ctx : Ctx) (st : State) (params : List String) : Response × State :=
  contractCallback ctx st 1 params

/-- The address string of `sampleKid`'s personal account for token `ABC`. -/
def sampleSenderID : String := "ABC0100000000000000000000000000000000000000A100000000"

/-- The address string of another personal account for token `ABC`. -/
def sampleReceiverID : String := "ABC0100000000000000000000000000000000000000B200000000"

/-- A personal account under the given address string. -/
def samplePersonal (id : String) : AccountDoc :=
  .personal { DOCTYPEID := id, Token := "ABC", Typ := AccountTypePersonal,
              CreatedTime := some 1, UpdatedTime := some 1, SuspendedTime := none }

/-- A ledger with token `ABC` (`sampleToken`) and two personal accounts,
holding the given amounts. -/
def sampleLedger (senderAmount receiverAmount : Int) : State :=
  { emptyState with
    accounts := [(AccountStub.CreateKey sampleSenderID, samplePersonal sampleSenderID),
                 (AccountStub.CreateKey sampleReceiverID, samplePersonal sampleReceiverID)],
    balances := [(BalanceStub.CreateKey sampleSenderID, sampleBalance sampleSenderID senderAmount),
                 (BalanceStub.CreateKey sampleReceiverID,
                   sampleBalance sampleReceiverID receiverAmount)],
    tokens := [(TokenStub.CreateKey "ABC", sampleToken)] }

/-- A pay of 100 with fee 5 from the second sample account to the first (the
merchant), stored under its id `p1`, with `totalRefund` as given. -/
def samplePay (totalRefund : Int) : Pay :=
  { DOCTYPEID := sampleSenderID, PayID := "p1", Amount := 100, Fee := 5,
    TotalRefund := totalRefund, RID := sampleReceiverID, ParentID := "", OrderID := "",
    Memo := "", CreatedTime := some 500 }

/-- `sampleLedger 0 0` with the pay row `samplePay totalRefund`. -/
def samplePayLedger (totalRefund : Int) : State :=
  PayStub.PutPay (sampleLedger 0 0) (samplePay totalRefund)

/-! ## Vocabulary of the statements -/

/-- Whether a response is a `shim.Success`. -/
def Response.isSuccess : Response → Bool
  | .success _ => true
  | _ => false

/-- A pending balance reaches a terminal transition from `st` to `st1`: it is
finalized (`TransferPendingBalance`, `PayPendingBalance`) or cancelled
(`Withdraw`), and the call succeeds. -/
def Terminates (ctx : Ctx) (st : State) (pb : PendingBalance) (st1 : State) : Prop :=
  (∃ receiver pendingTime r,
      BalanceStub.TransferPendingBalance ctx st pb receiver pendingTime = (.ok r, st1))
  ∨ (∃ fee merchant memo orderID,
      PayStub.PayPendingBalance ctx st pb fee merchant memo orderID = (.ok (), st1))
  ∨ (∃ log, BalanceStub.Withdraw ctx st pb = (.ok log, st1))

/-- No pending balance is stored under the id. -/
def PendingGone (st : State) (id : String) : Prop :=
  kvGet st.pendingBalances (BalanceStub.CreatePendingKey id) = none

/-- A contract escrow of 40 with fee 2, owned by balance `A`, stored under `tx0`. -/
def samplePending : PendingBalance :=
  { DOCTYPEID := "tx0", Typ := .Contract, Account := "A", RID := "c1", Amount := 40,
    Fee := some 2, Memo := "", CreatedTime := some 900, PendingTime := some 2000 }

/-- The store with balance `A` of 58 and the escrow `samplePending`. -/
def sampleEscrowState : State :=
  BalanceStub.PutPendingBalance (BalanceStub.PutBalance emptyState (sampleBalance "A" 58))
    samplePending

/-- The address string of the genesis account of `sampleToken`. -/
def sampleGenesisID : String := "ABC02000000000000000000000000000000000000000000000000"

/-- A ledger after burns and refunds: token `ABC` with supply 20 of at most
1000, and its genesis account (a joint account held by `sampleKid`) with a
balance of 120. -/
def sampleBurnLedger : State :=
  { emptyState with
    accounts := [(AccountStub.CreateKey sampleGenesisID,
      .joint { Account := { DOCTYPEID := sampleGenesisID, Token := "ABC",
                            Typ := AccountTypeJoint, CreatedTime := some 1,
                            UpdatedTime := some 1, SuspendedTime := none },
               Holders := [sampleKid] })],
    balances := [(BalanceStub.CreateKey sampleGenesisID, sampleBalance sampleGenesisID 120)],
    tokens := [(TokenStub.CreateKey "ABC", { sampleToken with Supply := 20 })] }

/-- `sampleCtx` with a token chaincode that grants the requested amount. -/
def sampleGrantCtx : Ctx :=
  { sampleCtx with invokeKNT := fun _ params => .ok (params.getD 3 "") }

/-! ## The ledger invariant -/

/-- Every stored balance is non-negative. -/
def BalancesNonneg (st : State) : Prop :=
  ∀ k b, kvGet st.balances k = some b → 0 ≤ b.Amount

/-- Every stored pending balance holds a non-negative amount and, when it has
one, a non-negative fee. -/
def PendingNonneg (st : State) : Prop :=
  ∀ k pb, kvGet st.pendingBalances k = some pb → 0 ≤ pb.Amount ∧ 0 ≤ pb.Fee.getD 0

/-- The invariant of the balance tables: no negative balance and no negative
escrow. -/
def LedgerInv (st : State) : Prop := BalancesNonneg st ∧ PendingNonneg st

/-- An outcome keeps the invariant: if the response is a success whose payload
satisfies `c`, the state it leaves satisfies `LedgerInv`. -/
def PreservesIf (c : Payload → Prop) (x : Response × State) : Prop :=
  ∀ p, x.1 = .success p → c p → LedgerInv x.2

/-- The contract document of the callback carries no negative mint: if it is
a `token/mint` document, the amount written in it is not negative (the
documents `tokenMint` creates are such). -/
def MintDocNonneg (ctx : Ctx) (params : List String) : Prop :=
  ∀ doc s a, ctx.unmarshalDoc (param params 1) = .ok doc →
    docString doc 0 = some "token/mint" → docString doc 2 = some s →
    NewAmount s = .ok a → 0 ≤ a

/-- The id of a pay made at time 500 in transaction `tx0`: ten digits of
seconds, nine of nanoseconds, and the transaction id. -/
def samplePrunedPayID : String := "0000000000000000500tx0"

/-- A ledger whose merchant (the first sample account) received a pay of 100
with fee 5 from the second, has pruned it (`LastPrunedPayID` is its id) and has
spent the proceeds: both balances are 0. -/
def samplePrunedLedger : State :=
  { emptyState with
    accounts := [(AccountStub.CreateKey sampleSenderID, samplePersonal sampleSenderID),
                 (AccountStub.CreateKey sampleReceiverID, samplePersonal sampleReceiverID)],
    balances := [(BalanceStub.CreateKey sampleSenderID,
                   { sampleBalance sampleSenderID 0 with LastPrunedPayID := samplePrunedPayID }),
                 (BalanceStub.CreateKey sampleReceiverID, sampleBalance sampleReceiverID 0)],
    tokens := [(TokenStub.CreateKey "ABC", sampleToken)],
    pays := [(PayStub.CreateKey samplePrunedPayID,
               { samplePay 0 with PayID := samplePrunedPayID })] }

/-- A later transaction of the same invoker: time 2000, id `tx2`. -/
def sampleLaterCtx : Ctx := { sampleCtx with txID := "tx2", txTime := .ok 2000 }

/-- The ledger `samplePrunedLedger` after the merchant refunded the whole pay. -/
def sampleRefundedLedger : State :=
  (payRefund sampleCtx samplePrunedLedger [samplePrunedPayID, "100"]).2

/-- A store with balance `A` of 10 and a contract escrow of -40 owned by it
(no operation writes such a row). -/
def sampleNegativeEscrow : State :=
  BalanceStub.PutPendingBalance (BalanceStub.PutBalance emptyState (sampleBalance "A" 10))
    { samplePending with Amount := -40, Fee := none }

/-- The sample token with a transfer rate of 1% (no cap) in place of 10%. -/
def sampleTokenOnePercent : Token :=
  { sampleToken with
    FeePolicy := some { TargetAddress := "ABC01000000000000000000000000000000000000000000000000",
                        Rates := [("transfer", ⟨rateHundredth, 0⟩)] } }

/-- The ledger `sampleLedger 100 5` under `sampleTokenOnePercent`. -/
def sampleLedgerOnePercent : State :=
  { sampleLedger 100 5 with tokens := [(TokenStub.CreateKey "ABC", sampleTokenOnePercent)] }

/-- An outcome satisfies `Q` when it is a success: if the response is a
`shim.Success`, the state it leaves satisfies `Q`. -/
def SuccessImplies (Q : State → Prop) (x : Response × State) : Prop :=
  x.1.isSuccess = true → Q x.2

/-- A lower-case hex digit. -/
def isLowerHexChar (c : Char) : Bool :=
  decide (('0' ≤ c ∧ c ≤ '9') ∨ ('a' ≤ c ∧ c ≤ 'f'))

/-- A holder id as `kid.GetID` returns it: exactly 40 lower-case hex digits. -/
def IsKid (kid : String) : Prop :=
  kid.length = 40 ∧ kid.data.all isLowerHexChar = true

/-- A hex digit, of either case. -/
def isHexDigit (c : Char) : Bool :=
  decide (('0' ≤ c ∧ c ≤ '9') ∨ ('a' ≤ c ∧ c ≤ 'f') ∨ ('A' ≤ c ∧ c ≤ 'F'))

/-- The valid address texts, in the words of the specification, for a text
`u` already in upper case: at least 50 characters; the last 50 are hex digits
and decode to a type byte `t`, a 20-byte id and a 4-byte checksum `c`; the text
before them is 3 to 6 characters of `A-Z`/`0-9`; `t` is Personal or Joint; and
`c` is the checksum of that prefix, `t` and the id. -/
def ValidAddressText (H : Nat → List Nat → List Nat) (u : String) : Prop :=
  50 ≤ u.length
  ∧ (u.data.drop (u.length - 50)).all isHexDigit = true
  ∧ ∃ t id c,
      hexDecode (u.data.drop (u.length - 50)) = some (t :: (id ++ c))
      ∧ id.length = 20 ∧ c.length = 4
      ∧ 3 ≤ u.length - 50 ∧ u.length - 50 ≤ 6
      ∧ (u.data.take (u.length - 50)).all isCodeChar = true
      ∧ (t = AccountTypePersonal ∨ t = AccountTypeJoint)
      ∧ c = Address.Checksum H
              { Code := String.mk (u.data.take (u.length - 50)), Typ := t, Hash := id ++ c } id

/-! ## Repeated pruning -/

/-- The ledger is ready for a fee prune of token `code` by holder `kid` from
the cursor time `stime`: the token is stored under its code and has a fee
policy whose target address parses to an account that `kid` holds and that has
a balance stored under its id, and the token's `LastPrunedFeeID` reads as
`stime`.  These are the checks `feePrune` makes before it queries. -/
def FeePruneReady (H : Nat → List Nat → List Nat) (st : State) (code kid : String)
    (stime : Int) : Prop :=
  ∃ token policy addr account bal,
    TokenStub.GetToken st code = .ok token ∧ token.DOCTYPEID = code
    ∧ token.FeePolicy = some policy
    ∧ ParseAddress H policy.TargetAddress = .ok addr
    ∧ AccountStub.GetAccount st addr = .ok account ∧ account.HasHolder kid = true
    ∧ BalanceStub.GetBalance st account.GetID = .ok bal ∧ bal.DOCTYPEID = account.GetID
    ∧ pruneStartTime token.LastPrunedFeeID = some (.ok stime)

/-- `feePrune` called with the same parameters in each of the given
transactions, in turn: the responses, and the state after the last call. -/
def feePruneRounds (params : List String) : List Ctx → State → List Response × State
  | [], st => ([], st)
  | ctx :: rest, st =>
    let r := feePrune ctx st params
    let rs := feePruneRounds params rest r.2
    (r.1 :: rs.1, rs.2)

/-! ## Rejections -/

/-- An outcome is a rejection that wrote nothing: the response is no
`shim.Success`, and the state is the one the call started from. -/
def Rejects (st : State) (x : Response × State) : Prop :=
  x.1.isSuccess = false ∧ x.2 = st

/-! ## Pay and refund, in the words of the specification -/

/-- The Pay row of a pay, in the words of the specification: stored under the
merchant's address, with the amount and the fee, a total refund of 0, the
sender as related id and no parent id. -/
def specPayRow (merchant sender payid : String) (amount fee : Int) (orderID memo : String)
    (ts : Int) : Pay :=
  { DOCTYPEID := merchant, PayID := payid, Amount := amount, Fee := fee, TotalRefund := 0,
    RID := sender, ParentID := "", OrderID := orderID, Memo := memo, CreatedTime := some ts }

/-- The Pay log of a pay, in the words of the specification: a log of the
sender of type Pay whose diff is `-amount` and whose amount is the sender's
balance after the debit of `amount` (the fee is not debited). -/
def specPayLog (sender : Balance) (merchant payid : String) (amount : Int) (memo : String)
    (ts : Int) : BalanceLog :=
  { DOCTYPEID := sender.DOCTYPEID, Typ := .Pay, RID := merchant, Diff := -amount, Fee := none,
    Amount := sender.Amount - amount, Memo := memo, CreatedTime := some ts, PruneStartID := "",
    PruneEndID := "", PayID := payid }

/-- The state after a pay, in the words of the specification: one Pay row
more, the sender's balance less `amount`, one log more, nothing else. -/
def specPayState (st : State) (sender : Balance) (row : Pay) (log : BalanceLog) (ts : Int) :
    State :=
  { st with
    pays := kvPut st.pays (PayStub.CreateKey row.PayID) row,
    balances := kvPut st.balances (BalanceStub.CreateKey sender.DOCTYPEID)
      { sender with Amount := sender.Amount - row.Amount, UpdatedTime := some ts },
    balanceLogs := kvPut st.balanceLogs (BalanceStub.CreateLogKey log.DOCTYPEID ts) log }

/-- The parsed address of the first sample account (`sampleSenderID`). -/
def sampleSenderAddr : Address := NewAddress sampleCtx.shake "ABC" AccountTypePersonal sampleKid

/-- The parsed address of the second sample account (`sampleReceiverID`). -/
def sampleReceiverAddr : Address :=
  NewAddress sampleCtx.shake "ABC" AccountTypePersonal "00000000000000000000000000000000000000b2"

/-- The Pay row of a refund of `r`, in the words of the specification: stored
under the merchant's address, with amount `-r`, fee `-(refunded fee)`, the
receiver of the refund as related id and the parent's pay id as parent id. -/
def specRefundRow (merchant receiver payid : String) (r fee : Int) (parentID memo : String)
    (ts : Int) : Pay :=
  { DOCTYPEID := merchant, PayID := payid, Amount := -r, Fee := -fee, TotalRefund := 0,
    RID := receiver, ParentID := parentID, OrderID := "", Memo := memo, CreatedTime := some ts }

/-- The Refund log of a refund of `r`, in the words of the specification: a
log of the receiver of type Refund whose diff is `+r` and whose amount is the
receiver's balance after the credit. -/
def specRefundLog (receiver : Balance) (merchant : String) (r : Int) (memo : String)
    (ts : Int) : BalanceLog :=
  { DOCTYPEID := receiver.DOCTYPEID, Typ := .Refund, RID := merchant, Diff := r, Fee := none,
    Amount := receiver.Amount + r, Memo := memo, CreatedTime := some ts, PruneStartID := "",
    PruneEndID := "", PayID := "" }

/-- The state after a refund of `r`, in the words of the specification: the
refund row is written, then the parent with its total refund raised by `r`,
the receiver's balance is credited `r`, and one log is written; nothing else
changes. -/
def specRefundState (st : State) (receiver : Balance) (parentPay row : Pay) (log : BalanceLog)
    (r ts : Int) : State :=
  { st with
    pays := kvPut (kvPut st.pays (PayStub.CreateKey row.PayID) row)
      (PayStub.CreateKey parentPay.PayID)
      { parentPay with TotalRefund := parentPay.TotalRefund + r },
    balances := kvPut st.balances (BalanceStub.CreateKey receiver.DOCTYPEID)
      { receiver with Amount := receiver.Amount + r, UpdatedTime := some ts },
    balanceLogs := kvPut st.balanceLogs (BalanceStub.CreateLogKey log.DOCTYPEID ts) log }

/-! ## Pay prune, in the words of the specification -/

/-- The sum of the amounts of a batch of pay rows. -/
def batchAmount (batch : List Pay) : Int := (batch.map (fun c => c.Amount)).sum

/-- The sum of the fees of a batch of pay rows. -/
def batchFee (batch : List Pay) : Int := (batch.map (fun c => c.Fee)).sum

/-- The balance after the prune of a batch, in the words of the specification:
credited by `sum(amount) - sum(fee)`, with the id of the last row of the batch
as last pruned id (the old one for an empty batch). -/
def specPrunedBalance (bal : Balance) (batch : List Pay) (ts : Int) : Balance :=
  { bal with
    Amount := bal.Amount + (batchAmount batch - batchFee batch),
    UpdatedTime := some ts,
    LastPrunedPayID := (batch.getLast?.map (fun c => c.PayID)).getD bal.LastPrunedPayID }

/-- The Fee row of a prune, in the words of the specification: `sum(fee)`,
paid by the account, under the id of the transaction. -/
def specPruneFeeRow (account : String) (batch : List Pay) (ts : Int) (txID : String) : Fee :=
  { DOCTYPEID := (match ParseCode account with
                  | .ok c => c
                  | .error _ => ""),
    FeeID := toString ts ++ txID, Account := account, Amount := batchFee batch,
    CreatedTime := some ts }

/-- The PrunePay log of a prune, in the words of the specification: its diff
is the net credit, its amount the balance after it, and it names the first and
the last row of the batch. -/
def specPrunePayLog (bal : Balance) (batch : List Pay) (ts : Int) : BalanceLog :=
  { DOCTYPEID := bal.DOCTYPEID, Typ := .PrunePay, RID := "",
    Diff := batchAmount batch - batchFee batch, Fee := none,
    Amount := bal.Amount + (batchAmount batch - batchFee batch), Memo := "",
    CreatedTime := some ts,
    PruneStartID := (batch.head?.map (fun c => c.PayID)).getD "",
    PruneEndID := (batch.getLast?.map (fun c => c.PayID)).getD "", PayID := "" }

/-- The state after the prune of a batch, in the words of the specification:
the balance row is replaced, one Fee row is added when `sum(fee)` is not zero,
one PrunePay log is added, and nothing else changes. -/
def specPrunePayState (st : State) (bal : Balance) (account : String) (batch : List Pay)
    (ts : Int) (txID : String) : State :=
  { st with
    balances := kvPut st.balances (BalanceStub.CreateKey bal.DOCTYPEID)
      (specPrunedBalance bal batch ts),
    fees := if batchFee batch = 0 then st.fees
      else kvPut st.fees (FeeStub.CreateKey (toString ts ++ txID))
        (specPruneFeeRow account batch ts txID),
    balanceLogs := kvPut st.balanceLogs (BalanceStub.CreateLogKey bal.DOCTYPEID ts)
      (specPrunePayLog bal batch ts) }

/-! ## Fee prune: credit and cursor -/

/-- An outcome of `feePrune` that applied neither the credit nor the cursor
advance: the balance table and the token table are those of the start, and a
sum it reports has count 0. -/
def FeePruneNeither (st : State) (x : Response × State) : Prop :=
  x.2.balances = st.balances ∧ x.2.tokens = st.tokens
  ∧ ∀ fs, x.1 = .success (.feeSum fs) → fs.Count = 0

/-- An outcome of `feePrune` that applied both: the call read the token of
`params[0]`, the account at its fee policy's target address and that account's
balance, aggregated a sum of count > 0, answered with it, and left the balance
table with that balance credited by the sum and the token table with that
token's `LastPrunedFeeID` set to the end of the sum; no other row of the two
tables changed. -/
def FeePruneBoth (ctx : Ctx) (st : State) (params : List String) (x : Response × State) :
    Prop :=
  ∃ code token policy addr account bal stime etime ts,
    ValidateTokenCode (param params 0) = .ok code
    ∧ TokenStub.GetToken st code = .ok token
    ∧ token.FeePolicy = some policy
    ∧ ParseAddress ctx.shake policy.TargetAddress = .ok addr
    ∧ AccountStub.GetAccount st addr = .ok account
    ∧ BalanceStub.GetBalance st account.GetID = .ok bal
    ∧ GetTime ctx = .ok ts
    ∧ x.1 = .success (.feeSum (FeeStub.GetFeeSumByTime st code stime etime))
    ∧ 0 < (FeeStub.GetFeeSumByTime st code stime etime).Count
    ∧ x.2.balances = kvPut st.balances (BalanceStub.CreateKey bal.DOCTYPEID)
        { bal with Amount := bal.Amount + (FeeStub.GetFeeSumByTime st code stime etime).Sum,
                   UpdatedTime := some ts }
    ∧ x.2.tokens = kvPut st.tokens (TokenStub.CreateKey token.DOCTYPEID)
        { token with LastPrunedFeeID := (FeeStub.GetFeeSumByTime st code stime etime).End }
    ∧ (bal.DOCTYPEID = account.GetID →
        BalanceStub.GetBalance x.2 account.GetID
          = .ok { bal with
                  Amount := bal.Amount + (FeeStub.GetFeeSumByTime st code stime etime).Sum,
                  UpdatedTime := some ts })
    ∧ (token.DOCTYPEID = code →
        TokenStub.GetToken x.2 code
          = .ok { token with
                  LastPrunedFeeID := (FeeStub.GetFeeSumByTime st code stime etime).End })

/-- A ledger with one fee to prune: the two sample accounts with empty
balances, token `ABC` whose fee policy names the first account as target, and
one fee row of 7 charged to the second account at time 500. -/
def sampleFeeLedger : State :=
  { sampleLedger 0 0 with
    tokens := [(TokenStub.CreateKey "ABC",
      { sampleToken with FeePolicy := some { TargetAddress := sampleSenderID, Rates := [] } })],
    fees := [(FeeStub.CreateKey "0000000000000000500tx0",
      { DOCTYPEID := "ABC", FeeID := "0000000000000000500tx0", Account := sampleReceiverID,
        Amount := 7, CreatedTime := some 500 })] }

/-- The credit and the cursor advance are applied together or not at all. -/
def FeePruneAtomic (ctx : Ctx) (st : State) (params : List String) (x : Response × State) :
    Prop :=
  FeePruneNeither st x ∨ FeePruneBoth ctx st params x

/-! ## Escrow finalize, in the words of the specification -/

/-- The fee table after an escrow is finalized, in the words of the
specification: one Fee row of `f`, paid by the original owner, is added when a
fee `f` is present and not zero. -/
def specEscrowFees (st : State) (owner : String) (fee : Option Int) (ts : Int)
    (txID : String) : KV Fee :=
  match fee with
  | some f =>
    if f = 0 then st.fees
    else kvPut st.fees (FeeStub.CreateKey (toString ts ++ txID))
      { DOCTYPEID := (match ParseCode owner with
                      | .ok c => c
                      | .error _ => ""),
        FeeID := toString ts ++ txID, Account := owner, Amount := f, CreatedTime := some ts }
  | none => st.fees

/-- The Receive log of a finalized escrow of `a`, in the words of the
specification. -/
def specReceiveLog (receiver : Balance) (owner : String) (a : Int) (memo : String) (ts : Int) :
    BalanceLog :=
  { DOCTYPEID := receiver.DOCTYPEID, Typ := .Receive, RID := owner, Diff := a, Fee := none,
    Amount := receiver.Amount + a, Memo := memo, CreatedTime := some ts, PruneStartID := "",
    PruneEndID := "", PayID := "" }

/-- The state after an escrow is finalized without time lock, in the words of
the specification: the receiver is credited by the amount, a Receive log is
written, the fee is recorded, and the pending row is deleted. -/
def specFinalizeState (st : State) (pb : PendingBalance) (receiver : Balance) (ts : Int)
    (txID : String) : State :=
  { st with
    balances := kvPut st.balances (BalanceStub.CreateKey receiver.DOCTYPEID)
      { receiver with Amount := receiver.Amount + pb.Amount, UpdatedTime := some ts },
    balanceLogs := kvPut st.balanceLogs (BalanceStub.CreateLogKey receiver.DOCTYPEID ts)
      (specReceiveLog receiver pb.Account pb.Amount pb.Memo ts),
    fees := specEscrowFees st pb.Account pb.Fee ts txID,
    pendingBalances := kvDel st.pendingBalances (BalanceStub.CreatePendingKey pb.DOCTYPEID) }

/-- The pending balance that re-wraps a time-locked escrow, in the words of
the specification: of account type, owned by the receiver, of the escrowed
amount without fee, with the release time. -/
def specRewrapped (pb : PendingBalance) (receiver : Balance) (pendingTime : Option Int)
    (ts : Int) (txID : String) : PendingBalance :=
  { DOCTYPEID := txID, Typ := .Account, Account := receiver.DOCTYPEID, RID := pb.Account,
    Amount := pb.Amount, Fee := none, Memo := pb.Memo, CreatedTime := some ts,
    PendingTime := pendingTime }

/-- The state after a time-locked escrow is finalized, in the words of the
specification: no balance changes, the re-wrapped pending balance is written,
the fee is recorded, and the original pending row is deleted. -/
def specRewrapState (st : State) (pb : PendingBalance) (receiver : Balance)
    (pendingTime : Option Int) (ts : Int) (txID : String) : State :=
  { st with
    fees := specEscrowFees st pb.Account pb.Fee ts txID,
    pendingBalances := kvDel
      (kvPut st.pendingBalances (BalanceStub.CreatePendingKey txID)
        (specRewrapped pb receiver pendingTime ts txID))
      (BalanceStub.CreatePendingKey pb.DOCTYPEID) }

/-! ## Time-locked transfer, in the words of the specification -/

/-- The pending balance of a time-locked transfer of `a`, in the words of the
specification: of account type, owned by the receiver's account, with the
sender as related id, of amount `a` without fee, with the pending time. -/
def specLockedPending (sender receiver : Balance) (a : Int) (memo : String)
    (pendingTime : Option Int) (ts : Int) (txID : String) : PendingBalance :=
  { DOCTYPEID := txID, Typ := .Account, Account := receiver.DOCTYPEID, RID := sender.DOCTYPEID,
    Amount := a, Fee := none, Memo := memo, CreatedTime := some ts, PendingTime := pendingTime }

/-- The Send log of a transfer of `a` with fee `f`, in the words of the
specification. -/
def specSendLog (sender receiver : Balance) (a f : Int) (memo : String) (ts : Int) :
    BalanceLog :=
  { DOCTYPEID := sender.DOCTYPEID, Typ := .Send, RID := receiver.DOCTYPEID, Diff := -a,
    Fee := some f, Amount := sender.Amount - a - f, Memo := memo, CreatedTime := some ts,
    PruneStartID := "", PruneEndID := "", PayID := "" }

/-- The state after a time-locked transfer, in the words of the
specification: the sender is debited by `a + f` at once, one pending balance
is written, the receiver's balance is not, the Send log and the fee are
recorded. -/
def specLockedTransferState (st : State) (sender receiver : Balance) (a f : Int)
    (memo : String) (pendingTime : Option Int) (ts : Int) (txID : String) : State :=
  { st with
    pendingBalances := kvPut st.pendingBalances (BalanceStub.CreatePendingKey txID)
      (specLockedPending sender receiver a memo pendingTime ts txID),
    balances := kvPut st.balances (BalanceStub.CreateKey sender.DOCTYPEID)
      { sender with Amount := sender.Amount - a - f, UpdatedTime := some ts },
    balanceLogs := kvPut st.balanceLogs (BalanceStub.CreateLogKey sender.DOCTYPEID ts)
      (specSendLog sender receiver a f memo ts),
    fees := specEscrowFees st sender.DOCTYPEID (some f) ts txID }

/-- The holder id of the second sample account. -/
def sampleReceiverKid : String := "00000000000000000000000000000000000000b2"

/-- A transaction of the holder of the second sample account: time 6000, id
`tx3`. -/
def sampleReceiverCtx : Ctx :=
  { sampleCtx with txID := "tx3", txTime := .ok 6000, kid := .ok sampleReceiverKid }

/-- The ledger `sampleLedger 100 5` after the first account sent 30 with fee 3
to the second, time-locked until 5000. -/
def sampleLockedLedger : State :=
  (BalanceStub.Transfer sampleCtx (sampleLedger 100 5) (sampleBalance sampleSenderID 100)
    (sampleBalance sampleReceiverID 5) 30 3 "m" (some 5000)).2

/-- A contract document of a transfer that names the pending balance `id`. -/
def sampleTransferDoc (id : String) : List DocVal :=
  [.str "transfer", .str id, .str "A", .str "B", .str "40", .str "2", .str "", .str "0"]

/-! ## Holder counts -/

/-- Every stored joint account has a holder set without repetition, of at
least `n` holders. -/
def JointHoldersAtLeast (n : Nat) (st : State) : Prop :=
  ∀ k a, kvGet st.accounts k = some (.joint a) → a.Holders.Nodup ∧ n ≤ a.Holders.length

/-- Every account row of `st1` is a row of `st`, or a joint account that
satisfies `P`: the joint accounts a step stored satisfy `P`. -/
def StoresOnly (P : JointAccount → Prop) (st st1 : State) : Prop :=
  ∀ k d, kvGet st1.accounts k = some d →
    kvGet st.accounts k = some d ∨ ∃ a, d = .joint a ∧ P a

/-- An outcome that wrote nothing and, when it is a success, is the answer of
the contract service to a document that satisfies `D`. -/
def SubmitsOnly (D : List DocVal → List String → Prop) (ctx : Ctx) (st : State)
    (x : Response × State) : Prop :=
  x.2 = st
  ∧ (x.1.isSuccess = true →
      ∃ doc signers con, D doc signers ∧ ctx.createContract doc 0 signers = .ok con
        ∧ x.1 = .success (.contract con))

/-- A contract document of the given type that carries a token code and a
list of at least two holders without repetition, who are also the signers. -/
def HoldersDoc (dtype : String) (doc : List DocVal) (signers : List String) : Prop :=
  ∃ code, doc = [.str dtype, .str code, .arr (signers.map some)]
    ∧ signers.Nodup ∧ 2 ≤ signers.length

/-- `sampleCtx` with a token chaincode that describes a token of 0 decimals,
at most 1000 units, 100 of them issued at creation, without fee policy. -/
def sampleMetaCtx : Ctx :=
  { sampleCtx with
    invokeKNT := fun _ _ => .ok "meta",
    unmarshalMeta := fun _ =>
      .ok [("decimal", "0"), ("max_supply", "1000"), ("initial_supply", "100")] }

/-- A joint account under `sampleGenesisID` with the given holders. -/
def sampleJoint (holders : List String) : JointAccount :=
  { Account := { DOCTYPEID := sampleGenesisID, Token := "ABC", Typ := AccountTypeJoint,
                 CreatedTime := some 1, UpdatedTime := some 1, SuspendedTime := none },
    Holders := holders }

/-- A ledger with one joint account of three holders. -/
def sampleJointLedger : State :=
  AccountStub.PutAccount emptyState (.joint (sampleJoint ["h1", "h2", "h3"]))

/-- The address string of a second joint account of token `ABC`. -/
def sampleCrowdID : String := "ABC0200000000000000000000000000000000000000C300000000"

/-- 128 holder ids, none of them `sampleKid`. -/
def sampleCrowd : List String := (List.range 128).map (fun i => "h" ++ toString i)

/-- A ledger with token `ABC`, the personal account of `sampleKid`, and a joint
account of the 128 holders `sampleCrowd` under `sampleCrowdID`. -/
def sampleCrowdLedger : State :=
  { emptyState with
    accounts := [(AccountStub.CreateKey sampleSenderID, samplePersonal sampleSenderID),
                 (AccountStub.CreateKey sampleCrowdID,
                   .joint { Account := { DOCTYPEID := sampleCrowdID, Token := "ABC",
                                         Typ := AccountTypeJoint, CreatedTime := some 1,
                                         UpdatedTime := some 1, SuspendedTime := none },
                            Holders := sampleCrowd })],
    tokens := [(TokenStub.CreateKey "ABC", sampleToken)] }

/-- `sampleCtx` with a contract service that accepts a document only when it
lists its signers as holders and they are 129. -/
def sampleCountingCtx : Ctx :=
  { sampleCtx with
    createContract := fun doc _ signers =>
      if docStrings doc 2 = some signers ∧ signers.length = 129 then
        .ok { id := "c1", expiryTime := .ok 2000 }
      else .error ⟨false, "refused"⟩ }

/-- The creation time of row `i` of the prune ledger: one nanosecond apart. -/
def samplePruneTime (i : Nat) : Int := 1600000000000000000 + (i : Int)

/-- Fee row `i` of the prune ledger: a fee of 1 of token `ABC`, with the id
`CreateFee` gives it (creation time, then transaction id). -/
def samplePruneFee (i : Nat) : Fee :=
  { DOCTYPEID := "ABC", FeeID := toString (samplePruneTime i) ++ "t" ++ toString i,
    Account := sampleReceiverID, Amount := 1, CreatedTime := some (samplePruneTime i) }

/-- The 1000 fee rows of the prune ledger, ordered by creation time. -/
def samplePruneRows : List Fee := (List.range 1000).map samplePruneFee

/-- The ledger `sampleFeeLedger` with the 1000 rows `samplePruneRows` as its
fee table, stored in the order of their creation. -/
def samplePruneLedger : State :=
  { sampleFeeLedger with
    fees := (samplePruneRows.map (fun f => (FeeStub.CreateKey f.FeeID, f))).reverse }

/-- The first prune transaction on the prune ledger. -/
def samplePruneCtx1 : Ctx := { sampleCtx with txID := "p1", txTime := .ok 1700000000000000000 }

/-- The second prune transaction on the prune ledger. -/
def samplePruneCtx2 : Ctx := { sampleCtx with txID := "p2", txTime := .ok 1700000000000000001 }

/-- The token of the prune ledger (and of `sampleFeeLedger`). -/
def sampleFeeToken : Token :=
  { sampleToken with FeePolicy := some { TargetAddress := sampleSenderID, Rates := [] } }

/-- The parameters of the prune calls on the prune ledger: token `ABC`, no
safe time, end time 1650000000 s. -/
def samplePruneParams : List String := ["ABC", "false", "1650000000"]

/-- The count and the `hasMore` flag a prune call answered with. -/
def pruneAnswer : Response → Option (Nat × Bool)
  | .success (.feeSum fs) => some (fs.Count, fs.HasMore)
  | _ => none

/-- The rate one half. -/
def rateHalf : ℚ := { num := 1, den := 2, den_nz := by decide, reduced := by decide }

/-! ## Amount as JSON (amount.go; `math/big` modelled) -/

/-- Model of `big.Int.String`: the decimal digits, after a `-` for a negative
value. -/
def bigIntString (a : Int) : String := toString a

/-- `Amount.MarshalJSON`: a double quote, the text of `a.String()`, a double quote.
The writes to the `bytes.Buffer` do not fail. -/
def Amount.MarshalJSON (a : Int) : Except Error String :=
  .ok ("\"" ++ bigIntString a ++ "\"")

/-- The value of a digit character as `nat.scan` reads it: `0`..`9`, then the
letters from 10 on. -/
def digitValue (c : Char) : Option Nat :=
  if '0' ≤ c ∧ c ≤ '9' then some (c.toNat - '0'.toNat)
  else if 'a' ≤ c ∧ c ≤ 'z' then some (c.toNat - 'a'.toNat + 10)
  else if 'A' ≤ c ∧ c ≤ 'Z' then some (c.toNat - 'A'.toNat + 10)
  else none

/-- The value of a non-empty text of digits of base `b`. -/
def scanDigits (b : Nat) (cs : List Char) : Option Nat :=
  if cs = [] then none
  else cs.foldlM (fun acc c =>
    match digitValue c with
    | some d => if d < b then some (acc * b + d) else none
    | none => none) 0

/-- Model of `nat.scan` with base 0, all of the text consumed: the prefix
`0x` or `0X` selects base 16, `0b` or `0B` base 2, another leading `0` base 8,
and the text is decimal otherwise.  (Later Go versions also read `0o` and
digits separated by `_`.) -/
def scanMantissa (cs : List Char) : Option Nat :=
  match cs with
  | c :: d :: rest =>
    if c = '0' then
      if d = 'x' ∨ d = 'X' then scanDigits 16 rest
      else if d = 'b' ∨ d = 'B' then scanDigits 2 rest
      else scanDigits 8 (d :: rest)
    else scanDigits 10 cs
  | _ => scanDigits 10 cs

/-- Model of `big.Int.UnmarshalText` (`setFromScanner` with base 0): an
optional sign, then the mantissa. -/
def bigIntUnmarshalText (cs : List Char) : Option Int :=
  match cs with
  | c :: rest =>
    if c = '-' then (scanMantissa rest).map (fun (n : Nat) => -(n : Int))
    else if c = '+' then (scanMantissa rest).map (fun (n : Nat) => (n : Int))
    else (scanMantissa cs).map (fun (n : Nat) => (n : Int))
  | [] => none

/-- `Amount.UnmarshalJSON` on the receiver `cur`: `big.Int.UnmarshalJSON` of
`text[1 : len(text)-1]`, which leaves the receiver as it is for `null`.
`none` is the panic of slicing a text shorter than two characters. -/
def Amount.UnmarshalJSON (cur : Int) (text : String) : Option (Except Error Int) :=
  if text.length < 2 then none
  else
    let inner := strSlice text 1 (text.length - 1)
    if inner = "null" then some (.ok cur)
    else
      match bigIntUnmarshalText inner.data with
      | some v => some (.ok v)
      | none => some (.error (errorsNew
          ("math/big: cannot unmarshal \"" ++ inner ++ "\" into a *big.Int")))

/-- The text `t` is the decimal representation of the natural number `n`:
decimal digits, at least one, no leading zero except for zero itself, of
value `n`. -/
def IsNatDecimal (t : List Char) (n : Nat) : Prop :=
  t ≠ [] ∧ (∀ c ∈ t, c.isDigit = true) ∧ (n = 0 → t = ['0'])
    ∧ (n ≠ 0 → t.head? ≠ some '0')
    ∧ t.foldl (fun acc c => acc * 10 + (c.toNat - 48)) 0 = n

/-- The text `s` is the decimal representation of the integer `a`: that of its
absolute value, after a `-` when `a` is negative. -/
def IsDecimalOf (s : List Char) (a : Int) : Prop :=
  (0 ≤ a → IsNatDecimal s a.natAbs) ∧ (a < 0 → ∃ t, s = '-' :: t ∧ IsNatDecimal t a.natAbs)

/-- The contract document of a pay, as `pay` submits it and as the comment of
`executePay` lists it: `["pay", pending id, sender, receiver, amount, order id,
memo]`. -/
def payDocument (pbID sender receiver amount orderID memo : String) : List DocVal :=
  [.str "pay", .str pbID, .str sender, .str receiver, .str amount, .str orderID, .str memo]

/-- The escrow of a pay of 30 from the first sample account: the pending
balance `tx0` of contract `c1`, without a fee. -/
def samplePayPending : PendingBalance :=
  { DOCTYPEID := "tx0", Typ := .Contract, Account := sampleSenderID, RID := "c1", Amount := 30,
    Fee := none, Memo := "thanks", CreatedTime := some 500, PendingTime := some 2000 }

/-- The ledger `sampleLedger 70 0` with the escrow `samplePayPending`. -/
def samplePayEscrowLedger : State :=
  BalanceStub.PutPendingBalance (sampleLedger 70 0) samplePayPending
/-- The context `sampleCtx` with a `json.Unmarshal` that reads every text as
the given document. -/
def sampleDocCtx (doc : List DocVal) : Ctx :=
  { sampleCtx with unmarshalDoc := fun _ => .ok doc }

/-! ## token_tx.go: update of the fee policy -/

/-- The update `tokenUpdate` decides on, from the policy of the token metadata:
the token to store and the flag `update`, or the response of a target address
that is no account. -/
def tokenUpdatePolicy (st : State) (token : Token) (policy : Option FeePolicy) :
    Except Response (Token × Bool) :=
  match policy with
  | none =>
    match token.FeePolicy with
    | none => .ok (token, false)
    | some old => .ok ({ token with FeePolicy := some { old with Rates := [] } }, true)
  | some policy =>
    if policy.TargetAddress.length > 0 then
      match AccountStub.GetAccountState st policy.TargetAddress with
      | .error e => .error (responseError e "failed to set a target address")
      | .ok _ => .ok ({ token with FeePolicy := some policy }, true)
    else
      match token.FeePolicy with
      | none =>
        .ok ({ token with
               FeePolicy := some { policy with TargetAddress := token.GenesisAccount } }, true)
      | some old =>
        .ok ({ token with
               FeePolicy := some { policy with TargetAddress := old.TargetAddress } }, true)

/-- `tokenUpdate`. -/
def tokenUpdate (ctx : Ctx) (st : State) (params : List String) : Response × State :=
  if params.length ≠ 1 then (.error "incorrect number of parameters. expecting 1", st)
  else
    match ValidateTokenCode (param params 0) with
    | .error e => (.error e.msg, st)
    | .ok code =>
    match ctx.kid with
    | .error e => (.error e.msg, st)
    | .ok _ =>
    match TokenStub.GetToken st code with
    | .error e => (responseError e "failed to get the token", st)
    | .ok token =>
    match getValidatedTokenMeta ctx code with
    | .error e => (.error e.msg, st)
    | .ok (_, _, _, policy) =>
    match tokenUpdatePolicy st token policy with
    | .error r => (r, st)
    | .ok (token1, update) =>
      if update then
        match GetTime ctx with
        | .error e => (responseError e "failed to get the timestamp", st)
        | .ok ts =>
          let token2 : Token := { token1 with UpdatedTime := some ts }
          (.success (.token token2), TokenStub.PutToken st token2)
      else (.success (.token token1), st)

/-- Every token row that has a fee policy in `st` is a token row with a fee
policy in `st1`. -/
def FeePolicyKept (st st1 : State) : Prop :=
  ∀ key t, kvGet st.tokens key = some t → t.FeePolicy ≠ none →
    ∃ t1, kvGet st1.tokens key = some t1 ∧ t1.FeePolicy ≠ none

/-! ## The amounts of recorded fees -/

/-- Every fee row of `st1` is a row of `st` under the same key, or has an
amount that satisfies `P`: the rows recorded on the way from `st` to `st1`
have amounts that satisfy `P`. -/
def NewFeeRows (P : Int → Prop) (st st1 : State) : Prop :=
  ∀ key f, kvGet st1.fees key = some f → kvGet st.fees key = some f ∨ P f.Amount

/-- The store `sampleEscrowState` with a balance `B` of 10. -/
def sampleEscrowLedger : State :=
  BalanceStub.PutBalance sampleEscrowState (sampleBalance "B" 10)

/-! ## Audit-log consistency -/

/-- The log `log` is consistent with the mutation of the balance `before` that
left the state `st1`: it is a log of that account, it is stored in `st1`, its
amount is the account's balance stored in `st1`, and that amount is the balance
before plus the log's diff minus the log's fee (a missing fee taken as 0). -/
def AuditConsistent (before : Balance) (st1 : State) (log : BalanceLog) : Prop :=
  log.DOCTYPEID = before.DOCTYPEID
  ∧ kvGet st1.balanceLogs (BalanceStub.CreateLogKey log.DOCTYPEID (log.CreatedTime.getD 0))
      = some log
  ∧ (BalanceStub.GetBalance st1 log.DOCTYPEID).map (fun b => b.Amount) = .ok log.Amount
  ∧ log.Amount = before.Amount + log.Diff - log.Fee.getD 0

/-! ## Repeated refunds -/

/-- `payRefund` called in each of the given transactions, in turn, each with
its own parameters: the response of every call and the state it left. -/
def payRefundRounds : List (Ctx × List String) → State → List (Response × State)
  | [], _ => []
  | (ctx, params) :: rest, st =>
    payRefund ctx st params :: payRefundRounds rest (payRefund ctx st params).2

/-- The fee portion attached to the refund row of the transaction `ctx`, read
from the state `st1` the transaction left: the negation of the fee of the pay
row stored under the id of the transaction (refund rows carry the refunded fee
negated); 0 when there is no such row. -/
def refundedFee (ctx : Ctx) (st1 : State) : Int :=
  match GetTime ctx with
  | .ok ts =>
    match PayStub.GetPay st1 (toString ts ++ ctx.txID) with
    | .ok row => -row.Fee
    | .error _ => 0
  | .error _ => 0

/-- The fee portions of the refund rows of the successive calls. -/
def refundedFees : List (Ctx × List String) → State → List Int
  | [], _ => []
  | (ctx, params) :: rest, st =>
    refundedFee ctx (payRefund ctx st params).2
      :: refundedFees rest (payRefund ctx st params).2

/-- The amounts requested by the successive calls (`params[1]`; 0 for a text
that is no amount). -/
def refundRequests (calls : List (Ctx × List String)) : List Int :=
  calls.map (fun c =>
    match NewAmount (param c.2 1) with
    | .ok r => r
    | .error _ => 0)

/-! ## The total value of a ledger -/

/-- The sum of `f` over the rows of a table. -/
def kvSum {V : Type} (f : V → Int) (m : KV V) : Int := (m.map (fun p => f p.2)).sum

/-- The total value of a ledger: the sum of all balances, plus the amounts and
fees of all pending balances, plus the amounts of all Fee rows, plus the
amounts of all Pay rows. -/
def totalValue (st : State) : Int :=
  kvSum (fun b => b.Amount) st.balances
    + kvSum (fun pb => pb.Amount + pb.Fee.getD 0) st.pendingBalances
    + kvSum (fun f => f.Amount) st.fees
    + kvSum (fun c => c.Amount) st.pays

/-- No key occurs twice in a table of the ledger (the world state is a map). -/
def KeysNodup (st : State) : Prop :=
  (st.balances.map Prod.fst).Nodup ∧ (st.pendingBalances.map Prod.fst).Nodup
    ∧ (st.fees.map Prod.fst).Nodup ∧ (st.pays.map Prod.fst).Nodup

/-! # Properties -/

/-! ## The tables -/

theorem kvGet_kvDel {V : Type} (m : KV V) (k k' : String) :
    kvGet (kvDel m k) k' = if k = k' then none else kvGet m k' := by
  induction m with
  | nil => simp [kvDel, kvGet]
  | cons p rest ih =>
    obtain ⟨a, v⟩ := p
    by_cases hak : a = k
    · subst hak
      by_cases hk : a = k'
      · subst hk
        simp [kvDel, ih]
      · simp [kvDel, ih, hk, kvGet]
    · by_cases hk : k = k'
      · subst hk
        simp [kvDel, hak, kvGet, ih]
      · simp [kvDel, hak, kvGet, ih, hk]

theorem kvGet_kvPut {V : Type} (m : KV V) (k k' : String) (v : V) :
    kvGet (kvPut m k v) k' = if k = k' then some v else kvGet m k' := by
  simp only [kvPut, kvGet]
  by_cases hk : k = k'
  · simp [hk]
  · simp [hk, kvGet_kvDel]

theorem append_left_cancel_str (p a b : String) (h : p ++ a = p ++ b) : a = b := by
  have h1 := congrArg String.data h
  simp only [String.data_append, List.append_cancel_left_eq] at h1
  exact String.ext h1

theorem BalanceStub.CreateKey_inj (a b : String)
    (h : BalanceStub.CreateKey a = BalanceStub.CreateKey b) : a = b :=
  append_left_cancel_str _ _ _ h

theorem int_sub_sub (x y z : Int) : x + -y + -z = x - (y + z) := by omega

/-- Recording a fee succeeds once the transaction time is known, and writes
to the fee table only. -/
theorem FeeStub.CreateFee_frame (ctx : Ctx) (st : State) (addr : String) (amount : Int)
    (ts : Int) (hts : GetTime ctx = .ok ts) :
    ∃ r fees1, FeeStub.CreateFee ctx st addr amount = (.ok r, { st with fees := fees1 }) := by
  unfold FeeStub.CreateFee
  by_cases hf : amount = 0
  · exact ⟨none, st.fees, by simp [hf]⟩
  · simp only [hf, if_false, hts]
    exact ⟨_, _, rfl⟩

/-! ## Instant transfer -/

/-- C1. An instant transfer (no pending time, or one not after the transaction
time) between two distinct balances succeeds once the transaction time is
known, leaves the sender with its balance minus `amount + fee` and the
receiver with its balance plus `amount`, and these are the rows the store
then holds. -/
theorem transfer_instant_conservation (ctx : Ctx) (st : State) (sender receiver : Balance)
    (amount fee : Int) (memo : String) (pendingTime : Option Int) (ts : Int)
    (hts : GetTime ctx = .ok ts)
    (hinst : ∀ pt, pendingTime = some pt → pt ≤ ts)
    (hne : sender.GetID ≠ receiver.GetID) :
    ∃ log sender1 receiver1 st1,
      BalanceStub.Transfer ctx st sender receiver amount fee memo pendingTime
        = (.ok (log, sender1, receiver1), st1)
      ∧ sender1.Amount = sender.Amount - (amount + fee)
      ∧ receiver1.Amount = receiver.Amount + amount
      ∧ BalanceStub.GetBalance st1 sender.GetID = .ok sender1
      ∧ BalanceStub.GetBalance st1 receiver.GetID = .ok receiver1 := by
  have hl : timeLocked pendingTime ts = false := by
    cases pendingTime with
    | none => rfl
    | some pt =>
      have := hinst pt rfl
      simp only [timeLocked, decide_eq_false_iff_not, not_lt, ge_iff_le, gt_iff_lt]
      exact this
  have hk : BalanceStub.CreateKey sender.DOCTYPEID ≠ BalanceStub.CreateKey receiver.DOCTYPEID :=
    fun h => hne (BalanceStub.CreateKey_inj _ _ h)
  unfold BalanceStub.Transfer
  rw [hts]
  simp only [hl, Bool.false_eq_true, if_false]
  by_cases hf : fee = 0
  · simp only [FeeStub.CreateFee, hf, if_true]
    refine ⟨_, _, _, _, rfl, ?_, rfl, ?_, ?_⟩
    · exact int_sub_sub sender.Amount amount 0
    · simp [BalanceStub.GetBalance, BalanceStub.PutBalanceLog, BalanceStub.PutBalance,
        kvGet_kvPut, Balance.GetID]
    · simp [BalanceStub.GetBalance, BalanceStub.PutBalanceLog, BalanceStub.PutBalance,
        kvGet_kvPut, Balance.GetID, hk]
  · simp only [FeeStub.CreateFee, hf, if_false, hts]
    refine ⟨_, _, _, _, rfl, ?_, rfl, ?_, ?_⟩
    · exact int_sub_sub sender.Amount amount fee
    · simp [BalanceStub.GetBalance, BalanceStub.PutBalanceLog, BalanceStub.PutBalance,
        FeeStub.PutFee, kvGet_kvPut, Balance.GetID]
    · simp [BalanceStub.GetBalance, BalanceStub.PutBalanceLog, BalanceStub.PutBalance,
        FeeStub.PutFee, kvGet_kvPut, Balance.GetID, hk]

/-- C1 at a concrete transfer of 30 with fee 3 from A (100) to B (5). -/
theorem transfer_instant_conservation_witness :
    ∃ log sender1 receiver1 st1,
      BalanceStub.Transfer sampleCtx emptyState (sampleBalance "A" 100) (sampleBalance "B" 5)
          30 3 "" none = (.ok (log, sender1, receiver1), st1)
      ∧ sender1.Amount = (sampleBalance "A" 100).Amount - (30 + 3)
      ∧ receiver1.Amount = (sampleBalance "B" 5).Amount + 30
      ∧ BalanceStub.GetBalance st1 (sampleBalance "A" 100).GetID = .ok sender1
      ∧ BalanceStub.GetBalance st1 (sampleBalance "B" 5).GetID = .ok receiver1 :=
  transfer_instant_conservation sampleCtx emptyState (sampleBalance "A" 100)
    (sampleBalance "B" 5) 30 3 "" none 1000 rfl (by simp) (by decide)

/-! ## Escrow deposit and cancel -/

/-- The amount an escrow holds: `amount`, plus the fee when there is one. -/
theorem appliedAmount_eq (amount : Int) (fee : Option Int) :
    appliedAmount amount fee = amount + fee.getD 0 := by
  cases fee <;> simp [appliedAmount]

/-- What `Deposit` does once the transaction time and the contract's expiry
time are known: the pending balance it stores and the sender's balance it
stores. -/
theorem BalanceStub.Deposit_spec (ctx : Ctx) (st : State) (id : String) (sender : Balance)
    (con : Contract) (amount : Int) (fee : Option Int) (memo : String) (ts expiry : Int)
    (hts : GetTime ctx = .ok ts) (hexp : con.expiryTime = .ok expiry) :
    ∃ log st1,
      BalanceStub.Deposit ctx st id sender con amount fee memo
        = (.ok (log, { sender with Amount := sender.Amount + -(amount + fee.getD 0),
                                   UpdatedTime := some ts }), st1)
      ∧ BalanceStub.GetBalance st1 sender.GetID
          = .ok { sender with Amount := sender.Amount + -(amount + fee.getD 0),
                              UpdatedTime := some ts }
      ∧ BalanceStub.GetPendingBalance st1 id
          = .ok ((NewPendingBalance id (.balance sender) (.contract con) amount fee memo
                    (some expiry)).created ts) := by
  unfold BalanceStub.Deposit
  rw [hts, hexp]
  simp only [appliedAmount_eq]
  refine ⟨_, _, rfl, ?_, ?_⟩
  · simp [BalanceStub.GetBalance, BalanceStub.PutBalanceLog, BalanceStub.PutBalance,
      kvGet_kvPut, Balance.GetID]
  · simp [BalanceStub.GetPendingBalance, BalanceStub.PutBalanceLog, BalanceStub.PutBalance,
      BalanceStub.PutPendingBalance, kvGet_kvPut, NewPendingBalance, PendingBalance.created]

/-- What `Withdraw` does once the transaction time is known and the owner's
balance exists (stored under its own id): the owner's stored balance grows by
the escrowed total, and the pending row is gone. -/
theorem BalanceStub.Withdraw_spec (ctx : Ctx) (st : State) (pb : PendingBalance) (bal : Balance)
    (ts : Int) (hts : GetTime ctx = .ok ts)
    (hbal : BalanceStub.GetBalance st pb.Account = .ok bal)
    (hid : bal.DOCTYPEID = pb.Account) :
    ∃ log st1 bal1,
      BalanceStub.Withdraw ctx st pb = (.ok log, st1)
      ∧ BalanceStub.GetBalance st1 pb.Account = .ok bal1
      ∧ bal1.Amount = bal.Amount + (pb.Amount + pb.Fee.getD 0)
      ∧ kvGet st1.pendingBalances (BalanceStub.CreatePendingKey pb.DOCTYPEID) = none := by
  unfold BalanceStub.Withdraw
  rw [hts, hbal]
  simp only [appliedAmount_eq]
  refine ⟨_, _, { bal with Amount := bal.Amount + (pb.Amount + pb.Fee.getD 0),
                           UpdatedTime := some ts }, rfl, ?_, rfl, ?_⟩
  · simp [BalanceStub.GetBalance, BalanceStub.DelPendingBalance, BalanceStub.PutBalanceLog,
      BalanceStub.PutBalance, kvGet_kvPut, hid]
  · simp [BalanceStub.DelPendingBalance, kvGet_kvDel]

/-- C7. `Deposit` of `amount` with optional `fee` debits the sender by
`amount + fee` and stores a pending balance under `id`; `Withdraw` of that
pending balance (in a later transaction) puts the sender's stored balance
back to exactly what it was and deletes the pending row. -/
theorem deposit_withdraw_round_trip (ctx1 ctx2 : Ctx) (st : State) (id : String)
    (sender : Balance) (con : Contract) (amount : Int) (fee : Option Int) (memo : String)
    (ts1 ts2 expiry : Int)
    (hts1 : GetTime ctx1 = .ok ts1) (hexp : con.expiryTime = .ok expiry)
    (hts2 : GetTime ctx2 = .ok ts2) :
    ∃ log1 sender1 st1 pb log2 st2 sender2,
      BalanceStub.Deposit ctx1 st id sender con amount fee memo = (.ok (log1, sender1), st1)
      ∧ sender1.Amount = sender.Amount - (amount + fee.getD 0)
      ∧ BalanceStub.GetBalance st1 sender.GetID = .ok sender1
      ∧ BalanceStub.GetPendingBalance st1 id = .ok pb
      ∧ BalanceStub.Withdraw ctx2 st1 pb = (.ok log2, st2)
      ∧ BalanceStub.GetBalance st2 sender.GetID = .ok sender2
      ∧ sender2.Amount = sender.Amount
      ∧ kvGet st2.pendingBalances (BalanceStub.CreatePendingKey id) = none := by
  obtain ⟨log1, st1, hd, hb1, hp1⟩ :=
    BalanceStub.Deposit_spec ctx1 st id sender con amount fee memo ts1 expiry hts1 hexp
  obtain ⟨log2, st2, sender2, hw, hb2, hamt, hp2⟩ :=
    BalanceStub.Withdraw_spec ctx2 st1
      ((NewPendingBalance id (.balance sender) (.contract con) amount fee memo
        (some expiry)).created ts1) _ ts2 hts2 hb1 rfl
  refine ⟨log1, _, st1, _, log2, st2, sender2, hd, ?_, hb1, hp1, hw, hb2, ?_, hp2⟩
  · exact (Int.sub_eq_add_neg).symm
  · rw [hamt]
    exact Int.neg_add_cancel_right _ _

/-- C7 at a concrete escrow of 40 with fee 2 from a balance of 100. -/
theorem deposit_withdraw_round_trip_witness :
    ∃ log1 sender1 st1 pb log2 st2 sender2,
      BalanceStub.Deposit sampleCtx emptyState "tx0" (sampleBalance "A" 100)
          { id := "c1", expiryTime := .ok 2000 } 40 (some 2) "memo" = (.ok (log1, sender1), st1)
      ∧ sender1.Amount = (sampleBalance "A" 100).Amount - (40 + (some 2 : Option Int).getD 0)
      ∧ BalanceStub.GetBalance st1 (sampleBalance "A" 100).GetID = .ok sender1
      ∧ BalanceStub.GetPendingBalance st1 "tx0" = .ok pb
      ∧ BalanceStub.Withdraw sampleCtx st1 pb = (.ok log2, st2)
      ∧ BalanceStub.GetBalance st2 (sampleBalance "A" 100).GetID = .ok sender2
      ∧ sender2.Amount = (sampleBalance "A" 100).Amount
      ∧ kvGet st2.pendingBalances (BalanceStub.CreatePendingKey "tx0") = none :=
  deposit_withdraw_round_trip sampleCtx sampleCtx emptyState "tx0" (sampleBalance "A" 100)
    { id := "c1", expiryTime := .ok 2000 } 40 (some 2) "memo" 1000 1000 2000 rfl rfl rfl

/-! ## Fees -/

/-- `MulRat` is the floor of the exact product. -/
theorem Amount.MulRat_eq_floor (a : Int) (r : ℚ) :
    Amount.MulRat a r = ⌊(a : ℚ) * r⌋ := by
  unfold Amount.MulRat
  have h : (a : ℚ) * r = ((a * r.num : Int) : ℚ) / ((r.den : Nat) : ℚ) := by
    have hd : (r.den : ℚ) ≠ 0 := by exact_mod_cast r.den_nz
    field_simp
    rw [mul_assoc, Rat.mul_den_eq_num]
  rw [h, Rat.floor_intCast_div_natCast]
  rfl

/-- C8. For a token with a fee policy, `CalcFee` is zero for every operation
kind and amount when the payer's address string is the policy's target
address or the token's genesis account. -/
theorem calcFee_exempt (st : State) (payer : Address) (fn : String) (amount : Int)
    (token : Token) (policy : FeePolicy)
    (htok : TokenStub.GetToken st payer.Code = .ok token)
    (hpol : token.FeePolicy = some policy)
    (hex : payer.String = policy.TargetAddress ∨ payer.String = token.GenesisAccount) :
    FeeStub.CalcFee st payer fn amount = .ok 0 := by
  unfold FeeStub.CalcFee
  rw [htok]
  simp only [hpol]
  cases hr : policy.Rates.lookup fn with
  | none => simp [hr]
  | some feeRate =>
    simp only [hr]
    rcases hex with h | h
    · simp [h]
    · simp [h]

/-- C9. `CalcFee` returns the reference fee for every payer, operation kind
and amount, and that fee is never negative. -/
theorem calcFee_eq_reference (st : State) (payer : Address) (fn : String) (amount : Int)
    (token : Token) (htok : TokenStub.GetToken st payer.Code = .ok token) :
    FeeStub.CalcFee st payer fn amount = .ok (calcFeeReference token payer.String fn amount)
    ∧ 0 ≤ calcFeeReference token payer.String fn amount := by
  unfold FeeStub.CalcFee calcFeeReference
  rw [htok]
  cases hp : token.FeePolicy with
  | none => simp [hp]
  | some policy =>
    simp only [hp]
    cases hr : policy.Rates.lookup fn with
    | none => simp [hr]
    | some feeRate =>
      simp only [hr, Amount.MulRat_eq_floor]
      by_cases h1 : payer.String = policy.TargetAddress
      · simp [h1]
      · by_cases h2 : payer.String = token.GenesisAccount
        · simp [h2]
        · have h1' : ¬ policy.TargetAddress = payer.String := fun h => h1 h.symm
          have h2' : ¬ token.GenesisAccount = payer.String := fun h => h2 h.symm
          simp only [ne_eq, h1', h2', not_false_eq_true, and_self, if_true, h1, h2, or_self,
            if_false]
          by_cases hq : ⌊(amount : ℚ) * feeRate.Rate⌋ < 0
          · simp [hq]
          · by_cases hm : feeRate.MaxAmount > 0 ∧ ⌊(amount : ℚ) * feeRate.Rate⌋ > feeRate.MaxAmount
            · simp only [hq, if_false, hm, and_self, if_true, true_and]
              exact le_of_lt hm.1
            · simp only [hq, if_false, hm, true_and]
              exact not_lt.mp hq
/-- C8 for a transfer of 1000 by the policy's target address. -/
theorem calcFee_exempt_witness :
    TokenStub.GetToken sampleTokenState sampleAddress.Code = .ok sampleToken
    ∧ FeeStub.CalcFee sampleTokenState sampleAddress "transfer" 1000 = .ok 0 :=
  ⟨rfl, calcFee_exempt sampleTokenState sampleAddress "transfer" 1000 sampleToken
    { TargetAddress := "ABC01000000000000000000000000000000000000000000000000",
      Rates := [("transfer", ⟨rateTenth, 0⟩), ("pay", ⟨rateHundredth, 5⟩)] }
    rfl rfl (Or.inl (by decide))⟩

/-- C9 for a transfer of 35 by an address that is not exempt. -/
theorem calcFee_eq_reference_witness :
    TokenStub.GetToken sampleTokenState "ABC" = .ok sampleToken
    ∧ FeeStub.CalcFee sampleTokenState { Code := "ABC", Typ := 1, Hash := [] } "transfer" 35
        = .ok (calcFeeReference sampleToken
            (Address.String { Code := "ABC", Typ := 1, Hash := [] }) "transfer" 35)
    ∧ 0 ≤ calcFeeReference sampleToken
            (Address.String { Code := "ABC", Typ := 1, Hash := [] }) "transfer" 35 :=
  ⟨rfl, calcFee_eq_reference sampleTokenState { Code := "ABC", Typ := 1, Hash := [] }
    "transfer" 35 sampleToken rfl⟩

/-- Sample fees under `sampleToken`: 10% of 35 is 3, 1% of 3500 is capped at 5,
and a negative product gives 0. -/
theorem calcFee_samples :
    FeeStub.CalcFee sampleTokenState { Code := "ABC", Typ := 1, Hash := [] } "transfer" 35 = .ok 3
    ∧ FeeStub.CalcFee sampleTokenState { Code := "ABC", Typ := 1, Hash := [] } "pay" 3500 = .ok 5
    ∧ FeeStub.CalcFee sampleTokenState { Code := "ABC", Typ := 1, Hash := [] } "transfer" (-35)
        = .ok 0 := by
  decide
/-! ## Addresses -/

theorem runeLen_pos (c : Char) : 0 < runeLen c := by
  unfold runeLen
  split
  · omega
  · split
    · omega
    · split <;> omega

theorem runeLen_ascii (c : Char) (h : c.toNat < 128) : runeLen c = 1 := by
  unfold runeLen
  rw [if_pos h]

theorem replacement_not_ascii : ¬ (Char.ofNat 0xFFFD).toNat < 128 := by decide

/-- The byte length of an ASCII text is its number of characters. -/
theorem bytes_ascii : ∀ cs : List Char, (∀ c ∈ cs, c.toNat < 128) →
    (cs.map runeLen).sum = cs.length
  | [], _ => rfl
  | c :: cs, h => by
    rw [List.map_cons, List.sum_cons, List.length_cons,
      bytes_ascii cs (fun x hx => h x (List.mem_cons_of_mem _ hx)),
      runeLen_ascii c (h c (List.mem_cons_self _ _))]
    omega

theorem byteLen_ascii (s : String) (h : ∀ c ∈ s.data, c.toNat < 128) :
    byteLen s = s.length :=
  bytes_ascii s.data h

/-- A byte slice of an ASCII text is the slice by characters. -/
theorem byteSliceFrom_ascii : ∀ (cs : List Char) (i j off : Nat),
    (∀ c ∈ cs, c.toNat < 128) →
    byteSliceFrom i j off cs = (cs.take (j - off)).drop (i - off)
  | [], _, _, _, _ => by simp [byteSliceFrom]
  | c :: cs, i, j, off, h => by
    have ih := byteSliceFrom_ascii cs i j (off + 1) (fun x hx => h x (List.mem_cons_of_mem _ hx))
    unfold byteSliceFrom
    rw [runeLen_ascii c (h c (List.mem_cons_self _ _)), ih]
    by_cases hc : i ≤ off ∧ off + 1 ≤ j
    · rw [if_pos hc]
      have e1 : j - off = (j - (off + 1)) + 1 := by omega
      have e2 : i - off = 0 := by omega
      have e3 : i - (off + 1) = 0 := by omega
      rw [e1, e2, e3, List.take_succ_cons, List.drop_zero, List.drop_zero]
      rfl
    · rw [if_neg hc]
      have e0 : min (off + 1) j - max off i = 0 := by omega
      rw [e0, List.replicate_zero, List.nil_append]
      by_cases hj : j ≤ off
      · have e1 : j - off = 0 := by omega
        have e2 : j - (off + 1) = 0 := by omega
        rw [e1, e2, List.take_zero, List.take_zero, List.drop_nil, List.drop_nil]
      · have e1 : j - off = (j - (off + 1)) + 1 := by omega
        have e2 : i - off = (i - (off + 1)) + 1 := by omega
        rw [e1, e2, List.take_succ_cons, List.drop_succ_cons]

theorem byteSlice_ascii (s : String) (h : ∀ c ∈ s.data, c.toNat < 128) (i j : Nat) :
    byteSlice s i j = strSlice s i j := by
  unfold byteSlice strSlice
  rw [byteSliceFrom_ascii s.data i j 0 h, Nat.sub_zero, Nat.sub_zero]

/-- No byte at or after the end of the range is in the slice. -/
theorem byteSliceFrom_after : ∀ (cs : List Char) (i j off : Nat), j ≤ off →
    byteSliceFrom i j off cs = []
  | [], _, _, _, _ => rfl
  | c :: cs, i, j, off, h => by
    have hp := runeLen_pos c
    unfold byteSliceFrom
    rw [byteSliceFrom_after cs i j (off + runeLen c) (by omega), if_neg (by omega)]
    have e0 : min (off + runeLen c) j - max off i = 0 := by omega
    rw [e0]
    rfl

/-- A range from at or before the start of a text up to its end holds the
whole text. -/
theorem byteSliceFrom_whole : ∀ (cs : List Char) (i off : Nat), i ≤ off →
    byteSliceFrom i (off + (cs.map runeLen).sum) off cs = cs
  | [], _, _, _ => rfl
  | c :: cs, i, off, h => by
    have ih := byteSliceFrom_whole cs i (off + runeLen c) (by omega)
    unfold byteSliceFrom
    rw [List.map_cons, List.sum_cons, ← Nat.add_assoc, ih, if_pos ⟨h, by omega⟩]
    rfl

/-- The range up to the end of a first part holds that part. -/
theorem byteSliceFrom_prefix : ∀ (p t : List Char) (off : Nat),
    byteSliceFrom 0 (off + (p.map runeLen).sum) off (p ++ t) = p
  | [], t, off => by
    rw [List.map_nil, List.sum_nil, Nat.add_zero, List.nil_append]
    exact byteSliceFrom_after t 0 off off (Nat.le_refl _)
  | c :: p, t, off => by
    have ih := byteSliceFrom_prefix p t (off + runeLen c)
    rw [List.cons_append]
    unfold byteSliceFrom
    rw [List.map_cons, List.sum_cons, ← Nat.add_assoc, ih, if_pos ⟨Nat.zero_le _, by omega⟩]
    rfl

/-- A range up to the end of a text whose slice is ASCII starts at a rune
boundary, every rune after it is one ASCII byte, and the slice is the text
after that boundary. -/
theorem byteSliceFrom_tail : ∀ (cs : List Char) (i off : Nat), off ≤ i →
    i ≤ off + (cs.map runeLen).sum →
    (∀ c ∈ byteSliceFrom i (off + (cs.map runeLen).sum) off cs, c.toNat < 128) →
    ∃ p t, cs = p ++ t ∧ off + (p.map runeLen).sum = i ∧ (∀ c ∈ t, c.toNat < 128)
      ∧ byteSliceFrom i (off + (cs.map runeLen).sum) off cs = t
  | [], i, off, h1, h2, _ => by
    refine ⟨[], [], rfl, ?_, (fun _ hc => absurd hc (List.not_mem_nil _)), rfl⟩
    simp only [List.map_nil, List.sum_nil, Nat.add_zero] at h2 ⊢
    omega
  | c :: cs, i, off, h1, h2, hall => by
    have hp := runeLen_pos c
    rw [List.map_cons, List.sum_cons, ← Nat.add_assoc] at h2 hall ⊢
    unfold byteSliceFrom at hall ⊢
    by_cases hi : i ≤ off
    · have hcond : i ≤ off ∧ off + runeLen c ≤ off + runeLen c + (cs.map runeLen).sum :=
        ⟨hi, by omega⟩
      rw [if_pos hcond, byteSliceFrom_whole cs i (off + runeLen c) (by omega)] at hall ⊢
      refine ⟨[], c :: cs, rfl, ?_, hall, rfl⟩
      simp only [List.map_nil, List.sum_nil, Nat.add_zero]
      omega
    · have hcond : ¬ (i ≤ off ∧ off + runeLen c ≤ off + runeLen c + (cs.map runeLen).sum) :=
        fun h => hi h.1
      rw [if_neg hcond] at hall ⊢
      by_cases hcut : i < off + runeLen c
      · exfalso
        apply replacement_not_ascii
        apply hall
        apply List.mem_append_left
        rw [List.mem_replicate]
        refine ⟨?_, rfl⟩
        omega
      · have e0 : min (off + runeLen c) (off + runeLen c + (cs.map runeLen).sum) - max off i
            = 0 := by omega
        rw [e0, List.replicate_zero, List.nil_append] at hall ⊢
        obtain ⟨p, t, hpt, hb, ht, hs⟩ := byteSliceFrom_tail cs i (off + runeLen c) (by omega)
          h2 hall
        refine ⟨c :: p, t, by rw [hpt]; rfl, ?_, ht, hs⟩
        rw [List.map_cons, List.sum_cons]
        omega


theorem fromHexChar_hexDigitUpper : ∀ n, n < 16 → fromHexChar (hexDigitUpper n) = some n := by
  decide

theorem toUpper_hexDigitUpper :
    ∀ n, n < 16 → unicodeToUpper (hexDigitUpper n) = hexDigitUpper n := by
  decide

theorem hexDigitUpper_ascii : ∀ n, n < 16 → (hexDigitUpper n).toNat < 128 := by
  decide

theorem fromHexChar_lt (c : Char) (x : Nat) (h : fromHexChar c = some x) : x < 16 := by
  unfold fromHexChar at h
  split at h
  · rename_i hc
    have h2 : c.toNat ≤ 57 := hc.2
    have h1 : 48 ≤ c.toNat := hc.1
    simp only [Option.some.injEq] at h
    omega
  · split at h
    · rename_i hc
      have h2 : c.toNat ≤ 102 := hc.2
      have h1 : 97 ≤ c.toNat := hc.1
      simp only [Option.some.injEq] at h
      omega
    · split at h
      · rename_i hc
        have h2 : c.toNat ≤ 70 := hc.2
        have h1 : 65 ≤ c.toNat := hc.1
        simp only [Option.some.injEq] at h
        omega
      · simp at h

/-- Decoded bytes are bytes. -/
theorem hexDecode_lt : ∀ (cs : List Char) (bs : List Nat),
    hexDecode cs = some bs → ∀ b ∈ bs, b < 256
  | [], bs, h => by
    simp only [hexDecode, Option.some.injEq] at h
    subst h
    simp
  | [_], bs, h => by simp [hexDecode] at h
  | a :: b :: rest, bs, h => by
    unfold hexDecode at h
    cases ha : fromHexChar a with
    | none => simp [ha] at h
    | some x =>
      cases hb : fromHexChar b with
      | none => simp [ha, hb] at h
      | some y =>
        cases hr : hexDecode rest with
        | none => simp [ha, hb, hr] at h
        | some r =>
          simp only [ha, hb, hr, Option.some.injEq] at h
          subst h
          intro z hz
          rcases List.mem_cons.mp hz with hz | hz
          · have hx := fromHexChar_lt a x ha
            have hy := fromHexChar_lt b y hb
            omega
          · exact hexDecode_lt rest r hr z hz

theorem hexEncodeUpper_cons (b : Nat) (bs : List Nat) :
    hexEncodeUpper (b :: bs)
      = hexDigitUpper (b / 16) :: hexDigitUpper (b % 16) :: hexEncodeUpper bs := by
  simp [hexEncodeUpper, hexByteUpper]

theorem hexEncodeUpper_length (bs : List Nat) : (hexEncodeUpper bs).length = 2 * bs.length := by
  induction bs with
  | nil => rfl
  | cons b bs ih =>
    rw [hexEncodeUpper_cons]
    simp only [List.length_cons, ih]
    omega

/-- Decoding the upper-case hex of a byte string gives the bytes back. -/
theorem hexDecode_hexEncodeUpper (bs : List Nat) (h : ∀ b ∈ bs, b < 256) :
    hexDecode (hexEncodeUpper bs) = some bs := by
  induction bs with
  | nil => rfl
  | cons b bs ih =>
    have hb : b < 256 := h b (List.mem_cons_self _ _)
    have ih' := ih (fun x hx => h x (List.mem_cons_of_mem _ hx))
    rw [hexEncodeUpper_cons]
    unfold hexDecode
    rw [fromHexChar_hexDigitUpper (b / 16) (by omega),
      fromHexChar_hexDigitUpper (b % 16) (by omega), ih']
    simp only [Option.some.injEq, List.cons.injEq, and_true]
    omega

theorem map_toUpper_hexEncodeUpper (bs : List Nat) (h : ∀ b ∈ bs, b < 256) :
    (hexEncodeUpper bs).map unicodeToUpper = hexEncodeUpper bs := by
  induction bs with
  | nil => rfl
  | cons b bs ih =>
    have hb : b < 256 := h b (List.mem_cons_self _ _)
    have ih' := ih (fun x hx => h x (List.mem_cons_of_mem _ hx))
    rw [hexEncodeUpper_cons]
    simp only [List.map_cons, ih']
    rw [toUpper_hexDigitUpper (b / 16) (by omega), toUpper_hexDigitUpper (b % 16) (by omega)]

theorem hexEncodeUpper_ascii (bs : List Nat) (h : ∀ b ∈ bs, b < 256) :
    ∀ c ∈ hexEncodeUpper bs, c.toNat < 128 := by
  induction bs with
  | nil => exact fun _ hc => absurd hc (List.not_mem_nil _)
  | cons b bs ih =>
    have hb : b < 256 := h b (List.mem_cons_self _ _)
    have ih' := ih (fun x hx => h x (List.mem_cons_of_mem _ hx))
    rw [hexEncodeUpper_cons]
    intro c hc
    rcases List.mem_cons.mp hc with rfl | hc
    · exact hexDigitUpper_ascii (b / 16) (by omega)
    · rcases List.mem_cons.mp hc with rfl | hc
      · exact hexDigitUpper_ascii (b % 16) (by omega)
      · exact ih' c hc

theorem isCodeChar_le (c : Char) (h : isCodeChar c = true) : c.toNat ≤ 90 := by
  simp only [isCodeChar, decide_eq_true_eq] at h
  rcases h with h | h
  · exact h.2
  · have h2 : c.toNat ≤ 57 := h.2
    omega

theorem isCodeChar_ascii (c : Char) (h : isCodeChar c = true) : c.toNat < 128 := by
  have := isCodeChar_le c h
  omega

theorem toUpper_of_isCodeChar (c : Char) (h : isCodeChar c = true) : unicodeToUpper c = c := by
  have hle := isCodeChar_le c h
  unfold unicodeToUpper Char.toUpper
  simp only []
  rw [if_neg (by omega), if_neg (by omega), if_neg]
  omega

theorem map_toUpper_code (cs : List Char) (h : cs.all isCodeChar = true) :
    cs.map unicodeToUpper = cs := by
  induction cs with
  | nil => rfl
  | cons c cs ih =>
    simp only [List.all_cons, Bool.and_eq_true] at h
    simp only [List.map_cons, toUpper_of_isCodeChar c h.1, ih h.2]

/-- A code in canonical form is unchanged by `ValidateTokenCode`. -/
theorem ValidateTokenCode_canonical (code : String) (h : _validateTokenCode code = true) :
    ValidateTokenCode code = .ok code := by
  have hall : code.data.all isCodeChar = true := by
    simp only [_validateTokenCode, Bool.and_eq_true] at h
    exact h.2
  have hup : stringsMap unicodeToUpper code = code := by
    unfold stringsMap
    rw [map_toUpper_code _ hall]
  unfold ValidateTokenCode ValidateTokenCodeWith
  simp [hup, h]

theorem Address.String_data (a : Address) :
    a.String.data = a.Code.data ++ hexEncodeUpper (a.Typ :: a.Hash) := by
  simp [Address.String, String.data_append, hexEncodeUpper, List.flatMap_cons]

/-- C10. For a token code in canonical form, a type Personal or Joint and any
identifier, parsing the string of the derived address succeeds and returns an
address equal to the derived one. -/
theorem address_round_trip (H : Nat → List Nat → List Nat) (hH : ShakeOK H)
    (code : String) (hcode : _validateTokenCode code = true)
    (typ : Nat) (htyp : typ = AccountTypePersonal ∨ typ = AccountTypeJoint)
    (id : String) :
    ∃ a, ParseAddress H (NewAddress H code typ id).String = .ok a
      ∧ a.Equal (NewAddress H code typ id) = true := by
  -- the id bytes
  obtain ⟨idh, hidh, hlen, hlt⟩ : ∃ idh : List Nat,
      NewAddress H code typ id
        = { Code := code, Typ := typ,
            Hash := idh ++ Address.Checksum H { Code := code, Typ := typ, Hash := [] } idh }
      ∧ idh.length = 20 ∧ ∀ b ∈ idh, b < 256 := by
    unfold NewAddress
    cases hd : hexDecodeString id with
    | none => exact ⟨_, rfl, (hH 20 _).1, (hH 20 _).2⟩
    | some bs =>
      by_cases hl : bs.length = 20
      · refine ⟨bs, by simp [hl], hl, ?_⟩
        exact hexDecode_lt _ _ hd
      · exact ⟨H 20 (stringBytes id), by simp [hl], (hH 20 _).1, (hH 20 _).2⟩
  have hck : ∀ h : List Nat,
      Address.Checksum H { Code := code, Typ := typ, Hash := h } idh
        = H 4 (stringBytes code ++ [typ] ++ idh) := fun _ => rfl
  have hcslen : (H 4 (stringBytes code ++ [typ] ++ idh)).length = 4 := (hH 4 _).1
  have hcslt : ∀ b ∈ H 4 (stringBytes code ++ [typ] ++ idh), b < 256 := (hH 4 _).2
  rw [hck] at hidh
  generalize hcs : H 4 (stringBytes code ++ [typ] ++ idh) = cs at hidh hcslen hcslt hck
  rw [hidh]
  have htyp256 : typ < 256 := by
    rcases htyp with h | h <;> simp [h, AccountTypePersonal, AccountTypeJoint]
  have hbytes : ∀ b ∈ typ :: (idh ++ cs), b < 256 := by
    intro b hb
    rcases List.mem_cons.mp hb with hb | hb
    · rw [hb]
      exact htyp256
    · rcases List.mem_append.mp hb with hb | hb
      · exact hlt b hb
      · exact hcslt b hb
  have hall : code.data.all isCodeChar = true := by
    simp only [_validateTokenCode, Bool.and_eq_true] at hcode
    exact hcode.2
  have hdata : (Address.String { Code := code, Typ := typ, Hash := idh ++ cs }).data
      = code.data ++ hexEncodeUpper (typ :: (idh ++ cs)) := Address.String_data _
  have hup : stringsMap unicodeToUpper
        (Address.String { Code := code, Typ := typ, Hash := idh ++ cs })
      = Address.String { Code := code, Typ := typ, Hash := idh ++ cs } := by
    apply String.ext
    simp only [stringsMap, hdata, List.map_append, map_toUpper_code _ hall,
      map_toUpper_hexEncodeUpper _ hbytes]
  have hascii : ∀ c ∈ (Address.String { Code := code, Typ := typ, Hash := idh ++ cs }).data,
      c.toNat < 128 := by
    intro c hc
    rw [hdata] at hc
    rcases List.mem_append.mp hc with hc | hc
    · exact isCodeChar_ascii c (List.all_eq_true.mp hall c hc)
    · exact hexEncodeUpper_ascii _ hbytes c hc
  have hslen : byteLen (Address.String { Code := code, Typ := typ, Hash := idh ++ cs })
      = code.data.length + 50 := by
    rw [byteLen_ascii _ hascii]
    simp only [String.length, hdata, List.length_append, hexEncodeUpper_length,
      List.length_cons, hlen, hcslen]
  have hhex : byteSlice (Address.String { Code := code, Typ := typ, Hash := idh ++ cs })
      (code.data.length + 50 - 50) (code.data.length + 50)
      = String.mk (hexEncodeUpper (typ :: (idh ++ cs))) := by
    rw [byteSlice_ascii _ hascii]
    unfold strSlice
    rw [hdata, List.take_of_length_le (by
      simp only [List.length_append, hexEncodeUpper_length, List.length_cons, hlen, hcslen]
      omega)]
    simp
  have hcodeS : byteSlice (Address.String { Code := code, Typ := typ, Hash := idh ++ cs })
      0 (code.data.length + 50 - 50) = code := by
    rw [byteSlice_ascii _ hascii]
    unfold strSlice
    rw [hdata]
    simp
  have hsuf : cs <:+ idh ++ cs := List.suffix_append idh cs
  have htake : (idh ++ cs).take 20 = idh := by
    rw [← hlen]
    exact List.take_left' rfl
  have hval : Address.ValidateWith unicodeToUpper H
      { Code := code, Typ := typ, Hash := idh ++ cs } = .ok () := by
    unfold Address.ValidateWith
    rw [show ValidateTokenCodeWith unicodeToUpper code = .ok code from
      ValidateTokenCode_canonical code hcode]
    have hrange : ¬ (typ ≤ AccountTypeUnknown ∨ typ > AccountTypeJoint) := by
      rcases htyp with h | h <;>
        simp [h, AccountTypePersonal, AccountTypeJoint, AccountTypeUnknown]
    simp only [hrange, if_false, htake, hck, hsuf, if_true]
  refine ⟨{ Code := code, Typ := typ, Hash := idh ++ cs }, ?_, ?_⟩
  · unfold ParseAddress ParseAddressWith
    simp only [hup, hslen, hhex, hcodeS, hexDecodeString, hexDecode_hexEncodeUpper _ hbytes,
      List.headD_cons, List.tail_cons, hval]
    simp
  · simp [Address.Equal]
theorem sampleCtx_shakeOK : ShakeOK sampleCtx.shake := by
  intro n d
  simp [sampleCtx]

/-- C10 for token `ABC`, a personal address and the identifier `k1`. -/
theorem address_round_trip_witness :
    ShakeOK sampleCtx.shake ∧ _validateTokenCode "ABC" = true
    ∧ ∃ a, ParseAddress sampleCtx.shake
          (NewAddress sampleCtx.shake "ABC" AccountTypePersonal "k1").String = .ok a
        ∧ a.Equal (NewAddress sampleCtx.shake "ABC" AccountTypePersonal "k1") = true :=
  ⟨sampleCtx_shakeOK, by decide,
    address_round_trip sampleCtx.shake sampleCtx_shakeOK "ABC" (by decide) AccountTypePersonal
      (Or.inl rfl) "k1"⟩

/-! ## The balance check of `transfer` -/

/-- C3. For a transfer request that passes the earlier checks (invoker,
amount, addresses, accounts, sender balance `sBal`, fee computed by `CalcFee`
for `transfer`): when `sBal.Amount < amount + fee` the response is the error
`not enough balance` and the state is the one given; and whenever the returned
state differs from the one given, `amount + fee ≤ sBal.Amount`. -/
theorem transfer_balance_check (ctx : Ctx) (st : State) (params : List String)
    (kid : String) (amount : Int) (rAddr sAddr : Address) (sender receiver : AccountDoc)
    (sBal : Balance) (fee : Int)
    (hlen : 3 ≤ params.length) (hkid : ctx.kid = .ok kid)
    (hamt : NewAmount (param params 2) = .ok amount) (hpos : 0 < amount)
    (hr : ParseAddress ctx.shake (param params 1) = .ok rAddr)
    (hs : senderAddress ctx params rAddr kid = .ok sAddr)
    (hneq : sAddr.Equal rAddr = false)
    (hsender : AccountStub.GetAccount st sAddr = .ok sender)
    (hholder : sender.HasHolder kid = true) (hsusp : sender.IsSuspended = false)
    (hrecv : AccountStub.GetAccount st rAddr = .ok receiver)
    (hrsusp : receiver.IsSuspended = false)
    (hbal : BalanceStub.GetBalance st sender.GetID = .ok sBal)
    (hfee : FeeStub.CalcFee st sAddr "transfer" amount = .ok fee) :
    (sBal.Amount < amount + fee →
      transfer ctx st params = (.error "not enough balance", st))
    ∧ (∀ r st1, transfer ctx st params = (r, st1) → st1 ≠ st → amount + fee ≤ sBal.Amount) := by
  have hreject : sBal.Amount < amount + fee →
      transfer ctx st params = (.error "not enough balance", st) := by
    intro hlt
    have h3 : ¬ params.length < 3 := by omega
    have hp : ¬ amount ≤ 0 := not_le.mpr hpos
    unfold transfer
    simp only [h3, if_false, hkid, hamt, hp, hr, hs, hneq, Bool.false_eq_true, hsender, hholder,
      Bool.not_true, hsusp, hrecv, hrsusp, hbal, hfee, hlt, if_true]
  refine ⟨hreject, ?_⟩
  intro r st1 hrun hne
  by_contra hlt
  rw [hreject (not_le.mp hlt)] at hrun
  exact hne (Prod.mk.inj hrun).2.symm
/-- The parsed form of `sampleReceiverID`. -/
theorem sampleReceiver_parse :
    ParseAddress sampleCtx.shake sampleReceiverID
      = .ok { Code := "ABC", Typ := 1,
              Hash := [0, 0, 0, 0, 0, 0, 0, 0, 0, 0, 0, 0, 0, 0, 0, 0, 0, 0, 0, 178, 0, 0, 0, 0] } := by
  decide

/-- C3 on `sampleLedger 30 5`: a transfer of 30 costs a fee of 3, which a
balance of 30 does not cover. -/
theorem transfer_balance_check_witness :
    FeeStub.CalcFee (sampleLedger 30 5)
        (NewAddress sampleCtx.shake "ABC" AccountTypePersonal sampleKid) "transfer" 30 = .ok 3
    ∧ ((sampleBalance sampleSenderID 30).Amount < 30 + 3 →
        transfer sampleCtx (sampleLedger 30 5) ["", sampleReceiverID, "30"]
          = (.error "not enough balance", sampleLedger 30 5))
    ∧ (∀ r st1, transfer sampleCtx (sampleLedger 30 5) ["", sampleReceiverID, "30"] = (r, st1) →
        st1 ≠ sampleLedger 30 5 → 30 + 3 ≤ (sampleBalance sampleSenderID 30).Amount) :=
  ⟨by decide,
   transfer_balance_check sampleCtx (sampleLedger 30 5) ["", sampleReceiverID, "30"] sampleKid 30
    { Code := "ABC", Typ := 1,
      Hash := [0, 0, 0, 0, 0, 0, 0, 0, 0, 0, 0, 0, 0, 0, 0, 0, 0, 0, 0, 178, 0, 0, 0, 0] }
    (NewAddress sampleCtx.shake "ABC" AccountTypePersonal sampleKid)
    (samplePersonal sampleSenderID) (samplePersonal sampleReceiverID)
    (sampleBalance sampleSenderID 30) 3
    (by decide) rfl (by decide) (by decide) (by decide) (by decide) (by decide) (by decide)
    (by decide) (by decide) (by decide) (by decide) (by decide) (by decide)⟩

/-! ## Responses -/

theorem responseError_eq (e : Error) (m : String) : ∃ msg, responseError e m = .error msg := by
  unfold responseError
  split
  · split
    · exact ⟨_, rfl⟩
    · exact ⟨_, rfl⟩
  · exact ⟨_, rfl⟩

theorem not_success_of_error {m : String} {st st1 : State} {p : Payload}
    (h : (Response.error m, st) = (Response.success p, st1)) : False := by
  cases h

theorem not_success_of_panic {st st1 : State} {p : Payload}
    (h : (Response.panic, st) = (Response.success p, st1)) : False := by
  cases h

theorem not_success_of_responseError {e : Error} {m : String} {st st1 : State} {p : Payload}
    (h : (responseError e m, st) = (Response.success p, st1)) : False := by
  obtain ⟨msg, hm⟩ := responseError_eq e m
  rw [hm] at h
  cases h

/-! ## The refund bound -/

/-- What `Refund` does once the transaction time is known: the parent row it
stores under the parent's key, with `totalRefund` grown by the amount. -/
theorem refundStub_spec (ctx : Ctx) (st : State) (sender receiver : Balance)
    (amount fee : Int) (memo : String) (parentPay : Pay) (ts : Int)
    (hts : GetTime ctx = .ok ts) :
    ∃ log receiver1 st1,
      PayStub.Refund ctx st sender receiver amount fee memo parentPay
        = (.ok (log, receiver1, { parentPay with TotalRefund := parentPay.TotalRefund + amount }),
           st1)
      ∧ kvGet st1.pays (PayStub.CreateKey parentPay.PayID)
          = some { parentPay with TotalRefund := parentPay.TotalRefund + amount } := by
  unfold PayStub.Refund
  rw [hts]
  refine ⟨_, _, _, rfl, ?_⟩
  simp [BalanceStub.PutBalanceLog, BalanceStub.PutBalance, PayStub.PutParentPay, kvGet_kvPut]

/-- `Refund` fails only when the transaction time is not known, and then
writes nothing. -/
theorem refundStub_ok (ctx : Ctx) (st : State) (sender receiver : Balance)
    (amount fee : Int) (memo : String) (parentPay : Pay) (res : BalanceLog × Balance × Pay)
    (st1 : State)
    (h : PayStub.Refund ctx st sender receiver amount fee memo parentPay = (.ok res, st1)) :
    ∃ ts, GetTime ctx = .ok ts := by
  unfold PayStub.Refund at h
  rcases hts : GetTime ctx with e | ts
  · simp [hts] at h
  · exact ⟨ts, rfl⟩

/-- C5. For a refund request of `r > 0` against a stored pay row (stored under
its own id): when `totalRefund + r > amount` the request is rejected and the
state is the one given; and when the request succeeds, the row then stored has
`totalRefund` grown by exactly `r`, the same amount, and
`totalRefund ≤ amount`. -/
theorem refund_bound (ctx : Ctx) (st : State) (params : List String) (kid : String)
    (r : Int) (parentPay : Pay)
    (hlen : 2 ≤ params.length) (hkid : ctx.kid = .ok kid)
    (hamt : NewAmount (param params 1) = .ok r) (hpos : 0 < r)
    (hpay : PayStub.GetPay st (param params 0) = .ok parentPay)
    (hid : parentPay.PayID = param params 0) :
    (parentPay.TotalRefund + r > parentPay.Amount →
      ∃ msg, payRefund ctx st params = (.error msg, st))
    ∧ (∀ p st1, payRefund ctx st params = (.success p, st1) →
        ∃ parent1, PayStub.GetPay st1 (param params 0) = .ok parent1
          ∧ parent1.TotalRefund = parentPay.TotalRefund + r
          ∧ parent1.Amount = parentPay.Amount
          ∧ parent1.TotalRefund ≤ parent1.Amount) := by
  have h2 : ¬ params.length < 2 := by omega
  have hp : ¬ r < 1 := by omega
  constructor
  · intro hgt
    unfold payRefund
    simp only [h2, if_false, hkid, hamt, hp, hpay]
    rcases ParseAddress ctx.shake parentPay.DOCTYPEID with e | sAddr
    · obtain ⟨m, hm⟩ := responseError_eq e "failed to get the account"
      exact ⟨m, by simp only [hm]⟩
    rcases ParseAddress ctx.shake parentPay.RID with e | rAddr
    · obtain ⟨m, hm⟩ := responseError_eq e "failed to parse the receiver's account address"
      exact ⟨m, by simp only [hm]⟩
    simp only []
    by_cases hc : rAddr.Code ≠ sAddr.Code
    · exact ⟨_, by rw [if_pos hc]⟩
    rw [if_neg hc]
    by_cases he : sAddr.Equal rAddr = true
    · exact ⟨_, by rw [if_pos he]⟩
    rw [if_neg he, if_pos (by omega)]
    exact ⟨_, rfl⟩
  · intro p st1 hrun
    unfold payRefund at hrun
    simp only [h2, if_false, hkid, hamt, hp, hpay] at hrun
    rcases hs : ParseAddress ctx.shake parentPay.DOCTYPEID with e | sAddr
    · simp only [hs] at hrun
      exact (not_success_of_responseError hrun).elim
    simp only [hs] at hrun
    rcases hr : ParseAddress ctx.shake parentPay.RID with e | rAddr
    · simp only [hr] at hrun
      exact (not_success_of_responseError hrun).elim
    simp only [hr] at hrun
    by_cases hc : rAddr.Code ≠ sAddr.Code
    · rw [if_pos hc] at hrun
      exact (not_success_of_error hrun).elim
    rw [if_neg hc] at hrun
    by_cases he : sAddr.Equal rAddr = true
    · rw [if_pos he] at hrun
      exact (not_success_of_error hrun).elim
    rw [if_neg he] at hrun
    by_cases hx : parentPay.Amount < parentPay.TotalRefund + r
    · rw [if_pos hx] at hrun
      exact (not_success_of_error hrun).elim
    rw [if_neg hx] at hrun
    rcases hsa : AccountStub.GetAccount st sAddr with e | sender
    · simp only [hsa] at hrun
      exact (not_success_of_responseError hrun).elim
    simp only [hsa] at hrun
    by_cases hh : (!sender.HasHolder kid) = true
    · rw [if_pos hh] at hrun
      exact (not_success_of_error hrun).elim
    rw [if_neg hh] at hrun
    by_cases hsu : sender.IsSuspended = true
    · rw [if_pos hsu] at hrun
      exact (not_success_of_error hrun).elim
    rw [if_neg hsu] at hrun
    rcases hra : AccountStub.GetAccount st rAddr with e | receiver
    · simp only [hra] at hrun
      exact (not_success_of_responseError hrun).elim
    simp only [hra] at hrun
    by_cases hrs : receiver.IsSuspended = true
    · rw [if_pos hrs] at hrun
      exact (not_success_of_error hrun).elim
    rw [if_neg hrs] at hrun
    rcases hsb : BalanceStub.GetBalance st sender.GetID with e | sBal
    · simp only [hsb] at hrun
      exact (not_success_of_responseError hrun).elim
    simp only [hsb] at hrun
    rcases hrb : BalanceStub.GetBalance st receiver.GetID with e | rBal
    · simp only [hrb] at hrun
      exact (not_success_of_responseError hrun).elim
    simp only [hrb] at hrun
    by_cases hz : r ≠ parentPay.Amount ∧ parentPay.Amount = 0
    · rw [if_pos hz] at hrun
      exact (not_success_of_panic hrun).elim
    rw [if_neg hz] at hrun
    generalize hfee : (if r ≠ parentPay.Amount then
        Amount.MulRat r (Rat.divInt parentPay.Fee parentPay.Amount) else parentPay.Fee) = feeAmount
      at hrun
    generalize hmemo : (if params.length > 2 then truncMemo (param params 2) else "") = memo
      at hrun
    rcases hrf : PayStub.Refund ctx st sBal rBal r feeAmount memo parentPay with ⟨res, st2⟩
    rw [hrf] at hrun
    rcases res with e | ⟨log, receiver1, parent1⟩
    · exact (not_success_of_responseError hrun).elim
    simp only [Prod.mk.injEq, Response.success.injEq] at hrun
    obtain ⟨ts, hts⟩ := refundStub_ok _ _ _ _ _ _ _ _ _ _ hrf
    obtain ⟨log', receiver1', st2', hspec, hget⟩ :=
      refundStub_spec ctx st sBal rBal r feeAmount memo parentPay ts hts
    rw [hrf] at hspec
    simp only [Prod.mk.injEq, Except.ok.injEq] at hspec
    obtain ⟨⟨-, -, -⟩, hst⟩ := hspec
    refine ⟨{ parentPay with TotalRefund := parentPay.TotalRefund + r }, ?_, rfl, rfl, ?_⟩
    · unfold PayStub.GetPay
      rw [← hrun.2, hst, ← hid, hget]
    · show parentPay.TotalRefund + r ≤ parentPay.Amount
      omega
/-- C5 on `samplePayLedger 40`: a refund of 61 against a pay of 100 of which 40
are refunded. -/
theorem refund_bound_witness :
    ((samplePay 40).TotalRefund + 61 > (samplePay 40).Amount →
      ∃ msg, payRefund sampleCtx (samplePayLedger 40) ["p1", "61"]
        = (.error msg, samplePayLedger 40))
    ∧ (∀ p st1, payRefund sampleCtx (samplePayLedger 40) ["p1", "61"] = (.success p, st1) →
        ∃ parent1, PayStub.GetPay st1 (param ["p1", "61"] 0) = .ok parent1
          ∧ parent1.TotalRefund = (samplePay 40).TotalRefund + 61
          ∧ parent1.Amount = (samplePay 40).Amount
          ∧ parent1.TotalRefund ≤ parent1.Amount) :=
  refund_bound sampleCtx (samplePayLedger 40) ["p1", "61"] sampleKid 61 (samplePay 40)
    (by decide) rfl (by decide) (by decide) (by decide) rfl

/-- A partial refund of 40 against the pay of 100 with fee 5 is accepted: the
parent's `totalRefund` becomes 40, the receiver is credited 40, and the refund
row carries amount -40 and fee -2; a further refund of 61 is then rejected. -/
theorem payRefund_sample :
    (PayStub.GetPay (payRefund sampleCtx (samplePayLedger 0) ["p1", "40"]).2 "p1").map
        (fun p => p.TotalRefund) = .ok 40
    ∧ (BalanceStub.GetBalance (payRefund sampleCtx (samplePayLedger 0) ["p1", "40"]).2
        sampleReceiverID).map (fun b => b.Amount) = .ok 40
    ∧ (PayStub.GetPay (payRefund sampleCtx (samplePayLedger 0) ["p1", "40"]).2 "1000tx1").map
        (fun p => (p.Amount, p.Fee, p.ParentID)) = .ok (-40, -2, "p1")
    ∧ payRefund sampleCtx (samplePayLedger 40) ["p1", "61"]
        = (.error "can't exceed the original pay amount", samplePayLedger 40) := by
  decide

/-! ## Escrow exclusivity -/

theorem GetPendingBalance_of_gone (st : State) (id : String) (h : PendingGone st id) :
    BalanceStub.GetPendingBalance st id = .error (errorsNew "the pending balance is not exists") := by
  unfold BalanceStub.GetPendingBalance
  rw [h]

theorem CreateFee_pendingBalances (ctx : Ctx) (st : State) (addr : String) (amount : Int) :
    (FeeStub.CreateFee ctx st addr amount).2.pendingBalances = st.pendingBalances := by
  unfold FeeStub.CreateFee
  split
  · rfl
  · split <;> rfl

/-- After a terminal transition the pending row is gone. -/
theorem gone_of_terminates (ctx : Ctx) (st : State) (pb : PendingBalance) (st1 : State)
    (h : Terminates ctx st pb st1) : PendingGone st1 pb.DOCTYPEID := by
  unfold PendingGone
  rcases h with ⟨receiver, pt, r, h⟩ | ⟨fee, merchant, memo, orderID, h⟩ | ⟨log, h⟩
  · unfold BalanceStub.TransferPendingBalance at h
    rcases hts : GetTime ctx with e | ts
    · simp [hts] at h
    simp only [hts] at h
    split at h
    · simp at h
    · simp only [Prod.mk.injEq] at h
      rw [← h.2]
      simp [BalanceStub.DelPendingBalance, kvGet_kvDel]
  · unfold PayStub.PayPendingBalance at h
    rcases hts : GetTime ctx with e | ts
    · simp [hts] at h
    simp only [hts, Prod.mk.injEq] at h
    rw [← h.2]
    simp [BalanceStub.DelPendingBalance, kvGet_kvDel]
  · unfold BalanceStub.Withdraw at h
    rcases hts : GetTime ctx with e | ts
    · simp [hts] at h
    simp only [hts] at h
    rcases hb : BalanceStub.GetBalance st pb.Account with e | bal
    · simp [hb] at h
    simp only [hb, Prod.mk.injEq] at h
    rw [← h.2]
    simp [BalanceStub.DelPendingBalance, kvGet_kvDel]

/-- C6. Once a pending balance has been finalized or cancelled, no row is
stored under its id; and in every state without a row under that id, every
finalize (`executeTransfer`, `executePay`), cancel (`cancelTransfer`) and
withdraw (`balancePendingWithdraw`) that names the id fails and returns the
state unchanged. -/
theorem escrow_exclusive (ctx : Ctx) (st : State) (pb : PendingBalance) (st1 : State)
    (hterm : Terminates ctx st pb st1) :
    PendingGone st1 pb.DOCTYPEID
    ∧ ∀ (ctx2 : Ctx) (st2 : State), PendingGone st2 pb.DOCTYPEID →
        (∀ cid doc, docString doc 1 = some pb.DOCTYPEID →
          ((executeTransfer ctx2 st2 cid doc).1.isSuccess = false
              ∧ (executeTransfer ctx2 st2 cid doc).2 = st2)
          ∧ ((cancelTransfer ctx2 st2 cid doc).1.isSuccess = false
              ∧ (cancelTransfer ctx2 st2 cid doc).2 = st2)
          ∧ ((executePay ctx2 st2 cid doc).1.isSuccess = false
              ∧ (executePay ctx2 st2 cid doc).2 = st2))
        ∧ ((balancePendingWithdraw ctx2 st2 [pb.DOCTYPEID]).1.isSuccess = false
            ∧ (balancePendingWithdraw ctx2 st2 [pb.DOCTYPEID]).2 = st2) := by
  refine ⟨gone_of_terminates ctx st pb st1 hterm, ?_⟩
  intro ctx2 st2 hgone
  have hget := GetPendingBalance_of_gone st2 pb.DOCTYPEID hgone
  refine ⟨?_, ?_⟩
  · intro cid doc hdoc
    refine ⟨?_, ?_, ?_⟩
    · unfold executeTransfer
      split
      · exact ⟨rfl, rfl⟩
      · simp only [hdoc, hget]
        exact ⟨rfl, trivial⟩
    · unfold cancelTransfer
      split
      · exact ⟨rfl, rfl⟩
      · simp only [hdoc, hget]
        exact ⟨rfl, trivial⟩
    · unfold executePay
      split
      · exact ⟨rfl, rfl⟩
      · simp only [hdoc, hget]
        obtain ⟨m, hm⟩ := responseError_eq (errorsNew "the pending balance is not exists")
          "failed to get the pending balance"
        rw [hm]
        exact ⟨rfl, trivial⟩
  · unfold balancePendingWithdraw
    simp only [List.length_singleton, ne_eq, not_true_eq_false, if_false]
    rcases GetTime ctx2 with e | ts
    · obtain ⟨m, hm⟩ := responseError_eq e "failed to get the timestamp"
      simp only [hm]
      exact ⟨rfl, trivial⟩
    rcases ctx2.kid with e | kid
    · exact ⟨rfl, rfl⟩
    have hp : param [pb.DOCTYPEID] 0 = pb.DOCTYPEID := rfl
    simp only [hp, hget]
    obtain ⟨m, hm⟩ := responseError_eq (errorsNew "the pending balance is not exists")
      "failed to get the pending balance"
    rw [hm]
    exact ⟨rfl, trivial⟩
/-- C6 for the sample escrow, cancelled by `Withdraw`. -/
theorem escrow_exclusive_witness :
    PendingGone (BalanceStub.Withdraw sampleCtx sampleEscrowState samplePending).2
        samplePending.DOCTYPEID
    ∧ ∀ (ctx2 : Ctx) (st2 : State), PendingGone st2 samplePending.DOCTYPEID →
        (∀ cid doc, docString doc 1 = some samplePending.DOCTYPEID →
          ((executeTransfer ctx2 st2 cid doc).1.isSuccess = false
              ∧ (executeTransfer ctx2 st2 cid doc).2 = st2)
          ∧ ((cancelTransfer ctx2 st2 cid doc).1.isSuccess = false
              ∧ (cancelTransfer ctx2 st2 cid doc).2 = st2)
          ∧ ((executePay ctx2 st2 cid doc).1.isSuccess = false
              ∧ (executePay ctx2 st2 cid doc).2 = st2))
        ∧ ((balancePendingWithdraw ctx2 st2 [samplePending.DOCTYPEID]).1.isSuccess = false
            ∧ (balancePendingWithdraw ctx2 st2 [samplePending.DOCTYPEID]).2 = st2) :=
  escrow_exclusive sampleCtx sampleEscrowState samplePending
    (BalanceStub.Withdraw sampleCtx sampleEscrowState samplePending).2
    (Or.inr (Or.inr ⟨_, rfl⟩))

/-! ## Token supply -/

/-- `Supply` succeeds once the transaction time is known, and writes to the
balance tables only. -/
theorem BalanceStub.Supply_tokens (ctx : Ctx) (st : State) (bal : Balance) (amount : Int) :
    (BalanceStub.Supply ctx st bal amount).2.tokens = st.tokens := by
  unfold BalanceStub.Supply
  split <;> rfl

/-- `Mint` keeps the supply within its bounds: for a token with
`0 ≤ supply` and a requested amount `≥ 0`, the token a successful
`Mint` returns and stores has `0 ≤ supply ≤ maxSupply`. -/
theorem mint_supply_bounds (ctx : Ctx) (st : State) (token : Token) (bal : Balance)
    (amount : Int) (token1 : Token) (bal1 : Balance) (log : BalanceLog) (st1 : State)
    (h0 : 0 ≤ token.Supply) (ha : 0 ≤ amount)
    (h : TokenStub.Mint ctx st token bal amount = (.ok (token1, bal1, log), st1)) :
    0 ≤ token1.Supply ∧ token1.Supply ≤ token1.MaxSupply
    ∧ TokenStub.GetToken st1 token.DOCTYPEID = .ok token1 := by
  unfold TokenStub.Mint at h
  rcases hts : GetTime ctx with e | ts
  · simp [hts] at h
  simp only [hts] at h
  by_cases hfull : token.Supply ≥ token.MaxSupply
  · simp [hfull] at h
  rw [if_neg hfull] at h
  simp only [BalanceStub.Supply, hts, Prod.mk.injEq, Except.ok.injEq] at h
  obtain ⟨⟨ht, -, -⟩, hst⟩ := h
  subst ht
  refine ⟨?_, ?_, ?_⟩
  · show 0 ≤ (if token.MaxSupply < token.Supply + amount then
        (amount + token.MaxSupply + -(token.Supply + amount), token.MaxSupply)
      else (amount, token.Supply + amount)).2
    split
    · show 0 ≤ token.MaxSupply
      omega
    · show 0 ≤ token.Supply + amount
      omega
  · show (if token.MaxSupply < token.Supply + amount then
        (amount + token.MaxSupply + -(token.Supply + amount), token.MaxSupply)
      else (amount, token.Supply + amount)).2 ≤ token.MaxSupply
    split
    · exact le_refl _
    · show token.Supply + amount ≤ token.MaxSupply
      omega
  · rw [← hst]
    simp [TokenStub.GetToken, BalanceStub.PutBalanceLog, BalanceStub.PutBalance,
      TokenStub.PutToken, kvGet_kvPut]

/-- `Burn` keeps the supply within its bounds when the requested amount does
not exceed the supply (the guard of `tokenBurn`). -/
theorem burn_supply_bounds_of_le (ctx : Ctx) (st : State) (token : Token) (bal : Balance)
    (amount : Int) (token1 : Token) (bal1 : Balance) (log : Option BalanceLog) (st1 : State)
    (h0 : 0 ≤ token.Supply) (hmax : token.Supply ≤ token.MaxSupply)
    (hle : amount ≤ token.Supply)
    (h : TokenStub.Burn ctx st token bal amount = (.ok (token1, bal1, log), st1)) :
    0 ≤ token1.Supply ∧ token1.Supply ≤ token1.MaxSupply := by
  unfold TokenStub.Burn at h
  rcases hts : GetTime ctx with e | ts
  · simp [hts] at h
  simp only [hts] at h
  by_cases hz : token.Supply = 0
  · simp [hz] at h
  rw [if_neg hz] at h
  by_cases hn : (if bal.Amount < amount then bal.Amount else amount) ≤ 0
  · rw [if_pos hn] at h
    simp only [Prod.mk.injEq, Except.ok.injEq] at h
    obtain ⟨⟨ht, -, -⟩, -⟩ := h
    subst ht
    exact ⟨h0, hmax⟩
  · rw [if_neg hn] at h
    simp only [BalanceStub.Supply, hts, Prod.mk.injEq, Except.ok.injEq] at h
    obtain ⟨⟨ht, -, -⟩, -⟩ := h
    subst ht
    constructor
    · show 0 ≤ token.Supply + -(if bal.Amount < amount then bal.Amount else amount)
      split <;> omega
    · show token.Supply + -(if bal.Amount < amount then bal.Amount else amount) ≤ token.MaxSupply
      split at hn <;> simp only [*, if_true, if_false] <;> omega

/-- Token creation takes only a supply within bounds from the metadata. -/
theorem getValidatedTokenMeta_bounds (ctx : Ctx) (code : String) (decimal maxSupply supply : Int)
    (policy : Option FeePolicy)
    (h : getValidatedTokenMeta ctx code = .ok (decimal, maxSupply, supply, policy)) :
    0 ≤ supply ∧ supply ≤ maxSupply := by
  unfold getValidatedTokenMeta at h
  rcases hk : ctx.invokeKNT code ["token"] with e | doc
  · simp [hk] at h
  simp only [hk] at h
  rcases hm : ctx.unmarshalMeta doc with e | metaMap
  · simp [hm] at h
  simp only [hm] at h
  rcases hmx : NewAmount (metaGet metaMap "max_supply") with e | mx <;>
  rcases hsu : NewAmount (metaGet metaMap "initial_supply") with e2 | su <;>
  rcases hpp : ParseFeePolicy ctx.parseRat (metaGet metaMap "fee") with e3 | pol <;>
  simp only [hmx, hsu, hpp] at h <;>
  split_ifs at h <;>
  (simp only [Except.ok.injEq, Prod.mk.injEq] at h
   obtain ⟨-, h1, h2, -⟩ := h
   subst h1 h2
   omega)

/-- C4 (the failing path). A burn contract of 80, executed on a token with
supply 20 (of at most 1000) whose genesis account holds 120, succeeds and
stores the supply -60: `Burn` clamps the amount to the balance, not to the
supply. -/
theorem burn_supply_negative :
    (TokenStub.GetToken sampleBurnLedger "ABC").map (fun t => (t.Supply, t.MaxSupply))
      = .ok (20, 1000)
    ∧ (executeTokenBurn sampleCtx sampleBurnLedger "c1"
        [.str "token/burn", .str "ABC", .str "80"]).1 = .success .empty
    ∧ (TokenStub.GetToken (executeTokenBurn sampleCtx sampleBurnLedger "c1"
        [.str "token/burn", .str "ABC", .str "80"]).2 "ABC").map (fun t => t.Supply)
      = .ok (-60)
    ∧ (BalanceStub.GetBalance (executeTokenBurn sampleCtx sampleBurnLedger "c1"
        [.str "token/burn", .str "ABC", .str "80"]).2 sampleGenesisID).map (fun b => b.Amount)
      = .ok 40 := by
  decide

/-- The instant path refuses the same request on the same ledger: `tokenBurn`
checks the amount against the supply before it burns. -/
theorem tokenBurn_guard_sample :
    tokenBurn sampleGrantCtx sampleBurnLedger ["ABC", "80"]
      = (.error "amount must be less or equal than total supply", sampleBurnLedger) := by
  decide

/-! ## Balance non-negativity -/

theorem LedgerInv_of_frame {st st1 : State} (h : LedgerInv st)
    (hb : st1.balances = st.balances) (hp : st1.pendingBalances = st.pendingBalances) :
    LedgerInv st1 := by
  unfold LedgerInv BalancesNonneg PendingNonneg at *
  rw [hb, hp]
  exact h

theorem LedgerInv_PutBalance {st : State} (h : LedgerInv st) (b : Balance)
    (hb : 0 ≤ b.Amount) : LedgerInv (BalanceStub.PutBalance st b) := by
  refine ⟨?_, h.2⟩
  intro k b1 hk
  simp only [BalanceStub.PutBalance, kvGet_kvPut] at hk
  split at hk
  · cases hk
    exact hb
  · exact h.1 k b1 hk

theorem LedgerInv_PutPendingBalance {st : State} (h : LedgerInv st) (pb : PendingBalance)
    (ha : 0 ≤ pb.Amount) (hf : 0 ≤ pb.Fee.getD 0) :
    LedgerInv (BalanceStub.PutPendingBalance st pb) := by
  refine ⟨h.1, ?_⟩
  intro k b1 hk
  simp only [BalanceStub.PutPendingBalance, kvGet_kvPut] at hk
  split at hk
  · cases hk
    exact ⟨ha, hf⟩
  · exact h.2 k b1 hk

theorem LedgerInv_DelPendingBalance {st : State} (h : LedgerInv st) (id : String) :
    LedgerInv (BalanceStub.DelPendingBalance st id) := by
  refine ⟨h.1, ?_⟩
  intro k b1 hk
  simp only [BalanceStub.DelPendingBalance, kvGet_kvDel] at hk
  split at hk
  · cases hk
  · exact h.2 k b1 hk

theorem LedgerInv_PutBalanceLog {st : State} (h : LedgerInv st) (log : BalanceLog) :
    LedgerInv (BalanceStub.PutBalanceLog st log) :=
  LedgerInv_of_frame h rfl rfl

theorem LedgerInv_PutToken {st : State} (h : LedgerInv st) (t : Token) :
    LedgerInv (TokenStub.PutToken st t) :=
  LedgerInv_of_frame h rfl rfl

theorem LedgerInv_PutPay {st : State} (h : LedgerInv st) (p : Pay) :
    LedgerInv (PayStub.PutPay st p) :=
  LedgerInv_of_frame h rfl rfl

theorem LedgerInv_PutParentPay {st : State} (h : LedgerInv st) (k : String) (p : Pay) :
    LedgerInv (PayStub.PutParentPay st k p) :=
  LedgerInv_of_frame h rfl rfl

theorem LedgerInv_PutAccount {st : State} (h : LedgerInv st) (a : AccountDoc) :
    LedgerInv (AccountStub.PutAccount st a) :=
  LedgerInv_of_frame h rfl rfl

theorem LedgerInv_PutHolder {st : State} (h : LedgerInv st) (a : Holder) :
    LedgerInv (AccountStub.PutHolder st a) :=
  LedgerInv_of_frame h rfl rfl

theorem LedgerInv_CreateFee {st : State} (h : LedgerInv st) (ctx : Ctx) (addr : String)
    (amount : Int) : LedgerInv (FeeStub.CreateFee ctx st addr amount).2 := by
  unfold FeeStub.CreateFee
  split
  · exact h
  · split
    · exact h
    · exact LedgerInv_of_frame h rfl rfl

theorem GetBalance_nonneg {st : State} (h : BalancesNonneg st) {id : String} {b : Balance}
    (hb : BalanceStub.GetBalance st id = .ok b) : 0 ≤ b.Amount := by
  unfold BalanceStub.GetBalance at hb
  split at hb
  · cases hb
    exact h _ _ (by assumption)
  · cases hb

theorem GetPendingBalance_nonneg {st : State} (h : LedgerInv st) {id : String}
    {pb : PendingBalance} (hb : BalanceStub.GetPendingBalance st id = .ok pb) :
    0 ≤ pb.Amount ∧ 0 ≤ pb.Fee.getD 0 := by
  unfold BalanceStub.GetPendingBalance at hb
  split at hb
  · cases hb
    exact h.2 _ _ (by assumption)
  · cases hb

theorem appliedAmount_nonneg {a : Int} {f : Option Int} (ha : 0 ≤ a) (hf : 0 ≤ f.getD 0) :
    0 ≤ appliedAmount a f := by
  cases f with
  | none => exact ha
  | some x =>
    simp only [Option.getD_some] at hf
    show 0 ≤ a + x
    omega

theorem PreservesIf_st {c : Payload → Prop} {st : State} (h : LedgerInv st) (r : Response) :
    PreservesIf c (r, st) :=
  fun _ _ _ => h

theorem PreservesIf_error (c : Payload → Prop) (m : String) (st : State) :
    PreservesIf c (.error m, st) :=
  fun _ h _ => Response.noConfusion h

theorem PreservesIf_panic (c : Payload → Prop) (st : State) : PreservesIf c (.panic, st) :=
  fun _ h _ => Response.noConfusion h

theorem PreservesIf_responseError (c : Payload → Prop) (e : Error) (m : String) (st : State) :
    PreservesIf c (responseError e m, st) := by
  obtain ⟨msg, hm⟩ := responseError_eq e m
  rw [hm]
  exact PreservesIf_error c msg st

theorem PreservesIf_ite {c : Payload → Prop} {q : Prop} [Decidable q] {a b : Response × State}
    (ha : q → PreservesIf c a) (hb : ¬ q → PreservesIf c b) :
    PreservesIf c (if q then a else b) := by
  split
  · exact ha (by assumption)
  · exact hb (by assumption)

theorem CreateFee_inv {st st1 : State} {ctx : Ctx} {addr : String} {amount : Int}
    {r : Except Error (Option Fee)} (heq : FeeStub.CreateFee ctx st addr amount = (r, st1))
    (h : LedgerInv st) : LedgerInv st1 := by
  have := LedgerInv_CreateFee h ctx addr amount
  rw [heq] at this
  exact this

theorem LedgerInv_Supply {st : State} (h : LedgerInv st) (ctx : Ctx) (bal : Balance)
    (amount : Int) (hb : 0 ≤ bal.Amount + amount) :
    LedgerInv (BalanceStub.Supply ctx st bal amount).2 := by
  unfold BalanceStub.Supply
  split
  · exact h
  · exact LedgerInv_PutBalanceLog (LedgerInv_PutBalance h _ hb) _

theorem Supply_inv {st st1 : State} {ctx : Ctx} {bal : Balance} {amount : Int}
    {r : Except Error (BalanceLog × Balance)}
    (heq : BalanceStub.Supply ctx st bal amount = (r, st1))
    (h : LedgerInv st) (hb : 0 ≤ bal.Amount + amount) : LedgerInv st1 := by
  have := LedgerInv_Supply h ctx bal amount hb
  rw [heq] at this
  exact this

theorem LedgerInv_Transfer {st : State} (h : LedgerInv st) (ctx : Ctx)
    (sender receiver : Balance) (amount fee : Int) (memo : String) (pt : Option Int)
    (ha : 0 ≤ amount) (hr : 0 ≤ receiver.Amount) (hs : amount + fee ≤ sender.Amount) :
    LedgerInv (BalanceStub.Transfer ctx st sender receiver amount fee memo pt).2 := by
  unfold BalanceStub.Transfer
  rcases hts : GetTime ctx with e | ts
  · exact h
  · simp only []
    have hsend : ∀ S, LedgerInv S → ∀ b : BalanceLog, LedgerInv
        (BalanceStub.PutBalanceLog
          (BalanceStub.PutBalance S
            { sender with Amount := sender.Amount + -amount + -fee, UpdatedTime := some ts })
          b) := fun S hS b =>
      LedgerInv_PutBalanceLog
        (LedgerInv_PutBalance hS _ (by show 0 ≤ sender.Amount + -amount + -fee; omega)) _
    by_cases hl : timeLocked pt ts = true
    · simp only [hl, if_true]
      split
      · rename_i heq
        exact CreateFee_inv heq
          (hsend _ (LedgerInv_PutPendingBalance h _ (by exact ha) (by exact le_refl _)) _)
      · rename_i heq
        exact CreateFee_inv heq
          (hsend _ (LedgerInv_PutPendingBalance h _ (by exact ha) (by exact le_refl _)) _)
    · simp only [hl]
      split
      · rename_i heq
        exact CreateFee_inv heq
          (hsend _ (LedgerInv_PutBalanceLog (LedgerInv_PutBalance h _
            (by show 0 ≤ receiver.Amount + amount; omega)) _) _)
      · rename_i heq
        exact CreateFee_inv heq
          (hsend _ (LedgerInv_PutBalanceLog (LedgerInv_PutBalance h _
            (by show 0 ≤ receiver.Amount + amount; omega)) _) _)

theorem LedgerInv_snd {α : Type} {x : α × State} {r : α} {st1 : State} (heq : x = (r, st1))
    (h : LedgerInv x.2) : LedgerInv st1 := by
  subst heq
  exact h

theorem LedgerInv_TransferPendingBalance {st : State} (h : LedgerInv st) (ctx : Ctx)
    (pb : PendingBalance) (receiver : Balance) (pt : Option Int)
    (ha : 0 ≤ pb.Amount) (hr : 0 ≤ receiver.Amount) :
    LedgerInv (BalanceStub.TransferPendingBalance ctx st pb receiver pt).2 := by
  unfold BalanceStub.TransferPendingBalance
  rcases hts : GetTime ctx with e | ts
  · exact h
  · simp only []
    have hfee : ∀ (rcv : Balance) S, LedgerInv S → LedgerInv
        (match (match pb.Fee with
          | some f =>
            match FeeStub.CreateFee ctx S pb.Account f with
            | (.error e, st2) => ((.error e : Except Error Unit), st2)
            | (.ok _, st2) => (.ok (), st2)
          | none => (.ok (), S)) with
        | (.error e, st2) => ((.error e : Except Error Balance), st2)
        | (.ok _, st2) => (.ok rcv, BalanceStub.DelPendingBalance st2 pb.DOCTYPEID)).2 := by
      intro rcv S hS
      cases pb.Fee with
      | none => exact LedgerInv_DelPendingBalance hS _
      | some f =>
        simp only []
        rcases hcf : FeeStub.CreateFee ctx S pb.Account f with ⟨res, st2⟩
        have h2 := CreateFee_inv hcf hS
        cases res with
        | error e => exact h2
        | ok v => exact LedgerInv_DelPendingBalance h2 _
    by_cases hl : timeLocked pt ts = true
    · simp only [hl, if_true]
      refine hfee _ _ ?_
      exact LedgerInv_PutPendingBalance h _ ha (le_refl _)
    · simp only [hl, Bool.false_eq_true, if_false]
      refine hfee _ _ ?_
      refine LedgerInv_PutBalanceLog (LedgerInv_PutBalance h _ ?_) _
      show 0 ≤ receiver.Amount + pb.Amount
      omega

theorem LedgerInv_Deposit {st : State} (h : LedgerInv st) (ctx : Ctx) (id : String)
    (sender : Balance) (con : Contract) (amount : Int) (fee : Option Int) (memo : String)
    (ha : 0 ≤ amount) (hf : 0 ≤ fee.getD 0) (hs : appliedAmount amount fee ≤ sender.Amount) :
    LedgerInv (BalanceStub.Deposit ctx st id sender con amount fee memo).2 := by
  unfold BalanceStub.Deposit
  rcases hts : GetTime ctx with e | ts
  · exact h
  · simp only []
    rcases hex : con.expiryTime with e | expiryTime
    · exact h
    · simp only []
      refine LedgerInv_PutBalanceLog (LedgerInv_PutBalance ?_ _ ?_) _
      · exact LedgerInv_PutPendingBalance h _ ha hf
      · show 0 ≤ sender.Amount + -appliedAmount amount fee
        omega

theorem LedgerInv_Withdraw {st : State} (h : LedgerInv st) (ctx : Ctx) (pb : PendingBalance)
    (ha : 0 ≤ pb.Amount) (hf : 0 ≤ pb.Fee.getD 0) :
    LedgerInv (BalanceStub.Withdraw ctx st pb).2 := by
  unfold BalanceStub.Withdraw
  rcases hts : GetTime ctx with e | ts
  · exact h
  · simp only []
    rcases hb : BalanceStub.GetBalance st pb.Account with e | bal
    · exact h
    · simp only []
      refine LedgerInv_DelPendingBalance (LedgerInv_PutBalanceLog (LedgerInv_PutBalance h _ ?_) _) _
      have h1 := GetBalance_nonneg h.1 hb
      have h2 := appliedAmount_nonneg ha hf
      show 0 ≤ bal.Amount + appliedAmount pb.Amount pb.Fee
      omega

theorem LedgerInv_Pay {st : State} (h : LedgerInv st) (ctx : Ctx) (sender : Balance)
    (receiver : String) (amount fee : Int) (orderID memo : String)
    (hs : amount ≤ sender.Amount) :
    LedgerInv (PayStub.Pay ctx st sender receiver amount fee orderID memo).2 := by
  unfold PayStub.Pay
  rcases hts : GetTime ctx with e | ts
  · exact h
  · simp only []
    refine LedgerInv_PutBalanceLog (LedgerInv_PutBalance (LedgerInv_PutPay h _) _ ?_) _
    show 0 ≤ sender.Amount + -amount
    omega

theorem LedgerInv_Refund {st : State} (h : LedgerInv st) (ctx : Ctx) (sender receiver : Balance)
    (amount fee : Int) (memo : String) (parentPay : Pay)
    (ha : 0 ≤ amount) (hr : 0 ≤ receiver.Amount) :
    LedgerInv (PayStub.Refund ctx st sender receiver amount fee memo parentPay).2 := by
  unfold PayStub.Refund
  rcases hts : GetTime ctx with e | ts
  · exact h
  · simp only []
    refine LedgerInv_PutBalanceLog
      (LedgerInv_PutBalance (LedgerInv_PutParentPay (LedgerInv_PutPay h _) _ _) _ ?_) _
    show 0 ≤ receiver.Amount + amount
    omega

theorem LedgerInv_PayPendingBalance {st : State} (h : LedgerInv st) (ctx : Ctx)
    (pb : PendingBalance) (fee : Int) (merchant memo orderID : String) :
    LedgerInv (PayStub.PayPendingBalance ctx st pb fee merchant memo orderID).2 := by
  unfold PayStub.PayPendingBalance
  rcases hts : GetTime ctx with e | ts
  · exact h
  · exact LedgerInv_DelPendingBalance (LedgerInv_PutPay h _) _

theorem LedgerInv_CreateBalance {st : State} (h : LedgerInv st) (ctx : Ctx) (id : String) :
    LedgerInv (BalanceStub.CreateBalance ctx st id).2 := by
  unfold BalanceStub.CreateBalance
  rcases hts : GetTime ctx with e | ts
  · exact h
  · exact LedgerInv_PutBalance h _ (le_refl _)

theorem LedgerInv_foldHolders {st : State} (h : LedgerInv st) (f : String → Holder)
    (holders : List String) :
    LedgerInv (holders.foldl (fun s kid => AccountStub.PutHolder s (f kid)) st) := by
  induction holders generalizing st with
  | nil => exact h
  | cons k rest ih => exact ih (LedgerInv_PutHolder h _)

theorem LedgerInv_CreateJointAccount {st : State} (h : LedgerInv st) (ctx : Ctx)
    (token : String) (holders : List String) :
    LedgerInv (AccountStub.CreateJointAccount ctx st token holders).2
    ∧ ∀ a b st1, AccountStub.CreateJointAccount ctx st token holders = (.ok (a, b), st1) →
        b.Amount = 0 := by
  unfold AccountStub.CreateJointAccount
  rcases hts : GetTime ctx with e | ts
  · exact ⟨h, fun a b st1 hh => by cases hh⟩
  · simp only []
    split
    · exact ⟨h, fun a b st1 hh => by cases hh⟩
    · split
      · exact ⟨h, fun a b st1 hh => by cases hh⟩
      · unfold BalanceStub.CreateBalance
        simp only [hts]
        refine ⟨LedgerInv_foldHolders (LedgerInv_PutBalance (LedgerInv_PutAccount h _) _
          (le_refl _)) _ _, ?_⟩
        intro a b st1 hh
        simp only [Prod.mk.injEq, Except.ok.injEq] at hh
        rw [← hh.1.2]

theorem LedgerInv_AddHolder {st : State} (h : LedgerInv st) (ctx : Ctx)
    (account : JointAccount) (kid : String) :
    LedgerInv (AccountStub.AddHolder ctx st account kid).2 := by
  unfold AccountStub.AddHolder
  split
  · exact h
  · split
    · exact h
    · exact LedgerInv_PutHolder (LedgerInv_PutAccount h _) _

theorem LedgerInv_RemoveHolder {st : State} (h : LedgerInv st) (ctx : Ctx)
    (account : JointAccount) (kid : String) :
    LedgerInv (AccountStub.RemoveHolder ctx st account kid).2 := by
  unfold AccountStub.RemoveHolder
  split
  · exact h
  · split
    · exact h
    · exact LedgerInv_of_frame h rfl rfl

theorem LedgerInv_Mint {st : State} (h : LedgerInv st) (ctx : Ctx) (token : Token)
    (bal : Balance) (amount : Int) (ha : 0 ≤ amount) (hb : 0 ≤ bal.Amount) :
    LedgerInv (TokenStub.Mint ctx st token bal amount).2 := by
  unfold TokenStub.Mint
  rcases hts : GetTime ctx with e | ts
  · exact h
  · simp only []
    by_cases hm : token.Supply ≥ token.MaxSupply
    · rw [if_pos hm]
      exact h
    · rw [if_neg hm]
      split
      · rename_i heq
        refine Supply_inv heq (LedgerInv_PutToken h _) ?_
        split <;> simp only [] <;> omega
      · rename_i heq
        refine Supply_inv heq (LedgerInv_PutToken h _) ?_
        split <;> simp only [] <;> omega

theorem LedgerInv_Burn {st : State} (h : LedgerInv st) (ctx : Ctx) (token : Token)
    (bal : Balance) (amount : Int) :
    LedgerInv (TokenStub.Burn ctx st token bal amount).2 := by
  unfold TokenStub.Burn
  rcases hts : GetTime ctx with e | ts
  · exact h
  · simp only []
    by_cases h0 : token.Supply = 0
    · rw [if_pos h0]
      exact h
    rw [if_neg h0]
    generalize ha1 : (if bal.Amount < amount then bal.Amount else amount) = amount1
    have hle : amount1 ≤ bal.Amount := by
      rw [← ha1]
      split <;> omega
    by_cases hz : amount1 ≤ 0
    · rw [if_pos hz]
      exact h
    rw [if_neg hz]
    split
    · rename_i heq
      exact Supply_inv heq h (by omega)
    · rename_i heq
      exact LedgerInv_PutToken (Supply_inv heq h (by omega)) _

theorem LedgerInv_CreateToken {st : State} (h : LedgerInv st) (ctx : Ctx) (code : String)
    (decimal maxSupply supply : Int) (feePolicy : Option FeePolicy) (holders : List String) :
    LedgerInv (TokenStub.CreateToken ctx st code decimal maxSupply supply feePolicy holders).2 := by
  unfold TokenStub.CreateToken
  have hj := LedgerInv_CreateJointAccount h ctx code holders
  rcases hcj : AccountStub.CreateJointAccount ctx st code holders with ⟨res, st1⟩
  rw [hcj] at hj
  rcases res with e | ⟨account, balance⟩
  · exact hj.1
  · simp only []
    have hb0 := hj.2 account balance st1 rfl
    split
    · exact hj.1
    · have hmint : LedgerInv
          (if supply > 0 then
            match BalanceStub.Supply ctx st1 balance supply with
            | (.error e, st2) => ((.error (errorsWrap e "failed to mint initial supply") :
                Except Error Unit), st2)
            | (.ok _, st2) => (.ok (), st2)
          else (.ok (), st1)).2 := by
        split
        · split
          · rename_i heq
            exact Supply_inv heq hj.1 (by omega)
          · rename_i heq
            exact Supply_inv heq hj.1 (by omega)
        · exact hj.1
      split
      · rename_i heq
        exact LedgerInv_snd heq hmint
      · rename_i heq
        have hm2 := LedgerInv_snd heq hmint
        split
        · exact hm2
        · exact LedgerInv_PutToken hm2 _

theorem CalcFee_nonneg {st : State} {payer : Address} {fn : String} {amount fee : Int}
    (h : FeeStub.CalcFee st payer fn amount = .ok fee) : 0 ≤ fee := by
  unfold FeeStub.CalcFee at h
  split at h
  · cases h
  · split at h
    · split at h
      · simp only [] at h
        split at h
        · split at h
          · cases h
            exact le_refl _
          · split at h
            · cases h
              omega
            · cases h
              omega
        · cases h
          exact le_refl _
      · cases h
        exact le_refl _
    · cases h
      exact le_refl _


theorem transfer_preserves (ctx : Ctx) (st : State) (params : List String)
    (hinv : LedgerInv st) : PreservesIf (fun _ => True) (transfer ctx st params) := by
  unfold transfer
  simp only []
  repeat' (first
    | exact PreservesIf_st hinv _
    | exact PreservesIf_error _ _ _
    | refine PreservesIf_ite (fun _ => ?_) (fun _ => ?_)
    | split)
  · rename_i heq
    refine fun _ _ _ => LedgerInv_snd heq (LedgerInv_Deposit hinv _ _ _ _ _ _ _ ?_ ?_ ?_)
    · omega
    · exact CalcFee_nonneg (by assumption)
    · simp only [appliedAmount]
      omega
  · rename_i heq
    refine fun _ _ _ => LedgerInv_snd heq (LedgerInv_Transfer hinv _ _ _ _ _ _ _ ?_ ?_ ?_)
    · omega
    · exact GetBalance_nonneg hinv.1 (by assumption)
    · omega

theorem pay_preserves (ctx : Ctx) (st : State) (params : List String)
    (hinv : LedgerInv st) : PreservesIf (fun _ => True) (pay ctx st params) := by
  unfold pay
  simp only []
  repeat' (first
    | exact PreservesIf_st hinv _
    | exact PreservesIf_responseError _ _ _ _
    | refine PreservesIf_ite (fun _ => ?_) (fun _ => ?_)
    | split)
  · rename_i heq
    refine fun _ _ _ => LedgerInv_snd heq (LedgerInv_Deposit hinv _ _ _ _ _ _ _ ?_ ?_ ?_)
    · omega
    · exact le_refl _
    · simp only [appliedAmount]
      omega
  · rename_i heq
    refine fun _ _ _ => LedgerInv_snd heq (LedgerInv_Pay hinv _ _ _ _ _ _ _ ?_)
    omega

theorem payRefund_preserves (ctx : Ctx) (st : State) (params : List String)
    (hinv : LedgerInv st) : PreservesIf (fun _ => True) (payRefund ctx st params) := by
  unfold payRefund
  simp only []
  repeat' (first
    | exact PreservesIf_st hinv _
    | exact PreservesIf_responseError _ _ _ _
    | refine PreservesIf_ite (fun _ => ?_) (fun _ => ?_)
    | split)
  · rename_i heq
    refine fun _ _ _ => LedgerInv_snd heq (LedgerInv_Refund hinv _ _ _ _ _ _ _ ?_ ?_)
    · omega
    · exact GetBalance_nonneg hinv.1 (by assumption)

theorem payPrune_preserves (ctx : Ctx) (st : State) (params : List String)
    (hinv : LedgerInv st) :
    PreservesIf (fun p => ∀ ps, p = .paySum ps → 0 ≤ ps.Sum - ps.Fee)
      (payPrune ctx st params) := by
  unfold payPrune
  simp only []
  repeat' (first
    | exact PreservesIf_st hinv _
    | exact PreservesIf_error _ _ _
    | refine PreservesIf_ite (fun _ => ?_) (fun _ => ?_)
    | split)
  all_goals
    rename_i heq _
    intro p hp hc
    have hnet := hc _ (Response.success.inj hp).symm
    have hb := GetBalance_nonneg hinv.1 (by assumption)
    refine LedgerInv_PutBalanceLog (CreateFee_inv heq (LedgerInv_PutBalance hinv _ ?_)) _
    show 0 ≤ _ + (_ + -_)
    omega

theorem feePrune_preserves (ctx : Ctx) (st : State) (params : List String)
    (hinv : LedgerInv st) :
    PreservesIf (fun p => ∀ fs, p = .feeSum fs → 0 ≤ fs.Sum) (feePrune ctx st params) := by
  unfold feePrune
  simp only []
  repeat' (first
    | exact PreservesIf_st hinv _
    | refine PreservesIf_ite (fun _ => ?_) (fun _ => ?_)
    | split)
  · intro p hp hc
    have hnet := hc _ (Response.success.inj hp).symm
    have hb := GetBalance_nonneg hinv.1 (by assumption)
    refine LedgerInv_PutBalanceLog (LedgerInv_PutToken (LedgerInv_PutBalance hinv _ ?_) _) _
    show 0 ≤ _ + _
    omega

theorem tokenBurn_preserves (ctx : Ctx) (st : State) (params : List String)
    (hinv : LedgerInv st) : PreservesIf (fun _ => True) (tokenBurn ctx st params) := by
  unfold tokenBurn
  simp only []
  repeat' (first
    | exact PreservesIf_st hinv _
    | exact PreservesIf_responseError _ _ _ _
    | refine PreservesIf_ite (fun _ => ?_) (fun _ => ?_)
    | split)
  rename_i heq
  exact fun _ _ _ => LedgerInv_snd heq (LedgerInv_Burn hinv _ _ _ _)

theorem tokenMint_preserves (ctx : Ctx) (st : State) (params : List String)
    (hinv : LedgerInv st) : PreservesIf (fun _ => True) (tokenMint ctx st params) := by
  unfold tokenMint
  simp only []
  repeat' (first
    | exact PreservesIf_st hinv _
    | exact PreservesIf_responseError _ _ _ _
    | refine PreservesIf_ite (fun _ => ?_) (fun _ => ?_)
    | split)
  rename_i heq
  refine fun _ _ _ => LedgerInv_snd heq (LedgerInv_Mint hinv _ _ _ _ ?_ ?_)
  · omega
  · exact GetBalance_nonneg hinv.1 (by assumption)

theorem balancePendingWithdraw_preserves (ctx : Ctx) (st : State) (params : List String)
    (hinv : LedgerInv st) :
    PreservesIf (fun _ => True) (balancePendingWithdraw ctx st params) := by
  unfold balancePendingWithdraw
  repeat' (first
    | exact PreservesIf_st hinv _
    | exact PreservesIf_responseError _ _ _ _
    | refine PreservesIf_ite (fun _ => ?_) (fun _ => ?_)
    | split)
  rename_i heq
  have hp := GetPendingBalance_nonneg hinv (by assumption)
  exact fun _ _ _ => LedgerInv_snd heq (LedgerInv_Withdraw hinv _ _ hp.1 hp.2)

theorem cancelTransfer_preserves (ctx : Ctx) (st : State) (cid : String) (doc : List DocVal)
    (hinv : LedgerInv st) : PreservesIf (fun _ => True) (cancelTransfer ctx st cid doc) := by
  unfold cancelTransfer
  repeat' (first
    | exact PreservesIf_st hinv _
    | exact PreservesIf_error _ _ _
    | refine PreservesIf_ite (fun _ => ?_) (fun _ => ?_)
    | split)
  rename_i heq
  have hp := GetPendingBalance_nonneg hinv (by assumption)
  exact fun _ _ _ => LedgerInv_snd heq (LedgerInv_Withdraw hinv _ _ hp.1 hp.2)

theorem executeTransfer_preserves (ctx : Ctx) (st : State) (cid : String) (doc : List DocVal)
    (hinv : LedgerInv st) : PreservesIf (fun _ => True) (executeTransfer ctx st cid doc) := by
  unfold executeTransfer
  simp only []
  repeat' (first
    | exact PreservesIf_st hinv _
    | exact PreservesIf_error _ _ _
    | refine PreservesIf_ite (fun _ => ?_) (fun _ => ?_)
    | split)
  rename_i heq
  have hp := GetPendingBalance_nonneg hinv (by assumption)
  exact fun _ _ _ => LedgerInv_snd heq
    (LedgerInv_TransferPendingBalance hinv _ _ _ _ hp.1 (GetBalance_nonneg hinv.1 (by assumption)))

theorem executePay_preserves (ctx : Ctx) (st : State) (cid : String) (doc : List DocVal)
    (hinv : LedgerInv st) : PreservesIf (fun _ => True) (executePay ctx st cid doc) := by
  unfold executePay
  repeat' (first
    | exact PreservesIf_st hinv _
    | exact PreservesIf_responseError _ _ _ _
    | refine PreservesIf_ite (fun _ => ?_) (fun _ => ?_)
    | split)
  rename_i heq
  exact fun _ _ _ => LedgerInv_snd heq (LedgerInv_PayPendingBalance hinv _ _ _ _ _ _)

theorem executeTokenBurn_preserves (ctx : Ctx) (st : State) (cid : String) (doc : List DocVal)
    (hinv : LedgerInv st) : PreservesIf (fun _ => True) (executeTokenBurn ctx st cid doc) := by
  unfold executeTokenBurn
  repeat' (first
    | exact PreservesIf_st hinv _
    | exact PreservesIf_responseError _ _ _ _
    | refine PreservesIf_ite (fun _ => ?_) (fun _ => ?_)
    | split)
  rename_i heq
  exact fun _ _ _ => LedgerInv_snd heq (LedgerInv_Burn hinv _ _ _ _)

theorem executeTokenCreate_preserves (ctx : Ctx) (st : State) (cid : String)
    (doc : List DocVal) (hinv : LedgerInv st) :
    PreservesIf (fun _ => True) (executeTokenCreate ctx st cid doc) := by
  unfold executeTokenCreate
  repeat' (first
    | exact PreservesIf_st hinv _
    | exact PreservesIf_responseError _ _ _ _
    | refine PreservesIf_ite (fun _ => ?_) (fun _ => ?_)
    | split)
  rename_i heq
  exact fun _ _ _ => LedgerInv_snd heq (LedgerInv_CreateToken hinv _ _ _ _ _ _ _)

theorem executeTokenMint_preserves (ctx : Ctx) (st : State) (cid : String) (doc : List DocVal)
    (hinv : LedgerInv st)
    (hdoc : ∀ s a, docString doc 2 = some s → NewAmount s = .ok a → 0 ≤ a) :
    PreservesIf (fun _ => True) (executeTokenMint ctx st cid doc) := by
  unfold executeTokenMint
  repeat' (first
    | exact PreservesIf_st hinv _
    | exact PreservesIf_responseError _ _ _ _
    | refine PreservesIf_ite (fun _ => ?_) (fun _ => ?_)
    | split)
  rename_i heq
  exact fun _ _ _ => LedgerInv_snd heq (LedgerInv_Mint hinv _ _ _ _
    (hdoc _ _ (by assumption) (by assumption)) (GetBalance_nonneg hinv.1 (by assumption)))

theorem executeAccountCreate_preserves (ctx : Ctx) (st : State) (cid : String)
    (doc : List DocVal) (hinv : LedgerInv st) :
    PreservesIf (fun _ => True) (executeAccountCreate ctx st cid doc) := by
  unfold executeAccountCreate
  repeat' (first
    | exact PreservesIf_st hinv _
    | exact PreservesIf_responseError _ _ _ _
    | refine PreservesIf_ite (fun _ => ?_) (fun _ => ?_)
    | split)
  rename_i heq
  exact fun _ _ _ => LedgerInv_snd heq (LedgerInv_CreateJointAccount hinv _ _ _).1

theorem executeAccountHolderAdd_preserves (ctx : Ctx) (st : State) (cid : String)
    (doc : List DocVal) (hinv : LedgerInv st) :
    PreservesIf (fun _ => True) (executeAccountHolderAdd ctx st cid doc) := by
  unfold executeAccountHolderAdd
  repeat' (first
    | exact PreservesIf_st hinv _
    | exact PreservesIf_responseError _ _ _ _
    | refine PreservesIf_ite (fun _ => ?_) (fun _ => ?_)
    | split)
  rename_i heq
  exact fun _ _ _ => LedgerInv_snd heq (LedgerInv_AddHolder hinv _ _ _)

theorem executeAccountHolderRemove_preserves (ctx : Ctx) (st : State) (cid : String)
    (doc : List DocVal) (hinv : LedgerInv st) :
    PreservesIf (fun _ => True) (executeAccountHolderRemove ctx st cid doc) := by
  unfold executeAccountHolderRemove
  repeat' (first
    | exact PreservesIf_st hinv _
    | exact PreservesIf_responseError _ _ _ _
    | refine PreservesIf_ite (fun _ => ?_) (fun _ => ?_)
    | split)
  rename_i heq
  exact fun _ _ _ => LedgerInv_snd heq (LedgerInv_RemoveHolder hinv _ _ _)

theorem contractVoid_preserves (ctx : Ctx) (st : State) (cid : String) (doc : List DocVal)
    (hinv : LedgerInv st) : PreservesIf (fun _ => True) (contractVoid ctx st cid doc) :=
  PreservesIf_st hinv _

theorem ctrRoutes_preserves (ctx : Ctx) (st : State) (cid : String) (doc : List DocVal)
    (hinv : LedgerInv st) (dtype : String) (fnIdx : Nat) (ctrFn : CtrFunc)
    (hmint : fnIdx = 1 → dtype = "token/mint" →
      ∀ s a, docString doc 2 = some s → NewAmount s = .ok a → 0 ≤ a)
    (h : ((ctrRoutes.lookup dtype).getD []).get? fnIdx = some ctrFn) :
    PreservesIf (fun _ => True) (ctrFn ctx st cid doc) := by
  simp only [ctrRoutes, List.lookup] at h
  repeat' (split at h)
  all_goals
    rcases fnIdx with _ | _ | n <;> simp only [Option.getD, List.get?] at h
  all_goals first
    | (cases h
       first
        | exact contractVoid_preserves ctx st cid doc hinv
        | exact cancelTransfer_preserves ctx st cid doc hinv
        | exact executeTransfer_preserves ctx st cid doc hinv
        | exact executePay_preserves ctx st cid doc hinv
        | exact executeTokenBurn_preserves ctx st cid doc hinv
        | exact executeTokenCreate_preserves ctx st cid doc hinv
        | exact executeAccountCreate_preserves ctx st cid doc hinv
        | exact executeAccountHolderAdd_preserves ctx st cid doc hinv
        | exact executeAccountHolderRemove_preserves ctx st cid doc hinv
        | exact executeTokenMint_preserves ctx st cid doc hinv
            (hmint rfl (eq_of_beq (by assumption))))
    | cases h

theorem contractCallback_preserves (ctx : Ctx) (st : State) (fnIdx : Nat)
    (params : List String) (hinv : LedgerInv st)
    (hmint : fnIdx = 1 → MintDocNonneg ctx params) :
    PreservesIf (fun _ => True) (contractCallback ctx st fnIdx params) := by
  unfold contractCallback
  simp only []
  repeat' (first
    | exact PreservesIf_st hinv _
    | exact PreservesIf_responseError _ _ _ _
    | refine PreservesIf_ite (fun _ => ?_) (fun _ => ?_)
    | split)
  rename_i hdoc _ dtype hdt _ ctrFn hfn
  refine ctrRoutes_preserves ctx st _ _ hinv dtype fnIdx ctrFn ?_ hfn
  intro h1 hd s a
  rw [hd] at hdt
  exact hmint h1 _ s a hdoc hdt

theorem kvGet_mem {V : Type} (m : KV V) (k : String) (v : V) (h : kvGet m k = some v) :
    ∃ k1, (k1, v) ∈ m := by
  induction m with
  | nil => cases h
  | cons p rest ih =>
    obtain ⟨a, w⟩ := p
    simp only [kvGet] at h
    split at h
    · cases h
      exact ⟨a, List.mem_cons_self _ _⟩
    · obtain ⟨k1, hk⟩ := ih h
      exact ⟨k1, List.mem_cons_of_mem _ hk⟩

/-- Non-negative balances, checked row by row. -/
theorem BalancesNonneg_of_rows {st : State} (hb : ∀ p ∈ st.balances, 0 ≤ p.2.Amount) :
    BalancesNonneg st := by
  intro k b hk
  obtain ⟨k1, hm⟩ := kvGet_mem _ _ _ hk
  exact hb _ hm

/-- The invariant, checked row by row. -/
theorem LedgerInv_of_rows {st : State} (hb : ∀ p ∈ st.balances, 0 ≤ p.2.Amount)
    (hp : ∀ p ∈ st.pendingBalances, 0 ≤ p.2.Amount ∧ 0 ≤ p.2.Fee.getD 0) : LedgerInv st := by
  refine ⟨BalancesNonneg_of_rows hb, ?_⟩
  intro k b hk
  obtain ⟨k1, hm⟩ := kvGet_mem _ _ _ hk
  exact hp _ hm

theorem PreservesIf_apply {c : Payload → Prop} {x : Response × State} {p : Payload}
    {st1 : State} (h : PreservesIf c x) (heq : x = (.success p, st1)) (hc : c p) :
    LedgerInv st1 := by
  subst heq
  exact h p rfl hc

theorem PreservesIf_success {x : Response × State} (h : PreservesIf (fun _ => True) x)
    (hs : x.1.isSuccess = true) : LedgerInv x.2 := by
  rcases hx : x.1 with p | m | _
  · exact h p hx trivial
  · rw [hx] at hs
    cases hs
  · rw [hx] at hs
    cases hs

/-- C2, counterexample. On `samplePrunedLedger` every balance is 0; the merchant
refunds the pay of 100 it had pruned and spent (`payRefund` succeeds, every
balance is still non-negative), and its next `pay/prune` succeeds with the sums
-100 and -5 of the refund row and leaves its balance at -95. -/
theorem payPrune_breaks_nonneg :
    BalancesNonneg samplePrunedLedger
    ∧ (payRefund sampleCtx samplePrunedLedger [samplePrunedPayID, "100"]).1.isSuccess = true
    ∧ BalancesNonneg sampleRefundedLedger
    ∧ (payPrune sampleLaterCtx sampleRefundedLedger ["ABC", "false"]).1
        = .success (.paySum { Sum := -100, Fee := -5, Count := 1, Start := "1000tx1",
                              End := "1000tx1", HasMore := false })
    ∧ (BalanceStub.GetBalance (payPrune sampleLaterCtx sampleRefundedLedger ["ABC", "false"]).2
        sampleSenderID).map (fun b => b.Amount) = .ok (-95)
    ∧ ¬ BalancesNonneg (payPrune sampleLaterCtx sampleRefundedLedger ["ABC", "false"]).2 := by
  have h95 : (BalanceStub.GetBalance
      (payPrune sampleLaterCtx sampleRefundedLedger ["ABC", "false"]).2
      sampleSenderID).map (fun b => b.Amount) = .ok (-95) := by decide
  refine ⟨BalancesNonneg_of_rows (by decide), by decide,
    BalancesNonneg_of_rows (by decide), by decide, h95, ?_⟩
  intro h
  rcases hb : BalanceStub.GetBalance
      (payPrune sampleLaterCtx sampleRefundedLedger ["ABC", "false"]).2 sampleSenderID
    with e | b
  · rw [hb] at h95
    cases h95
  · have h0 := GetBalance_nonneg h hb
    rw [hb] at h95
    simp only [Except.map, Except.ok.injEq] at h95
    omega

/-- C2, amended. From a state in which every balance is non-negative and every
pending balance holds a non-negative amount and fee, every successful
`transfer`, `pay`, `pay/refund`, `token/mint`, `token/burn`, pending withdraw
and contract cancel leaves a state of the same kind, and so does every
successful contract execute whose document, if it is a `token/mint` one,
carries a non-negative amount; a successful `pay/prune` or `fee/prune` does so
when the net sum it adds to the balance (`sum - fee` of the pay rows, the sum
of the fee rows) is not negative. -/
theorem balance_nonneg_invariant (ctx : Ctx) (st : State) (params : List String)
    (hinv : LedgerInv st) :
    ((transfer ctx st params).1.isSuccess = true → LedgerInv (transfer ctx st params).2)
    ∧ ((pay ctx st params).1.isSuccess = true → LedgerInv (pay ctx st params).2)
    ∧ ((payRefund ctx st params).1.isSuccess = true → LedgerInv (payRefund ctx st params).2)
    ∧ (∀ ps, (payPrune ctx st params).1 = .success (.paySum ps) → 0 ≤ ps.Sum - ps.Fee →
        LedgerInv (payPrune ctx st params).2)
    ∧ (∀ fs, (feePrune ctx st params).1 = .success (.feeSum fs) → 0 ≤ fs.Sum →
        LedgerInv (feePrune ctx st params).2)
    ∧ ((tokenMint ctx st params).1.isSuccess = true → LedgerInv (tokenMint ctx st params).2)
    ∧ ((tokenBurn ctx st params).1.isSuccess = true → LedgerInv (tokenBurn ctx st params).2)
    ∧ ((balancePendingWithdraw ctx st params).1.isSuccess = true →
        LedgerInv (balancePendingWithdraw ctx st params).2)
    ∧ (MintDocNonneg ctx params → (contractExecute ctx st params).1.isSuccess = true →
        LedgerInv (contractExecute ctx st params).2)
    ∧ ((contractCancel ctx st params).1.isSuccess = true →
        LedgerInv (contractCancel ctx st params).2) := by
  refine ⟨PreservesIf_success (transfer_preserves ctx st params hinv),
    PreservesIf_success (pay_preserves ctx st params hinv),
    PreservesIf_success (payRefund_preserves ctx st params hinv),
    fun ps h hn => payPrune_preserves ctx st params hinv _ h
      (fun ps1 h1 => by cases h1; exact hn),
    fun fs h hn => feePrune_preserves ctx st params hinv _ h
      (fun fs1 h1 => by cases h1; exact hn),
    PreservesIf_success (tokenMint_preserves ctx st params hinv),
    PreservesIf_success (tokenBurn_preserves ctx st params hinv),
    PreservesIf_success (balancePendingWithdraw_preserves ctx st params hinv),
    fun hm => PreservesIf_success
      (contractCallback_preserves ctx st 1 params hinv (fun _ => hm)),
    PreservesIf_success
      (contractCallback_preserves ctx st 0 params hinv (fun h => absurd h (by decide)))⟩

/-- C2, amended, on `sampleLedger 100 5`: the transfer of 30 succeeds and
leaves no negative balance and no negative escrow. -/
theorem balance_nonneg_invariant_witness :
    LedgerInv (sampleLedger 100 5)
    ∧ (transfer sampleCtx (sampleLedger 100 5) ["", sampleReceiverID, "30"]).1.isSuccess = true
    ∧ LedgerInv (transfer sampleCtx (sampleLedger 100 5) ["", sampleReceiverID, "30"]).2 :=
  ⟨LedgerInv_of_rows (by decide) (by decide), by decide,
    (balance_nonneg_invariant sampleCtx (sampleLedger 100 5) ["", sampleReceiverID, "30"]
      (LedgerInv_of_rows (by decide) (by decide))).1 (by decide)⟩

/-- The prune of a window whose net sum is not negative: on `samplePayLedger 0`
the merchant's `pay/prune` adds 100 - 5 and keeps the invariant. -/
theorem payPrune_nonneg_sample :
    (payPrune sampleCtx (samplePayLedger 0) ["ABC", "false"]).1
      = .success (.paySum { Sum := 100, Fee := 5, Count := 1, Start := "p1", End := "p1",
                            HasMore := false })
    ∧ (BalanceStub.GetBalance (payPrune sampleCtx (samplePayLedger 0) ["ABC", "false"]).2
        sampleSenderID).map (fun b => b.Amount) = .ok 95 := by
  decide

/-- The escrow part of the invariant is needed: on `sampleNegativeEscrow` the
balance is 10, and cancelling the contract of the escrow of -40 succeeds and
leaves it at -30. -/
theorem negative_escrow_sample :
    BalancesNonneg sampleNegativeEscrow
    ∧ (cancelTransfer sampleCtx sampleNegativeEscrow "c1" [.str "transfer", .str "tx0"]).1
        = .success .empty
    ∧ (BalanceStub.GetBalance
        (cancelTransfer sampleCtx sampleNegativeEscrow "c1" [.str "transfer", .str "tx0"]).2
        "A").map (fun b => b.Amount) = .ok (-30) :=
  ⟨BalancesNonneg_of_rows (by decide), by decide, by decide⟩

/-- The condition on a mint document is needed: `executeTokenMint` does not
test the sign of the amount, and a document with -130 takes the genesis balance
of 120 to -10. -/
theorem negative_mint_document_sample :
    (executeTokenMint sampleCtx sampleBurnLedger "c1"
        [.str "token/mint", .str "ABC", .str "-130"]).1 = .success .empty
    ∧ (BalanceStub.GetBalance
        (executeTokenMint sampleCtx sampleBurnLedger "c1"
          [.str "token/mint", .str "ABC", .str "-130"]).2
        sampleGenesisID).map (fun b => b.Amount) = .ok (-10) := by
  decide

/-! ## Rate application -/

/-- C13. For an amount `a ≥ 0` and a rate `n/d` with `n ≥ 0` and `d > 0`,
`MulRat` returns the integer `q` with `q·d ≤ a·n < (q+1)·d`, which is the only
such integer, and `q` does not exceed the exact product `a × n/d`. -/
theorem mulRat_floors (a n d : Int) (ha : 0 ≤ a) (hn : 0 ≤ n) (hd : 0 < d) :
    Amount.MulRat a (Rat.divInt n d) * d ≤ a * n
    ∧ a * n < (Amount.MulRat a (Rat.divInt n d) + 1) * d
    ∧ (∀ q : Int, q * d ≤ a * n → a * n < (q + 1) * d → q = Amount.MulRat a (Rat.divInt n d))
    ∧ ((Amount.MulRat a (Rat.divInt n d) : Int) : ℚ) ≤ (a : ℚ) * Rat.divInt n d
    ∧ 0 ≤ Amount.MulRat a (Rat.divInt n d) := by
  have hdq : (0 : ℚ) < (d : ℚ) := by exact_mod_cast hd
  have hfl : Amount.MulRat a (Rat.divInt n d) = ⌊((a * n : Int) : ℚ) / (d : ℚ)⌋ := by
    rw [Amount.MulRat_eq_floor, Rat.divInt_eq_div]
    congr 1
    push_cast
    ring
  have hdiv : Amount.MulRat a (Rat.divInt n d) = (a * n) / d := by
    rw [hfl]
    obtain ⟨k, hk⟩ := Int.eq_ofNat_of_zero_le (le_of_lt hd)
    rw [hk, Int.cast_natCast]
    exact Rat.floor_intCast_div_natCast (a * n) k
  have h1 : (a * n) / d * d ≤ a * n := Int.ediv_mul_le _ (ne_of_gt hd)
  have h2 : a * n < ((a * n) / d + 1) * d := Int.lt_ediv_add_one_mul_self _ hd
  refine ⟨by rw [hdiv]; exact h1, by rw [hdiv]; exact h2, ?_, ?_, ?_⟩
  · intro q hq1 hq2
    rw [hdiv]
    have hq : q ≤ (a * n) / d := (Int.le_ediv_iff_mul_le hd).mpr hq1
    have hq' : (a * n) / d < q + 1 := (Int.ediv_lt_iff_lt_mul hd).mpr hq2
    omega
  · rw [hfl]
    have := Int.floor_le (((a * n : Int) : ℚ) / (d : ℚ))
    calc ((⌊((a * n : Int) : ℚ) / (d : ℚ)⌋ : Int) : ℚ) ≤ ((a * n : Int) : ℚ) / (d : ℚ) := this
      _ = (a : ℚ) * Rat.divInt n d := by
        rw [Rat.divInt_eq_div]
        push_cast
        ring
  · rw [hdiv]
    exact Int.ediv_nonneg (Int.mul_nonneg ha hn) (le_of_lt hd)

/-- C13 at 7 × 1/2: the result is 3, with `3·2 ≤ 7 < 4·2`. -/
theorem mulRat_floors_witness :
    Amount.MulRat 7 (Rat.divInt 1 2) * 2 ≤ 7 * 1
    ∧ 7 * 1 < (Amount.MulRat 7 (Rat.divInt 1 2) + 1) * 2 :=
  ⟨(mulRat_floors 7 1 2 (by decide) (by decide) (by decide)).1,
   (mulRat_floors 7 1 2 (by decide) (by decide) (by decide)).2.1⟩

/-! ## Mint and burn -/

/-- The fields of a supply log: the balance's id and amount, the difference,
and the kind by the sign of the difference. -/
theorem supplyLog_fields (bal : Balance) (diff ts : Int) :
    ((NewBalanceSupplyLog bal diff).created ts).DOCTYPEID = bal.DOCTYPEID
    ∧ ((NewBalanceSupplyLog bal diff).created ts).CreatedTime = some ts
    ∧ ((NewBalanceSupplyLog bal diff).created ts).Diff = diff
    ∧ ((NewBalanceSupplyLog bal diff).created ts).Amount = bal.Amount
    ∧ ((NewBalanceSupplyLog bal diff).created ts).Typ
        = (if diff < 0 then BalanceLogType.Burn else BalanceLogType.Mint) := by
  unfold NewBalanceSupplyLog
  split <;> exact ⟨rfl, rfl, rfl, rfl, rfl⟩

/-- `Supply`, once the transaction time is known: the balance plus the amount
is stored, and one log of it. -/
theorem BalanceStub.Supply_spec (ctx : Ctx) (st : State) (bal : Balance) (amount ts : Int)
    (hts : GetTime ctx = .ok ts) :
    BalanceStub.Supply ctx st bal amount
      = (.ok ((NewBalanceSupplyLog
                { bal with Amount := bal.Amount + amount, UpdatedTime := some ts } amount).created ts,
              { bal with Amount := bal.Amount + amount, UpdatedTime := some ts }),
         { st with
           balances := kvPut st.balances (BalanceStub.CreateKey bal.DOCTYPEID)
             { bal with Amount := bal.Amount + amount, UpdatedTime := some ts },
           balanceLogs := kvPut st.balanceLogs (BalanceStub.CreateLogKey bal.DOCTYPEID ts)
             ((NewBalanceSupplyLog
                { bal with Amount := bal.Amount + amount, UpdatedTime := some ts } amount).created
                ts) }) := by
  unfold BalanceStub.Supply
  simp only [hts]
  have hf := supplyLog_fields
    { bal with Amount := bal.Amount + amount, UpdatedTime := some ts } amount ts
  simp only [BalanceStub.PutBalanceLog, BalanceStub.PutBalance, hf.1, hf.2.1, Option.getD_some]

/-- C18. Once the transaction time is known, for a token with
`supply < maxSupply` and a requested amount `a ≥ 0`, `Mint` succeeds; the token
it returns and stores has supply `min (supply + a) maxSupply`; the balance it
returns and stores is the given one plus the real difference
`min (supply + a) maxSupply - supply`; and the one log it writes is a Mint log
whose diff is the real difference and whose amount is the resulting balance.
Nothing else is written. -/
theorem mint_clamps (ctx : Ctx) (st : State) (token : Token) (bal : Balance) (a ts : Int)
    (hts : GetTime ctx = .ok ts) (hs : token.Supply < token.MaxSupply) (ha : 0 ≤ a) :
    ∃ token1 bal1 log,
      TokenStub.Mint ctx st token bal a
        = (.ok (token1, bal1, log),
           { st with
             tokens := kvPut st.tokens (TokenStub.CreateKey token.DOCTYPEID) token1,
             balances := kvPut st.balances (BalanceStub.CreateKey bal.DOCTYPEID) bal1,
             balanceLogs := kvPut st.balanceLogs (BalanceStub.CreateLogKey bal.DOCTYPEID ts) log })
      ∧ token1 = { token with Supply := min (token.Supply + a) token.MaxSupply,
                              UpdatedTime := some ts }
      ∧ bal1 = { bal with
                 Amount := bal.Amount + (min (token.Supply + a) token.MaxSupply - token.Supply),
                 UpdatedTime := some ts }
      ∧ log.Typ = BalanceLogType.Mint
      ∧ log.Diff = min (token.Supply + a) token.MaxSupply - token.Supply
      ∧ log.Amount = bal1.Amount
      ∧ log.DOCTYPEID = bal.DOCTYPEID := by
  have hreal : (if token.MaxSupply < token.Supply + a then
        (a + token.MaxSupply + -(token.Supply + a), token.MaxSupply)
      else (a, token.Supply + a))
      = (min (token.Supply + a) token.MaxSupply - token.Supply,
         min (token.Supply + a) token.MaxSupply) := by
    by_cases hc : token.MaxSupply < token.Supply + a
    · rw [if_pos hc, min_eq_right (by omega)]
      congr 1
      omega
    · rw [if_neg hc, min_eq_left (by omega)]
      congr 1
      omega
  have hnn : ¬ (min (token.Supply + a) token.MaxSupply - token.Supply < 0) := by
    have := le_min (by omega : token.Supply ≤ token.Supply + a) (le_of_lt hs)
    omega
  unfold TokenStub.Mint
  simp only [hts]
  rw [if_neg (by omega)]
  simp only [hreal, BalanceStub.Supply_spec _ _ _ _ ts hts]
  have hf := supplyLog_fields
    { bal with Amount := bal.Amount + (min (token.Supply + a) token.MaxSupply - token.Supply),
               UpdatedTime := some ts }
    (min (token.Supply + a) token.MaxSupply - token.Supply) ts
  refine ⟨_, _, _, rfl, rfl, rfl, ?_, hf.2.2.1, hf.2.2.2.1, hf.1⟩
  rw [hf.2.2.2.2, if_neg hnn]

/-- C18 on the sample token (supply 100 of at most 1000) and a genesis balance
of 100, for a request of 50. -/
theorem mint_clamps_witness :
    GetTime sampleCtx = .ok 1000 ∧ sampleToken.Supply < sampleToken.MaxSupply ∧ (0 : Int) ≤ 50
    ∧ ∃ token1 bal1 log,
      TokenStub.Mint sampleCtx sampleTokenState sampleToken (sampleBalance sampleGenesisID 100) 50
        = (.ok (token1, bal1, log),
           { sampleTokenState with
             tokens := kvPut sampleTokenState.tokens
               (TokenStub.CreateKey sampleToken.DOCTYPEID) token1,
             balances := kvPut sampleTokenState.balances
               (BalanceStub.CreateKey (sampleBalance sampleGenesisID 100).DOCTYPEID) bal1,
             balanceLogs := kvPut sampleTokenState.balanceLogs
               (BalanceStub.CreateLogKey (sampleBalance sampleGenesisID 100).DOCTYPEID 1000) log })
      ∧ token1 = { sampleToken with
                   Supply := min (sampleToken.Supply + 50) sampleToken.MaxSupply,
                   UpdatedTime := some 1000 }
      ∧ bal1 = { sampleBalance sampleGenesisID 100 with
                 Amount := (sampleBalance sampleGenesisID 100).Amount
                   + (min (sampleToken.Supply + 50) sampleToken.MaxSupply - sampleToken.Supply),
                 UpdatedTime := some 1000 }
      ∧ log.Typ = BalanceLogType.Mint
      ∧ log.Diff = min (sampleToken.Supply + 50) sampleToken.MaxSupply - sampleToken.Supply
      ∧ log.Amount = bal1.Amount
      ∧ log.DOCTYPEID = (sampleBalance sampleGenesisID 100).DOCTYPEID :=
  ⟨rfl, by decide, by decide,
    mint_clamps sampleCtx sampleTokenState sampleToken (sampleBalance sampleGenesisID 100) 50 1000
      rfl (by decide) (by decide)⟩

/-- The mint of 50 on supply 100 of at most 1000 with a genesis balance of 100:
supply 150, balance 150, one Mint log with diff 50 and amount 150; a mint of
5000 stops at the maximum: supply 1000, balance 1000, diff 900. -/
theorem mint_samples :
    (TokenStub.Mint sampleCtx sampleTokenState sampleToken
        (sampleBalance sampleGenesisID 100) 50).1.map
      (fun r => (r.1.Supply, r.2.1.Amount, r.2.2.Typ, r.2.2.Diff, r.2.2.Amount))
      = .ok (150, 150, BalanceLogType.Mint, 50, 150)
    ∧ (TokenStub.Mint sampleCtx sampleTokenState sampleToken
        (sampleBalance sampleGenesisID 100) 50).2.balanceLogs.length = 1
    ∧ (TokenStub.Mint sampleCtx sampleTokenState sampleToken
        (sampleBalance sampleGenesisID 100) 5000).1.map
      (fun r => (r.1.Supply, r.2.1.Amount, r.2.2.Typ, r.2.2.Diff, r.2.2.Amount))
      = .ok (1000, 1000, BalanceLogType.Mint, 900, 1000) := by
  decide

/-- C19. Once the transaction time is known, for a token with supply `s > 0`, a
genesis balance `b > 0` and a requested amount `a > 0`, `Burn` succeeds; the
balance it returns and stores is `b - min a b`, which is not negative; the token
it returns and stores has supply `s - min a b`; and the one log it writes is a
Burn log whose diff is `-min a b` and whose amount is the resulting balance.
Nothing else is written. -/
theorem burn_clamps (ctx : Ctx) (st : State) (token : Token) (bal : Balance) (a ts : Int)
    (hts : GetTime ctx = .ok ts) (hs : 0 < token.Supply) (hb : 0 < bal.Amount) (ha : 0 < a) :
    ∃ token1 bal1 log,
      TokenStub.Burn ctx st token bal a
        = (.ok (token1, bal1, some log),
           { st with
             tokens := kvPut st.tokens (TokenStub.CreateKey token.DOCTYPEID) token1,
             balances := kvPut st.balances (BalanceStub.CreateKey bal.DOCTYPEID) bal1,
             balanceLogs := kvPut st.balanceLogs (BalanceStub.CreateLogKey bal.DOCTYPEID ts) log })
      ∧ token1 = { token with Supply := token.Supply - min a bal.Amount,
                              UpdatedTime := some ts }
      ∧ bal1 = { bal with Amount := bal.Amount - min a bal.Amount, UpdatedTime := some ts }
      ∧ 0 ≤ bal1.Amount
      ∧ log.Typ = BalanceLogType.Burn
      ∧ log.Diff = -min a bal.Amount
      ∧ log.Amount = bal1.Amount
      ∧ log.DOCTYPEID = bal.DOCTYPEID := by
  have hreal : (if bal.Amount < a then bal.Amount else a) = min a bal.Amount := by
    by_cases hc : bal.Amount < a
    · rw [if_pos hc, min_eq_right (by omega)]
    · rw [if_neg hc, min_eq_left (by omega)]
  have hpos : 0 < min a bal.Amount := lt_min ha hb
  have hle : min a bal.Amount ≤ bal.Amount := min_le_right _ _
  unfold TokenStub.Burn
  simp only [hts, hreal]
  rw [if_neg (by omega), if_neg (by omega)]
  simp only [BalanceStub.Supply_spec _ _ _ _ ts hts]
  have hf := supplyLog_fields
    { bal with Amount := bal.Amount + -min a bal.Amount, UpdatedTime := some ts }
    (-min a bal.Amount) ts
  refine ⟨_, _, _, rfl, ?_, ?_, ?_, ?_, hf.2.2.1, ?_, hf.1⟩
  · show ({ token with Supply := token.Supply + -min a bal.Amount, UpdatedTime := some ts }
      : Token) = _
    rw [← Int.sub_eq_add_neg]
  · show ({ bal with Amount := bal.Amount + -min a bal.Amount, UpdatedTime := some ts }
      : Balance) = _
    rw [← Int.sub_eq_add_neg]
  · show 0 ≤ bal.Amount + -min a bal.Amount
    omega
  · rw [hf.2.2.2.2, if_pos (by omega)]
  · exact hf.2.2.2.1

/-- C19 on the sample token (supply 100) and a genesis balance of 30, for a
request of 80. -/
theorem burn_clamps_witness :
    GetTime sampleCtx = .ok 1000 ∧ 0 < sampleToken.Supply
    ∧ 0 < (sampleBalance sampleGenesisID 30).Amount ∧ (0 : Int) < 80
    ∧ ∃ token1 bal1 log,
      TokenStub.Burn sampleCtx sampleTokenState sampleToken (sampleBalance sampleGenesisID 30) 80
        = (.ok (token1, bal1, some log),
           { sampleTokenState with
             tokens := kvPut sampleTokenState.tokens
               (TokenStub.CreateKey sampleToken.DOCTYPEID) token1,
             balances := kvPut sampleTokenState.balances
               (BalanceStub.CreateKey (sampleBalance sampleGenesisID 30).DOCTYPEID) bal1,
             balanceLogs := kvPut sampleTokenState.balanceLogs
               (BalanceStub.CreateLogKey (sampleBalance sampleGenesisID 30).DOCTYPEID 1000) log })
      ∧ token1 = { sampleToken with
                   Supply := sampleToken.Supply - min 80 (sampleBalance sampleGenesisID 30).Amount,
                   UpdatedTime := some 1000 }
      ∧ bal1 = { sampleBalance sampleGenesisID 30 with
                 Amount := (sampleBalance sampleGenesisID 30).Amount
                   - min 80 (sampleBalance sampleGenesisID 30).Amount,
                 UpdatedTime := some 1000 }
      ∧ 0 ≤ bal1.Amount
      ∧ log.Typ = BalanceLogType.Burn
      ∧ log.Diff = -min 80 (sampleBalance sampleGenesisID 30).Amount
      ∧ log.Amount = bal1.Amount
      ∧ log.DOCTYPEID = (sampleBalance sampleGenesisID 30).DOCTYPEID :=
  ⟨rfl, by decide, by decide, by decide,
    burn_clamps sampleCtx sampleTokenState sampleToken (sampleBalance sampleGenesisID 30) 80 1000
      rfl (by decide) (by decide) (by decide)⟩

/-- The burn of 80 against a genesis balance of 30 on supply 100: balance 0,
supply 70, one Burn log with diff -30 and amount 0. -/
theorem burn_samples :
    (TokenStub.Burn sampleCtx sampleTokenState sampleToken
        (sampleBalance sampleGenesisID 30) 80).1.map
      (fun r => (r.1.Supply, r.2.1.Amount,
        r.2.2.map (fun l => (l.Typ, l.Diff, l.Amount))))
      = .ok (70, 0, some (BalanceLogType.Burn, -30, 0))
    ∧ (TokenStub.Burn sampleCtx sampleTokenState sampleToken
        (sampleBalance sampleGenesisID 30) 80).2.balanceLogs.length = 1 := by
  decide

/-- C20, counterexample. With supply 100 and a genesis balance of 0, a burn of
50 is not an error: `Burn` returns the token and the balance as given, with no
log, and the state as given. -/
theorem burn_of_empty_balance_succeeds :
    TokenStub.Burn sampleCtx sampleTokenState sampleToken (sampleBalance sampleGenesisID 0) 50
      = (.ok (sampleToken, sampleBalance sampleGenesisID 0, none), sampleTokenState) := by
  decide

/-- C20, amended. Once the transaction time is known: `Mint` fails with
`SupplyError` when the supply equals or exceeds the maximum; `Burn` fails with
`SupplyError` when the supply is zero; and when the supply is not zero and the
clamped amount is not positive (a genesis balance of zero, for a request that
is not negative), `Burn` succeeds with the token and the balance as given and
without a log.  In each case the state is the one given. -/
theorem supply_noop (ctx : Ctx) (st : State) (token : Token) (bal : Balance) (a ts : Int)
    (hts : GetTime ctx = .ok ts) :
    (token.MaxSupply ≤ token.Supply →
      TokenStub.Mint ctx st token bal a = (.error (SupplyError "max supplied"), st))
    ∧ (token.Supply = 0 →
      TokenStub.Burn ctx st token bal a = (.error (SupplyError "no supply"), st))
    ∧ (token.Supply ≠ 0 → min a bal.Amount ≤ 0 →
      TokenStub.Burn ctx st token bal a = (.ok (token, bal, none), st))
    ∧ (token.Supply ≠ 0 → bal.Amount = 0 → 0 ≤ a →
      TokenStub.Burn ctx st token bal a = (.ok (token, bal, none), st)) := by
  have hreal : (if bal.Amount < a then bal.Amount else a) = min a bal.Amount := by
    by_cases hc : bal.Amount < a
    · rw [if_pos hc, min_eq_right (by omega)]
    · rw [if_neg hc, min_eq_left (by omega)]
  have hburn : token.Supply ≠ 0 → min a bal.Amount ≤ 0 →
      TokenStub.Burn ctx st token bal a = (.ok (token, bal, none), st) := by
    intro h0 hm
    unfold TokenStub.Burn
    simp only [hts, hreal]
    rw [if_neg h0, if_pos hm]
  refine ⟨?_, ?_, hburn, ?_⟩
  · intro h
    unfold TokenStub.Mint
    simp only [hts]
    rw [if_pos (by omega)]
  · intro h
    unfold TokenStub.Burn
    simp only [hts]
    rw [if_pos h]
  · intro h0 hb ha
    exact hburn h0 (by rw [hb]; exact min_le_right _ _)

/-- C20, amended, on the sample token with a supply already at its maximum:
the mint is refused and the state is the one given. -/
theorem supply_noop_witness :
    GetTime sampleCtx = .ok 1000
    ∧ TokenStub.Mint sampleCtx sampleTokenState { sampleToken with Supply := 1000 }
        (sampleBalance sampleGenesisID 0) 50
      = (.error (SupplyError "max supplied"), sampleTokenState) :=
  ⟨rfl, (supply_noop sampleCtx sampleTokenState { sampleToken with Supply := 1000 }
    (sampleBalance sampleGenesisID 0) 50 1000 rfl).1 (by decide)⟩

/-! ## Fee recording -/

/-- C14. `CreateFee` with amount 0 returns no fee and the state as given.  With
any other amount, once the transaction time `ts` is known, it returns a fee and
stores it as the one new row of the fee table, under the key of its id; the
fee's payer is `addr`, its amount the amount, its id `ts` (nanoseconds) followed
by the transaction id, and its token code the upper-cased text before the last
50 characters of `addr`.  On the sample ledgers, the instant transfer of 30
out of 100 leaves the sender 67 and one fee row of 3 at the rate of 10%, and
leaves the sender 70 and no fee row at the rate of 1%. -/
theorem createFee_records (ctx : Ctx) (st : State) (addr : String) (amount ts : Int)
    (hts : GetTime ctx = .ok ts) :
    (amount = 0 → FeeStub.CreateFee ctx st addr amount = (.ok none, st))
    ∧ (amount ≠ 0 → ∃ fee,
        FeeStub.CreateFee ctx st addr amount
          = (.ok (some fee), { st with fees := kvPut st.fees (FeeStub.CreateKey fee.FeeID) fee })
        ∧ fee.Account = addr ∧ fee.Amount = amount
        ∧ fee.FeeID = toString ts ++ ctx.txID
        ∧ fee.CreatedTime = some ts
        ∧ (50 ≤ addr.length →
            fee.DOCTYPEID = toUpper (strSlice addr 0 (addr.length - 50))))
    ∧ ((BalanceStub.GetBalance
          (transfer sampleCtx (sampleLedger 100 5) ["", sampleReceiverID, "30"]).2
          sampleSenderID).map (fun b => b.Amount) = .ok 67
        ∧ (transfer sampleCtx (sampleLedger 100 5) ["", sampleReceiverID, "30"]).2.fees.map
            (fun p => (p.1, p.2.Account, p.2.Amount, p.2.DOCTYPEID))
          = [("FEE_1000tx1", sampleSenderID, 3, "ABC")]
        ∧ (BalanceStub.GetBalance
          (transfer sampleCtx sampleLedgerOnePercent ["", sampleReceiverID, "30"]).2
          sampleSenderID).map (fun b => b.Amount) = .ok 70
        ∧ (transfer sampleCtx sampleLedgerOnePercent ["", sampleReceiverID, "30"]).2.fees = []) := by
  refine ⟨?_, ?_, by decide⟩
  · intro h0
    unfold FeeStub.CreateFee
    rw [if_pos h0]
  · intro hne
    unfold FeeStub.CreateFee
    rw [if_neg hne]
    simp only [hts, FeeStub.PutFee]
    refine ⟨_, rfl, rfl, rfl, rfl, rfl, ?_⟩
    intro hlen
    unfold ParseCode
    simp only []
    rw [if_neg (by omega)]

/-- C14 for a fee of 3 paid by the first sample account under `sampleCtx`. -/
theorem createFee_records_witness :
    GetTime sampleCtx = .ok 1000
    ∧ ∃ fee,
        FeeStub.CreateFee sampleCtx emptyState sampleSenderID 3
          = (.ok (some fee),
             { emptyState with fees := kvPut emptyState.fees (FeeStub.CreateKey fee.FeeID) fee })
        ∧ fee.Account = sampleSenderID ∧ fee.Amount = 3
        ∧ fee.FeeID = toString (1000 : Int) ++ sampleCtx.txID
        ∧ fee.CreatedTime = some 1000
        ∧ (50 ≤ sampleSenderID.length →
            fee.DOCTYPEID = toUpper (strSlice sampleSenderID 0 (sampleSenderID.length - 50))) :=
  ⟨rfl, (createFee_records sampleCtx emptyState sampleSenderID 3 1000 rfl).2.1 (by decide)⟩

/-! ## The fee of a refund -/

theorem SuccessImplies_error (Q : State → Prop) (m : String) (st : State) :
    SuccessImplies Q (.error m, st) :=
  fun h => Bool.noConfusion h

theorem SuccessImplies_panic (Q : State → Prop) (st : State) : SuccessImplies Q (.panic, st) :=
  fun h => Bool.noConfusion h

theorem SuccessImplies_responseError (Q : State → Prop) (e : Error) (m : String) (st : State) :
    SuccessImplies Q (responseError e m, st) := by
  obtain ⟨msg, hm⟩ := responseError_eq e m
  rw [hm]
  exact SuccessImplies_error Q msg st

theorem SuccessImplies_ite {Q : State → Prop} {q : Prop} [Decidable q]
    {a b : Response × State}
    (ha : q → SuccessImplies Q a) (hb : ¬ q → SuccessImplies Q b) :
    SuccessImplies Q (if q then a else b) := by
  split
  · exact ha (by assumption)
  · exact hb (by assumption)

theorem PayStub.CreateKey_ne (a b : String) (h : a ≠ b) :
    PayStub.CreateKey a ≠ PayStub.CreateKey b := by
  unfold PayStub.CreateKey
  intro hk
  by_cases ha : a = "" <;> by_cases hb : b = ""
  · exact h (ha.trans hb.symm)
  · rw [if_pos ha, if_neg hb] at hk
    have h1 := congrArg String.length hk
    have h4 : "PAY_".length = 4 := by decide
    have h0 : "".length = 0 := by decide
    rw [String.length_append, h4, h0] at h1
    omega
  · rw [if_neg ha, if_pos hb] at hk
    have h1 := congrArg String.length hk
    have h4 : "PAY_".length = 4 := by decide
    have h0 : "".length = 0 := by decide
    rw [String.length_append, h4, h0] at h1
    omega
  · rw [if_neg ha, if_neg hb] at hk
    exact h (append_left_cancel_str _ _ _ hk)

/-- The refund fee of the source is the whole fee for a total refund and the
floor of `r × F / A` otherwise. -/
theorem refundFee_eq (r A F : Int) :
    (if r ≠ A then Amount.MulRat r (Rat.divInt F A) else F)
      = (if r = A then F else ⌊((r : ℚ) * (F : ℚ)) / (A : ℚ)⌋) := by
  by_cases h : r = A
  · rw [if_neg (not_not.mpr h), if_pos h]
  · rw [if_pos h, if_neg h, Amount.MulRat_eq_floor, Rat.divInt_eq_div, mul_div_assoc]

/-- The row `Refund` stores for the refund itself. -/
theorem refundStub_row {ctx : Ctx} {st st1 : State} {sender receiver : Balance}
    {amount fee : Int} {memo : String} {parentPay : Pay} {ts : Int}
    {res : Except Error (BalanceLog × Balance × Pay)}
    (heq : PayStub.Refund ctx st sender receiver amount fee memo parentPay = (res, st1))
    (hts : GetTime ctx = .ok ts) (hid : parentPay.PayID ≠ toString ts ++ ctx.txID) :
    PayStub.GetPay st1 (toString ts ++ ctx.txID)
      = .ok (NewPay sender.GetID (toString ts ++ ctx.txID) (-amount) (-fee) receiver.GetID
          parentPay.PayID "" memo ts) := by
  have hk := PayStub.CreateKey_ne _ _ hid
  unfold PayStub.Refund at heq
  simp only [hts, Prod.mk.injEq] at heq
  rw [← heq.2]
  unfold PayStub.GetPay
  simp only [BalanceStub.PutBalanceLog, BalanceStub.PutBalance, PayStub.PutParentPay,
    PayStub.PutPay, kvGet_kvPut, NewPay]
  rw [if_neg hk]
  simp only [if_true]

/-- C15. For a refund request of `r` against a stored pay of amount `A` and fee
`F` (a pay not made by this very transaction), when `payRefund` accepts the
request the refund row it stores, under the id made of the transaction time and
id, carries the amount `-r` and the fee `-f`, where the refunded fee `f` is `F`
when `r = A` and `floor (r × F / A)` otherwise. -/
theorem refund_fee_portion (ctx : Ctx) (st : State) (params : List String) (kid : String)
    (r ts : Int) (parentPay : Pay)
    (hlen : 2 ≤ params.length) (hkid : ctx.kid = .ok kid)
    (hamt : NewAmount (param params 1) = .ok r)
    (hpay : PayStub.GetPay st (param params 0) = .ok parentPay)
    (hts : GetTime ctx = .ok ts) (hid : parentPay.PayID ≠ toString ts ++ ctx.txID)
    (hok : (payRefund ctx st params).1.isSuccess = true) :
    ∃ row, PayStub.GetPay (payRefund ctx st params).2 (toString ts ++ ctx.txID) = .ok row
      ∧ row.Amount = -r
      ∧ row.Fee = -(if r = parentPay.Amount then parentPay.Fee
                    else ⌊((r : ℚ) * (parentPay.Fee : ℚ)) / (parentPay.Amount : ℚ)⌋)
      ∧ row.ParentID = parentPay.PayID := by
  have h2 : ¬ params.length < 2 := by omega
  have key : SuccessImplies (fun st1 =>
      ∃ row, PayStub.GetPay st1 (toString ts ++ ctx.txID) = .ok row
        ∧ row.Amount = -r
        ∧ row.Fee = -(if r = parentPay.Amount then parentPay.Fee
                      else ⌊((r : ℚ) * (parentPay.Fee : ℚ)) / (parentPay.Amount : ℚ)⌋)
        ∧ row.ParentID = parentPay.PayID) (payRefund ctx st params) := by
    unfold payRefund
    simp only [h2, if_false, hkid, hamt, hpay]
    rw [refundFee_eq]
    generalize (if r = parentPay.Amount then parentPay.Fee
      else ⌊((r : ℚ) * (parentPay.Fee : ℚ)) / (parentPay.Amount : ℚ)⌋) = fee
    generalize (if params.length > 2 then truncMemo (param params 2) else "") = memo
    repeat' (first
      | exact SuccessImplies_error _ _ _
      | exact SuccessImplies_panic _ _
      | exact SuccessImplies_responseError _ _ _ _
      | refine SuccessImplies_ite (fun _ => ?_) (fun _ => ?_)
      | split)
    rename_i heq
    exact fun _ => ⟨_, refundStub_row heq hts hid, rfl, rfl, rfl⟩
  exact key hok

/-- C15 on `samplePayLedger 0`: the refund of 40 against the pay of 100 with
fee 5. -/
theorem refund_fee_portion_witness :
    2 ≤ ["p1", "40"].length ∧ sampleCtx.kid = .ok sampleKid
    ∧ NewAmount (param ["p1", "40"] 1) = .ok 40
    ∧ PayStub.GetPay (samplePayLedger 0) (param ["p1", "40"] 0) = .ok (samplePay 0)
    ∧ GetTime sampleCtx = .ok 1000
    ∧ (samplePay 0).PayID ≠ toString (1000 : Int) ++ sampleCtx.txID
    ∧ (payRefund sampleCtx (samplePayLedger 0) ["p1", "40"]).1.isSuccess = true
    ∧ ∃ row, PayStub.GetPay (payRefund sampleCtx (samplePayLedger 0) ["p1", "40"]).2
          (toString (1000 : Int) ++ sampleCtx.txID) = .ok row
      ∧ row.Amount = -40
      ∧ row.Fee = -(if (40 : Int) = (samplePay 0).Amount then (samplePay 0).Fee
                    else ⌊(((40 : Int) : ℚ) * ((samplePay 0).Fee : ℚ))
                            / ((samplePay 0).Amount : ℚ)⌋)
      ∧ row.ParentID = (samplePay 0).PayID :=
  ⟨by decide, rfl, by decide, by decide, rfl, by decide, by decide,
    refund_fee_portion sampleCtx (samplePayLedger 0) ["p1", "40"] sampleKid 40 1000
      (samplePay 0) (by decide) rfl (by decide) (by decide) rfl (by decide) (by decide)⟩

/-- The refunded fee for `A = 100`, `F = 5`, `r = 40` is 2, and the stored
refund row carries -2. -/
theorem refund_fee_sample :
    ⌊(((40 : Int) : ℚ) * ((5 : Int) : ℚ)) / ((100 : Int) : ℚ)⌋ = 2
    ∧ (PayStub.GetPay (payRefund sampleCtx (samplePayLedger 0) ["p1", "40"]).2 "1000tx1").map
        (fun p => (p.Amount, p.Fee)) = .ok (-40, -2) := by
  refine ⟨?_, by decide⟩
  rw [Int.floor_eq_iff]
  norm_num

/-! ## Prune batching -/

theorem getLast?_cons_getD {α : Type} (a d : α) (l : List α) :
    (a :: l).getLast?.getD d = l.getLast?.getD a := by
  cases l with
  | nil => rfl
  | cons b t =>
    rw [List.getLast?_cons_cons]
    cases h : (b :: t).getLast? with
    | none => simp at h
    | some x => rfl

/-- The loop of `GetFeeSumByTime`, started with `cnt` rows read. -/
theorem feeSumLoop_spec : ∀ (rows : List Fee) (cnt : Nat) (fs : FeeSum),
    cnt ≤ FeePruneSize →
    (feeSumLoop rows cnt fs).Count = cnt + min rows.length (FeePruneSize - cnt)
    ∧ (feeSumLoop rows cnt fs).HasMore
        = (fs.HasMore || decide (FeePruneSize - cnt < rows.length))
    ∧ (feeSumLoop rows cnt fs).Sum
        = fs.Sum + ((rows.take (FeePruneSize - cnt)).map (fun f => f.Amount)).sum
    ∧ (feeSumLoop rows cnt fs).Start
        = (if cnt = 0 then (rows.head?.map (fun f => f.FeeID)).getD fs.Start else fs.Start)
    ∧ (feeSumLoop rows cnt fs).End
        = ((rows.take (FeePruneSize - cnt)).map (fun f => f.FeeID)).getLast?.getD fs.End
  | [], cnt, fs, _ => by
    simp [feeSumLoop]
  | f :: rest, cnt, fs, h => by
    unfold feeSumLoop
    simp only []
    by_cases hc : cnt + 1 > FeePruneSize
    · have h0 : FeePruneSize - cnt = 0 := by omega
      have hne : ¬ cnt = 0 := by
        unfold FeePruneSize at hc
        omega
      have hne1 : ¬ cnt + 1 = 1 := by omega
      rw [if_pos hc]
      simp [h0, hne, hne1]
    · rw [if_neg hc]
      obtain ⟨h1, h2, h3, h4, h5⟩ := feeSumLoop_spec rest (cnt + 1)
        { (if cnt + 1 = 1 then { fs with Start := f.FeeID } else fs) with
          Sum := (if cnt + 1 = 1 then { fs with Start := f.FeeID } else fs).Sum + f.Amount,
          End := f.FeeID } (by omega)
      have hk : FeePruneSize - cnt = (FeePruneSize - (cnt + 1)) + 1 := by omega
      have hsum : (if cnt + 1 = 1 then { fs with Start := f.FeeID } else fs).Sum = fs.Sum := by
        split <;> rfl
      have hmore : (if cnt + 1 = 1 then { fs with Start := f.FeeID } else fs).HasMore
          = fs.HasMore := by
        split <;> rfl
      refine ⟨?_, ?_, ?_, ?_, ?_⟩
      · rw [h1, List.length_cons]
        omega
      · rw [h2, List.length_cons]
        simp only [hmore]
        congr 1
        apply decide_eq_decide.mpr
        omega
      · rw [h3, hk, List.take_succ_cons, List.map_cons, List.sum_cons]
        simp only [hsum]
        omega
      · rw [h4, if_neg (by omega)]
        by_cases h0 : cnt = 0
        · simp [h0]
        · have : ¬ cnt + 1 = 1 := by omega
          simp [h0, this]
      · rw [h5, hk, List.take_succ_cons, List.map_cons, getLast?_cons_getD]

/-- The loop of `GetPaySumByTime`, started with `cnt` rows read. -/
theorem paySumLoop_spec : ∀ (rows : List Pay) (cnt : Nat) (cs : PaySum),
    cnt ≤ PaysPruneSize →
    (paySumLoop rows cnt cs).Count = cnt + min rows.length (PaysPruneSize - cnt)
    ∧ (paySumLoop rows cnt cs).HasMore
        = (cs.HasMore || decide (PaysPruneSize - cnt < rows.length))
    ∧ (paySumLoop rows cnt cs).Sum
        = cs.Sum + ((rows.take (PaysPruneSize - cnt)).map (fun c => c.Amount)).sum
    ∧ (paySumLoop rows cnt cs).Fee
        = cs.Fee + ((rows.take (PaysPruneSize - cnt)).map (fun c => c.Fee)).sum
    ∧ (paySumLoop rows cnt cs).Start
        = (if cnt = 0 then (rows.head?.map (fun c => c.PayID)).getD cs.Start else cs.Start)
    ∧ (paySumLoop rows cnt cs).End
        = ((rows.take (PaysPruneSize - cnt)).map (fun c => c.PayID)).getLast?.getD cs.End
  | [], cnt, cs, _ => by
    simp [paySumLoop]
  | c :: rest, cnt, cs, h => by
    unfold paySumLoop
    simp only []
    by_cases hc : cnt + 1 > PaysPruneSize
    · have h0 : PaysPruneSize - cnt = 0 := by omega
      have hne : ¬ cnt = 0 := by
        unfold PaysPruneSize at hc
        omega
      have hne1 : ¬ cnt + 1 = 1 := by omega
      rw [if_pos hc]
      simp [h0, hne, hne1]
    · rw [if_neg hc]
      obtain ⟨h1, h2, h3, h3f, h4, h5⟩ := paySumLoop_spec rest (cnt + 1)
        { (if cnt + 1 = 1 then { cs with Start := c.PayID } else cs) with
          Sum := (if cnt + 1 = 1 then { cs with Start := c.PayID } else cs).Sum + c.Amount,
          Fee := (if cnt + 1 = 1 then { cs with Start := c.PayID } else cs).Fee + c.Fee,
          End := c.PayID } (by omega)
      have hk : PaysPruneSize - cnt = (PaysPruneSize - (cnt + 1)) + 1 := by omega
      have hsum : (if cnt + 1 = 1 then { cs with Start := c.PayID } else cs).Sum = cs.Sum := by
        split <;> rfl
      have hfee : (if cnt + 1 = 1 then { cs with Start := c.PayID } else cs).Fee = cs.Fee := by
        split <;> rfl
      have hmore : (if cnt + 1 = 1 then { cs with Start := c.PayID } else cs).HasMore
          = cs.HasMore := by
        split <;> rfl
      refine ⟨?_, ?_, ?_, ?_, ?_, ?_⟩
      · rw [h1, List.length_cons]
        omega
      · rw [h2, List.length_cons]
        simp only [hmore]
        congr 1
        apply decide_eq_decide.mpr
        omega
      · rw [h3, hk, List.take_succ_cons, List.map_cons, List.sum_cons]
        simp only [hsum]
        omega
      · rw [h3f, hk, List.take_succ_cons, List.map_cons, List.sum_cons]
        simp only [hfee]
        omega
      · rw [h4, if_neg (by omega)]
        by_cases h0 : cnt = 0
        · simp [h0]
        · have : ¬ cnt + 1 = 1 := by omega
          simp [h0, this]
      · rw [h5, hk, List.take_succ_cons, List.map_cons, getLast?_cons_getD]

/-- C16. `GetFeeSumByTime` runs its loop over the rows the prune query returns,
and for every list of rows the loop returns: the count `min n 900`; `hasMore`
exactly when `n > 900`; the sum of the amounts of the first `min n 900` rows;
as start the id of the first row and as end the id of the last of the rows
summed (both empty for no rows).  `GetPaySumByTime` does the same over pay
rows and sums their fees as well.  For 1000 rows the count is 900 and
`hasMore` is set. -/
theorem prune_batching :
    (∀ st code stime etime, FeeStub.GetFeeSumByTime st code stime etime
        = feeSumLoop (queryPruneFee st code stime etime) 0
            { Sum := 0, Count := 0, Start := "", End := "", HasMore := false })
    ∧ (∀ rows : List Fee,
        (feeSumLoop rows 0 { Sum := 0, Count := 0, Start := "", End := "", HasMore := false }).Count
          = min rows.length 900
        ∧ ((feeSumLoop rows 0
            { Sum := 0, Count := 0, Start := "", End := "", HasMore := false }).HasMore = true
          ↔ 900 < rows.length)
        ∧ (feeSumLoop rows 0 { Sum := 0, Count := 0, Start := "", End := "", HasMore := false }).Sum
          = ((rows.take (min rows.length 900)).map (fun f => f.Amount)).sum
        ∧ (feeSumLoop rows 0 { Sum := 0, Count := 0, Start := "", End := "", HasMore := false }).Start
          = (rows.head?.map (fun f => f.FeeID)).getD ""
        ∧ (feeSumLoop rows 0 { Sum := 0, Count := 0, Start := "", End := "", HasMore := false }).End
          = ((rows.take (min rows.length 900)).getLast?.map (fun f => f.FeeID)).getD "")
    ∧ (∀ st id stime etime, PayStub.GetPaySumByTime st id stime etime
        = paySumLoop (queryPrunePays st id stime etime) 0
            { Sum := 0, Fee := 0, Count := 0, Start := "", End := "", HasMore := false })
    ∧ (∀ rows : List Pay,
        (paySumLoop rows 0
            { Sum := 0, Fee := 0, Count := 0, Start := "", End := "", HasMore := false }).Count
          = min rows.length 900
        ∧ ((paySumLoop rows 0
            { Sum := 0, Fee := 0, Count := 0, Start := "", End := "", HasMore := false }).HasMore
              = true
          ↔ 900 < rows.length)
        ∧ (paySumLoop rows 0
            { Sum := 0, Fee := 0, Count := 0, Start := "", End := "", HasMore := false }).Sum
          = ((rows.take (min rows.length 900)).map (fun c => c.Amount)).sum
        ∧ (paySumLoop rows 0
            { Sum := 0, Fee := 0, Count := 0, Start := "", End := "", HasMore := false }).Fee
          = ((rows.take (min rows.length 900)).map (fun c => c.Fee)).sum
        ∧ (paySumLoop rows 0
            { Sum := 0, Fee := 0, Count := 0, Start := "", End := "", HasMore := false }).Start
          = (rows.head?.map (fun c => c.PayID)).getD ""
        ∧ (paySumLoop rows 0
            { Sum := 0, Fee := 0, Count := 0, Start := "", End := "", HasMore := false }).End
          = ((rows.take (min rows.length 900)).getLast?.map (fun c => c.PayID)).getD "")
    ∧ (∀ rows : List Fee, rows.length = 1000 →
        (feeSumLoop rows 0 { Sum := 0, Count := 0, Start := "", End := "", HasMore := false }).Count
          = 900
        ∧ (feeSumLoop rows 0
            { Sum := 0, Count := 0, Start := "", End := "", HasMore := false }).HasMore = true) := by
  have htake : ∀ {α : Type} (l : List α), l.take (min l.length 900) = l.take 900 := by
    intro α l
    by_cases h : l.length ≤ 900
    · rw [min_eq_left h, List.take_of_length_le h, List.take_of_length_le (le_refl _)]
    · rw [min_eq_right (by omega)]
  have hfee : ∀ rows : List Fee, _ := fun rows =>
    feeSumLoop_spec rows 0 { Sum := 0, Count := 0, Start := "", End := "", HasMore := false }
      (Nat.zero_le _)
  have hpay : ∀ rows : List Pay, _ := fun rows =>
    paySumLoop_spec rows 0
      { Sum := 0, Fee := 0, Count := 0, Start := "", End := "", HasMore := false }
      (Nat.zero_le _)
  refine ⟨fun _ _ _ _ => rfl, ?_, fun _ _ _ _ => rfl, ?_, ?_⟩
  · intro rows
    obtain ⟨h1, h2, h3, h4, h5⟩ := hfee rows
    refine ⟨?_, ?_, ?_, ?_, ?_⟩
    · rw [h1]
      simp [FeePruneSize]
    · rw [h2]
      simp [FeePruneSize]
    · rw [h3, htake]
      simp [FeePruneSize]
    · rw [h4]
      simp
    · rw [h5, htake, List.getLast?_map]
      simp [FeePruneSize]
  · intro rows
    obtain ⟨h1, h2, h3, h3f, h4, h5⟩ := hpay rows
    refine ⟨?_, ?_, ?_, ?_, ?_, ?_⟩
    · rw [h1]
      simp [PaysPruneSize]
    · rw [h2]
      simp [PaysPruneSize]
    · rw [h3, htake]
      simp [PaysPruneSize]
    · rw [h3f, htake]
      simp [PaysPruneSize]
    · rw [h4]
      simp
    · rw [h5, htake, List.getLast?_map]
      simp [PaysPruneSize]
  · intro rows hn
    obtain ⟨h1, h2, -⟩ := hfee rows
    rw [h1, h2, hn]
    simp [FeePruneSize]

/-! ## The holder of a personal account -/

theorem toLower_hexDigitUpper :
    ∀ n, n < 16 → Char.toLower (hexDigitUpper n) = hexDigitLower n := by
  decide

theorem hexDigitLower_div_mod :
    ∀ x, x < 16 → ∀ y, y < 16 →
      hexDigitLower ((x * 16 + y) / 16) = hexDigitLower x
      ∧ hexDigitLower ((x * 16 + y) % 16) = hexDigitLower y := by
  decide

/-- A lower-case hex digit decodes to a value below 16 whose lower-case digit
it is. -/
theorem fromHexChar_lower (c : Char) (h : isLowerHexChar c = true) :
    ∃ x, x < 16 ∧ fromHexChar c = some x ∧ hexDigitLower x = c := by
  simp only [isLowerHexChar, decide_eq_true_eq] at h
  rcases h with h | h
  · have h1 : 48 ≤ c.toNat := h.1
    have h2 : c.toNat ≤ 57 := h.2
    refine ⟨c.toNat - 48, by omega, ?_, ?_⟩
    · unfold fromHexChar
      rw [if_pos h]
    · unfold hexDigitLower
      rw [if_pos (by omega)]
      have : 48 + (c.toNat - 48) = c.toNat := by omega
      rw [this, Char.ofNat_toNat]
  · have h1 : 97 ≤ c.toNat := h.1
    have h2 : c.toNat ≤ 102 := h.2
    refine ⟨c.toNat - 97 + 10, by omega, ?_, ?_⟩
    · unfold fromHexChar
      have hnd : ¬ ('0' ≤ c ∧ c ≤ '9') := by
        intro hd
        have : c.toNat ≤ 57 := hd.2
        omega
      rw [if_neg hnd, if_pos h]
    · unfold hexDigitLower
      rw [if_neg (by omega)]
      have : 87 + (c.toNat - 97 + 10) = c.toNat := by omega
      rw [this, Char.ofNat_toNat]

/-- Lower-case hex text of even length decodes, to bytes whose lower-case hex
is the text. -/
theorem hexDecode_lower : ∀ (n : Nat) (cs : List Char), cs.length = 2 * n →
    cs.all isLowerHexChar = true →
    ∃ bs, hexDecode cs = some bs ∧ bs.length = n ∧ hexEncodeLower bs = cs
  | 0, cs, hl, _ => by
    have : cs = [] := List.length_eq_zero.mp (by omega)
    subst this
    exact ⟨[], rfl, rfl, rfl⟩
  | n + 1, [], hl, _ => by simp at hl
  | n + 1, [_], hl, _ => by
    simp only [List.length_singleton] at hl
    omega
  | n + 1, a :: b :: rest, hl, hall => by
    simp only [List.all_cons, Bool.and_eq_true] at hall
    obtain ⟨x, hx, hax, hxa⟩ := fromHexChar_lower a hall.1
    obtain ⟨y, hy, hby, hyb⟩ := fromHexChar_lower b hall.2.1
    obtain ⟨bs, hbs, hlen, henc⟩ := hexDecode_lower n rest
      (by simp only [List.length_cons] at hl; omega) hall.2.2
    refine ⟨(x * 16 + y) :: bs, ?_, by simp [hlen], ?_⟩
    · unfold hexDecode
      simp only [hax, hby, hbs]
    · have hdm := hexDigitLower_div_mod x hx y hy
      simp only [hexEncodeLower, List.flatMap_cons, List.cons_append, List.nil_append] at henc ⊢
      rw [hdm.1, hdm.2, hxa, hyb, henc]

theorem map_toLower_hexEncodeUpper (bs : List Nat) (h : ∀ b ∈ bs, b < 256) :
    (hexEncodeUpper bs).map Char.toLower = hexEncodeLower bs := by
  induction bs with
  | nil => rfl
  | cons b bs ih =>
    have hb : b < 256 := h b (List.mem_cons_self _ _)
    have ih' := ih (fun x hx => h x (List.mem_cons_of_mem _ hx))
    rw [hexEncodeUpper_cons]
    simp only [List.map_cons, ih', hexEncodeLower, List.flatMap_cons, List.cons_append,
      List.nil_append]
    rw [toLower_hexDigitUpper (b / 16) (by omega), toLower_hexDigitUpper (b % 16) (by omega)]

/-- C12. For a holder id `kid` of exactly 40 lower-case hex digits and a valid
token code, the personal address made by `NewAddress` has as its id bytes the
20 bytes `kid` decodes to, `ID()` gives `kid` back, and an account stored under
the address's string has `Holder() = kid`, so that `HasHolder k` holds exactly
for `k = kid`. -/
theorem personal_holder (H : Nat → List Nat → List Nat) (hH : ShakeOK H)
    (code : String) (_hcode : _validateTokenCode code = true)
    (kid : String) (hkid : IsKid kid) :
    hexDecodeString kid = some ((NewAddress H code AccountTypePersonal kid).Hash.take 20)
    ∧ ((NewAddress H code AccountTypePersonal kid).Hash.take 20).length = 20
    ∧ (NewAddress H code AccountTypePersonal kid).ID = kid
    ∧ ∀ acc : Account, acc.DOCTYPEID = (NewAddress H code AccountTypePersonal kid).String →
        acc.Holder = kid
        ∧ ∀ k, (AccountDoc.personal acc).HasHolder k = true ↔ k = kid := by
  obtain ⟨hklen, hkall⟩ := hkid
  obtain ⟨bs, hdec, hlen, henc⟩ := hexDecode_lower 20 kid.data hklen hkall
  have hlt := hexDecode_lt _ _ hdec
  have hnew : NewAddress H code AccountTypePersonal kid
      = { Code := code, Typ := AccountTypePersonal,
          Hash := bs ++ H 4 (stringBytes code ++ [AccountTypePersonal] ++ bs) } := by
    unfold NewAddress hexDecodeString
    simp only [hdec, hlen, Address.Checksum]
    simp
  have hcslen : (H 4 (stringBytes code ++ [AccountTypePersonal] ++ bs)).length = 4 := (hH 4 _).1
  generalize H 4 (stringBytes code ++ [AccountTypePersonal] ++ bs) = cs at hnew hcslen
  have htake : (bs ++ cs).take 20 = bs := by
    rw [← hlen]
    exact List.take_left' rfl
  rw [hnew]
  simp only [htake]
  have hid : Address.ID { Code := code, Typ := AccountTypePersonal, Hash := bs ++ cs } = kid := by
    unfold Address.ID
    simp only [htake, henc]
  have hholder : ∀ acc : Account,
      acc.DOCTYPEID = Address.String { Code := code, Typ := AccountTypePersonal, Hash := bs ++ cs } →
      acc.Holder = kid := by
    intro acc hacc
    have hdata : acc.DOCTYPEID.data
        = code.data ++ hexEncodeUpper [AccountTypePersonal] ++ hexEncodeUpper bs
          ++ hexEncodeUpper cs := by
      rw [hacc, Address.String_data]
      simp [hexEncodeUpper, List.flatMap_cons, List.flatMap_append]
    have hl1 : (hexEncodeUpper [AccountTypePersonal]).length = 2 := rfl
    have hl2 : (hexEncodeUpper bs).length = 40 := by rw [hexEncodeUpper_length, hlen]
    have hl3 : (hexEncodeUpper cs).length = 8 := by rw [hexEncodeUpper_length, hcslen]
    have hlenS : acc.DOCTYPEID.length = code.data.length + 50 := by
      simp only [String.length, hdata, List.length_append, hl1, hl2, hl3]
    unfold Account.Holder strSlice toLower
    simp only [hlenS]
    have hi : code.data.length + 50 - 48 = (code.data ++ hexEncodeUpper [AccountTypePersonal]).length := by
      simp only [List.length_append, hl1]
      omega
    have hslice : (List.take (code.data.length + 50 - 48 + 40) acc.DOCTYPEID.data).drop
        (code.data.length + 50 - 48) = hexEncodeUpper bs := by
      rw [hdata, hi]
      have h40 : (code.data ++ hexEncodeUpper [AccountTypePersonal]).length + 40
          = (code.data ++ hexEncodeUpper [AccountTypePersonal] ++ hexEncodeUpper bs).length := by
        simp only [List.length_append, hl2]
      rw [h40, List.take_left', List.drop_left']
      · rfl
      · rfl
    rw [hslice]
    apply String.ext
    simp only [map_toLower_hexEncodeUpper bs hlt, henc]
  refine ⟨hdec, hlen, hid, ?_⟩
  intro acc hacc
  have hh := hholder acc hacc
  refine ⟨hh, fun k => ?_⟩
  simp only [AccountDoc.HasHolder, decide_eq_true_eq, hh]
  exact eq_comm

/-- C12 for token `ABC` and the holder id `sampleKid`. -/
theorem personal_holder_witness :
    ShakeOK sampleCtx.shake ∧ _validateTokenCode "ABC" = true ∧ IsKid sampleKid
    ∧ hexDecodeString sampleKid
        = some ((NewAddress sampleCtx.shake "ABC" AccountTypePersonal sampleKid).Hash.take 20)
    ∧ ((NewAddress sampleCtx.shake "ABC" AccountTypePersonal sampleKid).Hash.take 20).length = 20
    ∧ (NewAddress sampleCtx.shake "ABC" AccountTypePersonal sampleKid).ID = sampleKid
    ∧ ∀ acc : Account,
        acc.DOCTYPEID = (NewAddress sampleCtx.shake "ABC" AccountTypePersonal sampleKid).String →
        acc.Holder = sampleKid
        ∧ ∀ k, (AccountDoc.personal acc).HasHolder k = true ↔ k = sampleKid :=
  ⟨sampleCtx_shakeOK, by decide, ⟨by decide, by decide⟩,
    personal_holder sampleCtx.shake sampleCtx_shakeOK "ABC" (by decide) sampleKid
      ⟨by decide, by decide⟩⟩

/-- The personal address of `sampleKid` for token `ABC` is `sampleSenderID`, and
the account stored under it has `sampleKid` as its holder and no other. -/
theorem personal_holder_sample :
    (NewAddress sampleCtx.shake "ABC" AccountTypePersonal sampleKid).String = sampleSenderID
    ∧ (samplePersonal sampleSenderID).HasHolder sampleKid = true
    ∧ (samplePersonal sampleSenderID).HasHolder "00000000000000000000000000000000000000b2"
        = false := by
  decide

/-! ## Parsing an address -/

theorem toNat_ofNat_upper :
    ∀ n, n < 123 → 97 ≤ n → (Char.ofNat (n - 32)).toNat = n - 32 := by
  decide

/-- The image of a character under `Char.toUpper` is the character itself or
at most `Z`. -/
theorem toUpper_toNat (c : Char) : c.toUpper.toNat = c.toNat ∨ c.toUpper.toNat ≤ 90 := by
  unfold Char.toUpper
  simp only []
  split
  · rename_i h
    right
    rw [toNat_ofNat_upper c.toNat (by omega) (by omega)]
    omega
  · exact Or.inl rfl

/-- No character in the image of `Char.toUpper` is a lower-case letter. -/
theorem toUpper_not_lower (c : Char) :
    ¬ (c.toUpper.toNat ≥ 97 ∧ c.toUpper.toNat ≤ 122) := by
  unfold Char.toUpper
  simp only []
  split
  · rename_i h
    rw [toNat_ofNat_upper c.toNat (by omega) (by omega)]
    omega
  · assumption

theorem toUpper_toUpper (c : Char) : c.toUpper.toUpper = c.toUpper := by
  have h := toUpper_not_lower c
  generalize c.toUpper = d at h
  unfold Char.toUpper
  simp only []
  rw [if_neg h]

/-- The model of the table maps an upper-cased rune to itself. -/
theorem unicodeToUpper_idem (c : Char) :
    unicodeToUpper (unicodeToUpper c) = unicodeToUpper c := by
  by_cases h1 : c.toNat = 0x17F
  · have e : unicodeToUpper c = 'S' := by
      unfold unicodeToUpper
      rw [if_pos h1]
    rw [e]
    decide
  · by_cases h2 : c.toNat = 0x131
    · have e : unicodeToUpper c = 'I' := by
        unfold unicodeToUpper
        rw [if_neg h1, if_pos h2]
      rw [e]
      decide
    · have e : unicodeToUpper c = c.toUpper := by
        unfold unicodeToUpper
        rw [if_neg h1, if_neg h2]
      rw [e]
      have h3 := toUpper_toNat c
      unfold unicodeToUpper
      rw [if_neg (by omega), if_neg (by omega)]
      exact toUpper_toUpper c

theorem hexDecode_length : ∀ (cs : List Char) (bs : List Nat),
    hexDecode cs = some bs → cs.length = 2 * bs.length
  | [], bs, h => by
    simp only [hexDecode, Option.some.injEq] at h
    subst h
    rfl
  | [_], bs, h => by simp [hexDecode] at h
  | a :: b :: rest, bs, h => by
    unfold hexDecode at h
    cases ha : fromHexChar a with
    | none => simp [ha] at h
    | some x =>
      cases hb : fromHexChar b with
      | none => simp [ha, hb] at h
      | some y =>
        cases hr : hexDecode rest with
        | none => simp [ha, hb, hr] at h
        | some r =>
          simp only [ha, hb, hr, Option.some.injEq] at h
          subst h
          have := hexDecode_length rest r hr
          simp only [List.length_cons, this]
          omega

theorem isHexDigit_of_fromHexChar (c : Char) (x : Nat) (h : fromHexChar c = some x) :
    isHexDigit c = true := by
  unfold fromHexChar at h
  simp only [isHexDigit, decide_eq_true_eq]
  split at h
  · exact Or.inl (by assumption)
  · split at h
    · exact Or.inr (Or.inl (by assumption))
    · split at h
      · exact Or.inr (Or.inr (by assumption))
      · cases h

theorem hexDecode_all_hex : ∀ (cs : List Char) (bs : List Nat),
    hexDecode cs = some bs → cs.all isHexDigit = true
  | [], _, _ => rfl
  | [_], bs, h => by simp [hexDecode] at h
  | a :: b :: rest, bs, h => by
    unfold hexDecode at h
    cases ha : fromHexChar a with
    | none => simp [ha] at h
    | some x =>
      cases hb : fromHexChar b with
      | none => simp [ha, hb] at h
      | some y =>
        cases hr : hexDecode rest with
        | none => simp [ha, hb, hr] at h
        | some r =>
          simp only [List.all_cons, Bool.and_eq_true]
          exact ⟨isHexDigit_of_fromHexChar a x ha, isHexDigit_of_fromHexChar b y hb,
            hexDecode_all_hex rest r hr⟩

/-- A suffix as long as the last part of a list is that last part. -/
theorem suffix_append_iff {α : Type} (cs a c : List α) (h : cs.length = c.length) :
    cs <:+ a ++ c ↔ cs = c := by
  constructor
  · intro hs
    have hc : c <:+ a ++ c := List.suffix_append a c
    rcases List.suffix_or_suffix_of_suffix hs hc with h1 | h1
    · exact h1.eq_of_length h
    · exact (h1.eq_of_length h.symm).symm
  · intro he
    rw [he]
    exact List.suffix_append a c


theorem isHexDigit_ascii (c : Char) (h : isHexDigit c = true) : c.toNat < 128 := by
  simp only [isHexDigit, decide_eq_true_eq] at h
  rcases h with h | h | h
  · have h2 : c.toNat ≤ 57 := h.2
    omega
  · have h2 : c.toNat ≤ 102 := h.2
    omega
  · have h2 : c.toNat ≤ 70 := h.2
    omega

/-- A valid address text is ASCII. -/
theorem ValidAddressText_ascii (H : Nat → List Nat → List Nat) (u : String)
    (hv : ValidAddressText H u) : ∀ c ∈ u.data, c.toNat < 128 := by
  obtain ⟨-, hhex, -, -, -, -, -, -, -, -, hcode, -, -⟩ := hv
  intro c hc
  rw [← List.take_append_drop (u.length - 50) u.data] at hc
  rcases List.mem_append.mp hc with hc | hc
  · exact isCodeChar_ascii c (List.all_eq_true.mp hcode c hc)
  · exact isHexDigit_ascii c (List.all_eq_true.mp hhex c hc)

/-- The last 50 bytes of a text, once they decode as hex, are its last 50
characters, and the bytes before them are the characters before them. -/
theorem tail_decodes (u : String) (hlen : 50 ≤ byteLen u) (idh : List Nat)
    (hdec : hexDecodeString (byteSlice u (byteLen u - 50) (byteLen u)) = some idh) :
    50 ≤ u.length
    ∧ byteSlice u (byteLen u - 50) (byteLen u) = String.mk (u.data.drop (u.length - 50))
    ∧ byteSlice u 0 (byteLen u - 50) = String.mk (u.data.take (u.length - 50)) := by
  have hall := hexDecode_all_hex _ _ hdec
  have hbl : byteLen u = 0 + (u.data.map runeLen).sum := by
    unfold byteLen
    omega
  unfold byteSlice at hall ⊢
  simp only [] at hall
  obtain ⟨p, t, hpt, hb, ht, hs⟩ := byteSliceFrom_tail u.data (byteLen u - 50) 0 (Nat.zero_le _)
    (by omega) (by
      intro c hc
      rw [← hbl] at hc
      exact isHexDigit_ascii c (List.all_eq_true.mp hall c hc))
  rw [← hbl] at hs
  have htl : t.length = 50 := by
    have h1 := bytes_ascii t ht
    have h2 : (u.data.map runeLen).sum = (p.map runeLen).sum + (t.map runeLen).sum := by
      rw [hpt, List.map_append, List.sum_append]
    omega
  have hul : u.length = p.length + 50 := by
    show u.data.length = _
    rw [hpt, List.length_append, htl]
  have hpl : u.length - 50 = p.length := by omega
  refine ⟨by omega, ?_, ?_⟩
  · rw [hs, hpl, hpt, List.drop_left]
  · have h3 := byteSliceFrom_prefix p t 0
    rw [hb, ← hpt] at h3
    rw [h3, hpl, hpt, List.take_left]

/-- What `ParseAddress` computes on a text of at least 50 bytes whose tail
decodes. -/
theorem ParseAddress_unfold (up : Char → Char) (H : Nat → List Nat → List Nat) (s : String)
    (hlen : 50 ≤ byteLen (stringsMap up s)) (idh : List Nat)
    (hdec : hexDecodeString (byteSlice (stringsMap up s) (byteLen (stringsMap up s) - 50)
      (byteLen (stringsMap up s))) = some idh) :
    ParseAddressWith up H s
      = (match Address.ValidateWith up H
            { Code := String.mk ((stringsMap up s).data.take ((stringsMap up s).length - 50)),
              Typ := idh.headD 0, Hash := idh.tail } with
         | .error e => .error e
         | .ok _ => .ok { Code := String.mk
                            ((stringsMap up s).data.take ((stringsMap up s).length - 50)),
                          Typ := idh.headD 0, Hash := idh.tail }) := by
  obtain ⟨-, -, h2⟩ := tail_decodes (stringsMap up s) hlen idh hdec
  unfold ParseAddressWith
  simp only []
  rw [if_neg (by omega)]
  simp only [hdec, h2]

theorem stringsMap_take (up : Char → Char) (hup : ∀ c, up (up c) = up c) (s : String)
    (n : Nat) :
    stringsMap up (String.mk ((stringsMap up s).data.take n))
      = String.mk ((stringsMap up s).data.take n) := by
  unfold stringsMap
  simp only []
  rw [List.map_take, List.map_map]
  congr 2
  apply List.map_congr_left
  intro c _
  exact hup c

/-- What `Validate` decides on the address cut from an upper-cased text. -/
theorem Validate_prefix (up : Char → Char) (hup : ∀ c, up (up c) = up c)
    (H : Nat → List Nat → List Nat) (hH : ShakeOK H) (s : String)
    (t : Nat) (id c : List Nat) (hid : id.length = 20) (hc : c.length = 4) :
    (Address.ValidateWith up H
        { Code := String.mk ((stringsMap up s).data.take ((stringsMap up s).length - 50)),
          Typ := t, Hash := id ++ c } = .ok ()
      ↔ (3 ≤ (stringsMap up s).length - 50 ∧ (stringsMap up s).length - 50 ≤ 6
          ∧ ((stringsMap up s).data.take ((stringsMap up s).length - 50)).all isCodeChar = true
          ∧ (t = AccountTypePersonal ∨ t = AccountTypeJoint)
          ∧ c = Address.Checksum H
              { Code := String.mk ((stringsMap up s).data.take ((stringsMap up s).length - 50)),
                Typ := t, Hash := id ++ c } id))
    ∧ (∀ e, Address.ValidateWith up H
        { Code := String.mk ((stringsMap up s).data.take ((stringsMap up s).length - 50)),
          Typ := t, Hash := id ++ c } = .error e →
        ∃ reason, e = InvalidAccountAddrError reason) := by
  have hupp : stringsMap up (String.mk ((stringsMap up s).data.take ((stringsMap up s).length - 50)))
      = String.mk ((stringsMap up s).data.take ((stringsMap up s).length - 50)) :=
    stringsMap_take up hup s _
  have hplen : (String.mk ((stringsMap up s).data.take ((stringsMap up s).length - 50))).length
      = (stringsMap up s).length - 50 := by
    simp only [String.length, List.length_take]
    omega
  have htake : (id ++ c).take 20 = id := by
    rw [← hid]
    exact List.take_left' rfl
  have hcs : (Address.Checksum H
      { Code := String.mk ((stringsMap up s).data.take ((stringsMap up s).length - 50)),
        Typ := t, Hash := id ++ c } id).length = c.length := by
    rw [hc]
    exact (hH 4 _).1
  unfold Address.ValidateWith ValidateTokenCodeWith
  simp only [hupp, htake]
  by_cases hv : _validateTokenCode
      (String.mk ((stringsMap up s).data.take ((stringsMap up s).length - 50))) = true
  · have hv' := hv
    simp only [_validateTokenCode, Bool.and_eq_true, decide_eq_true_eq, hplen] at hv'
    simp only [hv, Bool.not_true, Bool.false_eq_true, if_false]
    by_cases ht : t ≤ AccountTypeUnknown ∨ t > AccountTypeJoint
    · rw [if_pos ht]
      constructor
      · constructor
        · intro h
          cases h
        · rintro ⟨-, -, -, h, -⟩
          unfold AccountTypeUnknown AccountTypeJoint at ht
          unfold AccountTypePersonal AccountTypeJoint at h
          omega
      · intro e he
        exact ⟨"account type", (Except.error.inj he).symm⟩
    · rw [if_neg ht]
      have ht' : t = AccountTypePersonal ∨ t = AccountTypeJoint := by
        unfold AccountTypeUnknown AccountTypeJoint at ht
        unfold AccountTypePersonal AccountTypeJoint
        omega
      by_cases hs : Address.Checksum H
          { Code := String.mk ((stringsMap up s).data.take ((stringsMap up s).length - 50)),
            Typ := t, Hash := id ++ c } id <:+ id ++ c
      · rw [if_pos hs]
        have heq := (suffix_append_iff _ id c hcs).mp hs
        exact ⟨⟨fun _ => ⟨hv'.1.1, hv'.1.2, hv'.2, ht', heq.symm⟩, fun _ => rfl⟩,
          fun e he => by cases he⟩
      · rw [if_neg hs]
        constructor
        · constructor
          · intro h
            cases h
          · rintro ⟨-, -, -, -, h⟩
            exact (hs ((suffix_append_iff _ id c hcs).mpr h.symm)).elim
        · intro e he
          exact ⟨"checksum", (Except.error.inj he).symm⟩
  · have hv2 : _validateTokenCode
        (String.mk ((stringsMap up s).data.take ((stringsMap up s).length - 50))) = false := by
      simpa using hv
    simp only [hv2, Bool.not_false, if_true]
    constructor
    · constructor
      · intro h
        cases h
      · rintro ⟨h1, h2, h3, -, -⟩
        refine (hv ?_).elim
        simp only [_validateTokenCode, Bool.and_eq_true, decide_eq_true_eq, hplen]
        exact ⟨⟨h1, h2⟩, h3⟩
    · intro e he
      exact ⟨"token code", (Except.error.inj he).symm⟩


/-- C11. `ParseAddress` is total and fails exactly on invalid input, for every
text `s` and every table `up` of `unicode.ToUpper` that maps an upper-cased
rune to itself: with `u` the upper-cased `s`, it returns an address exactly
when `u` is a valid address text (`ValidAddressText`, the conditions of the
specification), and for every other input it returns an
`InvalidAccountAddrError`.  The address returned carries the text before the
last 50 characters as its code, a type byte Personal or Joint, and 24 bytes of
hash.  The source counts bytes where the specification counts characters; a
text that passes the checks is ASCII, so the two agree.  A tail of 50 bytes
that decodes always gives the 25 bytes the source indexes, so no input makes
it panic. -/
theorem parseAddress_exact (up : Char → Char) (hup : ∀ c, up (up c) = up c)
    (H : Nat → List Nat → List Nat) (hH : ShakeOK H) (s : String) :
    ((∃ a, ParseAddressWith up H s = .ok a) ↔ ValidAddressText H (stringsMap up s))
    ∧ (¬ ValidAddressText H (stringsMap up s) →
        ∃ reason, ParseAddressWith up H s = .error (InvalidAccountAddrError reason))
    ∧ (∀ a, ParseAddressWith up H s = .ok a →
        a.Code = String.mk ((stringsMap up s).data.take ((stringsMap up s).length - 50))
        ∧ (a.Typ = AccountTypePersonal ∨ a.Typ = AccountTypeJoint)
        ∧ a.Hash.length = 24)
    ∧ (∀ idh, 50 ≤ byteLen (stringsMap up s) →
        hexDecodeString (byteSlice (stringsMap up s) (byteLen (stringsMap up s) - 50)
          (byteLen (stringsMap up s))) = some idh →
        idh.length = 25) := by
  have h25 : ∀ idh, 50 ≤ byteLen (stringsMap up s) →
      hexDecodeString (byteSlice (stringsMap up s) (byteLen (stringsMap up s) - 50)
        (byteLen (stringsMap up s))) = some idh →
      idh.length = 25 := by
    intro idh hlen hdec
    obtain ⟨h50, htail, -⟩ := tail_decodes (stringsMap up s) hlen idh hdec
    rw [htail] at hdec
    have h := hexDecode_length _ _ hdec
    have hl : (stringsMap up s).length = (stringsMap up s).data.length := rfl
    simp only [List.length_drop] at h
    omega
  suffices main : ((∃ a, ParseAddressWith up H s = .ok a)
        ↔ ValidAddressText H (stringsMap up s))
      ∧ (¬ ValidAddressText H (stringsMap up s) →
          ∃ reason, ParseAddressWith up H s = .error (InvalidAccountAddrError reason))
      ∧ (∀ a, ParseAddressWith up H s = .ok a →
          a.Code = String.mk ((stringsMap up s).data.take ((stringsMap up s).length - 50))
          ∧ (a.Typ = AccountTypePersonal ∨ a.Typ = AccountTypeJoint)
          ∧ a.Hash.length = 24) from ⟨main.1, main.2.1, main.2.2, h25⟩
  -- a valid text is ASCII: its bytes are its characters
  have hvalid : ValidAddressText H (stringsMap up s) →
      50 ≤ byteLen (stringsMap up s)
      ∧ hexDecodeString (byteSlice (stringsMap up s) (byteLen (stringsMap up s) - 50)
          (byteLen (stringsMap up s)))
        = hexDecode ((stringsMap up s).data.drop ((stringsMap up s).length - 50)) := by
    intro hv
    have hascii := ValidAddressText_ascii H _ hv
    rw [byteLen_ascii _ hascii, byteSlice_ascii _ hascii]
    refine ⟨hv.1, ?_⟩
    unfold hexDecodeString strSlice
    rw [show (stringsMap up s).length = (stringsMap up s).data.length from rfl, List.take_length]
  by_cases hlen : 50 ≤ byteLen (stringsMap up s)
  swap
  · have herr : ParseAddressWith up H s = .error (InvalidAccountAddrError "length") := by
      unfold ParseAddressWith
      simp only []
      rw [if_pos (by omega)]
    have hnv : ¬ ValidAddressText H (stringsMap up s) := fun hv => hlen (hvalid hv).1
    refine ⟨⟨?_, fun hv => (hnv hv).elim⟩, fun _ => ⟨_, herr⟩, ?_⟩
    · rintro ⟨a, ha⟩
      rw [herr] at ha
      cases ha
    · intro a ha
      rw [herr] at ha
      cases ha
  rcases hdec : hexDecodeString (byteSlice (stringsMap up s) (byteLen (stringsMap up s) - 50)
      (byteLen (stringsMap up s))) with _ | idh
  · have herr : ParseAddressWith up H s = .error (InvalidAccountAddrError "hex") := by
      unfold ParseAddressWith
      simp only []
      rw [if_neg (by omega)]
      simp only [hdec]
    have hnv : ¬ ValidAddressText H (stringsMap up s) := by
      intro hv
      have h2 := (hvalid hv).2
      obtain ⟨-, -, t, id, c, hd, -⟩ := hv
      rw [hdec, hd] at h2
      cases h2
    refine ⟨⟨?_, fun hv => (hnv hv).elim⟩, fun _ => ⟨_, herr⟩, ?_⟩
    · rintro ⟨a, ha⟩
      rw [herr] at ha
      cases ha
    · intro a ha
      rw [herr] at ha
      cases ha
  · have hl25 := h25 idh hlen hdec
    obtain ⟨hclen, htail, -⟩ := tail_decodes (stringsMap up s) hlen idh hdec
    have hdec' : hexDecode ((stringsMap up s).data.drop ((stringsMap up s).length - 50))
        = some idh := by
      rw [htail] at hdec
      exact hdec
    have hallhex := hexDecode_all_hex _ _ hdec'
    obtain ⟨t, rest, rfl⟩ : ∃ t rest, idh = t :: rest := by
      cases idh with
      | nil => simp at hl25
      | cons t rest => exact ⟨t, rest, rfl⟩
    have hrl : rest.length = 24 := by
      simp only [List.length_cons] at hl25
      omega
    have hsplit : rest = rest.take 20 ++ rest.drop 20 := (List.take_append_drop 20 rest).symm
    have hidl : (rest.take 20).length = 20 := by
      rw [List.length_take]
      omega
    have hcl : (rest.drop 20).length = 4 := by
      rw [List.length_drop]
      omega
    have hpa := ParseAddress_unfold up H s hlen (t :: rest) hdec
    simp only [List.headD_cons, List.tail_cons] at hpa
    have hval := Validate_prefix up hup H hH s t (rest.take 20) (rest.drop 20) hidl hcl
    rw [← hsplit] at hval
    have hvalid_iff : ValidAddressText H (stringsMap up s)
        ↔ Address.ValidateWith up H
            { Code := String.mk ((stringsMap up s).data.take ((stringsMap up s).length - 50)),
              Typ := t, Hash := rest } = .ok () := by
      rw [hval.1]
      constructor
      · rintro ⟨-, -, t1, id, c, hd, hi, hc, h3, h6, hcode, ht, hck⟩
        rw [hdec'] at hd
        simp only [Option.some.injEq, List.cons.injEq] at hd
        obtain ⟨ht1, hr⟩ := hd
        subst ht1
        have hid : rest.take 20 = id := by
          rw [hr, ← hi]
          exact List.take_left' rfl
        have hcd : rest.drop 20 = c := by
          rw [hr, ← hi]
          exact List.drop_left' rfl
        rw [hid, hcd, hr]
        exact ⟨h3, h6, hcode, ht, hck⟩
      · rintro ⟨h3, h6, hcode, ht, hck⟩
        refine ⟨hclen, hallhex, t, rest.take 20, rest.drop 20, ?_, hidl, hcl, h3, h6, hcode, ht, ?_⟩
        · rw [← hsplit]
          exact hdec'
        · rw [← hsplit]
          exact hck
    rcases hv : Address.ValidateWith up H
        { Code := String.mk ((stringsMap up s).data.take ((stringsMap up s).length - 50)),
          Typ := t, Hash := rest } with e | u
    · rw [hv] at hpa hvalid_iff
      simp only [] at hpa
      obtain ⟨reason, hre⟩ := hval.2 e hv
      have hnv : ¬ ValidAddressText H (stringsMap up s) := fun h => by
        have := hvalid_iff.mp h
        cases this
      refine ⟨⟨?_, fun h => (hnv h).elim⟩, fun _ => ⟨reason, by rw [hpa, hre]⟩, ?_⟩
      · rintro ⟨a, ha⟩
        rw [hpa] at ha
        cases ha
      · intro a ha
        rw [hpa] at ha
        cases ha
    · rw [hv] at hpa
      simp only [] at hpa
      have hvd : ValidAddressText H (stringsMap up s) := hvalid_iff.mpr hv
      have hcond := hval.1.mp hv
      refine ⟨⟨fun _ => hvd, fun _ => ⟨_, hpa⟩⟩, fun h => (h hvd).elim, ?_⟩
      intro a ha
      rw [hpa] at ha
      cases ha
      exact ⟨rfl, hcond.2.2.2.1, hrl⟩

/-- C11 with the model `unicodeToUpper` of the table, which is what
`ParseAddress` is, on a text with the long s (U+017F) in the place of the `s`
of its token code: the text is accepted with the code `ASC`, and so its upper
case `ASC01...` is a valid address text. -/
theorem parseAddress_exact_witness :
    (∀ c, unicodeToUpper (unicodeToUpper c) = unicodeToUpper c)
    ∧ ShakeOK sampleCtx.shake
    ∧ ParseAddress sampleCtx.shake "aſc0100000000000000000000000000000000000000a100000000"
        = .ok { Code := "ASC", Typ := 1, Hash := List.replicate 19 0 ++ [161, 0, 0, 0, 0] }
    ∧ ValidAddressText sampleCtx.shake
        (toUpper "aſc0100000000000000000000000000000000000000a100000000") :=
  ⟨unicodeToUpper_idem, sampleCtx_shakeOK, by decide,
    (parseAddress_exact unicodeToUpper unicodeToUpper_idem sampleCtx.shake sampleCtx_shakeOK
      "aſc0100000000000000000000000000000000000000a100000000").1.mp
      ⟨{ Code := "ASC", Typ := 1, Hash := List.replicate 19 0 ++ [161, 0, 0, 0, 0] },
        by decide⟩⟩

/-- The outcomes of `ParseAddress` on sample texts: a valid address in lower
case; a valid address written with the long s (U+017F, two bytes) and one
written with the dotless i (U+0131), which upper-casing turns into `S` and
`I` (`ValidateTokenCode` accepts such a code as well); and one text for each reason of rejection, among them a text of 50
characters and 51 bytes whose last 50 bytes start inside a rune. -/
theorem parseAddress_samples :
    (ParseAddress sampleCtx.shake
        "abc0100000000000000000000000000000000000000a100000000").map
      (fun a => (a.Code, a.Typ, a.Hash.length)) = .ok ("ABC", 1, 24)
    ∧ (ParseAddress sampleCtx.shake
        "aſc0100000000000000000000000000000000000000a100000000").map
      (fun a => (a.Code, a.Typ, a.Hash.length)) = .ok ("ASC", 1, 24)
    ∧ (ParseAddress sampleCtx.shake
        "kıt0100000000000000000000000000000000000000a100000000").map
      (fun a => (a.Code, a.Typ, a.Hash.length)) = .ok ("KIT", 1, 24)
    ∧ toUpper "aſc" = "ASC" ∧ byteLen "aſc" = 4 ∧ "aſc".length = 3
    ∧ ValidateTokenCode "aſc" = .ok "ASC"
    ∧ ParseAddress sampleCtx.shake "ABC01" = .error (InvalidAccountAddrError "length")
    ∧ ParseAddress sampleCtx.shake "ABC0100000000000000000000000000000000000000A10000000G"
        = .error (InvalidAccountAddrError "hex")
    ∧ ParseAddress sampleCtx.shake "é0100000000000000000000000000000000000000A10000000"
        = .error (InvalidAccountAddrError "hex")
    ∧ ParseAddress sampleCtx.shake "ABé0100000000000000000000000000000000000000A100000000"
        = .error (InvalidAccountAddrError "token code")
    ∧ ParseAddress sampleCtx.shake "AB0100000000000000000000000000000000000000A100000000"
        = .error (InvalidAccountAddrError "token code")
    ∧ ParseAddress sampleCtx.shake "ABC0300000000000000000000000000000000000000A100000000"
        = .error (InvalidAccountAddrError "account type")
    ∧ ParseAddress sampleCtx.shake "ABC0100000000000000000000000000000000000000A100000001"
        = .error (InvalidAccountAddrError "checksum") := by
  decide

/-! ## Pay -/

theorem Rejects_error (m : String) (st : State) : Rejects st (.error m, st) := ⟨rfl, rfl⟩

theorem Rejects_panic (st : State) : Rejects st (.panic, st) := ⟨rfl, rfl⟩

theorem Rejects_responseError (e : Error) (m : String) (st : State) :
    Rejects st (responseError e m, st) := by
  obtain ⟨msg, hm⟩ := responseError_eq e m
  rw [hm]
  exact Rejects_error msg st

theorem Rejects_ite {st : State} {q : Prop} [Decidable q] {a b : Response × State}
    (ha : q → Rejects st a) (hb : ¬ q → Rejects st b) :
    Rejects st (if q then a else b) := by
  split
  · exact ha (by assumption)
  · exact hb (by assumption)

/-- `pay` rejects an amount that is not positive, and writes nothing. -/
theorem pay_rejects_amount (ctx : Ctx) (st : State) (params : List String) (amount : Int)
    (hamt : NewAmount (param params 2) = .ok amount) (hle : amount ≤ 0) :
    Rejects st (pay ctx st params) := by
  unfold pay
  simp only [hamt]
  repeat' (first
    | exact Rejects_error _ _
    | exact Rejects_panic _
    | exact Rejects_responseError _ _ _
    | (exfalso; omega)
    | refine Rejects_ite (fun _ => ?_) (fun _ => ?_)
    | split)
/-- `pay` rejects an amount above the sender's balance, and writes nothing. -/
theorem pay_rejects_balance (ctx : Ctx) (st : State) (params : List String) (kid : String)
    (rAddr sAddr : Address) (sender : AccountDoc) (sBal : Balance) (amount : Int)
    (hkid : ctx.kid = .ok kid)
    (hr : ParseAddress ctx.shake (param params 1) = .ok rAddr)
    (hs : senderAddress ctx params rAddr kid = .ok sAddr)
    (hamt : NewAmount (param params 2) = .ok amount)
    (hacc : AccountStub.GetAccount st sAddr = .ok sender)
    (hbal : BalanceStub.GetBalance st sender.GetID = .ok sBal)
    (hlt : sBal.Amount < amount) :
    Rejects st (pay ctx st params) := by
  unfold pay
  simp only [hkid, hr, hs, hamt, hacc, hbal, hlt, if_true]
  repeat' (first
    | exact Rejects_error _ _
    | exact Rejects_panic _
    | exact Rejects_responseError _ _ _
    | refine Rejects_ite (fun _ => ?_) (fun _ => ?_)
    | split)

/-- What `PayStub.Pay` does at transaction time `ts`: the pay row, the
sender's balance and the log it returns, and the state it leaves. -/
theorem PayStub.Pay_spec (ctx : Ctx) (st : State) (sender : Balance) (receiver : String)
    (amount fee : Int) (orderID memo : String) (ts : Int) (hts : GetTime ctx = .ok ts) :
    PayStub.Pay ctx st sender receiver amount fee orderID memo
      = (.ok ({ Pay := some (specPayRow receiver sender.DOCTYPEID (toString ts ++ ctx.txID)
                  amount fee orderID memo ts),
                BalanceLog := some (specPayLog sender receiver (toString ts ++ ctx.txID) amount
                  memo ts) },
              { sender with Amount := sender.Amount - amount, UpdatedTime := some ts }),
         specPayState st sender
           (specPayRow receiver sender.DOCTYPEID (toString ts ++ ctx.txID) amount fee orderID
             memo ts)
           (specPayLog sender receiver (toString ts ++ ctx.txID) amount memo ts) ts) := by
  unfold PayStub.Pay
  simp only [hts, NewPay, NewBalancePayLog, BalanceLog.created, BalanceLog.zero,
    BalanceStub.PutBalanceLog, BalanceStub.PutBalance, PayStub.PutPay, Balance.GetID,
    Option.getD_some, Int.sub_eq_add_neg, specPayRow, specPayLog, specPayState]
/-- An accepted pay without co-signers: what `pay` answers, and the state it
leaves. -/
theorem pay_accepted (ctx : Ctx) (st : State) (params : List String) (kid : String)
    (rAddr sAddr : Address) (sender receiver : AccountDoc) (sBal : Balance)
    (amount fee ts : Int)
    (hlen : 3 ≤ params.length) (hkid : ctx.kid = .ok kid)
    (hr : ParseAddress ctx.shake (param params 1) = .ok rAddr)
    (hs : senderAddress ctx params rAddr kid = .ok sAddr)
    (hne : sAddr.Equal rAddr = false)
    (hamt : NewAmount (param params 2) = .ok amount) (hpos : 0 < amount)
    (hacc : AccountStub.GetAccount st sAddr = .ok sender)
    (hholder : sender.HasHolder kid = true) (hsus : sender.IsSuspended = false)
    (hrec : AccountStub.GetAccount st rAddr = .ok receiver)
    (hrsus : receiver.IsSuspended = false)
    (hbal : BalanceStub.GetBalance st sender.GetID = .ok sBal)
    (hle : amount ≤ sBal.Amount)
    (hsig : (initialSigners kid sender).length ≤ 1)
    (hfee : FeeStub.CalcFee st rAddr "pay" amount = .ok fee)
    (hts : GetTime ctx = .ok ts) :
    pay ctx st params
      = (.success (.payResult
          { Pay := some (specPayRow receiver.GetID sBal.DOCTYPEID (toString ts ++ ctx.txID)
              amount fee (payOptions params).1 (payOptions params).2.1 ts),
            BalanceLog := some (specPayLog sBal receiver.GetID (toString ts ++ ctx.txID) amount
              (payOptions params).2.1 ts) }),
         specPayState st sBal
           (specPayRow receiver.GetID sBal.DOCTYPEID (toString ts ++ ctx.txID) amount fee
             (payOptions params).1 (payOptions params).2.1 ts)
           (specPayLog sBal receiver.GetID (toString ts ++ ctx.txID) amount
             (payOptions params).2.1 ts) ts) := by
  have h3 : ¬ params.length < 3 := by omega
  have h1 : ¬ amount < 1 := by omega
  have h2 : ¬ sBal.Amount < amount := by omega
  have h4 : ¬ (initialSigners kid sender).length > 1 := by omega
  unfold pay
  simp only [h3, if_false, hkid, hr, hs, hne, hamt, h1, hacc, hholder, hsus, hrec, hrsus, hbal,
    h2, h4, hfee, PayStub.Pay_spec _ _ _ _ _ _ _ _ ts hts, Bool.not_true, Bool.false_eq_true]
/-- C21. Pay effects.  `pay` rejects, writing no state, an amount that is not
positive and an amount above the sender's balance.  An accepted pay without
co-signers answers with the pay row and the log of `PayStub.Pay` and leaves the
state of `PayStub.Pay`; and `PayStub.Pay` debits the sender by exactly the
amount (the fee is only stored on the row), writes one Pay row under the
merchant's address with the amount, the fee, a total refund of 0, the sender as
related id and no parent id, and writes one Pay log with diff `-amount` and the
resulting sender balance as amount. -/
theorem pay_effects (ctx : Ctx) (st : State) (params : List String) :
    (∀ amount, NewAmount (param params 2) = .ok amount → amount ≤ 0 →
      Rejects st (pay ctx st params))
    ∧ (∀ kid rAddr sAddr sender sBal amount,
        ctx.kid = .ok kid → ParseAddress ctx.shake (param params 1) = .ok rAddr →
        senderAddress ctx params rAddr kid = .ok sAddr →
        NewAmount (param params 2) = .ok amount →
        AccountStub.GetAccount st sAddr = .ok sender →
        BalanceStub.GetBalance st sender.GetID = .ok sBal →
        sBal.Amount < amount → Rejects st (pay ctx st params))
    ∧ (∀ kid rAddr sAddr sender receiver sBal amount fee ts,
        3 ≤ params.length → ctx.kid = .ok kid →
        ParseAddress ctx.shake (param params 1) = .ok rAddr →
        senderAddress ctx params rAddr kid = .ok sAddr → sAddr.Equal rAddr = false →
        NewAmount (param params 2) = .ok amount → 0 < amount →
        AccountStub.GetAccount st sAddr = .ok sender →
        sender.HasHolder kid = true → sender.IsSuspended = false →
        AccountStub.GetAccount st rAddr = .ok receiver → receiver.IsSuspended = false →
        BalanceStub.GetBalance st sender.GetID = .ok sBal → amount ≤ sBal.Amount →
        (initialSigners kid sender).length ≤ 1 →
        FeeStub.CalcFee st rAddr "pay" amount = .ok fee → GetTime ctx = .ok ts →
        pay ctx st params
          = (.success (.payResult
              { Pay := some (specPayRow receiver.GetID sBal.DOCTYPEID (toString ts ++ ctx.txID)
                  amount fee (payOptions params).1 (payOptions params).2.1 ts),
                BalanceLog := some (specPayLog sBal receiver.GetID (toString ts ++ ctx.txID)
                  amount (payOptions params).2.1 ts) }),
             specPayState st sBal
               (specPayRow receiver.GetID sBal.DOCTYPEID (toString ts ++ ctx.txID) amount fee
                 (payOptions params).1 (payOptions params).2.1 ts)
               (specPayLog sBal receiver.GetID (toString ts ++ ctx.txID) amount
                 (payOptions params).2.1 ts) ts))
    ∧ (∀ sender receiver amount fee orderID memo ts, GetTime ctx = .ok ts →
        PayStub.Pay ctx st sender receiver amount fee orderID memo
          = (.ok ({ Pay := some (specPayRow receiver sender.DOCTYPEID (toString ts ++ ctx.txID)
                      amount fee orderID memo ts),
                    BalanceLog := some (specPayLog sender receiver (toString ts ++ ctx.txID)
                      amount memo ts) },
                  { sender with Amount := sender.Amount - amount, UpdatedTime := some ts }),
             specPayState st sender
               (specPayRow receiver sender.DOCTYPEID (toString ts ++ ctx.txID) amount fee
                 orderID memo ts)
               (specPayLog sender receiver (toString ts ++ ctx.txID) amount memo ts) ts)) :=
  ⟨fun amount hamt hle => pay_rejects_amount ctx st params amount hamt hle,
   fun kid rAddr sAddr sender sBal amount hkid hr hs hamt hacc hbal hlt =>
     pay_rejects_balance ctx st params kid rAddr sAddr sender sBal amount hkid hr hs hamt hacc
       hbal hlt,
   fun kid rAddr sAddr sender receiver sBal amount fee ts hlen hkid hr hs hne hamt hpos hacc
       hholder hsus hrec hrsus hbal hle hsig hfee hts =>
     pay_accepted ctx st params kid rAddr sAddr sender receiver sBal amount fee ts hlen hkid hr
       hs hne hamt hpos hacc hholder hsus hrec hrsus hbal hle hsig hfee hts,
   fun sender receiver amount fee orderID memo ts hts =>
     PayStub.Pay_spec ctx st sender receiver amount fee orderID memo ts hts⟩

/-- C21 on `sampleLedger 1000 5`: a pay of 0 and a pay of 1001 are rejected
and write nothing; a pay of 300 to the second account is accepted with fee 3,
and `PayStub.Pay` at time 1000 is as stated. -/
theorem pay_effects_witness :
    Rejects (sampleLedger 1000 5) (pay sampleCtx (sampleLedger 1000 5) ["", sampleReceiverID, "0"])
    ∧ Rejects (sampleLedger 1000 5)
        (pay sampleCtx (sampleLedger 1000 5) ["", sampleReceiverID, "1001"])
    ∧ pay sampleCtx (sampleLedger 1000 5) ["", sampleReceiverID, "300"]
        = (.success (.payResult
            { Pay := some (specPayRow sampleReceiverID sampleSenderID "1000tx1" 300 3 "" "" 1000),
              BalanceLog := some (specPayLog (sampleBalance sampleSenderID 1000)
                sampleReceiverID "1000tx1" 300 "" 1000) }),
           specPayState (sampleLedger 1000 5) (sampleBalance sampleSenderID 1000)
             (specPayRow sampleReceiverID sampleSenderID "1000tx1" 300 3 "" "" 1000)
             (specPayLog (sampleBalance sampleSenderID 1000) sampleReceiverID "1000tx1" 300 ""
               1000) 1000)
    ∧ PayStub.Pay sampleCtx emptyState (sampleBalance "A" 50) "M" 20 1 "o1" "memo"
        = (.ok ({ Pay := some (specPayRow "M" "A" "1000tx1" 20 1 "o1" "memo" 1000),
                  BalanceLog := some (specPayLog (sampleBalance "A" 50) "M" "1000tx1" 20 "memo"
                    1000) },
                { sampleBalance "A" 50 with Amount := 30, UpdatedTime := some 1000 }),
           specPayState emptyState (sampleBalance "A" 50)
             (specPayRow "M" "A" "1000tx1" 20 1 "o1" "memo" 1000)
             (specPayLog (sampleBalance "A" 50) "M" "1000tx1" 20 "memo" 1000) 1000) :=
  ⟨(pay_effects sampleCtx (sampleLedger 1000 5) ["", sampleReceiverID, "0"]).1 0
      (by decide) (by decide),
   (pay_effects sampleCtx (sampleLedger 1000 5) ["", sampleReceiverID, "1001"]).2.1 sampleKid
      sampleReceiverAddr sampleSenderAddr (samplePersonal sampleSenderID)
      (sampleBalance sampleSenderID 1000) 1001 rfl (by decide) (by decide) (by decide)
      (by decide) (by decide) (by decide),
   (pay_effects sampleCtx (sampleLedger 1000 5) ["", sampleReceiverID, "300"]).2.2.1 sampleKid
      sampleReceiverAddr sampleSenderAddr (samplePersonal sampleSenderID)
      (samplePersonal sampleReceiverID) (sampleBalance sampleSenderID 1000) 300 3 1000
      (by decide) rfl (by decide) (by decide) (by decide) (by decide) (by decide) (by decide)
      (by decide) (by decide) (by decide) (by decide) (by decide) (by decide) (by decide)
      (by decide) rfl,
   (pay_effects sampleCtx emptyState []).2.2.2 (sampleBalance "A" 50) "M" 20 1 "o1" "memo" 1000
      rfl⟩

/-! ## Refund -/

/-- C22 core: `PayStub.Refund` at time `ts`. -/
theorem PayStub.Refund_spec (ctx : Ctx) (st : State) (sender receiver : Balance)
    (amount fee : Int) (memo : String) (parentPay : Kiesnet.Pay) (ts : Int)
    (hts : GetTime ctx = .ok ts) :
    PayStub.Refund ctx st sender receiver amount fee memo parentPay
      = (.ok (specRefundLog receiver sender.DOCTYPEID amount memo ts,
              { receiver with Amount := receiver.Amount + amount, UpdatedTime := some ts },
              { parentPay with TotalRefund := parentPay.TotalRefund + amount }),
         specRefundState st receiver parentPay
           (specRefundRow sender.DOCTYPEID receiver.DOCTYPEID (toString ts ++ ctx.txID) amount fee
             parentPay.PayID memo ts)
           (specRefundLog receiver sender.DOCTYPEID amount memo ts) amount ts) := by
  unfold PayStub.Refund
  simp only [hts, NewPay, NewBalanceRefundLog, BalanceLog.created, BalanceLog.zero,
    BalanceStub.PutBalanceLog, BalanceStub.PutBalance, PayStub.PutPay, PayStub.PutParentPay,
    Balance.GetID, Option.getD_some, specRefundRow, specRefundLog, specRefundState, neg_neg]

/-- An accepted refund: what `payRefund` answers, and the state it leaves
(that of `PayStub.Refund` with the refunded fee). -/
theorem payRefund_accepted (ctx : Ctx) (st : State) (params : List String) (kid : String)
    (parentPay : Pay) (rAddr sAddr : Address) (sender receiver : AccountDoc)
    (sBal rBal : Balance) (amount ts : Int)
    (hlen : 2 ≤ params.length) (hkid : ctx.kid = .ok kid)
    (hamt : NewAmount (param params 1) = .ok amount) (hpos : 0 < amount)
    (hpay : PayStub.GetPay st (param params 0) = .ok parentPay)
    (hs : ParseAddress ctx.shake parentPay.DOCTYPEID = .ok sAddr)
    (hr : ParseAddress ctx.shake parentPay.RID = .ok rAddr)
    (hcode : rAddr.Code = sAddr.Code) (hne : sAddr.Equal rAddr = false)
    (hbound : parentPay.TotalRefund + amount ≤ parentPay.Amount)
    (hacc : AccountStub.GetAccount st sAddr = .ok sender)
    (hholder : sender.HasHolder kid = true) (hsus : sender.IsSuspended = false)
    (hrec : AccountStub.GetAccount st rAddr = .ok receiver)
    (hrsus : receiver.IsSuspended = false)
    (hsbal : BalanceStub.GetBalance st sender.GetID = .ok sBal)
    (hrbal : BalanceStub.GetBalance st receiver.GetID = .ok rBal)
    (hnz : parentPay.Amount ≠ 0)
    (hts : GetTime ctx = .ok ts) :
    payRefund ctx st params
      = (.success (.log (specRefundLog rBal sBal.DOCTYPEID amount
            (if params.length > 2 then truncMemo (param params 2) else "") ts)),
         specRefundState st rBal parentPay
           (specRefundRow sBal.DOCTYPEID rBal.DOCTYPEID (toString ts ++ ctx.txID) amount
             (if amount ≠ parentPay.Amount then
                Amount.MulRat amount (Rat.divInt parentPay.Fee parentPay.Amount)
              else parentPay.Fee)
             parentPay.PayID (if params.length > 2 then truncMemo (param params 2) else "") ts)
           (specRefundLog rBal sBal.DOCTYPEID amount
             (if params.length > 2 then truncMemo (param params 2) else "") ts) amount ts) := by
  have h2 : ¬ params.length < 2 := by omega
  have h1 : ¬ amount < 1 := by omega
  have h3 : ¬ parentPay.Amount < parentPay.TotalRefund + amount := by omega
  unfold payRefund
  simp only [h2, if_false, hkid, hamt, h1, hpay, hs, hr, hcode, hne, h3, hacc, hholder, hsus,
    hrec, hrsus, hsbal, hrbal, hnz, PayStub.Refund_spec _ _ _ _ _ _ _ _ ts hts, Bool.not_true,
    Bool.false_eq_true, ne_eq, not_true_eq_false, and_false]

/-- C22. Refund effects.  At transaction time `ts`, `PayStub.Refund` of `r`
against a parent pay returns a Refund log with diff `+r` and leaves exactly
this state: the receiver's balance credited by `r`, the parent stored with its
total refund raised by `r`, one new Pay row under the merchant's address with
amount `-r`, fee `-(refunded fee)` and the parent's pay id as parent id, and
one log more.  So the receiver's balance reads `+r`; the merchant's balance
row is untouched when it is another row; and, for a parent that is not the row
of this very transaction, both the refund row and the updated parent can be
read back.  An accepted `payRefund` is such a call, with the refunded fee. -/
theorem refund_effects (ctx : Ctx) (st : State) (sender receiver : Balance) (r fee : Int)
    (memo : String) (parentPay : Pay) (ts : Int) (hts : GetTime ctx = .ok ts) :
    PayStub.Refund ctx st sender receiver r fee memo parentPay
      = (.ok (specRefundLog receiver sender.DOCTYPEID r memo ts,
              { receiver with Amount := receiver.Amount + r, UpdatedTime := some ts },
              { parentPay with TotalRefund := parentPay.TotalRefund + r }),
         specRefundState st receiver parentPay
           (specRefundRow sender.DOCTYPEID receiver.DOCTYPEID (toString ts ++ ctx.txID) r fee
             parentPay.PayID memo ts)
           (specRefundLog receiver sender.DOCTYPEID r memo ts) r ts)
    ∧ BalanceStub.GetBalance (PayStub.Refund ctx st sender receiver r fee memo parentPay).2
          receiver.DOCTYPEID
        = .ok { receiver with Amount := receiver.Amount + r, UpdatedTime := some ts }
    ∧ (sender.DOCTYPEID ≠ receiver.DOCTYPEID →
        BalanceStub.GetBalance (PayStub.Refund ctx st sender receiver r fee memo parentPay).2
            sender.DOCTYPEID
          = BalanceStub.GetBalance st sender.DOCTYPEID)
    ∧ PayStub.GetPay (PayStub.Refund ctx st sender receiver r fee memo parentPay).2
          parentPay.PayID
        = .ok { parentPay with TotalRefund := parentPay.TotalRefund + r }
    ∧ (parentPay.PayID ≠ toString ts ++ ctx.txID →
        PayStub.GetPay (PayStub.Refund ctx st sender receiver r fee memo parentPay).2
            (toString ts ++ ctx.txID)
          = .ok (specRefundRow sender.DOCTYPEID receiver.DOCTYPEID (toString ts ++ ctx.txID) r
              fee parentPay.PayID memo ts))
    ∧ (∀ params kid rAddr sAddr sacc racc,
        2 ≤ params.length → ctx.kid = .ok kid → NewAmount (param params 1) = .ok r → 0 < r →
        PayStub.GetPay st (param params 0) = .ok parentPay →
        ParseAddress ctx.shake parentPay.DOCTYPEID = .ok sAddr →
        ParseAddress ctx.shake parentPay.RID = .ok rAddr →
        rAddr.Code = sAddr.Code → sAddr.Equal rAddr = false →
        parentPay.TotalRefund + r ≤ parentPay.Amount →
        AccountStub.GetAccount st sAddr = .ok sacc →
        sacc.HasHolder kid = true → sacc.IsSuspended = false →
        AccountStub.GetAccount st rAddr = .ok racc → racc.IsSuspended = false →
        BalanceStub.GetBalance st sacc.GetID = .ok sender →
        BalanceStub.GetBalance st racc.GetID = .ok receiver →
        parentPay.Amount ≠ 0 →
        (payRefund ctx st params).2
          = (PayStub.Refund ctx st sender receiver r
              (if r ≠ parentPay.Amount then
                 Amount.MulRat r (Rat.divInt parentPay.Fee parentPay.Amount)
               else parentPay.Fee)
              (if params.length > 2 then truncMemo (param params 2) else "") parentPay).2
        ∧ (payRefund ctx st params).1
          = .success (.log (specRefundLog receiver sender.DOCTYPEID r
              (if params.length > 2 then truncMemo (param params 2) else "") ts))) := by
  have hspec := PayStub.Refund_spec ctx st sender receiver r fee memo parentPay ts hts
  refine ⟨hspec, ?_, ?_, ?_, ?_, ?_⟩
  · rw [hspec]
    simp only [BalanceStub.GetBalance, specRefundState, kvGet_kvPut, if_true]
  · intro hsr
    have hk : BalanceStub.CreateKey receiver.DOCTYPEID ≠ BalanceStub.CreateKey sender.DOCTYPEID :=
      fun h => hsr (BalanceStub.CreateKey_inj _ _ h).symm
    rw [hspec]
    simp only [BalanceStub.GetBalance, specRefundState, kvGet_kvPut, if_neg hk]
  · rw [hspec]
    simp only [PayStub.GetPay, specRefundState, kvGet_kvPut, if_true]
  · intro hid
    have hk := PayStub.CreateKey_ne _ _ hid
    rw [hspec]
    simp only [PayStub.GetPay, specRefundState, specRefundRow, kvGet_kvPut, if_neg hk, if_true]
  · intro params kid rAddr sAddr sacc racc hlen hkid hamt hpos hpay hs hr hcode hne hbound hacc
      hholder hsus hrec hrsus hsbal hrbal hnz
    rw [payRefund_accepted ctx st params kid parentPay rAddr sAddr sacc racc sender receiver r ts
      hlen hkid hamt hpos hpay hs hr hcode hne hbound hacc hholder hsus hrec hrsus hsbal hrbal hnz
      hts, PayStub.Refund_spec _ _ _ _ _ _ _ _ ts hts]
    exact ⟨rfl, rfl⟩

/-- C22 on `samplePayLedger 0`: the refund of 40 against the pay of 100 with
fee 5 credits the payer 40, raises the parent's total refund to 40, stores the
refund row with amount -40 and fee -2, and leaves the merchant's balance. -/
theorem refund_effects_witness :
    GetTime sampleCtx = .ok 1000
    ∧ BalanceStub.GetBalance
        (PayStub.Refund sampleCtx (samplePayLedger 0) (sampleBalance sampleSenderID 0)
          (sampleBalance sampleReceiverID 0) 40 2 "" (samplePay 0)).2 sampleReceiverID
        = .ok { sampleBalance sampleReceiverID 0 with Amount := 0 + 40, UpdatedTime := some 1000 }
    ∧ PayStub.GetPay
        (PayStub.Refund sampleCtx (samplePayLedger 0) (sampleBalance sampleSenderID 0)
          (sampleBalance sampleReceiverID 0) 40 2 "" (samplePay 0)).2 "p1"
        = .ok { samplePay 0 with TotalRefund := 0 + 40 }
    ∧ BalanceStub.GetBalance
        (PayStub.Refund sampleCtx (samplePayLedger 0) (sampleBalance sampleSenderID 0)
          (sampleBalance sampleReceiverID 0) 40 2 "" (samplePay 0)).2 sampleSenderID
        = BalanceStub.GetBalance (samplePayLedger 0) sampleSenderID
    ∧ PayStub.GetPay
        (PayStub.Refund sampleCtx (samplePayLedger 0) (sampleBalance sampleSenderID 0)
          (sampleBalance sampleReceiverID 0) 40 2 "" (samplePay 0)).2 "1000tx1"
        = .ok (specRefundRow sampleSenderID sampleReceiverID "1000tx1" 40 2 "p1" "" 1000)
    ∧ (payRefund sampleCtx (samplePayLedger 0) ["p1", "40"]).2
        = (PayStub.Refund sampleCtx (samplePayLedger 0) (sampleBalance sampleSenderID 0)
            (sampleBalance sampleReceiverID 0) 40 2 "" (samplePay 0)).2 :=
  have h := refund_effects sampleCtx (samplePayLedger 0) (sampleBalance sampleSenderID 0)
    (sampleBalance sampleReceiverID 0) 40 2 "" (samplePay 0) 1000 rfl
  ⟨rfl, h.2.1, h.2.2.2.1, h.2.2.1 (by decide), h.2.2.2.2.1 (by decide), by decide⟩

/-! ## Refund rows are not refundable -/

/-- C23. Refund rows are never refundable.  The row `PayStub.Refund` writes for
a refund of `r0 > 0` has a negative amount, its parent's id as parent id and
a total refund of 0; and for every stored Pay row with a negative amount and a
total refund that is not negative (so for every refund row) and every refund
amount `r > 0`, `payRefund` with that row as the parent is rejected and writes
no state. -/
theorem refund_row_not_refundable (ctx : Ctx) (st : State) (params : List String)
    (parentPay : Pay) (r : Int)
    (hpay : PayStub.GetPay st (param params 0) = .ok parentPay)
    (hneg : parentPay.Amount < 0) (htot : 0 ≤ parentPay.TotalRefund)
    (hamt : NewAmount (param params 1) = .ok r) (hpos : 0 < r) :
    Rejects st (payRefund ctx st params)
    ∧ (∀ merchant receiver payid r0 fee parentID memo ts, 0 < r0 →
        (specRefundRow merchant receiver payid r0 fee parentID memo ts).Amount < 0
        ∧ (specRefundRow merchant receiver payid r0 fee parentID memo ts).TotalRefund = 0
        ∧ (specRefundRow merchant receiver payid r0 fee parentID memo ts).ParentID = parentID) := by
  refine ⟨?_, fun merchant receiver payid r0 fee parentID memo ts h0 => ⟨?_, rfl, rfl⟩⟩
  · unfold payRefund
    simp only [hamt, hpay]
    repeat' (first
      | exact Rejects_error _ _
      | exact Rejects_panic _
      | exact Rejects_responseError _ _ _
      | (exfalso; omega)
      | refine Rejects_ite (fun _ => ?_) (fun _ => ?_)
      | split)
  · show -r0 < 0
    omega

/-- C23 on the ledger left by the refund of 40 on `samplePayLedger 0`: the
refund row `1000tx1` (amount -40) cannot be refunded by 1. -/
theorem refund_row_not_refundable_witness :
    PayStub.GetPay (payRefund sampleCtx (samplePayLedger 0) ["p1", "40"]).2
        (param ["1000tx1", "1"] 0)
      = .ok (specRefundRow sampleSenderID sampleReceiverID "1000tx1" 40 2 "p1" "" 1000)
    ∧ Rejects (payRefund sampleCtx (samplePayLedger 0) ["p1", "40"]).2
        (payRefund sampleLaterCtx (payRefund sampleCtx (samplePayLedger 0) ["p1", "40"]).2
          ["1000tx1", "1"]) :=
  ⟨by decide,
   (refund_row_not_refundable sampleLaterCtx
      (payRefund sampleCtx (samplePayLedger 0) ["p1", "40"]).2 ["1000tx1", "1"]
      (specRefundRow sampleSenderID sampleReceiverID "1000tx1" 40 2 "p1" "" 1000) 1
      (by decide) (by decide) (by decide) (by decide) (by decide)).1⟩

/-! ## Pay prune settlement -/

theorem take_head? {α : Type} (l : List α) (n : Nat) (hn : 0 < n) :
    (l.take n).head? = l.head? := by
  cases l with
  | nil => simp
  | cons a t =>
    cases n with
    | zero => omega
    | succ k => simp

/-- The sum `GetPaySumByTime` returns, in terms of the batch: the first 900
rows of the query. -/
theorem GetPaySumByTime_batch (st : State) (id : String) (stime etime : Int) :
    PayStub.GetPaySumByTime st id stime etime
      = { Sum := batchAmount ((queryPrunePays st id stime etime).take PaysPruneSize),
          Fee := batchFee ((queryPrunePays st id stime etime).take PaysPruneSize),
          Count := ((queryPrunePays st id stime etime).take PaysPruneSize).length,
          Start := ((((queryPrunePays st id stime etime).take PaysPruneSize).head?).map
            (fun c => c.PayID)).getD "",
          End := ((((queryPrunePays st id stime etime).take PaysPruneSize).getLast?).map
            (fun c => c.PayID)).getD "",
          HasMore := decide (PaysPruneSize < (queryPrunePays st id stime etime).length) } := by
  obtain ⟨h1, h2, h3, h3f, h4, h5⟩ := paySumLoop_spec (queryPrunePays st id stime etime) 0
    { Sum := 0, Fee := 0, Count := 0, Start := "", End := "", HasMore := false } (Nat.zero_le _)
  unfold PayStub.GetPaySumByTime
  generalize paySumLoop (queryPrunePays st id stime etime) 0
    { Sum := 0, Fee := 0, Count := 0, Start := "", End := "", HasMore := false } = ps at *
  obtain ⟨s, f, c, a, e, m⟩ := ps
  simp only [Nat.sub_zero, zero_add, Bool.false_or, if_true] at h1 h2 h3 h3f h4 h5
  subst h1 h2 h3 h3f h4 h5
  simp only [batchAmount, batchFee, List.length_take, PaySum.mk.injEq, true_and,
    List.getLast?_map, take_head? _ _ (show 0 < PaysPruneSize by decide), and_true]
  exact Nat.min_comm _ _

/-- The accepted prune, step by step. -/
theorem payPrune_accepted (ctx : Ctx) (st : State) (params : List String) (kid : String)
    (addr : Address) (account : AccountDoc) (bal : Balance) (stime etime ts : Int)
    (hlen : 2 ≤ params.length) (hkid : ctx.kid = .ok kid)
    (haddr : codeOrAddress ctx (param params 0) kid = .ok addr)
    (hacc : AccountStub.GetAccount st addr = .ok account)
    (hholder : account.HasHolder kid = true) (hsus : account.IsSuspended = false)
    (hbal : BalanceStub.GetBalance st account.GetID = .ok bal)
    (hstart : pruneStartTime bal.LastPrunedPayID = some (.ok stime))
    (hts : GetTime ctx = .ok ts)
    (hend : pruneEndTime params ts "wrong first params value. the value must be true or false"
      = .ok etime)
    (hids : ∀ c ∈ (queryPrunePays st account.GetID stime etime).take PaysPruneSize,
      c.PayID ≠ "") :
    payPrune ctx st params
      = (.success (.paySum (PayStub.GetPaySumByTime st account.GetID stime etime)),
         specPrunePayState st bal account.GetID
           ((queryPrunePays st account.GetID stime etime).take PaysPruneSize) ts ctx.txID) := by
  have h2 : ¬ params.length < 2 := by omega
  have hEnd : ∀ batch : List Pay, (∀ c ∈ batch, c.PayID ≠ "") →
      (if ((batch.getLast?.map (fun c => c.PayID)).getD "").length ≠ 0
        then (batch.getLast?.map (fun c => c.PayID)).getD "" else bal.LastPrunedPayID)
      = (batch.getLast?.map (fun c => c.PayID)).getD bal.LastPrunedPayID := by
    intro batch hb
    cases hl : batch.getLast? with
    | none => simp
    | some c =>
      have hc : c ∈ batch := List.mem_of_mem_getLast? hl
      have hne : c.PayID ≠ "" := hb c hc
      have hlen : c.PayID.length ≠ 0 := by
        intro h0
        exact hne (String.ext (List.length_eq_zero.mp h0))
      simp [hlen]
  unfold payPrune
  simp only [h2, if_false, hkid, haddr, hacc, hholder, hsus, hbal, hstart, hts, hend,
    Bool.not_true, Bool.false_eq_true]
  rw [GetPaySumByTime_batch]
  simp only [hEnd _ hids]
  unfold FeeStub.CreateFee
  by_cases hz : batchFee ((queryPrunePays st account.GetID stime etime).take PaysPruneSize) = 0
  · simp only [hz, if_true, specPrunePayState, specPrunedBalance, specPrunePayLog,
      NewBalancePrunePayLog, BalanceLog.created, BalanceLog.zero, BalanceStub.PutBalanceLog,
      BalanceStub.PutBalance, Option.getD_some, Int.sub_eq_add_neg, neg_zero, add_zero]
  · simp only [hz, if_false, hts, specPrunePayState, specPrunedBalance, specPrunePayLog,
      specPruneFeeRow, NewBalancePrunePayLog, BalanceLog.created, BalanceLog.zero,
      BalanceStub.PutBalanceLog, BalanceStub.PutBalance, FeeStub.PutFee, Option.getD_some,
      Int.sub_eq_add_neg]

/-- C24. Pay prune settlement.  When `payPrune` passes its checks for an
account with stored balance `bal`, with `batch` the first 900 of the pay rows
(pays and refunds alike) the prune query selects, it answers with the sum of
the batch and leaves exactly this state: the balance credited by
`sum(amount) - sum(fee)` with the id of the last row of the batch as last
pruned id (unchanged for an empty batch), one Fee row of `sum(fee)` paid by the
account when that sum is not zero, and one PrunePay log whose diff is the net
credit.  The batch has at most 900 rows, and the credit plus the recorded fee
is `sum(amount)`. -/
theorem pay_prune_settlement (ctx : Ctx) (st : State) (params : List String) (kid : String)
    (addr : Address) (account : AccountDoc) (bal : Balance) (stime etime ts : Int)
    (hlen : 2 ≤ params.length) (hkid : ctx.kid = .ok kid)
    (haddr : codeOrAddress ctx (param params 0) kid = .ok addr)
    (hacc : AccountStub.GetAccount st addr = .ok account)
    (hholder : account.HasHolder kid = true) (hsus : account.IsSuspended = false)
    (hbal : BalanceStub.GetBalance st account.GetID = .ok bal)
    (hbalid : bal.DOCTYPEID = account.GetID)
    (hstart : pruneStartTime bal.LastPrunedPayID = some (.ok stime))
    (hts : GetTime ctx = .ok ts)
    (hend : pruneEndTime params ts "wrong first params value. the value must be true or false"
      = .ok etime)
    (hids : ∀ c ∈ (queryPrunePays st account.GetID stime etime).take PaysPruneSize,
      c.PayID ≠ "") :
    payPrune ctx st params
      = (.success (.paySum (PayStub.GetPaySumByTime st account.GetID stime etime)),
         specPrunePayState st bal account.GetID
           ((queryPrunePays st account.GetID stime etime).take PaysPruneSize) ts ctx.txID)
    ∧ ((queryPrunePays st account.GetID stime etime).take PaysPruneSize).length ≤ 900
    ∧ BalanceStub.GetBalance (payPrune ctx st params).2 account.GetID
        = .ok (specPrunedBalance bal
            ((queryPrunePays st account.GetID stime etime).take PaysPruneSize) ts)
    ∧ ((specPrunedBalance bal
            ((queryPrunePays st account.GetID stime etime).take PaysPruneSize) ts).Amount
          - bal.Amount)
        + batchFee ((queryPrunePays st account.GetID stime etime).take PaysPruneSize)
        = batchAmount ((queryPrunePays st account.GetID stime etime).take PaysPruneSize)
    ∧ (batchFee ((queryPrunePays st account.GetID stime etime).take PaysPruneSize) = 0 →
        (payPrune ctx st params).2.fees = st.fees)
    ∧ (batchFee ((queryPrunePays st account.GetID stime etime).take PaysPruneSize) ≠ 0 →
        kvGet (payPrune ctx st params).2.fees (FeeStub.CreateKey (toString ts ++ ctx.txID))
          = some (specPruneFeeRow account.GetID
              ((queryPrunePays st account.GetID stime etime).take PaysPruneSize) ts ctx.txID))
    ∧ (∀ log, kvGet (payPrune ctx st params).2.balanceLogs
          (BalanceStub.CreateLogKey account.GetID ts) = some log →
        log.Typ = .PrunePay
        ∧ log.Diff
          = batchAmount ((queryPrunePays st account.GetID stime etime).take PaysPruneSize)
            - batchFee ((queryPrunePays st account.GetID stime etime).take PaysPruneSize)) := by
  have hacc' := payPrune_accepted ctx st params kid addr account bal stime etime ts hlen hkid
    haddr hacc hholder hsus hbal hstart hts hend hids
  refine ⟨hacc', ?_, ?_, ?_, ?_, ?_, ?_⟩
  · rw [List.length_take]
    exact Nat.min_le_left _ _
  · rw [hacc']
    simp only [BalanceStub.GetBalance, specPrunePayState, hbalid, kvGet_kvPut, if_true]
  · simp only [specPrunedBalance]
    omega
  · intro hz
    rw [hacc']
    simp only [specPrunePayState, hz, if_true]
  · intro hz
    rw [hacc']
    simp only [specPrunePayState, hz, if_false, kvGet_kvPut, if_true]
  · intro log hlog
    rw [hacc'] at hlog
    simp only [specPrunePayState, hbalid, kvGet_kvPut, if_true, Option.some.injEq] at hlog
    subst hlog
    exact ⟨rfl, rfl⟩

/-- C24 on `samplePayLedger 0` (one pay of 100 with fee 5 to the first
account): the prune credits 95, records the fee 5, and sets the cursor to
`p1`. -/
theorem pay_prune_settlement_witness :
    BalanceStub.GetBalance (payPrune sampleCtx (samplePayLedger 0) ["ABC", "false"]).2
        sampleSenderID
      = .ok { sampleBalance sampleSenderID 0 with
              Amount := 95, UpdatedTime := some 1000, LastPrunedPayID := "p1" }
    ∧ kvGet (payPrune sampleCtx (samplePayLedger 0) ["ABC", "false"]).2.fees
        (FeeStub.CreateKey "1000tx1")
      = some { DOCTYPEID := "ABC", FeeID := "1000tx1", Account := sampleSenderID, Amount := 5,
               CreatedTime := some 1000 } :=
  have h := pay_prune_settlement sampleCtx (samplePayLedger 0) ["ABC", "false"] sampleKid
    sampleSenderAddr (samplePersonal sampleSenderID) (sampleBalance sampleSenderID 0) 0 1000 1000
    (by decide) rfl (by decide) (by decide) (by decide) (by decide) (by decide) (by decide)
    (by decide) rfl (by decide) (by decide)
  ⟨h.2.2.1, h.2.2.2.2.2.1 (by decide)⟩

/-! ## Fee prune: credit and cursor together -/

theorem FeePruneAtomic_error (ctx : Ctx) (st : State) (params : List String) (m : String) :
    FeePruneAtomic ctx st params (.error m, st) :=
  Or.inl ⟨rfl, rfl, fun _ h => nomatch h⟩

theorem FeePruneAtomic_panic (ctx : Ctx) (st : State) (params : List String) :
    FeePruneAtomic ctx st params (.panic, st) :=
  Or.inl ⟨rfl, rfl, fun _ h => nomatch h⟩

theorem FeePruneAtomic_responseError (ctx : Ctx) (st : State) (params : List String)
    (e : Error) (m : String) : FeePruneAtomic ctx st params (responseError e m, st) := by
  obtain ⟨msg, hm⟩ := responseError_eq e m
  rw [hm]
  exact FeePruneAtomic_error ctx st params msg

theorem FeePruneAtomic_ite {ctx : Ctx} {st : State} {params : List String} {q : Prop}
    [Decidable q] {a b : Response × State}
    (ha : q → FeePruneAtomic ctx st params a) (hb : ¬ q → FeePruneAtomic ctx st params b) :
    FeePruneAtomic ctx st params (if q then a else b) := by
  split
  · exact ha (by assumption)
  · exact hb (by assumption)

theorem FeePruneAtomic_nopolicy (ctx : Ctx) (st : State) (params : List String) :
    FeePruneAtomic ctx st params
      (.success (.feeSum { Sum := 0, Count := 0, Start := "", End := "", HasMore := false }),
        st) :=
  Or.inl ⟨rfl, rfl, fun fs h => by
    injection h with h1
    injection h1 with h2
    rw [← h2]⟩

/-- The last step of `feePrune`. -/
theorem FeePruneAtomic_final {ctx : Ctx} {st : State} {params : List String} {code : String}
    {token : Token} {policy : FeePolicy} {addr : Address} {account : AccountDoc}
    {bal : Balance} {stime etime ts : Int}
    (hcode : ValidateTokenCode (param params 0) = .ok code)
    (htok : TokenStub.GetToken st code = .ok token)
    (hpol : token.FeePolicy = some policy)
    (haddr : ParseAddress ctx.shake policy.TargetAddress = .ok addr)
    (hacc : AccountStub.GetAccount st addr = .ok account)
    (hbal : BalanceStub.GetBalance st account.GetID = .ok bal)
    (hts : GetTime ctx = .ok ts) (log : Balance → BalanceLog) :
    FeePruneAtomic ctx st params
      (.success (.feeSum (FeeStub.GetFeeSumByTime st code stime etime)),
       BalanceStub.PutBalanceLog
         (if (FeeStub.GetFeeSumByTime st code stime etime).Count > 0 then
            (({ bal with
                Amount := bal.Amount + (FeeStub.GetFeeSumByTime st code stime etime).Sum,
                UpdatedTime := some ts } : Balance),
             TokenStub.PutToken
               (BalanceStub.PutBalance st
                 { bal with
                   Amount := bal.Amount + (FeeStub.GetFeeSumByTime st code stime etime).Sum,
                   UpdatedTime := some ts })
               { token with
                 LastPrunedFeeID := (FeeStub.GetFeeSumByTime st code stime etime).End })
          else (bal, st)).2
         (log (if (FeeStub.GetFeeSumByTime st code stime etime).Count > 0 then
            (({ bal with
                Amount := bal.Amount + (FeeStub.GetFeeSumByTime st code stime etime).Sum,
                UpdatedTime := some ts } : Balance),
             TokenStub.PutToken
               (BalanceStub.PutBalance st
                 { bal with
                   Amount := bal.Amount + (FeeStub.GetFeeSumByTime st code stime etime).Sum,
                   UpdatedTime := some ts })
               { token with
                 LastPrunedFeeID := (FeeStub.GetFeeSumByTime st code stime etime).End })
          else (bal, st)).1)) := by
  by_cases hc : (FeeStub.GetFeeSumByTime st code stime etime).Count > 0
  · refine Or.inr ⟨code, token, policy, addr, account, bal, stime, etime, ts, hcode, htok, hpol,
      haddr, hacc, hbal, hts, rfl, hc, ?_, ?_, ?_, ?_⟩
    · simp only [hc, if_true, BalanceStub.PutBalanceLog, TokenStub.PutToken,
        BalanceStub.PutBalance]
    · simp only [hc, if_true, BalanceStub.PutBalanceLog, TokenStub.PutToken,
        BalanceStub.PutBalance]
    · intro hid
      simp only [hc, if_true, BalanceStub.PutBalanceLog, TokenStub.PutToken,
        BalanceStub.PutBalance, BalanceStub.GetBalance, hid, kvGet_kvPut]
    · intro hid
      simp only [hc, if_true, BalanceStub.PutBalanceLog, TokenStub.PutToken,
        BalanceStub.PutBalance, TokenStub.GetToken, hid, kvGet_kvPut]
  · refine Or.inl ⟨?_, ?_, ?_⟩
    · simp only [hc, if_false, BalanceStub.PutBalanceLog]
    · simp only [hc, if_false, BalanceStub.PutBalanceLog]
    · intro fs h
      injection h with h1
      injection h1 with h2
      rw [← h2]
      omega

theorem feePrune_atomic (ctx : Ctx) (st : State) (params : List String) :
    FeePruneAtomic ctx st params (feePrune ctx st params) := by
  unfold feePrune
  simp only []
  repeat' (first
    | exact FeePruneAtomic_error _ _ _ _
    | exact FeePruneAtomic_panic _ _ _
    | exact FeePruneAtomic_responseError _ _ _ _ _
    | exact FeePruneAtomic_nopolicy _ _ _
    | exact FeePruneAtomic_final (by assumption) (by assumption) (by assumption)
        (by assumption) (by assumption) (by assumption) (by assumption)
        (fun b => (NewBalancePruneFeeLog b _ _ _).created _)
    | refine FeePruneAtomic_ite (fun _ => ?_) (fun _ => ?_)
    | split)

/-- C25. Fee prune applies the credit and the cursor advance together.  Every
`feePrune` call ends in one of two ways: the balance table and the token table
are unchanged (every rejection, and every success whose count is 0), or the
call answered with a sum of count > 0, credited the target account's balance
by exactly that sum and set the token's last-pruned fee id to the end of the
sum (the id of the last fee included).  So a success with count > 0 changed
both, a success with count 0 changed neither, and no outcome changed only one
of the two. -/
theorem fee_prune_credit_and_cursor (ctx : Ctx) (st : State) (params : List String) :
    FeePruneAtomic ctx st params (feePrune ctx st params)
    ∧ (∀ fs, (feePrune ctx st params).1 = .success (.feeSum fs) → 0 < fs.Count →
        FeePruneBoth ctx st params (feePrune ctx st params))
    ∧ (∀ fs, (feePrune ctx st params).1 = .success (.feeSum fs) → fs.Count = 0 →
        (feePrune ctx st params).2.balances = st.balances
        ∧ (feePrune ctx st params).2.tokens = st.tokens)
    ∧ ((feePrune ctx st params).1.isSuccess = false →
        (feePrune ctx st params).2.balances = st.balances
        ∧ (feePrune ctx st params).2.tokens = st.tokens) := by
  have h := feePrune_atomic ctx st params
  refine ⟨h, ?_, ?_, ?_⟩
  · intro fs hfs hpos
    rcases h with hn | hb
    · have := hn.2.2 fs hfs
      omega
    · exact hb
  · intro fs hfs hz
    rcases h with hn | hb
    · exact ⟨hn.1, hn.2.1⟩
    · obtain ⟨code, token, policy, addr, account, bal, stime, etime, ts, -, -, -, -, -, -, -,
        hres, hpos, -⟩ := hb
      rw [hres] at hfs
      injection hfs with h1
      injection h1 with h2
      rw [h2] at hpos
      omega
  · intro hfail
    rcases h with hn | hb
    · exact ⟨hn.1, hn.2.1⟩
    · obtain ⟨code, token, policy, addr, account, bal, stime, etime, ts, -, -, -, -, -, -, -,
        hres, -⟩ := hb
      rw [hres] at hfail
      exact Bool.noConfusion hfail

/-- C25 on `sampleFeeLedger`: the prune of its one fee row of 7 answers with
count 1, so it applied both; a prune by a stranger is rejected and changes
neither table. -/
theorem fee_prune_credit_and_cursor_witness :
    (feePrune sampleCtx sampleFeeLedger ["ABC", "false"]).1
      = .success (.feeSum { Sum := 7, Count := 1, Start := "0000000000000000500tx0",
                            End := "0000000000000000500tx0", HasMore := false })
    ∧ FeePruneBoth sampleCtx sampleFeeLedger ["ABC", "false"]
        (feePrune sampleCtx sampleFeeLedger ["ABC", "false"])
    ∧ (feePrune { sampleCtx with kid := .ok "stranger" } sampleFeeLedger ["ABC", "false"]).2.balances
        = sampleFeeLedger.balances
    ∧ (feePrune { sampleCtx with kid := .ok "stranger" } sampleFeeLedger ["ABC", "false"]).2.tokens
        = sampleFeeLedger.tokens :=
  ⟨by decide,
   (fee_prune_credit_and_cursor sampleCtx sampleFeeLedger ["ABC", "false"]).2.1
     { Sum := 7, Count := 1, Start := "0000000000000000500tx0",
       End := "0000000000000000500tx0", HasMore := false } (by decide) (by decide),
   ((fee_prune_credit_and_cursor { sampleCtx with kid := .ok "stranger" } sampleFeeLedger
      ["ABC", "false"]).2.2.2 (by decide)).1,
   ((fee_prune_credit_and_cursor { sampleCtx with kid := .ok "stranger" } sampleFeeLedger
      ["ABC", "false"]).2.2.2 (by decide)).2⟩

/-- The prune of `sampleFeeLedger` read back: the target balance is 7 and the
token's cursor is the id of the fee row. -/
theorem fee_prune_sample :
    (BalanceStub.GetBalance (feePrune sampleCtx sampleFeeLedger ["ABC", "false"]).2
        sampleSenderID).map (fun b => b.Amount) = .ok 7
    ∧ (TokenStub.GetToken (feePrune sampleCtx sampleFeeLedger ["ABC", "false"]).2 "ABC").map
        (fun t => t.LastPrunedFeeID) = .ok "0000000000000000500tx0" := by
  decide

/-! ## Escrow finalize -/

theorem TransferPendingBalance_unlocked (ctx : Ctx) (st : State) (pb : PendingBalance)
    (receiver : Balance) (pendingTime : Option Int) (ts : Int) (hts : GetTime ctx = .ok ts)
    (ha : 0 ≤ pb.Amount) (hl : timeLocked pendingTime ts = false) :
    BalanceStub.TransferPendingBalance ctx st pb receiver pendingTime
      = (.ok { receiver with Amount := receiver.Amount + pb.Amount, UpdatedTime := some ts },
         specFinalizeState st pb receiver ts ctx.txID) := by
  have hneg : ¬ pb.Amount < 0 := by omega
  unfold BalanceStub.TransferPendingBalance
  simp only [hts, hl, Bool.false_eq_true, if_false]
  cases hf : pb.Fee with
  | none =>
    simp only [specFinalizeState, specReceiveLog, specEscrowFees, NewBalanceTransferLog, hneg,
      if_false, BalanceLog.created, BalanceLog.zero, BalanceStub.PutBalanceLog,
      BalanceStub.PutBalance, BalanceStub.DelPendingBalance, Option.getD_some, hf]
  | some f =>
    unfold FeeStub.CreateFee
    by_cases hz : f = 0
    · simp only [specFinalizeState, specReceiveLog, specEscrowFees, NewBalanceTransferLog, hneg,
        if_false, BalanceLog.created, BalanceLog.zero, BalanceStub.PutBalanceLog,
        BalanceStub.PutBalance, BalanceStub.DelPendingBalance, Option.getD_some, hf, hz, if_true]
    · simp only [specFinalizeState, specReceiveLog, specEscrowFees, NewBalanceTransferLog, hneg,
        if_false, BalanceLog.created, BalanceLog.zero, BalanceStub.PutBalanceLog,
        BalanceStub.PutBalance, BalanceStub.DelPendingBalance, Option.getD_some, hf, hz, hts,
        FeeStub.PutFee]

theorem TransferPendingBalance_locked (ctx : Ctx) (st : State) (pb : PendingBalance)
    (receiver : Balance) (pendingTime : Option Int) (ts : Int) (hts : GetTime ctx = .ok ts)
    (hl : timeLocked pendingTime ts = true) :
    BalanceStub.TransferPendingBalance ctx st pb receiver pendingTime
      = (.ok receiver, specRewrapState st pb receiver pendingTime ts ctx.txID) := by
  unfold BalanceStub.TransferPendingBalance
  simp only [hts, hl, if_true]
  cases hf : pb.Fee with
  | none =>
    simp only [specRewrapState, specRewrapped, specEscrowFees, NewPendingBalance,
      PendingBalance.created, Identifiable.GetID, Balance.GetID, BalanceStub.PutPendingBalance,
      BalanceStub.DelPendingBalance, hf]
  | some f =>
    unfold FeeStub.CreateFee
    by_cases hz : f = 0
    · simp only [specRewrapState, specRewrapped, specEscrowFees, NewPendingBalance,
        PendingBalance.created, Identifiable.GetID, Balance.GetID, BalanceStub.PutPendingBalance,
        BalanceStub.DelPendingBalance, hf, hz, if_true]
    · simp only [specRewrapState, specRewrapped, specEscrowFees, NewPendingBalance,
        PendingBalance.created, Identifiable.GetID, Balance.GetID, BalanceStub.PutPendingBalance,
        BalanceStub.DelPendingBalance, hf, hz, if_false, hts, FeeStub.PutFee]

theorem BalanceStub.CreatePendingKey_inj (a b : String)
    (h : BalanceStub.CreatePendingKey a = BalanceStub.CreatePendingKey b) : a = b :=
  append_left_cancel_str _ _ _ h

/-- C26. Escrow finalize.  At transaction time `ts`, for a pending balance of
amount `a ≥ 0` and optional fee `f`: with no release time, or a release time
not after `ts`, `TransferPendingBalance` credits the receiver by exactly `a`,
writes a Receive log, records a Fee row of `f` paid by the original owner when
`f` is present and not zero, and deletes the pending row.  With a release time
after `ts` it changes no balance and writes no log, writes a new account-type
pending balance of amount `a` without fee, owned by the receiver, with that
release time, records the fee all the same, and deletes the original pending
row (the new row is stored under the transaction id, which is not the id of
the original row). -/
theorem escrow_finalize (ctx : Ctx) (st : State) (pb : PendingBalance) (receiver : Balance)
    (pendingTime : Option Int) (ts : Int) (hts : GetTime ctx = .ok ts) (ha : 0 ≤ pb.Amount) :
    ((pendingTime = none ∨ ∃ pt, pendingTime = some pt ∧ pt ≤ ts) →
      BalanceStub.TransferPendingBalance ctx st pb receiver pendingTime
        = (.ok { receiver with Amount := receiver.Amount + pb.Amount, UpdatedTime := some ts },
           specFinalizeState st pb receiver ts ctx.txID)
      ∧ BalanceStub.GetBalance
          (BalanceStub.TransferPendingBalance ctx st pb receiver pendingTime).2
          receiver.DOCTYPEID
        = .ok { receiver with Amount := receiver.Amount + pb.Amount, UpdatedTime := some ts }
      ∧ PendingGone (BalanceStub.TransferPendingBalance ctx st pb receiver pendingTime).2
          pb.DOCTYPEID)
    ∧ (∀ pt, pendingTime = some pt → ts < pt →
      BalanceStub.TransferPendingBalance ctx st pb receiver pendingTime
        = (.ok receiver, specRewrapState st pb receiver pendingTime ts ctx.txID)
      ∧ (BalanceStub.TransferPendingBalance ctx st pb receiver pendingTime).2.balances
        = st.balances
      ∧ (BalanceStub.TransferPendingBalance ctx st pb receiver pendingTime).2.balanceLogs
        = st.balanceLogs
      ∧ PendingGone (BalanceStub.TransferPendingBalance ctx st pb receiver pendingTime).2
          pb.DOCTYPEID
      ∧ (pb.DOCTYPEID ≠ ctx.txID →
        BalanceStub.GetPendingBalance
            (BalanceStub.TransferPendingBalance ctx st pb receiver pendingTime).2 ctx.txID
          = .ok (specRewrapped pb receiver pendingTime ts ctx.txID))) := by
  constructor
  · intro hfree
    have hl : timeLocked pendingTime ts = false := by
      rcases hfree with h | ⟨pt, h, hle⟩
      · rw [h]
        rfl
      · rw [h]
        simp only [timeLocked, decide_eq_false_iff_not]
        omega
    have h := TransferPendingBalance_unlocked ctx st pb receiver pendingTime ts hts ha hl
    refine ⟨h, ?_, ?_⟩
    · rw [h]
      simp only [BalanceStub.GetBalance, specFinalizeState, kvGet_kvPut, if_true]
    · rw [h]
      simp only [PendingGone, specFinalizeState, kvGet_kvDel, if_true]
  · intro pt hpt hlt
    have hl : timeLocked pendingTime ts = true := by
      rw [hpt]
      simp only [timeLocked, decide_eq_true_eq]
      omega
    have h := TransferPendingBalance_locked ctx st pb receiver pendingTime ts hts hl
    refine ⟨h, ?_, ?_, ?_, ?_⟩
    · rw [h]
      rfl
    · rw [h]
      rfl
    · rw [h]
      simp only [PendingGone, specRewrapState, kvGet_kvDel, if_true]
    · intro hid
      have hk : BalanceStub.CreatePendingKey pb.DOCTYPEID ≠ BalanceStub.CreatePendingKey ctx.txID :=
        fun hk => hid (BalanceStub.CreatePendingKey_inj _ _ hk)
      rw [h]
      simp only [BalanceStub.GetPendingBalance, specRewrapState, kvGet_kvDel, if_neg hk,
        kvGet_kvPut, if_true]

/-- C26 on `sampleEscrowState` (an escrow of 40 with fee 2 owned by `A`, stored
under `tx0`) at time 1000: without release time a receiver holding 10 is
credited to 50 and the fee row of 2 is recorded; with the release time 5000
the escrow is re-wrapped under `tx1`. -/
theorem escrow_finalize_witness :
    BalanceStub.GetBalance
        (BalanceStub.TransferPendingBalance sampleCtx sampleEscrowState samplePending
          (sampleBalance "B" 10) none).2 "B"
      = .ok { sampleBalance "B" 10 with Amount := 10 + 40, UpdatedTime := some 1000 }
    ∧ PendingGone
        (BalanceStub.TransferPendingBalance sampleCtx sampleEscrowState samplePending
          (sampleBalance "B" 10) none).2 "tx0"
    ∧ BalanceStub.GetPendingBalance
        (BalanceStub.TransferPendingBalance sampleCtx sampleEscrowState samplePending
          (sampleBalance "B" 10) (some 5000)).2 "tx1"
      = .ok (specRewrapped samplePending (sampleBalance "B" 10) (some 5000) 1000 "tx1")
    ∧ (BalanceStub.TransferPendingBalance sampleCtx sampleEscrowState samplePending
          (sampleBalance "B" 10) (some 5000)).2.balances = sampleEscrowState.balances :=
  have h1 := (escrow_finalize sampleCtx sampleEscrowState samplePending (sampleBalance "B" 10)
    none 1000 rfl (by decide)).1 (Or.inl rfl)
  have h2 := (escrow_finalize sampleCtx sampleEscrowState samplePending (sampleBalance "B" 10)
    (some 5000) 1000 rfl (by decide)).2 5000 rfl (by decide)
  ⟨h1.2.1, h1.2.2, h2.2.2.2.2 (by decide), h2.2.1⟩

/-- The fee rows of the two finalizations of the sample escrow: one row of 2
paid by `A`, in both. -/
theorem escrow_finalize_sample :
    (BalanceStub.TransferPendingBalance sampleCtx sampleEscrowState samplePending
        (sampleBalance "B" 10) none).2.fees.map (fun r => (r.2.Account, r.2.Amount))
      = [("A", 2)]
    ∧ (BalanceStub.TransferPendingBalance sampleCtx sampleEscrowState samplePending
        (sampleBalance "B" 10) (some 5000)).2.fees.map (fun r => (r.2.Account, r.2.Amount))
      = [("A", 2)] := by
  decide

/-! ## Time-locked transfer -/

theorem Transfer_locked (ctx : Ctx) (st : State) (sender receiver : Balance) (a f : Int)
    (memo : String) (pt ts : Int) (hts : GetTime ctx = .ok ts) (hlock : ts < pt)
    (hpos : 0 < a) :
    BalanceStub.Transfer ctx st sender receiver a f memo (some pt)
      = (.ok (specSendLog sender receiver a f memo ts,
              { sender with Amount := sender.Amount - a - f, UpdatedTime := some ts },
              receiver),
         specLockedTransferState st sender receiver a f memo (some pt) ts ctx.txID) := by
  have hl : timeLocked (some pt) ts = true := by
    simp only [timeLocked, decide_eq_true_eq]
    omega
  have hneg : -a < 0 := by omega
  unfold BalanceStub.Transfer
  simp only [hts, hl, if_true]
  unfold FeeStub.CreateFee
  by_cases hz : f = 0
  · simp only [hz, if_true, specLockedTransferState, specLockedPending, specSendLog,
      specEscrowFees, NewPendingBalance, PendingBalance.created, Identifiable.GetID,
      Balance.GetID, BalanceStub.PutPendingBalance, NewBalanceTransferLog, hneg,
      BalanceLog.created, BalanceLog.zero, BalanceStub.PutBalanceLog, BalanceStub.PutBalance,
      Option.getD_some, Int.sub_eq_add_neg, neg_zero, add_zero]
  · simp only [hz, if_false, hts, specLockedTransferState, specLockedPending, specSendLog,
      specEscrowFees, NewPendingBalance, PendingBalance.created, Identifiable.GetID,
      Balance.GetID, BalanceStub.PutPendingBalance, NewBalanceTransferLog, hneg, if_true,
      BalanceLog.created, BalanceLog.zero, BalanceStub.PutBalanceLog, BalanceStub.PutBalance,
      FeeStub.PutFee, Option.getD_some, Int.sub_eq_add_neg]

/-- `balancePendingWithdraw` before the pending time. -/
theorem withdraw_too_early (ctx : Ctx) (st : State) (params : List String) (kid : String)
    (pb : PendingBalance) (pt ts : Int)
    (hlen : params.length = 1) (hts : GetTime ctx = .ok ts) (hkid : ctx.kid = .ok kid)
    (hpb : BalanceStub.GetPendingBalance st (param params 0) = .ok pb)
    (hpt : pb.PendingTime = some pt) (hearly : ts < pt) :
    balancePendingWithdraw ctx st params = (.error "too early to withdraw", st) := by
  have h1 : ¬ params.length ≠ 1 := by omega
  have h2 : pt > ts := by omega
  unfold balancePendingWithdraw
  simp only [h1, if_false, hts, hkid, hpb, hpt, h2, if_true]

/-- `balancePendingWithdraw` by the owner, once the pending time has come. -/
theorem withdraw_in_time (ctx : Ctx) (st : State) (params : List String) (kid : String)
    (pb : PendingBalance) (addr : Address) (account : AccountDoc) (bal : Balance) (pt ts : Int)
    (hlen : params.length = 1) (hts : GetTime ctx = .ok ts) (hkid : ctx.kid = .ok kid)
    (hpb : BalanceStub.GetPendingBalance st (param params 0) = .ok pb)
    (hpt : pb.PendingTime = some pt) (hdue : pt ≤ ts)
    (haddr : ParseAddress ctx.shake pb.Account = .ok addr)
    (hacc : AccountStub.GetAccount st addr = .ok account)
    (hholder : account.HasHolder kid = true) (hsus : account.IsSuspended = false)
    (hbal : BalanceStub.GetBalance st pb.Account = .ok bal)
    (hbalid : bal.DOCTYPEID = pb.Account) :
    (balancePendingWithdraw ctx st params).1.isSuccess = true
    ∧ BalanceStub.GetBalance (balancePendingWithdraw ctx st params).2 pb.Account
        = .ok { bal with Amount := bal.Amount + appliedAmount pb.Amount pb.Fee,
                         UpdatedTime := some ts }
    ∧ PendingGone (balancePendingWithdraw ctx st params).2 pb.DOCTYPEID := by
  have h1 : ¬ params.length ≠ 1 := by omega
  have h2 : ¬ pt > ts := by omega
  unfold balancePendingWithdraw
  simp only [h1, if_false, hts, hkid, hpb, hpt, h2, haddr, hacc, hholder, hsus,
    Bool.not_true, Bool.false_eq_true]
  unfold BalanceStub.Withdraw
  simp only [hts, hbal]
  refine ⟨rfl, ?_, ?_⟩
  · simp only [BalanceStub.GetBalance, BalanceStub.DelPendingBalance, BalanceStub.PutBalanceLog,
      BalanceStub.PutBalance, hbalid, kvGet_kvPut, if_true]
  · simp only [PendingGone, BalanceStub.DelPendingBalance, kvGet_kvDel, if_true]

/-- C27. Time-locked transfer.  At transaction time `ts`, `BalanceStub.Transfer`
of `a > 0` with fee `f` and a pending time after `ts` debits the sender by
`a + f` at once, leaves the receiver's balance row as it is, and writes exactly
one pending balance: of amount `a` without fee, owned by the receiver's
account, with the sender as related id and that pending time.  A withdrawal of
a pending balance before its pending time is answered 'too early to withdraw'
and writes nothing; once the pending time is not after the transaction time,
the owner's withdrawal succeeds, credits the amount and removes the row. -/
theorem time_locked_transfer (ctx : Ctx) (st : State) (sender receiver : Balance) (a f : Int)
    (memo : String) (pt ts : Int) (hts : GetTime ctx = .ok ts) (hlock : ts < pt)
    (hpos : 0 < a) :
    BalanceStub.Transfer ctx st sender receiver a f memo (some pt)
      = (.ok (specSendLog sender receiver a f memo ts,
              { sender with Amount := sender.Amount - a - f, UpdatedTime := some ts },
              receiver),
         specLockedTransferState st sender receiver a f memo (some pt) ts ctx.txID)
    ∧ BalanceStub.GetBalance (BalanceStub.Transfer ctx st sender receiver a f memo (some pt)).2
          sender.DOCTYPEID
        = .ok { sender with Amount := sender.Amount - (a + f), UpdatedTime := some ts }
    ∧ (sender.DOCTYPEID ≠ receiver.DOCTYPEID →
        BalanceStub.GetBalance
            (BalanceStub.Transfer ctx st sender receiver a f memo (some pt)).2
            receiver.DOCTYPEID
          = BalanceStub.GetBalance st receiver.DOCTYPEID)
    ∧ BalanceStub.GetPendingBalance
          (BalanceStub.Transfer ctx st sender receiver a f memo (some pt)).2 ctx.txID
        = .ok (specLockedPending sender receiver a memo (some pt) ts ctx.txID)
    ∧ (∀ id, id ≠ ctx.txID →
        BalanceStub.GetPendingBalance
            (BalanceStub.Transfer ctx st sender receiver a f memo (some pt)).2 id
          = BalanceStub.GetPendingBalance st id)
    ∧ (∀ ctx2 st2 params kid pb pt2 ts2,
        params.length = 1 → GetTime ctx2 = .ok ts2 → ctx2.kid = .ok kid →
        BalanceStub.GetPendingBalance st2 (param params 0) = .ok pb →
        pb.PendingTime = some pt2 → ts2 < pt2 →
        balancePendingWithdraw ctx2 st2 params = (.error "too early to withdraw", st2))
    ∧ (∀ ctx2 st2 params kid pb addr account bal pt2 ts2,
        params.length = 1 → GetTime ctx2 = .ok ts2 → ctx2.kid = .ok kid →
        BalanceStub.GetPendingBalance st2 (param params 0) = .ok pb →
        pb.PendingTime = some pt2 → pt2 ≤ ts2 →
        ParseAddress ctx2.shake pb.Account = .ok addr →
        AccountStub.GetAccount st2 addr = .ok account →
        account.HasHolder kid = true → account.IsSuspended = false →
        BalanceStub.GetBalance st2 pb.Account = .ok bal → bal.DOCTYPEID = pb.Account →
        (balancePendingWithdraw ctx2 st2 params).1.isSuccess = true
        ∧ BalanceStub.GetBalance (balancePendingWithdraw ctx2 st2 params).2 pb.Account
            = .ok { bal with Amount := bal.Amount + appliedAmount pb.Amount pb.Fee,
                             UpdatedTime := some ts2 }
        ∧ PendingGone (balancePendingWithdraw ctx2 st2 params).2 pb.DOCTYPEID) := by
  have h := Transfer_locked ctx st sender receiver a f memo pt ts hts hlock hpos
  refine ⟨h, ?_, ?_, ?_, ?_, ?_, ?_⟩
  · rw [h]
    simp only [BalanceStub.GetBalance, specLockedTransferState, kvGet_kvPut, if_true]
    congr 2
    omega
  · intro hsr
    have hk : BalanceStub.CreateKey sender.DOCTYPEID ≠ BalanceStub.CreateKey receiver.DOCTYPEID :=
      fun hk => hsr (BalanceStub.CreateKey_inj _ _ hk)
    rw [h]
    simp only [BalanceStub.GetBalance, specLockedTransferState, kvGet_kvPut, if_neg hk]
  · rw [h]
    simp only [BalanceStub.GetPendingBalance, specLockedTransferState, kvGet_kvPut, if_true]
  · intro id hid
    have hk : BalanceStub.CreatePendingKey ctx.txID ≠ BalanceStub.CreatePendingKey id :=
      fun hk => hid (BalanceStub.CreatePendingKey_inj _ _ hk).symm
    rw [h]
    simp only [BalanceStub.GetPendingBalance, specLockedTransferState, kvGet_kvPut, if_neg hk]
  · intro ctx2 st2 params kid pb pt2 ts2 hlen hts2 hkid hpb hpt hearly
    exact withdraw_too_early ctx2 st2 params kid pb pt2 ts2 hlen hts2 hkid hpb hpt hearly
  · intro ctx2 st2 params kid pb addr account bal pt2 ts2 hlen hts2 hkid hpb hpt hdue haddr hacc
      hholder hsus hbal hbalid
    exact withdraw_in_time ctx2 st2 params kid pb addr account bal pt2 ts2 hlen hts2 hkid hpb hpt
      hdue haddr hacc hholder hsus hbal hbalid

/-- C27 on `sampleLedger 100 5` at time 1000: a transfer of 30 with fee 3
locked until 5000 leaves the sender 67 and the receiver 5, with the pending
balance of 30 under `tx1`; the withdrawal at time 2000 is too early, and the
owner's withdrawal at time 6000 brings the receiver to 35. -/
theorem time_locked_transfer_witness :
    BalanceStub.GetBalance sampleLockedLedger sampleSenderID
      = .ok { sampleBalance sampleSenderID 100 with
              Amount := 100 - (30 + 3), UpdatedTime := some 1000 }
    ∧ BalanceStub.GetBalance sampleLockedLedger sampleReceiverID
      = BalanceStub.GetBalance (sampleLedger 100 5) sampleReceiverID
    ∧ BalanceStub.GetPendingBalance sampleLockedLedger "tx1"
      = .ok (specLockedPending (sampleBalance sampleSenderID 100)
          (sampleBalance sampleReceiverID 5) 30 "m" (some 5000) 1000 "tx1")
    ∧ balancePendingWithdraw sampleLaterCtx sampleLockedLedger ["tx1"]
      = (.error "too early to withdraw", sampleLockedLedger)
    ∧ BalanceStub.GetBalance
        (balancePendingWithdraw sampleReceiverCtx sampleLockedLedger ["tx1"]).2 sampleReceiverID
      = .ok { sampleBalance sampleReceiverID 5 with Amount := 5 + 30, UpdatedTime := some 6000 } :=
  have h := time_locked_transfer sampleCtx (sampleLedger 100 5) (sampleBalance sampleSenderID 100)
    (sampleBalance sampleReceiverID 5) 30 3 "m" 5000 1000 rfl (by decide) (by decide)
  ⟨h.2.1, h.2.2.1 (by decide), h.2.2.2.1,
   h.2.2.2.2.2.1 sampleLaterCtx sampleLockedLedger ["tx1"] sampleKid
     (specLockedPending (sampleBalance sampleSenderID 100) (sampleBalance sampleReceiverID 5) 30
       "m" (some 5000) 1000 "tx1") 5000 2000 rfl rfl rfl (by decide) rfl (by decide),
   (h.2.2.2.2.2.2 sampleReceiverCtx sampleLockedLedger ["tx1"] sampleReceiverKid
     (specLockedPending (sampleBalance sampleSenderID 100) (sampleBalance sampleReceiverID 5) 30
       "m" (some 5000) 1000 "tx1") sampleReceiverAddr (samplePersonal sampleReceiverID)
     (sampleBalance sampleReceiverID 5) 5000 6000 rfl rfl rfl (by decide) rfl (by decide)
     (by decide) (by decide) (by decide) (by decide) (by decide) (by decide)).2.1⟩

/-! ## The escrow callbacks check the pending balance -/

/-- C28. Escrow callbacks validate the live pending balance before mutating.
For every contract id `cid` and every document whose second element names the
pending balance `id`: when the stored pending balance is not of contract type,
or its related id is not `cid`, then `executeTransfer`, `cancelTransfer` and
`executePay` answer 'invalid pending balance' (for a document long enough to be
read: 8, 2 and 7 elements) and in every case reject and write nothing; when no
pending balance is stored under `id` they answer 'failed to get the pending
balance' and likewise write nothing. -/
theorem escrow_callbacks_validate (ctx : Ctx) (st : State) (cid : String) (doc : List DocVal)
    (id : String) (hid : docString doc 1 = some id) :
    (∀ pb, BalanceStub.GetPendingBalance st id = .ok pb →
        (pb.Typ ≠ PendingBalanceType.Contract ∨ pb.RID ≠ cid) →
        (8 ≤ doc.length →
          executeTransfer ctx st cid doc = (.error "invalid pending balance", st))
        ∧ (2 ≤ doc.length →
          cancelTransfer ctx st cid doc = (.error "invalid pending balance", st))
        ∧ (7 ≤ doc.length →
          executePay ctx st cid doc = (.error "invalid pending balance", st))
        ∧ Rejects st (executeTransfer ctx st cid doc)
        ∧ Rejects st (cancelTransfer ctx st cid doc)
        ∧ Rejects st (executePay ctx st cid doc))
    ∧ (kvGet st.pendingBalances (BalanceStub.CreatePendingKey id) = none →
        (8 ≤ doc.length →
          executeTransfer ctx st cid doc = (.error "failed to get the pending balance", st))
        ∧ (2 ≤ doc.length →
          cancelTransfer ctx st cid doc = (.error "failed to get the pending balance", st))
        ∧ (7 ≤ doc.length →
          executePay ctx st cid doc = (.error "failed to get the pending balance", st))
        ∧ Rejects st (executeTransfer ctx st cid doc)
        ∧ Rejects st (cancelTransfer ctx st cid doc)
        ∧ Rejects st (executePay ctx st cid doc)) := by
  constructor
  · intro pb hpb hbad
    have e1 : 8 ≤ doc.length →
        executeTransfer ctx st cid doc = (.error "invalid pending balance", st) := by
      intro hl
      have h8 : ¬ doc.length < 8 := by omega
      unfold executeTransfer
      simp only [h8, if_false, hid, hpb, hbad, if_true]
    have e2 : 2 ≤ doc.length →
        cancelTransfer ctx st cid doc = (.error "invalid pending balance", st) := by
      intro hl
      have h2 : ¬ doc.length < 2 := by omega
      unfold cancelTransfer
      simp only [h2, if_false, hid, hpb, hbad, if_true]
    have e3 : 7 ≤ doc.length →
        executePay ctx st cid doc = (.error "invalid pending balance", st) := by
      intro hl
      have h7 : ¬ doc.length < 7 := by omega
      unfold executePay
      simp only [h7, if_false, hid, hpb, hbad, if_true]
    refine ⟨e1, e2, e3, ?_, ?_, ?_⟩
    · by_cases hl : 8 ≤ doc.length
      · rw [e1 hl]
        exact Rejects_error _ _
      · have h8 : doc.length < 8 := by omega
        unfold executeTransfer
        simp only [h8, if_true]
        exact Rejects_error _ _
    · by_cases hl : 2 ≤ doc.length
      · rw [e2 hl]
        exact Rejects_error _ _
      · have h2 : doc.length < 2 := by omega
        unfold cancelTransfer
        simp only [h2, if_true]
        exact Rejects_error _ _
    · by_cases hl : 7 ≤ doc.length
      · rw [e3 hl]
        exact Rejects_error _ _
      · have h7 : doc.length < 7 := by omega
        unfold executePay
        simp only [h7, if_true]
        exact Rejects_error _ _
  · intro hnone
    have hpb : BalanceStub.GetPendingBalance st id
        = .error (errorsNew "the pending balance is not exists") := by
      unfold BalanceStub.GetPendingBalance
      rw [hnone]
    have hresp : responseError (errorsNew "the pending balance is not exists")
        "failed to get the pending balance" = .error "failed to get the pending balance" := rfl
    have e1 : 8 ≤ doc.length →
        executeTransfer ctx st cid doc = (.error "failed to get the pending balance", st) := by
      intro hl
      have h8 : ¬ doc.length < 8 := by omega
      unfold executeTransfer
      simp only [h8, if_false, hid, hpb]
    have e2 : 2 ≤ doc.length →
        cancelTransfer ctx st cid doc = (.error "failed to get the pending balance", st) := by
      intro hl
      have h2 : ¬ doc.length < 2 := by omega
      unfold cancelTransfer
      simp only [h2, if_false, hid, hpb]
    have e3 : 7 ≤ doc.length →
        executePay ctx st cid doc = (.error "failed to get the pending balance", st) := by
      intro hl
      have h7 : ¬ doc.length < 7 := by omega
      unfold executePay
      simp only [h7, if_false, hid, hpb, hresp]
    refine ⟨e1, e2, e3, ?_, ?_, ?_⟩
    · by_cases hl : 8 ≤ doc.length
      · rw [e1 hl]
        exact Rejects_error _ _
      · have h8 : doc.length < 8 := by omega
        unfold executeTransfer
        simp only [h8, if_true]
        exact Rejects_error _ _
    · by_cases hl : 2 ≤ doc.length
      · rw [e2 hl]
        exact Rejects_error _ _
      · have h2 : doc.length < 2 := by omega
        unfold cancelTransfer
        simp only [h2, if_true]
        exact Rejects_error _ _
    · by_cases hl : 7 ≤ doc.length
      · rw [e3 hl]
        exact Rejects_error _ _
      · have h7 : doc.length < 7 := by omega
        unfold executePay
        simp only [h7, if_true]
        exact Rejects_error _ _

/-- C28 on `sampleEscrowState` (the escrow `tx0` belongs to contract `c1`): the
three callbacks of another contract `c2` answer 'invalid pending balance', and
for the unknown id `tx9` they answer 'failed to get the pending balance'; the
state is unchanged. -/
theorem escrow_callbacks_validate_witness :
    executeTransfer sampleCtx sampleEscrowState "c2" (sampleTransferDoc "tx0")
      = (.error "invalid pending balance", sampleEscrowState)
    ∧ cancelTransfer sampleCtx sampleEscrowState "c2" (sampleTransferDoc "tx0")
      = (.error "invalid pending balance", sampleEscrowState)
    ∧ executePay sampleCtx sampleEscrowState "c2" (sampleTransferDoc "tx0")
      = (.error "invalid pending balance", sampleEscrowState)
    ∧ executeTransfer sampleCtx sampleEscrowState "c1" (sampleTransferDoc "tx9")
      = (.error "failed to get the pending balance", sampleEscrowState)
    ∧ cancelTransfer sampleCtx sampleEscrowState "c1" (sampleTransferDoc "tx9")
      = (.error "failed to get the pending balance", sampleEscrowState)
    ∧ executePay sampleCtx sampleEscrowState "c1" (sampleTransferDoc "tx9")
      = (.error "failed to get the pending balance", sampleEscrowState) :=
  have h1 := (escrow_callbacks_validate sampleCtx sampleEscrowState "c2" (sampleTransferDoc "tx0")
    "tx0" rfl).1 samplePending (by decide) (Or.inr (by decide))
  have h2 := (escrow_callbacks_validate sampleCtx sampleEscrowState "c1" (sampleTransferDoc "tx9")
    "tx9" rfl).2 (by decide)
  ⟨h1.1 (by decide), h1.2.1 (by decide), h1.2.2.1 (by decide),
   h2.1 (by decide), h2.2.1 (by decide), h2.2.2.1 (by decide)⟩

/-! ## The holders of a joint account -/

theorem ssAdd_nodup (s : List String) (x : String) (h : s.Nodup) : (ssAdd s x).Nodup := by
  unfold ssAdd
  split
  · exact h
  · rename_i hx
    exact List.Nodup.append h (List.nodup_singleton x) (by
      intro a ha hb
      rw [List.mem_singleton] at hb
      exact hx (hb ▸ ha))

theorem ssAdd_length_le (s : List String) (x : String) : s.length ≤ (ssAdd s x).length := by
  unfold ssAdd
  split
  · exact le_refl _
  · rw [List.length_append]
    exact Nat.le_add_right _ _

theorem ssAppend_nodup : ∀ (xs s : List String), s.Nodup → (ssAppend s xs).Nodup
  | [], _, h => h
  | x :: xs, s, h => by
    show (ssAppend (ssAdd s x) xs).Nodup
    exact ssAppend_nodup xs _ (ssAdd_nodup s x h)

theorem ssAppend_length_le : ∀ (xs s : List String), s.length ≤ (ssAppend s xs).length
  | [], _ => le_refl _
  | x :: xs, s => by
    show s.length ≤ (ssAppend (ssAdd s x) xs).length
    exact le_trans (ssAdd_length_le s x) (ssAppend_length_le xs _)

theorem ssNew_nodup (xs : List String) : (ssNew xs).Nodup :=
  ssAppend_nodup xs [] List.nodup_nil

theorem ssAppend_of_nodup : ∀ (xs s : List String), (s ++ xs).Nodup → ssAppend s xs = s ++ xs
  | [], s, _ => by
    show s = s ++ []
    rw [List.append_nil]
  | x :: xs, s, h => by
    have hx : x ∉ s := by
      intro hm
      have := List.nodup_append.mp h
      exact this.2.2 hm (List.mem_cons_self x xs)
    show ssAppend (ssAdd s x) xs = s ++ x :: xs
    have ha : ssAdd s x = s ++ [x] := by
      unfold ssAdd
      rw [if_neg hx]
    rw [ha, ssAppend_of_nodup xs (s ++ [x]) (by simpa using h)]
    simp

theorem ssNew_of_nodup (xs : List String) (h : xs.Nodup) : ssNew xs = xs := by
  unfold ssNew
  rw [ssAppend_of_nodup xs [] (by simpa using h)]
  rfl

theorem ssRemove_nodup (s : List String) (x : String) (h : s.Nodup) : (ssRemove s x).Nodup :=
  List.Nodup.filter _ h

theorem ssRemove_length (s : List String) (x : String) (h : s.Nodup) (hx : x ∈ s) :
    (ssRemove s x).length + 1 = s.length := by
  induction s with
  | nil => simp at hx
  | cons a t ih =>
    have hn := List.nodup_cons.mp h
    by_cases hax : a = x
    · subst hax
      have hall : ssRemove t a = t := by
        unfold ssRemove
        apply List.filter_eq_self.mpr
        intro y hy
        simp only [decide_eq_true_eq]
        intro hya
        exact hn.1 (hya ▸ hy)
      have hcons : ssRemove (a :: t) a = ssRemove t a := by
        unfold ssRemove
        rw [List.filter_cons_of_neg]
        simp
      rw [hcons, hall, List.length_cons]
    · have hxt : x ∈ t := by
        rcases List.mem_cons.mp hx with h1 | h1
        · exact absurd h1.symm hax
        · exact h1
      have hcons : ssRemove (a :: t) x = a :: ssRemove t x := by
        unfold ssRemove
        rw [List.filter_cons_of_pos]
        simp [hax]
      rw [hcons, List.length_cons, ih hn.2 hxt, List.length_cons]

theorem docStrings_arr (pre : List DocVal) (kids : List String) (rest : List DocVal)
    (hpre : pre.length = 2) :
    docStrings (pre ++ .arr (kids.map some) :: rest) 2 = some kids := by
  match pre, hpre with
  | [a, b], _ =>
    simp only [docStrings, List.cons_append, List.nil_append, List.get?_cons_succ,
      List.get?_cons_zero]
    induction kids with
    | nil => rfl
    | cons k t ih =>
      simp only [List.map_cons, List.mapM_cons, id_eq, ih]
      rfl

theorem StoresOnly_refl (P : JointAccount → Prop) {st st1 : State}
    (h : st1.accounts = st.accounts) : StoresOnly P st st1 := by
  intro k d hd
  rw [h] at hd
  exact Or.inl hd

theorem StoresOnly_put {P : JointAccount → Prop} {st st1 : State} (key : String)
    (a : JointAccount) (h : st1.accounts = kvPut st.accounts key (.joint a)) (ha : P a) :
    StoresOnly P st st1 := by
  intro k d hd
  rw [h, kvGet_kvPut] at hd
  by_cases hk : key = k
  · rw [if_pos hk] at hd
    exact Or.inr ⟨a, (Option.some.inj hd).symm, ha⟩
  · rw [if_neg hk] at hd
    exact Or.inl hd

theorem StoresOnly_snd {α : Type} {P : JointAccount → Prop} {st : State} {x : α × State}
    {r : α} {st1 : State} (heq : x = (r, st1)) (h : StoresOnly P st x.2) :
    StoresOnly P st st1 := by
  subst heq
  exact h

theorem StoresOnly_mono {P Q : JointAccount → Prop} {st st1 : State}
    (h : StoresOnly P st st1) (hpq : ∀ a, P a → Q a) : StoresOnly Q st st1 := by
  intro k d hd
  rcases h k d hd with h1 | ⟨a, ha, hp⟩
  · exact Or.inl h1
  · exact Or.inr ⟨a, ha, hpq a hp⟩

/-- The bound on the holders of the stored joint accounts survives a step that
stores only joint accounts within the bound. -/
theorem JointHoldersAtLeast_step {n : Nat} {st st1 : State} (h : JointHoldersAtLeast n st)
    (hs : StoresOnly (fun a => a.Holders.Nodup ∧ n ≤ a.Holders.length) st st1) :
    JointHoldersAtLeast n st1 := by
  intro k a ha
  rcases hs k _ ha with h1 | ⟨b, hb, hp⟩
  · exact h k a h1
  · cases hb
    exact hp

theorem foldHolders_accounts (f : String → Holder) (holders : List String) (st : State) :
    (holders.foldl (fun s kid => AccountStub.PutHolder s (f kid)) st).accounts = st.accounts := by
  induction holders generalizing st with
  | nil => rfl
  | cons k rest ih =>
    show (rest.foldl (fun s kid => AccountStub.PutHolder s (f kid))
      (AccountStub.PutHolder st (f k))).accounts = st.accounts
    rw [ih]
    rfl

theorem CreateJointAccount_stores (ctx : Ctx) (st : State) (token : String)
    (holders : List String) :
    StoresOnly (fun a => a.Holders = holders) st
      (AccountStub.CreateJointAccount ctx st token holders).2 := by
  unfold AccountStub.CreateJointAccount
  rcases hts : GetTime ctx with e | ts
  · exact StoresOnly_refl _ rfl
  · simp only []
    split
    · exact StoresOnly_refl _ rfl
    · split
      · exact StoresOnly_refl _ rfl
      · unfold BalanceStub.CreateBalance
        simp only [hts]
        refine StoresOnly_put (AccountStub.CreateKey
          (NewAddress ctx.shake token AccountTypeJoint ctx.txID).String)
          { Account := { DOCTYPEID := (NewAddress ctx.shake token AccountTypeJoint ctx.txID).String,
                         Token := token, Typ := AccountTypeJoint, CreatedTime := some ts,
                         UpdatedTime := some ts, SuspendedTime := none },
            Holders := holders } ?_ rfl
        rw [foldHolders_accounts]
        rfl

theorem AddHolder_stores (ctx : Ctx) (st : State) (account : JointAccount) (kid : String) :
    StoresOnly (fun a => a.Holders = ssAdd account.Holders kid) st
      (AccountStub.AddHolder ctx st account kid).2 := by
  unfold AccountStub.AddHolder
  split
  · exact StoresOnly_refl _ rfl
  · split
    · exact StoresOnly_refl _ rfl
    · exact StoresOnly_put (AccountStub.CreateKey account.Account.DOCTYPEID) _ rfl rfl

theorem RemoveHolder_stores (ctx : Ctx) (st : State) (account : JointAccount) (kid : String) :
    StoresOnly (fun a => a.Holders = ssRemove account.Holders kid) st
      (AccountStub.RemoveHolder ctx st account kid).2 := by
  unfold AccountStub.RemoveHolder
  split
  · exact StoresOnly_refl _ rfl
  · split
    · exact StoresOnly_refl _ rfl
    · exact StoresOnly_put (AccountStub.CreateKey account.Account.DOCTYPEID) _ rfl rfl

theorem Supply_accounts (ctx : Ctx) (st : State) (bal : Balance) (amount : Int) :
    (BalanceStub.Supply ctx st bal amount).2.accounts = st.accounts := by
  unfold BalanceStub.Supply
  split <;> rfl

theorem CreateToken_accounts (ctx : Ctx) (st : State) (code : String) (decimal : Int)
    (maxSupply supply : Int) (feePolicy : Option FeePolicy) (holders : List String) :
    (TokenStub.CreateToken ctx st code decimal maxSupply supply feePolicy holders).2.accounts
      = (AccountStub.CreateJointAccount ctx st code holders).2.accounts := by
  unfold TokenStub.CreateToken
  rcases hj : AccountStub.CreateJointAccount ctx st code holders with ⟨r, st1⟩
  rcases r with e | ⟨account, balance⟩
  · rfl
  · by_cases hsup : supply > 0
    · rcases hS : BalanceStub.Supply ctx st1 balance supply with ⟨rs, st2⟩
      have hs : st2.accounts = st1.accounts := by
        rw [← Supply_accounts ctx st1 balance supply, hS]
      rcases rs with e | v
      · simp only [hsup, if_true, hS]
        repeat' split
        all_goals first | rfl | exact hs
      · simp only [hsup, if_true, hS]
        repeat' split
        all_goals first | rfl | exact hs
    · simp only [hsup, if_false]
      repeat' split
      all_goals rfl

theorem CreateToken_stores (ctx : Ctx) (st : State) (code : String) (decimal : Int)
    (maxSupply supply : Int) (feePolicy : Option FeePolicy) (holders : List String) :
    StoresOnly (fun a => a.Holders = holders) st
      (TokenStub.CreateToken ctx st code decimal maxSupply supply feePolicy holders).2 := by
  intro k d hd
  rw [CreateToken_accounts] at hd
  exact CreateJointAccount_stores ctx st code holders k d hd

theorem ssAppend_prefix : ∀ (xs s : List String), ∃ more, ssAppend s xs = s ++ more
  | [], s => ⟨[], by
      show s = s ++ []
      rw [List.append_nil]⟩
  | x :: xs, s => by
    obtain ⟨more, hm⟩ := ssAppend_prefix xs (ssAdd s x)
    by_cases hx : x ∈ s
    · refine ⟨more, ?_⟩
      show ssAppend (ssAdd s x) xs = s ++ more
      rw [hm]
      unfold ssAdd
      rw [if_pos hx]
    · refine ⟨x :: more, ?_⟩
      show ssAppend (ssAdd s x) xs = s ++ x :: more
      rw [hm]
      unfold ssAdd
      rw [if_neg hx, List.append_assoc]
      rfl

theorem appendSignableIDs_spec (ctx : Ctx) (st : State) (token : String) :
    ∀ (addrs signers holders : List String),
      appendSignableIDs ctx st token addrs signers = .ok holders →
      (signers.Nodup → holders.Nodup) ∧ ∃ more, holders = signers ++ more
  | [], signers, holders, h => by
    have : signers = holders := by
      unfold appendSignableIDs at h
      exact Except.ok.inj h
    subst this
    exact ⟨id, [], (List.append_nil _).symm⟩
  | addr :: rest, signers, holders, h => by
    unfold appendSignableIDs at h
    split at h
    · cases h
    · rename_i kids _
      obtain ⟨h1, more, h2⟩ := appendSignableIDs_spec ctx st token rest _ holders h
      obtain ⟨m1, hm1⟩ := ssAppend_prefix kids signers
      refine ⟨fun hn => h1 (ssAppend_nodup kids signers hn), m1 ++ more, ?_⟩
      rw [h2, hm1, List.append_assoc]

theorem SubmitsOnly_error (D : List DocVal → List String → Prop) (ctx : Ctx) (st : State)
    (m : String) : SubmitsOnly D ctx st (.error m, st) :=
  ⟨rfl, fun h => Bool.noConfusion h⟩

theorem SubmitsOnly_panic (D : List DocVal → List String → Prop) (ctx : Ctx) (st : State) :
    SubmitsOnly D ctx st (.panic, st) :=
  ⟨rfl, fun h => Bool.noConfusion h⟩

theorem SubmitsOnly_responseError (D : List DocVal → List String → Prop) (ctx : Ctx)
    (st : State) (e : Error) (m : String) : SubmitsOnly D ctx st (responseError e m, st) := by
  obtain ⟨msg, hm⟩ := responseError_eq e m
  rw [hm]
  exact SubmitsOnly_error D ctx st msg

theorem SubmitsOnly_ite {D : List DocVal → List String → Prop} {ctx : Ctx} {st : State}
    {q : Prop} [Decidable q] {a b : Response × State}
    (ha : q → SubmitsOnly D ctx st a) (hb : ¬ q → SubmitsOnly D ctx st b) :
    SubmitsOnly D ctx st (if q then a else b) := by
  split
  · exact ha (by assumption)
  · exact hb (by assumption)

theorem SubmitsOnly_invoke {D : List DocVal → List String → Prop} (ctx : Ctx) (st : State)
    (doc : List DocVal) (signers : List String) (hD : D doc signers) :
    SubmitsOnly D ctx st (invokeContract ctx st doc signers) := by
  unfold invokeContract
  split
  · exact SubmitsOnly_responseError D ctx st _ _
  · rename_i con hcon
    exact ⟨rfl, fun _ => ⟨doc, signers, con, hD, hcon, rfl⟩⟩

theorem holdersDoc_of_collected {ctx : Ctx} {st : State} {code kid : String}
    {addrs holders : List String} (dtype : String)
    (h : appendSignableIDs ctx st code addrs (ssNew [kid]) = .ok holders)
    (h2 : 2 ≤ holders.length) :
    HoldersDoc dtype [.str dtype, .str code, .arr (holders.map some)] holders :=
  ⟨code, rfl, (appendSignableIDs_spec ctx st code addrs _ holders h).1 (ssNew_nodup _), h2⟩

/-- The contract of a joint account creation carries at least two holders. -/
theorem accountCreate_submits (ctx : Ctx) (st : State) (params : List String)
    (hlen : 2 ≤ params.length) :
    SubmitsOnly (HoldersDoc "account/create") ctx st (accountCreate ctx st params) := by
  have h1 : ¬ params.length < 1 := by omega
  have h2 : ¬ params.length < 2 := by omega
  unfold accountCreate
  simp only [h1, h2, if_false]
  repeat' (first
    | exact SubmitsOnly_error _ _ _ _
    | exact SubmitsOnly_panic _ _ _
    | exact SubmitsOnly_responseError _ _ _ _ _
    | exact SubmitsOnly_invoke _ _ _ _
        (holdersDoc_of_collected "account/create" (by assumption) (by omega))
    | refine SubmitsOnly_ite (fun _ => ?_) (fun _ => ?_)
    | split)

theorem SuccessImplies_snd {α : Type} {Q : State → Prop} {x : α × State} {r : α} {st1 : State}
    (heq : x = (r, st1)) (h : Q x.2) (resp : Response) : SuccessImplies Q (resp, st1) := by
  subst heq
  exact fun _ => h

/-- A joint account read from a ledger whose stored joint accounts have holder
sets without repetition has such a holder set. -/
theorem GetAccount_joint_nodup {n : Nat} {st : State} (h : JointHoldersAtLeast n st)
    {addr : Address} {jac : JointAccount}
    (hg : AccountStub.GetAccount st addr = .ok (.joint jac)) : jac.Holders.Nodup := by
  unfold AccountStub.GetAccount AccountStub.GetAccountState at hg
  split at hg
  · cases hg
  · rename_i data hd
    split at hd
    · rename_i d hk
      cases hd
      split at hg
      · split at hg <;> cases hg
      · split at hg
        · split at hg
          · rename_i a
            cases hg
            exact (h _ _ hk).1
          · cases hg
            exact List.nodup_nil
        · cases hg
    · cases hd

theorem holderCallbackAccount_ok {ctx : Ctx} {st : State} {doc : List DocVal} {failed : String}
    {jac : JointAccount} {holder : String}
    (h : holderCallbackAccount ctx st doc failed = some (.ok (jac, holder))) :
    ∃ addr, AccountStub.GetAccount st addr = .ok (.joint jac) := by
  unfold holderCallbackAccount at h
  repeat' split at h
  all_goals first
    | (cases h; done)
    | (rename_i hg
       cases h
       exact ⟨_, hg⟩)

theorem getValidatedAccountHolderParameters_ok {ctx : Ctx} {st : State} {params : List String}
    {jac : JointAccount} {taddr : Address}
    (h : getValidatedAccountHolderParameters ctx st params = some (.ok (jac, taddr))) :
    ∃ addr, AccountStub.GetAccount st addr = .ok (.joint jac) := by
  unfold getValidatedAccountHolderParameters at h
  repeat' split at h
  all_goals first
    | (cases h; done)
    | (rename_i hg
       cases h
       exact ⟨_, hg⟩)

theorem createJoint_final {ctx : Ctx} {st : State} {doc : List DocVal} {code : String}
    {kids : List String} {r : Except Error (JointAccount × Balance)} {st1 : State}
    (hk : docStrings doc 2 = some kids)
    (heq : AccountStub.CreateJointAccount ctx st code (ssNew kids) = (r, st1))
    (resp : Response) :
    SuccessImplies (StoresOnly (fun a => ∃ kids, docStrings doc 2 = some kids
        ∧ a.Holders = ssNew kids) st) (resp, st1) :=
  fun _ => StoresOnly_mono (StoresOnly_snd heq (CreateJointAccount_stores _ _ _ _))
    (fun _ ha => ⟨_, hk, ha⟩)

/-- `executeAccountCreate` stores the holders of its document. -/
theorem executeAccountCreate_stores (ctx : Ctx) (st : State) (cid : String)
    (doc : List DocVal) :
    SuccessImplies (StoresOnly (fun a => ∃ kids, docStrings doc 2 = some kids
        ∧ a.Holders = ssNew kids) st) (executeAccountCreate ctx st cid doc) := by
  unfold executeAccountCreate
  repeat' (first
    | exact SuccessImplies_error _ _ _
    | exact SuccessImplies_panic _ _
    | exact SuccessImplies_responseError _ _ _ _
    | exact createJoint_final (by assumption) (by assumption) _
    | refine SuccessImplies_ite (fun _ => ?_) (fun _ => ?_)
    | split)

theorem createToken_final {ctx : Ctx} {st : State} {doc : List DocVal} {code : String}
    {decimal maxSupply supply : Int} {feePolicy : Option FeePolicy}
    {kids : List String} {r : Except Error Token} {st1 : State}
    (hk : docStrings doc 2 = some kids)
    (heq : TokenStub.CreateToken ctx st code decimal maxSupply supply feePolicy (ssNew kids)
      = (r, st1))
    (resp : Response) :
    SuccessImplies (StoresOnly (fun a => ∃ kids, docStrings doc 2 = some kids
        ∧ a.Holders = ssNew kids) st) (resp, st1) :=
  fun _ => StoresOnly_mono (StoresOnly_snd heq (CreateToken_stores _ _ _ _ _ _ _ _))
    (fun _ ha => ⟨_, hk, ha⟩)

/-- `executeTokenCreate` stores a genesis account with the holders of its
document. -/
theorem executeTokenCreate_stores (ctx : Ctx) (st : State) (cid : String)
    (doc : List DocVal) :
    SuccessImplies (StoresOnly (fun a => ∃ kids, docStrings doc 2 = some kids
        ∧ a.Holders = ssNew kids) st) (executeTokenCreate ctx st cid doc) := by
  unfold executeTokenCreate
  repeat' (first
    | exact SuccessImplies_error _ _ _
    | exact SuccessImplies_panic _ _
    | exact SuccessImplies_responseError _ _ _ _
    | exact createToken_final (by assumption) (by assumption) _
    | refine SuccessImplies_ite (fun _ => ?_) (fun _ => ?_)
    | split)

theorem removeHolder_final {ctx : Ctx} {st : State} {n : Nat} (hinv : JointHoldersAtLeast n st)
    {jac : JointAccount} {holder : String}
    {r : Except Error JointAccount} {st1 : State}
    (hga : ∃ addr, AccountStub.GetAccount st addr = .ok (.joint jac))
    (h3 : ¬ jac.Holders.length < 3) (hin : ¬ holder ∉ jac.Holders)
    (heq : AccountStub.RemoveHolder ctx st jac holder = (r, st1)) (resp : Response) :
    SuccessImplies (StoresOnly (fun a => a.Holders.Nodup ∧ 2 ≤ a.Holders.length) st)
      (resp, st1) := by
  obtain ⟨addr, hg⟩ := hga
  have hn := GetAccount_joint_nodup hinv hg
  have hl := ssRemove_length jac.Holders holder hn (not_not.mp hin)
  refine fun _ => StoresOnly_mono (StoresOnly_snd heq (RemoveHolder_stores _ _ _ _)) ?_
  intro a ha
  rw [ha]
  exact ⟨ssRemove_nodup _ _ hn, by omega⟩

/-- `executeAccountHolderRemove` leaves at least two holders. -/
theorem executeAccountHolderRemove_stores (ctx : Ctx) (st : State) (cid : String)
    (doc : List DocVal) (n : Nat) (hinv : JointHoldersAtLeast n st) :
    SuccessImplies (StoresOnly (fun a => a.Holders.Nodup ∧ 2 ≤ a.Holders.length) st)
      (executeAccountHolderRemove ctx st cid doc) := by
  unfold executeAccountHolderRemove
  repeat' (first
    | exact SuccessImplies_error _ _ _
    | exact SuccessImplies_panic _ _
    | exact SuccessImplies_responseError _ _ _ _
    | exact fun _ => StoresOnly_refl _ rfl
    | exact removeHolder_final hinv (holderCallbackAccount_ok (by assumption)) (by assumption)
        (by assumption) (by assumption) _
    | refine SuccessImplies_ite (fun _ => ?_) (fun _ => ?_)
    | split)

theorem invokeContract_snd (ctx : Ctx) (st : State) (doc : List DocVal)
    (signers : List String) : (invokeContract ctx st doc signers).2 = st := by
  unfold invokeContract
  split <;> rfl

/-- `accountHolderRemove` leaves at least two holders. -/
theorem accountHolderRemove_stores (ctx : Ctx) (st : State) (params : List String) (n : Nat)
    (hinv : JointHoldersAtLeast n st) :
    SuccessImplies (StoresOnly (fun a => a.Holders.Nodup ∧ 2 ≤ a.Holders.length) st)
      (accountHolderRemove ctx st params) := by
  unfold accountHolderRemove
  repeat' (first
    | exact SuccessImplies_error _ _ _
    | exact SuccessImplies_panic _ _
    | exact SuccessImplies_responseError _ _ _ _
    | exact fun _ => StoresOnly_refl _ rfl
    | exact fun _ => StoresOnly_refl _ (by rw [invokeContract_snd])
    | exact removeHolder_final hinv (getValidatedAccountHolderParameters_ok (by assumption))
        (by assumption) (by assumption) (by assumption) _
    | refine SuccessImplies_ite (fun _ => ?_) (fun _ => ?_)
    | split)

theorem addHolder_final {ctx : Ctx} {st : State} {n : Nat} (hinv : JointHoldersAtLeast n st)
    {jac : JointAccount} {holder : String}
    {r : Except Error JointAccount} {st1 : State}
    (hga : ∃ addr, AccountStub.GetAccount st addr = .ok (.joint jac))
    (hnin : ¬ holder ∈ jac.Holders)
    (heq : AccountStub.AddHolder ctx st jac holder = (r, st1)) (resp : Response) :
    SuccessImplies (StoresOnly (fun a => a.Holders.Nodup ∧ 1 ≤ a.Holders.length
        ∧ ∃ jac0 addr, AccountStub.GetAccount st addr = .ok (.joint jac0)
            ∧ a.Holders.length = jac0.Holders.length + 1) st)
      (resp, st1) := by
  obtain ⟨addr, hg⟩ := hga
  have hn := GetAccount_joint_nodup hinv hg
  refine fun _ => StoresOnly_mono (StoresOnly_snd heq (AddHolder_stores _ _ _ _)) ?_
  intro a ha
  have hadd : ssAdd jac.Holders holder = jac.Holders ++ [holder] := by
    unfold ssAdd
    rw [if_neg hnin]
  rw [ha]
  refine ⟨ssAdd_nodup _ _ hn, ?_, jac, addr, hg, ?_⟩
  · rw [hadd, List.length_append]
    exact Nat.le_add_left _ _
  · rw [hadd, List.length_append]
    rfl

/-- `executeAccountHolderAdd` stores the holder set enlarged by one. -/
theorem executeAccountHolderAdd_stores (ctx : Ctx) (st : State) (cid : String)
    (doc : List DocVal) (n : Nat) (hinv : JointHoldersAtLeast n st) :
    SuccessImplies (StoresOnly (fun a => a.Holders.Nodup ∧ 1 ≤ a.Holders.length
        ∧ ∃ jac0 addr, AccountStub.GetAccount st addr = .ok (.joint jac0)
            ∧ a.Holders.length = jac0.Holders.length + 1) st)
      (executeAccountHolderAdd ctx st cid doc) := by
  unfold executeAccountHolderAdd
  repeat' (first
    | exact SuccessImplies_error _ _ _
    | exact SuccessImplies_panic _ _
    | exact SuccessImplies_responseError _ _ _ _
    | exact fun _ => StoresOnly_refl _ rfl
    | exact addHolder_final hinv (holderCallbackAccount_ok (by assumption)) (by assumption)
        (by assumption) _
    | refine SuccessImplies_ite (fun _ => ?_) (fun _ => ?_)
    | split)

theorem ssNew_singleton (kid : String) : ssNew [kid] = [kid] := by
  simp [ssNew, ssAppend, ssAdd]

theorem collected_spec {ctx : Ctx} {st : State} {code kid : String} {addrs holders : List String}
    {c : Prop} [Decidable c]
    (h : (if c then appendSignableIDs ctx st code addrs (ssNew [kid])
          else .ok (ssNew [kid])) = .ok holders) :
    holders.Nodup ∧ ∃ more, holders = kid :: more := by
  by_cases hc : c
  · rw [if_pos hc] at h
    obtain ⟨h1, more, h2⟩ := appendSignableIDs_spec ctx st code addrs _ holders h
    refine ⟨h1 (ssNew_nodup _), more, ?_⟩
    rw [h2, ssNew_singleton]
    rfl
  · rw [if_neg hc] at h
    have := Except.ok.inj h
    rw [← this, ssNew_singleton]
    exact ⟨List.nodup_singleton _, [], rfl⟩

theorem tokenCreate_submit {ctx : Ctx} {st : State} {code kid : String}
    {addrs holders : List String} {c : Prop} [Decidable c]
    (h : (if c then appendSignableIDs ctx st code addrs (ssNew [kid])
          else .ok (ssNew [kid])) = .ok holders)
    (h2 : holders.length > 1) :
    SubmitsOnly (HoldersDoc "token/create") ctx st
      (invokeContract ctx st [.str "token/create", .str code, .arr (holders.map some)]
        holders) :=
  SubmitsOnly_invoke ctx st _ _ ⟨code, rfl, (collected_spec h).1, h2⟩

theorem tokenCreate_direct {ctx : Ctx} {st : State} {code kid : String}
    {addrs holders : List String} {c : Prop} [Decidable c]
    {decimal maxSupply supply : Int} {feePolicy : Option FeePolicy}
    {r : Except Error Token} {st1 : State}
    (hkid : ctx.kid = .ok kid)
    (h : (if c then appendSignableIDs ctx st code addrs (ssNew [kid])
          else .ok (ssNew [kid])) = .ok holders)
    (h2 : ¬ holders.length > 1)
    (heq : TokenStub.CreateToken ctx st code decimal maxSupply supply feePolicy holders
      = (r, st1)) (resp : Response) :
    SuccessImplies (StoresOnly (fun a => ∃ kid, ctx.kid = .ok kid ∧ a.Holders = [kid]) st)
      (resp, st1) := by
  obtain ⟨-, more, hm⟩ := collected_spec h
  have hone : holders = [kid] := by
    subst hm
    cases more with
    | nil => rfl
    | cons b t =>
      simp only [List.length_cons] at h2
      omega
  refine fun _ => StoresOnly_mono (StoresOnly_snd heq (CreateToken_stores _ _ _ _ _ _ _ _)) ?_
  intro a ha
  exact ⟨kid, hkid, ha.trans hone⟩

/-- What `tokenCreate` may do: submit a contract over at least two holders and
write nothing, or store a genesis account held by the invoker alone. -/
theorem tokenCreate_outcome (ctx : Ctx) (st : State) (params : List String) :
    SubmitsOnly (HoldersDoc "token/create") ctx st (tokenCreate ctx st params)
    ∨ SuccessImplies (StoresOnly (fun a => ∃ kid, ctx.kid = .ok kid ∧ a.Holders = [kid]) st)
        (tokenCreate ctx st params) := by
  unfold tokenCreate
  simp only []
  repeat' (first
    | exact Or.inl (SubmitsOnly_error _ _ _ _)
    | exact Or.inl (SubmitsOnly_panic _ _ _)
    | exact Or.inl (SubmitsOnly_responseError _ _ _ _ _)
    | exact Or.inl (tokenCreate_submit (by assumption) (by assumption))
    | exact Or.inr (tokenCreate_direct (by assumption) (by assumption) (by assumption)
        (by assumption) _)
    | split)

theorem SuccessImplies_mono {Q Q1 : State → Prop} {x : Response × State}
    (h : SuccessImplies Q x) (hq : ∀ s, Q s → Q1 s) : SuccessImplies Q1 x :=
  fun hs => hq _ (h hs)

theorem holdersDoc_strings {dtype : String} {doc : List DocVal} {signers : List String}
    (h : HoldersDoc dtype doc signers) : docStrings doc 2 = some signers := by
  obtain ⟨code, hdoc, -, -⟩ := h
  rw [hdoc]
  exact docStrings_arr [.str dtype, .str code] signers [] rfl

theorem JointHoldersAtLeast_of_doc {dtype : String} {doc : List DocVal}
    {signers : List String} (hd : HoldersDoc dtype doc signers) {st st1 : State}
    (hinv : JointHoldersAtLeast 2 st)
    (hs : StoresOnly (fun a => ∃ kids, docStrings doc 2 = some kids ∧ a.Holders = ssNew kids)
      st st1) :
    JointHoldersAtLeast 2 st1 := by
  refine JointHoldersAtLeast_step hinv (StoresOnly_mono hs ?_)
  rintro a ⟨kids, hk, ha⟩
  rw [holdersDoc_strings hd] at hk
  cases hk
  obtain ⟨code, -, hn, h2⟩ := hd
  rw [ha, ssNew_of_nodup _ hn]
  exact ⟨hn, h2⟩

theorem JointHoldersAtLeast_mono {n m : Nat} {st : State} (h : JointHoldersAtLeast n st)
    (hmn : m ≤ n) : JointHoldersAtLeast m st :=
  fun k a ha => ⟨(h k a ha).1, le_trans hmn (h k a ha).2⟩

/-- C29 (amended). Holder counts of the stored joint accounts.  Account
creation with co-holders writes nothing and submits only contracts over at
least two holders without repetition, and the execution of such a contract
keeps every stored joint account at two holders or more; so do holder removal
by contract and by the holder itself (they reject accounts with fewer than
three holders) and the execution of a token creation contract.  Holder add
stores the holder set it read enlarged by one.  Token creation either submits
a contract over at least two holders, or stores a genesis account held by the
invoker alone; in every case each stored joint account keeps at least one
holder. -/
theorem joint_holders_lower_bound (ctx : Ctx) (st : State) :
    (∀ params, 2 ≤ params.length →
      SubmitsOnly (HoldersDoc "account/create") ctx st (accountCreate ctx st params))
    ∧ (∀ cid doc signers, HoldersDoc "account/create" doc signers → JointHoldersAtLeast 2 st →
        SuccessImplies (JointHoldersAtLeast 2) (executeAccountCreate ctx st cid doc))
    ∧ (∀ cid doc, JointHoldersAtLeast 2 st →
        SuccessImplies (JointHoldersAtLeast 2) (executeAccountHolderRemove ctx st cid doc))
    ∧ (∀ params, JointHoldersAtLeast 2 st →
        SuccessImplies (JointHoldersAtLeast 2) (accountHolderRemove ctx st params))
    ∧ (∀ cid doc signers, HoldersDoc "token/create" doc signers → JointHoldersAtLeast 2 st →
        SuccessImplies (JointHoldersAtLeast 2) (executeTokenCreate ctx st cid doc))
    ∧ (∀ cid doc n, JointHoldersAtLeast n st →
        SuccessImplies (StoresOnly (fun a => a.Holders.Nodup ∧ 1 ≤ a.Holders.length
            ∧ ∃ jac0 addr, AccountStub.GetAccount st addr = .ok (.joint jac0)
                ∧ a.Holders.length = jac0.Holders.length + 1) st)
          (executeAccountHolderAdd ctx st cid doc))
    ∧ (∀ params,
        SubmitsOnly (HoldersDoc "token/create") ctx st (tokenCreate ctx st params)
        ∨ SuccessImplies
            (StoresOnly (fun a => ∃ kid, ctx.kid = .ok kid ∧ a.Holders = [kid]) st)
            (tokenCreate ctx st params))
    ∧ (∀ params, JointHoldersAtLeast 1 st →
        SuccessImplies (JointHoldersAtLeast 1) (tokenCreate ctx st params))
    ∧ (∀ cid doc, JointHoldersAtLeast 1 st →
        SuccessImplies (JointHoldersAtLeast 1) (executeAccountHolderAdd ctx st cid doc))
    ∧ (∀ cid doc, JointHoldersAtLeast 1 st →
        SuccessImplies (JointHoldersAtLeast 1) (executeAccountHolderRemove ctx st cid doc))
    ∧ (∀ params, JointHoldersAtLeast 1 st →
        SuccessImplies (JointHoldersAtLeast 1) (accountHolderRemove ctx st params)) := by
  refine ⟨fun params h => accountCreate_submits ctx st params h, ?_, ?_, ?_, ?_, ?_, ?_, ?_, ?_,
    ?_, ?_⟩
  · intro cid doc signers hd hinv
    exact SuccessImplies_mono (executeAccountCreate_stores ctx st cid doc)
      (fun s hs => JointHoldersAtLeast_of_doc hd hinv hs)
  · intro cid doc hinv
    exact SuccessImplies_mono (executeAccountHolderRemove_stores ctx st cid doc 2 hinv)
      (fun s hs => JointHoldersAtLeast_step hinv hs)
  · intro params hinv
    exact SuccessImplies_mono (accountHolderRemove_stores ctx st params 2 hinv)
      (fun s hs => JointHoldersAtLeast_step hinv hs)
  · intro cid doc signers hd hinv
    exact SuccessImplies_mono (executeTokenCreate_stores ctx st cid doc)
      (fun s hs => JointHoldersAtLeast_of_doc hd hinv hs)
  · intro cid doc n hinv
    exact executeAccountHolderAdd_stores ctx st cid doc n hinv
  · intro params
    exact tokenCreate_outcome ctx st params
  · intro params hinv
    rcases tokenCreate_outcome ctx st params with h | h
    · intro _
      rw [h.1]
      exact hinv
    · refine SuccessImplies_mono h (fun s hs => JointHoldersAtLeast_step hinv
        (StoresOnly_mono hs ?_))
      rintro a ⟨kid, -, ha⟩
      rw [ha]
      exact ⟨List.nodup_singleton _, le_refl _⟩
  · intro cid doc hinv
    refine SuccessImplies_mono (executeAccountHolderAdd_stores ctx st cid doc 1 hinv)
      (fun s hs => JointHoldersAtLeast_step hinv (StoresOnly_mono hs ?_))
    rintro a ⟨h1, h2, -⟩
    exact ⟨h1, h2⟩
  · intro cid doc hinv
    refine SuccessImplies_mono (executeAccountHolderRemove_stores ctx st cid doc 1 hinv)
      (fun s hs => JointHoldersAtLeast_step hinv (StoresOnly_mono hs ?_))
    rintro a ⟨h1, h2⟩
    exact ⟨h1, by omega⟩
  · intro params hinv
    refine SuccessImplies_mono (accountHolderRemove_stores ctx st params 1 hinv)
      (fun s hs => JointHoldersAtLeast_step hinv (StoresOnly_mono hs ?_))
    rintro a ⟨h1, h2⟩
    exact ⟨h1, by omega⟩

theorem JointHoldersAtLeast_of_rows {n : Nat} {st : State}
    (h : ∀ p ∈ st.accounts, ∀ a, p.2 = .joint a → a.Holders.Nodup ∧ n ≤ a.Holders.length) :
    JointHoldersAtLeast n st := by
  intro k a ha
  obtain ⟨k1, hm⟩ := kvGet_mem _ _ _ ha
  exact h _ hm a rfl

theorem sampleJointLedger_inv : JointHoldersAtLeast 2 sampleJointLedger := by
  apply JointHoldersAtLeast_of_rows
  intro p hp a ha
  have hp1 : p = (AccountStub.CreateKey sampleGenesisID,
      AccountDoc.joint (sampleJoint ["h1", "h2", "h3"])) := by
    simpa [sampleJointLedger, AccountStub.PutAccount, emptyState, kvPut, kvDel] using hp
  subst hp1
  cases ha
  exact ⟨by decide, by decide⟩

/-- C29, counterexample.  A token created by its invoker alone gets a genesis
account that is a joint account with exactly one holder. -/
theorem single_holder_genesis_account :
    (tokenCreate sampleMetaCtx emptyState ["ABC"]).1.isSuccess = true
    ∧ kvGet (tokenCreate sampleMetaCtx emptyState ["ABC"]).2.accounts
        (AccountStub.CreateKey sampleGenesisID)
      = some (.joint { Account := { DOCTYPEID := sampleGenesisID, Token := "ABC",
                                    Typ := AccountTypeJoint, CreatedTime := some 1000,
                                    UpdatedTime := some 1000, SuspendedTime := none },
                       Holders := [sampleKid] })
    ∧ ¬ JointHoldersAtLeast 2 (tokenCreate sampleMetaCtx emptyState ["ABC"]).2 := by
  have h2 : kvGet (tokenCreate sampleMetaCtx emptyState ["ABC"]).2.accounts
        (AccountStub.CreateKey sampleGenesisID)
      = some (.joint { Account := { DOCTYPEID := sampleGenesisID, Token := "ABC",
                                    Typ := AccountTypeJoint, CreatedTime := some 1000,
                                    UpdatedTime := some 1000, SuspendedTime := none },
                       Holders := [sampleKid] }) := by
    decide
  refine ⟨by decide, h2, fun h => ?_⟩
  have := (h _ _ h2).2
  exact absurd this (by decide)

/-- C29 (amended) on the samples: the removal of `h2` from the joint account
of three holders succeeds and leaves every joint account with two holders or
more; the creation of token `ABC` by its invoker alone succeeds and leaves
every joint account with one holder or more. -/
theorem joint_holders_lower_bound_witness :
    JointHoldersAtLeast 2 sampleJointLedger
    ∧ (executeAccountHolderRemove sampleCtx sampleJointLedger "c1"
        [.str "account/holder/remove", .str sampleGenesisID, .str "h2"]).1.isSuccess = true
    ∧ JointHoldersAtLeast 2 (executeAccountHolderRemove sampleCtx sampleJointLedger "c1"
        [.str "account/holder/remove", .str sampleGenesisID, .str "h2"]).2
    ∧ JointHoldersAtLeast 1 emptyState
    ∧ JointHoldersAtLeast 1 (tokenCreate sampleMetaCtx emptyState ["ABC"]).2 :=
  ⟨sampleJointLedger_inv, by decide,
   (joint_holders_lower_bound sampleCtx sampleJointLedger).2.2.1 "c1"
     [.str "account/holder/remove", .str sampleGenesisID, .str "h2"] sampleJointLedger_inv
     (by decide),
   (fun _ _ h => nomatch h),
   (joint_holders_lower_bound sampleMetaCtx emptyState).2.2.2.2.2.2.2.1 ["ABC"]
     (fun _ _ h => nomatch h) (by decide)⟩

/-- The holders the sample removal leaves. -/
theorem holder_remove_sample :
    kvGet (executeAccountHolderRemove sampleCtx sampleJointLedger "c1"
        [.str "account/holder/remove", .str sampleGenesisID, .str "h2"]).2.accounts
        (AccountStub.CreateKey sampleGenesisID)
      = some (.joint { Account := { (sampleJoint []).Account with UpdatedTime := some 1000 },
                       Holders := ["h1", "h3"] }) := by
  decide

/-! ## The upper bound on holders -/

/-- When its checks pass, `accountCreate` submits the contract over all the
holders it collected: the number of co-holder addresses is bounded (at most
128 distinct ones), the number of holders is not. -/
theorem accountCreate_accepts (ctx : Ctx) (st : State) (params : List String)
    (code kid : String) (invoker : AccountDoc) (holders : List String) (con : Contract)
    (hlen : 2 ≤ params.length) (hcode : ValidateTokenCode (param params 0) = .ok code)
    (htok : (kvGet st.tokens (TokenStub.CreateKey code)).isSome = true)
    (hkid : ctx.kid = .ok kid)
    (hinv : AccountStub.GetAccount st (NewAddress ctx.shake code AccountTypePersonal kid)
      = .ok invoker)
    (haddrs : (ssNew (params.drop 1)).length ≤ 128)
    (hcol : appendSignableIDs ctx st code (ssNew (params.drop 1)) (ssNew [kid]) = .ok holders)
    (h2 : 2 ≤ holders.length)
    (hcon : ctx.createContract [.str "account/create", .str code, .arr (holders.map some)] 0
      holders = .ok con) :
    accountCreate ctx st params = (.success (.contract con), st) := by
  have h1 : ¬ params.length < 1 := by omega
  have h2' : ¬ params.length < 2 := by omega
  have h3 : ¬ (ssNew (params.drop 1)).length > 128 := by omega
  have h4 : ¬ holders.length < 2 := by omega
  obtain ⟨t, ht⟩ := Option.isSome_iff_exists.mp htok
  unfold accountCreate invokeContract
  simp only [h1, h2', if_false, hcode, ht, hkid, hinv, h3, hcol, h4, hcon]

set_option maxRecDepth 100000 in
/-- C30, failing input.  On a ledger with the invoker's personal account and a
joint account of 128 other holders, `accountCreate` with that joint account as
the only co-holder address is accepted: it submits a contract over 129 holders
(the contract service of `sampleCountingCtx` accepts nothing else), and the
execution of that contract stores a joint account with 129 holders. -/
theorem account_create_exceeds_128 :
    (accountCreate sampleCountingCtx sampleCrowdLedger ["ABC", sampleCrowdID]).1
      = .success (.contract { id := "c1", expiryTime := .ok 2000 })
    ∧ (executeAccountCreate sampleCtx sampleCrowdLedger "c1"
        [.str "account/create", .str "ABC", .arr ((sampleKid :: sampleCrowd).map some)]).1
      = .success .empty
    ∧ (kvGet (executeAccountCreate sampleCtx sampleCrowdLedger "c1"
          [.str "account/create", .str "ABC",
           .arr ((sampleKid :: sampleCrowd).map some)]).2.accounts
        (AccountStub.CreateKey sampleGenesisID)).map
          (fun d => match d with
            | .joint a => a.Holders.length
            | .personal _ => 0)
      = some 129 := by
  refine ⟨by decide, by decide, by decide⟩

/-- `accountCreate` rejects more than 128 distinct co-holder addresses, and
the two holder-add paths reject an account that has 128 holders. -/
theorem holder_upper_checks (ctx : Ctx) (st : State) :
    (∀ params code kid invoker,
      2 ≤ params.length → ValidateTokenCode (param params 0) = .ok code →
      (kvGet st.tokens (TokenStub.CreateKey code)).isSome = true → ctx.kid = .ok kid →
      AccountStub.GetAccount st (NewAddress ctx.shake code AccountTypePersonal kid)
        = .ok invoker →
      128 < (ssNew (params.drop 1)).length →
      accountCreate ctx st params = (.error "too many holders", st))
    ∧ (∀ params jac taddr,
      getValidatedAccountHolderParameters ctx st params = some (.ok (jac, taddr)) →
      128 ≤ jac.Holders.length →
      accountHolderAdd ctx st params = (.error "already has max holders (128)", st))
    ∧ (∀ cid doc jac holder, 3 ≤ doc.length →
      holderCallbackAccount ctx st doc "failed to add the holder" = some (.ok (jac, holder)) →
      128 ≤ jac.Holders.length →
      executeAccountHolderAdd ctx st cid doc = (.error "already has max holders (128)", st)) := by
  refine ⟨?_, ?_, ?_⟩
  · intro params code kid invoker hlen hcode htok hkid hinv hmany
    have h1 : ¬ params.length < 1 := by omega
    have h2 : ¬ params.length < 2 := by omega
    have h3 : (ssNew (params.drop 1)).length > 128 := hmany
    obtain ⟨t, ht⟩ := Option.isSome_iff_exists.mp htok
    unfold accountCreate
    simp only [h1, h2, if_false, hcode, ht, hkid, hinv, h3, if_true]
  · intro params jac taddr hp hfull
    have h1 : jac.Holders.length > 127 := by omega
    unfold accountHolderAdd
    simp only [hp, h1, if_true]
  · intro cid doc jac holder hlen hp hfull
    have h0 : ¬ doc.length < 3 := by omega
    have h1 : jac.Holders.length > 127 := by omega
    unfold executeAccountHolderAdd
    simp only [h0, if_false, hp, h1, if_true]

/-! ## Prune resumability -/

/-- The decoded selector of `QueryPruneFee`: of the two entries under
`created_time` the bound `$lte` is left, and the bound `$gt` on the cursor
time is gone. -/
theorem jsonObject_QueryPruneFee (code : String) (stime etime : Int) :
    jsonObject (QueryPruneFee code stime etime)
      = [("created_time", .lte etime), ("@fee", .eq code)] := by
  simp [jsonObject, QueryPruneFee, kvPut, kvDel]

/-- The prune query in closed form: the rows of the token created up to
`etime`, oldest first. -/
theorem queryPruneFee_eq (st : State) (code : String) (stime etime : Int) :
    queryPruneFee st code stime etime
      = ((st.fees.reverse.map Prod.snd).filter
          (fun f => decide (f.DOCTYPEID = code)
            && (match f.CreatedTime with
                | some c => decide (c ≤ etime)
                | none => false))).insertionSort
          (fun a b => a.CreatedTime.getD 0 ≤ b.CreatedTime.getD 0) := by
  unfold queryPruneFee
  rw [jsonObject_QueryPruneFee]
  congr 1
  apply List.filter_congr
  intro f _
  simp only [List.all_cons, List.all_nil, Bool.and_true, feeFieldHolds]
  cases f.CreatedTime with
  | none => simp
  | some c => simp [Bool.and_comm]

/-- The cursor time plays no part in the prune query. -/
theorem queryPruneFee_cursor (st st1 : State) (code : String) (s s1 etime : Int)
    (hfees : st1.fees = st.fees) :
    queryPruneFee st1 code s1 etime = queryPruneFee st code s etime := by
  rw [queryPruneFee_eq, queryPruneFee_eq, hfees]

/-- The query result is sorted by creation time. -/
theorem queryPruneFee_sorted (st : State) (code : String) (stime etime : Int) :
    (queryPruneFee st code stime etime).Pairwise
      (fun a b => a.CreatedTime.getD 0 ≤ b.CreatedTime.getD 0) := by
  haveI : IsTotal Fee (fun a b => a.CreatedTime.getD 0 ≤ b.CreatedTime.getD 0) :=
    ⟨fun a b => le_total _ _⟩
  haveI : IsTrans Fee (fun a b => a.CreatedTime.getD 0 ≤ b.CreatedTime.getD 0) :=
    ⟨fun a b c hab hbc => le_trans hab hbc⟩
  exact List.sorted_insertionSort _ _

/-- Every row of the query result is of the token and was created up to
`etime`. -/
theorem queryPruneFee_mem (st : State) (code : String) (stime etime : Int) (f : Fee)
    (h : f ∈ queryPruneFee st code stime etime) :
    f.DOCTYPEID = code ∧ f.CreatedTime.getD 0 ≤ etime ∧ ∃ t, f.CreatedTime = some t := by
  rw [queryPruneFee_eq] at h
  have h1 := (List.perm_insertionSort _ _).mem_iff.mp h
  simp only [List.mem_filter, Bool.and_eq_true, decide_eq_true_eq] at h1
  obtain ⟨-, hc, hr⟩ := h1
  cases ht : f.CreatedTime with
  | none => simp [ht] at hr
  | some t =>
    simp only [ht, decide_eq_true_eq] at hr
    exact ⟨hc, by simpa using hr, t, rfl⟩

/-- The state `feePrune` leaves when its checks pass. -/
theorem feePrune_ready (ctx : Ctx) (st : State) (params : List String) (code kid : String)
    (token : Token) (policy : FeePolicy) (addr : Address) (account : AccountDoc) (bal : Balance)
    (stime etime ts : Int)
    (hlen : 2 ≤ params.length) (hcode : ValidateTokenCode (param params 0) = .ok code)
    (hkid : ctx.kid = .ok kid) (hts : GetTime ctx = .ok ts)
    (hend : pruneEndTime params ts "invalid boolean flag" = .ok etime)
    (htok : TokenStub.GetToken st code = .ok token)
    (hpol : token.FeePolicy = some policy)
    (haddr : ParseAddress ctx.shake policy.TargetAddress = .ok addr)
    (hacc : AccountStub.GetAccount st addr = .ok account)
    (hhold : account.HasHolder kid = true)
    (hbal : BalanceStub.GetBalance st account.GetID = .ok bal)
    (hcur : pruneStartTime token.LastPrunedFeeID = some (.ok stime)) :
    (feePrune ctx st params).1
      = .success (.feeSum (FeeStub.GetFeeSumByTime st code stime etime))
    ∧ (feePrune ctx st params).2.fees = st.fees
    ∧ (feePrune ctx st params).2.accounts = st.accounts
    ∧ ((FeeStub.GetFeeSumByTime st code stime etime).Count = 0 →
        (feePrune ctx st params).2.tokens = st.tokens
        ∧ (feePrune ctx st params).2.balances = st.balances)
    ∧ (0 < (FeeStub.GetFeeSumByTime st code stime etime).Count →
        (feePrune ctx st params).2.tokens = kvPut st.tokens (TokenStub.CreateKey token.DOCTYPEID)
          { token with LastPrunedFeeID := (FeeStub.GetFeeSumByTime st code stime etime).End }
        ∧ (feePrune ctx st params).2.balances
          = kvPut st.balances (BalanceStub.CreateKey bal.DOCTYPEID)
            { bal with Amount := bal.Amount + (FeeStub.GetFeeSumByTime st code stime etime).Sum,
                       UpdatedTime := some ts }) := by
  have h2 : ¬ params.length < 2 := by omega
  unfold feePrune
  simp only [h2, if_false, hcode, htok, hkid, hpol, haddr, hacc, hhold, hcur, hts, hend, hbal,
    Bool.not_true, Bool.false_eq_true]
  refine ⟨trivial, ?_, ?_, ?_, ?_⟩
  · by_cases hc : (FeeStub.GetFeeSumByTime st code stime etime).Count > 0
    · simp only [hc, if_true, BalanceStub.PutBalanceLog, TokenStub.PutToken,
        BalanceStub.PutBalance]
    · simp only [hc, if_false, BalanceStub.PutBalanceLog]
  · by_cases hc : (FeeStub.GetFeeSumByTime st code stime etime).Count > 0
    · simp only [hc, if_true, BalanceStub.PutBalanceLog, TokenStub.PutToken,
        BalanceStub.PutBalance]
    · simp only [hc, if_false, BalanceStub.PutBalanceLog]
  · intro h0
    have hc : ¬ (FeeStub.GetFeeSumByTime st code stime etime).Count > 0 := by omega
    simp only [hc, if_false, BalanceStub.PutBalanceLog]
    exact ⟨trivial, trivial⟩
  · intro hc
    have hc1 : (FeeStub.GetFeeSumByTime st code stime etime).Count > 0 := hc
    simp only [hc1, if_true, BalanceStub.PutBalanceLog, TokenStub.PutToken,
      BalanceStub.PutBalance]
    exact ⟨trivial, trivial⟩

/-- One prune call on a ready ledger: it answers with the sum of the first
batch of the rows of its query, writes no fee row, and leaves a ready
ledger. -/
theorem feePrune_step (ctx : Ctx) (st : State) (params : List String) (code kid : String)
    (stime etime ts : Int)
    (hlen : 2 ≤ params.length) (hcode : ValidateTokenCode (param params 0) = .ok code)
    (hkid : ctx.kid = .ok kid) (hts : GetTime ctx = .ok ts)
    (hend : pruneEndTime params ts "invalid boolean flag" = .ok etime)
    (hready : FeePruneReady ctx.shake st code kid stime)
    (hid : ∃ t, pruneStartTime (FeeStub.GetFeeSumByTime st code stime etime).End
      = some (.ok t)) :
    (feePrune ctx st params).1
      = .success (.feeSum (FeeStub.GetFeeSumByTime st code stime etime))
    ∧ (feePrune ctx st params).2.fees = st.fees
    ∧ ∃ stime1, FeePruneReady ctx.shake (feePrune ctx st params).2 code kid stime1 := by
  obtain ⟨token, policy, addr, account, bal, htok, htokid, hpol, haddr, hacc, hhold, hbal,
    hbalid, hcur⟩ := hready
  obtain ⟨hresp, hfees, haccs, hzero, hpos⟩ := feePrune_ready ctx st params code kid token
    policy addr account bal stime etime ts hlen hcode hkid hts hend htok hpol haddr hacc hhold
    hbal hcur
  refine ⟨hresp, hfees, ?_⟩
  generalize (feePrune ctx st params).2 = st1 at hfees haccs hzero hpos
  have hgetacc : AccountStub.GetAccount st1 addr = .ok account := by
    rw [← hacc]
    unfold AccountStub.GetAccount AccountStub.GetAccountState
    rw [haccs]
  by_cases h0 : (FeeStub.GetFeeSumByTime st code stime etime).Count = 0
  · obtain ⟨htoks, hbals⟩ := hzero h0
    refine ⟨stime, token, policy, addr, account, bal, ?_, htokid, hpol, haddr, hgetacc, hhold,
      ?_, hbalid, hcur⟩
    · rw [← htok]
      unfold TokenStub.GetToken
      rw [htoks]
    · rw [← hbal]
      unfold BalanceStub.GetBalance
      rw [hbals]
  · obtain ⟨htoks, hbals⟩ := hpos (by omega)
    obtain ⟨t, ht⟩ := hid
    refine ⟨t, { token with
        LastPrunedFeeID := (FeeStub.GetFeeSumByTime st code stime etime).End }, policy, addr,
      account, { bal with Amount := bal.Amount
          + (FeeStub.GetFeeSumByTime st code stime etime).Sum, UpdatedTime := some ts },
      ?_, htokid, hpol, haddr, hgetacc, hhold, ?_, hbalid, ht⟩
    · unfold TokenStub.GetToken
      rw [htoks, htokid, kvGet_kvPut, if_pos rfl]
    · unfold BalanceStub.GetBalance
      rw [hbals, hbalid, kvGet_kvPut, if_pos rfl]

/-- Repeated prune calls all answer with the sum of the same batch. -/
theorem feePruneRounds_same (H : Nat → List Nat → List Nat) (params : List String)
    (code kid : String) (etime : Int) (rows : List Fee)
    (hlen : 2 ≤ params.length) (hcode : ValidateTokenCode (param params 0) = .ok code)
    (hid : ∃ t, pruneStartTime (feeSumLoop rows 0
        { Sum := 0, Count := 0, Start := "", End := "", HasMore := false }).End
      = some (.ok t)) :
    ∀ (ctxs : List Ctx) (st : State) (stime : Int),
      (∀ ctx ∈ ctxs, ctx.shake = H ∧ ctx.kid = .ok kid
        ∧ ∃ ts, GetTime ctx = .ok ts
          ∧ pruneEndTime params ts "invalid boolean flag" = .ok etime) →
      FeePruneReady H st code kid stime →
      queryPruneFee st code stime etime = rows →
      (feePruneRounds params ctxs st).1
        = List.replicate ctxs.length (.success (.feeSum (feeSumLoop rows 0
            { Sum := 0, Count := 0, Start := "", End := "", HasMore := false })))
  | [], _, _, _, _, _ => rfl
  | ctx :: rest, st, stime, hctx, hready, hrows => by
    obtain ⟨hH, hkid, ts, hts, hend⟩ := hctx ctx (List.mem_cons_self _ _)
    subst hH
    have hsum : FeeStub.GetFeeSumByTime st code stime etime
        = feeSumLoop rows 0
            { Sum := 0, Count := 0, Start := "", End := "", HasMore := false } := by
      unfold FeeStub.GetFeeSumByTime
      rw [hrows]
    obtain ⟨hresp, hfees, stime1, hready1⟩ := feePrune_step ctx st params code kid stime etime
      ts hlen hcode hkid hts hend hready (by rw [hsum]; exact hid)
    have ih := feePruneRounds_same ctx.shake params code kid etime rows hlen hcode hid rest
      (feePrune ctx st params).2 stime1
      (fun c hc => hctx c (List.mem_cons_of_mem _ hc)) hready1
      (by rw [queryPruneFee_cursor st _ code stime stime1 etime hfees, hrows])
    show (feePrune ctx st params).1 :: (feePruneRounds params rest (feePrune ctx st params).2).1
      = _
    rw [ih, hresp, hsum]
    rfl

theorem samplePruneTime_mono {i j : Nat} (h : i ≤ j) :
    samplePruneTime i ≤ samplePruneTime j := by
  unfold samplePruneTime
  omega

theorem samplePruneLedger_fees :
    samplePruneLedger.fees
      = (samplePruneRows.map (fun f => (FeeStub.CreateKey f.FeeID, f))).reverse := by
  dsimp only [samplePruneLedger]

theorem samplePrune_table :
    samplePruneLedger.fees.reverse.map Prod.snd = samplePruneRows := by
  rw [samplePruneLedger_fees, List.reverse_reverse, List.map_map]
  exact List.map_id _

theorem samplePruneRows_sorted :
    samplePruneRows.Sorted (fun a b => a.CreatedTime.getD 0 ≤ b.CreatedTime.getD 0) := by
  unfold samplePruneRows List.Sorted
  rw [List.pairwise_map]
  exact (List.pairwise_lt_range 1000).imp (fun h => samplePruneTime_mono (le_of_lt h))

/-- The prune query of the prune ledger returns its 1000 rows in the order of
their creation times, whatever the cursor time. -/
theorem samplePrune_query (stime : Int) :
    queryPruneFee samplePruneLedger "ABC" stime 1650000000000000000 = samplePruneRows := by
  rw [queryPruneFee_eq, samplePrune_table]
  have hall : samplePruneRows.filter (fun f => decide (f.DOCTYPEID = "ABC")
      && (match f.CreatedTime with
          | some c => decide (c ≤ 1650000000000000000)
          | none => false)) = samplePruneRows := by
    rw [List.filter_eq_self]
    intro f hf
    unfold samplePruneRows at hf
    obtain ⟨i, hi, rfl⟩ := List.mem_map.mp hf
    have hi' := List.mem_range.mp hi
    simp only [samplePruneFee, samplePruneTime, decide_True, Bool.true_and, decide_eq_true_eq]
    omega
  rw [hall]
  exact List.Sorted.insertionSort_eq samplePruneRows_sorted

theorem samplePruneRows_length : samplePruneRows.length = 1000 := by
  unfold samplePruneRows
  rw [List.length_map, List.length_range]

theorem samplePruneRows_end :
    ((samplePruneRows.take (FeePruneSize - 0)).map (fun f => f.FeeID)).getLast?.getD ""
      = (samplePruneFee 899).FeeID := by
  unfold samplePruneRows
  rw [← List.map_take, List.take_range]
  have h : min (FeePruneSize - 0) 1000 = 899 + 1 := by decide
  rw [h, List.range_succ, List.map_append, List.map_append, List.getLast?_append]
  rfl

theorem samplePruneLedger_ready :
    FeePruneReady sampleCtx.shake samplePruneLedger "ABC" sampleKid 0 :=
  ⟨sampleFeeToken, { TargetAddress := sampleSenderID, Rates := [] }, sampleSenderAddr,
    samplePersonal sampleSenderID, sampleBalance sampleSenderID 0,
    by decide, by decide, by decide, by decide, by decide, by decide, by decide, by decide,
    by decide⟩

theorem samplePrune_cursor :
    ∃ t, pruneStartTime (feeSumLoop samplePruneRows 0
        { Sum := 0, Count := 0, Start := "", End := "", HasMore := false }).End
      = some (.ok t) := by
  obtain ⟨-, -, -, -, hEnd⟩ := feeSumLoop_spec samplePruneRows 0
    { Sum := 0, Count := 0, Start := "", End := "", HasMore := false } (Nat.zero_le _)
  rw [hEnd, samplePruneRows_end]
  exact ⟨1600000000000000899, by decide⟩

/-- C17, as the code behaves.  The selector of `QueryPruneFee` writes the key
`created_time` twice, so the lower bound on the cursor time is not part of the
query: the prune query returns the same rows from every cursor time.  On a
ledger ready for the prune, repeated `feePrune` calls by a holder of the
target account, each after the cursor the previous call stored and all with
the same end time, therefore all answer with the sum of one and the same
batch, the first 900 rows at most of all rows of the token created up to the
end time: the rows of that batch are included again by every call, and the
rows after the 900th by none.  For 1000 rows two calls answer 900 with
`hasMore` and again 900 with `hasMore`, not 900 and then 100 without. -/
theorem prune_repeats_first_batch (H : Nat → List Nat → List Nat) (params : List String)
    (code kid : String) (etime : Int) (ctxs : List Ctx) (st : State) (stime : Int)
    (rows : List Fee)
    (hlen : 2 ≤ params.length) (hcode : ValidateTokenCode (param params 0) = .ok code)
    (hctx : ∀ ctx ∈ ctxs, ctx.shake = H ∧ ctx.kid = .ok kid
      ∧ ∃ ts, GetTime ctx = .ok ts ∧ pruneEndTime params ts "invalid boolean flag" = .ok etime)
    (hready : FeePruneReady H st code kid stime)
    (hrows : queryPruneFee st code stime etime = rows)
    (hid : ∃ t, pruneStartTime (feeSumLoop rows 0
        { Sum := 0, Count := 0, Start := "", End := "", HasMore := false }).End
      = some (.ok t)) :
    (∀ st1 s1, st1.fees = st.fees → queryPruneFee st1 code s1 etime = rows)
    ∧ (feePruneRounds params ctxs st).1
        = List.replicate ctxs.length (.success (.feeSum (feeSumLoop rows 0
            { Sum := 0, Count := 0, Start := "", End := "", HasMore := false })))
    ∧ (feeSumLoop rows 0
          { Sum := 0, Count := 0, Start := "", End := "", HasMore := false }).Count
        = min rows.length 900
    ∧ ((feeSumLoop rows 0
          { Sum := 0, Count := 0, Start := "", End := "", HasMore := false }).HasMore = true
        ↔ 900 < rows.length)
    ∧ (feeSumLoop rows 0
          { Sum := 0, Count := 0, Start := "", End := "", HasMore := false }).Sum
        = ((rows.take 900).map (fun f => f.Amount)).sum
    ∧ (feeSumLoop rows 0
          { Sum := 0, Count := 0, Start := "", End := "", HasMore := false }).Start
        = (rows.head?.map (fun f => f.FeeID)).getD ""
    ∧ (feeSumLoop rows 0
          { Sum := 0, Count := 0, Start := "", End := "", HasMore := false }).End
        = ((rows.take 900).map (fun f => f.FeeID)).getLast?.getD ""
    ∧ (rows.length = 1000 → ctxs.length = 2 →
        (feePruneRounds params ctxs st).1.map pruneAnswer
          = [some (900, true), some (900, true)]) := by
  have hround := feePruneRounds_same H params code kid etime rows hlen hcode hid ctxs st stime
    hctx hready hrows
  obtain ⟨h1, h2, h3, h4, h5⟩ := feeSumLoop_spec rows 0
    { Sum := 0, Count := 0, Start := "", End := "", HasMore := false } (Nat.zero_le _)
  refine ⟨?_, hround, ?_, ?_, ?_, ?_, ?_, ?_⟩
  · intro st1 s1 hfees
    rw [queryPruneFee_cursor st st1 code stime s1 etime hfees, hrows]
  · rw [h1]
    simp [FeePruneSize]
  · rw [h2]
    simp [FeePruneSize]
  · rw [h3]
    simp [FeePruneSize]
  · rw [h4]
    simp
  · rw [h5]
    simp [FeePruneSize]
  · intro h1000 hc2
    rw [hround, hc2]
    show [some ((feeSumLoop rows 0 _).Count, (feeSumLoop rows 0 _).HasMore),
      some ((feeSumLoop rows 0 _).Count, (feeSumLoop rows 0 _).HasMore)] = _
    rw [h1, h2, h1000]
    simp [FeePruneSize]

/-- C17 on the prune ledger of 1000 fee rows, all unpruned: two prune calls,
the second after the cursor the first stored, both answer 900 rows with
`hasMore`. -/
theorem prune_repeats_first_batch_witness :
    FeePruneReady sampleCtx.shake samplePruneLedger "ABC" sampleKid 0
    ∧ queryPruneFee samplePruneLedger "ABC" 0 1650000000000000000 = samplePruneRows
    ∧ samplePruneRows.length = 1000
    ∧ (feePruneRounds samplePruneParams [samplePruneCtx1, samplePruneCtx2]
        samplePruneLedger).1.map pruneAnswer
      = [some (900, true), some (900, true)] :=
  ⟨samplePruneLedger_ready, samplePrune_query 0, samplePruneRows_length,
    (prune_repeats_first_batch sampleCtx.shake samplePruneParams "ABC" sampleKid
      1650000000000000000 [samplePruneCtx1, samplePruneCtx2] samplePruneLedger 0 samplePruneRows
      (by decide) (by decide)
      (by
        intro ctx hmem
        simp only [List.mem_cons, List.mem_singleton, List.not_mem_nil, or_false] at hmem
        rcases hmem with rfl | rfl
        · exact ⟨rfl, rfl, 1700000000000000000, rfl, by decide⟩
        · exact ⟨rfl, rfl, 1700000000000000001, rfl, by decide⟩)
      samplePruneLedger_ready (samplePrune_query 0) samplePrune_cursor).2.2.2.2.2.2.2
      samplePruneRows_length rfl⟩

/-- Two prune calls on `sampleFeeLedger`, whose one fee row is of 7: both
answer with that row, the second after the cursor the first stored, and the
target balance is credited twice, 14 in all. -/
theorem prune_twice_sample :
    (feePruneRounds ["ABC", "false", "1"] [sampleCtx, sampleLaterCtx] sampleFeeLedger).1
      = [.success (.feeSum { Sum := 7, Count := 1, Start := "0000000000000000500tx0",
                             End := "0000000000000000500tx0", HasMore := false }),
         .success (.feeSum { Sum := 7, Count := 1, Start := "0000000000000000500tx0",
                             End := "0000000000000000500tx0", HasMore := false })]
    ∧ (TokenStub.GetToken (feePrune sampleCtx sampleFeeLedger ["ABC", "false", "1"]).2
        "ABC").map (fun t => (t.LastPrunedFeeID, pruneStartTime t.LastPrunedFeeID))
      = .ok ("0000000000000000500tx0", some (.ok 500))
    ∧ (BalanceStub.GetBalance
        (feePruneRounds ["ABC", "false", "1"] [sampleCtx, sampleLaterCtx] sampleFeeLedger).2
        sampleSenderID).map (fun b => b.Amount) = .ok 14
    ∧ (feePruneRounds ["ABC", "false", "1"] [sampleCtx, sampleLaterCtx]
        sampleFeeLedger).2.fees.length = 1 := by
  decide

/-! ## Rate application to a negative amount -/

/-- C40, counterexample.  At the rate one half, `MulRat` of 1 is 0 and `MulRat`
of -1 is -1: the negative product -1/2 is not truncated to 0, its magnitude is
rounded up. -/
theorem mulRat_negative_rounds_down :
    rateHalf ≥ 0 ∧ Amount.MulRat 1 rateHalf = 0 ∧ Amount.MulRat (-1) rateHalf = -1
    ∧ Amount.MulRat (-1) rateHalf ≠ -Amount.MulRat 1 rateHalf := by
  decide

/-- C40 (amended).  Rate application floors for either sign: `MulRat` applied
to `-a` is the negation of the ceiling of `a × r`.  It is the negation of
`MulRat` applied to `a` exactly when `a × r` is an integer (the denominator of
`r` divides `a` times its numerator); otherwise it is one less, so a negative
product is rounded away from zero.  For `a ≥ 0` and `r ≥ 0` the result is not
negative, and there flooring is truncation toward zero. -/
theorem mulRat_negation (a : Int) (r : ℚ) :
    Amount.MulRat (-a) r = -⌈(a : ℚ) * r⌉
    ∧ ((r.den : Int) ∣ a * r.num → Amount.MulRat (-a) r = -Amount.MulRat a r)
    ∧ (¬ (r.den : Int) ∣ a * r.num → Amount.MulRat (-a) r = -Amount.MulRat a r - 1)
    ∧ (0 ≤ a → 0 ≤ r →
        0 ≤ Amount.MulRat a r ∧ Amount.MulRat a r = Int.tdiv (a * r.num) (r.den : Int)) := by
  have hd : (0 : Int) < (r.den : Int) := by exact_mod_cast r.den_pos
  refine ⟨?_, ?_, ?_, ?_⟩
  · rw [Amount.MulRat_eq_floor, Int.cast_neg, neg_mul, Int.floor_neg]
  · intro h
    unfold Amount.MulRat
    rw [neg_mul]
    exact Int.neg_ediv_of_dvd h
  · intro h
    unfold Amount.MulRat
    rw [neg_mul]
    have hm0 : (a * r.num) % (r.den : Int) ≠ 0 := fun h0 => h (Int.dvd_of_emod_eq_zero h0)
    have hm1 : 0 ≤ (a * r.num) % (r.den : Int) := Int.emod_nonneg _ hd.ne'
    have hm2 : (a * r.num) % (r.den : Int) < (r.den : Int) := Int.emod_lt_of_pos _ hd
    have hsplit := Int.emod_add_ediv (a * r.num) (r.den : Int)
    have key := (Int.ediv_emod_unique (a := -(a * r.num)) (b := (r.den : Int))
      (q := -Int.ediv (a * r.num) (r.den : Int) - 1)
      (r := (r.den : Int) - (a * r.num) % (r.den : Int)) hd).mpr
    refine (key ⟨?_, by omega, by omega⟩).1
    have : (r.den : Int) * (-Int.ediv (a * r.num) (r.den : Int) - 1)
        = -((r.den : Int) * ((a * r.num) / (r.den : Int))) - (r.den : Int) := by
      show (r.den : Int) * (-((a * r.num) / (r.den : Int)) - 1) = _
      ring
    rw [this]
    omega
  · intro ha hr
    have hn : 0 ≤ a * r.num := Int.mul_nonneg ha (Rat.num_nonneg.mpr hr)
    unfold Amount.MulRat
    exact ⟨Int.ediv_nonneg hn (Int.ofNat_nonneg _),
      (Int.tdiv_eq_ediv hn (Int.ofNat_nonneg _)).symm⟩

/-- C40 (amended) at the rate one half: 3 gives 1 and -3 gives -2. -/
theorem mulRat_negation_witness :
    Amount.MulRat 3 rateHalf = 1 ∧ Amount.MulRat (-3) rateHalf = -Amount.MulRat 3 rateHalf - 1
    ∧ Amount.MulRat 4 rateHalf = 2 ∧ Amount.MulRat (-4) rateHalf = -Amount.MulRat 4 rateHalf
    ∧ Amount.MulRat 3 rateHalf = Int.tdiv (3 * rateHalf.num) (rateHalf.den : Int) :=
  ⟨by decide, (mulRat_negation 3 rateHalf).2.2.1 (by decide),
    by decide, (mulRat_negation 4 rateHalf).2.1 (by decide),
    ((mulRat_negation 3 rateHalf).2.2.2 (by decide) (by decide)).2⟩

/-! ## Amount as JSON -/

theorem digitChar_facts : ∀ m : Nat, m < 10 →
    (Nat.digitChar m).isDigit = true ∧ (Nat.digitChar m).toNat - 48 = m
      ∧ (m ≠ 0 → Nat.digitChar m ≠ '0') ∧ digitValue (Nat.digitChar m) = some m := by
  decide

theorem toDigitsCore_spec : ∀ (fuel n : Nat) (ds : List Char), n < fuel →
    ∃ pre, Nat.toDigitsCore 10 fuel n ds = pre ++ ds ∧ IsNatDecimal pre n
  | 0, n, _, h => absurd h (Nat.not_lt_zero n)
  | fuel + 1, n, ds, h => by
    obtain ⟨hd1, hd2, hd3, -⟩ := digitChar_facts (n % 10) (Nat.mod_lt _ (by decide))
    unfold Nat.toDigitsCore
    by_cases hq : n / 10 = 0
    · simp only [hq, if_true]
      have hn : n % 10 = n := Nat.mod_eq_of_lt (by omega)
      refine ⟨[Nat.digitChar (n % 10)], rfl, by simp, ?_, ?_, ?_, ?_⟩
      · intro c hc
        rw [List.mem_singleton] at hc
        rw [hc]
        exact hd1
      · intro h0
        rw [h0]
        rfl
      · intro h0
        rw [List.head?_cons]
        intro hc
        exact hd3 (by omega) (Option.some.inj hc)
      · simp only [List.foldl_cons, List.foldl_nil, Nat.zero_mul, Nat.zero_add]
        omega
    · simp only [hq, if_false]
      obtain ⟨pre, hpre, hne, hdig, -, hhead, hval⟩ :=
        toDigitsCore_spec fuel (n / 10) (Nat.digitChar (n % 10) :: ds) (by omega)
      refine ⟨pre ++ [Nat.digitChar (n % 10)], ?_, by simp, ?_, ?_, ?_, ?_⟩
      · rw [hpre, List.append_assoc]
        rfl
      · intro c hc
        rw [List.mem_append, List.mem_singleton] at hc
        rcases hc with hc | hc
        · exact hdig c hc
        · rw [hc]
          exact hd1
      · intro h0
        rw [h0] at hq
        exact absurd rfl hq
      · intro _
        cases pre with
        | nil => exact absurd rfl hne
        | cons c t => exact hhead hq
      · rw [List.foldl_append, hval]
        simp only [List.foldl_cons, List.foldl_nil]
        omega

/-- The text of a natural number is its decimal representation. -/
theorem repr_isNatDecimal (n : Nat) : IsNatDecimal (Nat.repr n).data n := by
  obtain ⟨pre, hpre, h⟩ := toDigitsCore_spec (n + 1) n [] (Nat.lt_succ_self n)
  rw [List.append_nil] at hpre
  have : (Nat.repr n).data = pre := by
    show (Nat.toDigits 10 n) = pre
    exact hpre
  rw [this]
  exact h

/-- The text of an integer is its decimal representation. -/
theorem string_isDecimalOf (a : Int) : IsDecimalOf (bigIntString a).data a := by
  cases a with
  | ofNat m =>
    refine ⟨fun _ => repr_isNatDecimal m, fun h => ?_⟩
    exact absurd h (by simp)
  | negSucc m =>
    refine ⟨fun h => absurd h (by simp), fun _ => ⟨(Nat.repr (m + 1)).data, ?_, ?_⟩⟩
    · rfl
    · exact repr_isNatDecimal (m + 1)

theorem digitValue_of_isDigit (c : Char) (h : c.isDigit = true) :
    digitValue c = some (c.toNat - 48) ∧ c.toNat - 48 < 10 := by
  unfold Char.isDigit at h
  simp only [Bool.and_eq_true, decide_eq_true_eq] at h
  have h1 : '0' ≤ c := by
    show (48 : UInt32) ≤ c.val
    exact h.1
  have h2 : c ≤ '9' := by
    show c.val ≤ (57 : UInt32)
    exact h.2
  have h3 : c.toNat ≤ 57 := by
    have := UInt32.le_def.mp h.2
    exact this
  unfold digitValue
  rw [if_pos ⟨h1, h2⟩]
  refine ⟨rfl, ?_⟩
  omega

theorem scanDigits_fold (b : Nat) (t : List Char) :
    ∀ acc : Nat, (∀ c ∈ t, c.isDigit = true) → (∀ c ∈ t, c.toNat - 48 < b) →
      t.foldlM (fun acc c =>
        match digitValue c with
        | some d => if d < b then some (acc * b + d) else none
        | none => none) acc
      = some (t.foldl (fun acc c => acc * b + (c.toNat - 48)) acc) := by
  induction t with
  | nil => intro acc _ _; rfl
  | cons c t ih =>
    intro acc hd hb
    have hc := (digitValue_of_isDigit c (hd c (List.mem_cons_self _ _))).1
    have hcb := hb c (List.mem_cons_self _ _)
    rw [List.foldlM_cons, hc]
    simp only [hcb, if_true, Option.bind_eq_bind, Option.some_bind, List.foldl_cons]
    exact ih _ (fun x hx => hd x (List.mem_cons_of_mem _ hx))
      (fun x hx => hb x (List.mem_cons_of_mem _ hx))

/-- Scanning the decimal representation of `n` gives `n`. -/
theorem scanMantissa_decimal (t : List Char) (n : Nat) (h : IsNatDecimal t n) :
    scanMantissa t = some n := by
  obtain ⟨hne, hdig, hzero, hhead, hval⟩ := h
  have hscan : scanDigits 10 t = some n := by
    unfold scanDigits
    rw [if_neg hne, scanDigits_fold 10 t 0 hdig
      (fun c hc => (digitValue_of_isDigit c (hdig c hc)).2), hval]
  cases t with
  | nil => exact absurd rfl hne
  | cons c t =>
    cases t with
    | nil => exact hscan
    | cons d rest =>
      have hc : c ≠ '0' := by
        intro hc
        by_cases hn : n = 0
        · have := hzero hn
          simp at this
        · exact hhead hn (by rw [hc]; rfl)
      unfold scanMantissa
      simp only [hc, if_false]
      exact hscan

/-- Reading the decimal representation of `a` gives `a`. -/
theorem bigIntUnmarshalText_decimal (s : List Char) (a : Int) (h : IsDecimalOf s a) :
    bigIntUnmarshalText s = some a ∧ s ≠ "null".data := by
  by_cases ha : 0 ≤ a
  · have hd := h.1 ha
    have hs := scanMantissa_decimal s a.natAbs hd
    obtain ⟨hne, hdig, -⟩ := hd
    cases s with
    | nil => exact absurd rfl hne
    | cons c t =>
      have hcd := hdig c (List.mem_cons_self _ _)
      have h1 : c ≠ '-' := by
        intro hc
        rw [hc] at hcd
        exact absurd hcd (by decide)
      have h2 : c ≠ '+' := by
        intro hc
        rw [hc] at hcd
        exact absurd hcd (by decide)
      have h3 : c ≠ 'n' := by
        intro hc
        rw [hc] at hcd
        exact absurd hcd (by decide)
      refine ⟨?_, ?_⟩
      · unfold bigIntUnmarshalText
        simp only [h1, h2, if_false, hs, Option.map_some']
        rw [Int.natAbs_of_nonneg ha]
      · intro hnull
        exact h3 (List.cons.inj hnull).1
  · obtain ⟨t, hst, hd⟩ := h.2 (not_le.mp ha)
    rw [hst]
    refine ⟨?_, fun hnull => absurd (List.cons.inj hnull).1 (by decide)⟩
    unfold bigIntUnmarshalText
    simp only [if_true, scanMantissa_decimal t a.natAbs hd, Option.map_some']
    rw [Int.ofNat_natAbs_of_nonpos (not_le.mp ha).le, neg_neg]

theorem strSlice_quoted (s : String) :
    ("\"" ++ s ++ "\"").length = s.length + 2
    ∧ strSlice ("\"" ++ s ++ "\"") 1 (("\"" ++ s ++ "\"").length - 1) = s := by
  have hlen : ("\"" ++ s ++ "\"").length = s.length + 2 := by
    rw [String.length_append, String.length_append]
    show 1 + s.length + 1 = _
    omega
  refine ⟨hlen, ?_⟩
  unfold strSlice
  rw [hlen]
  apply String.ext
  show List.drop 1 (List.take (s.length + 2 - 1) ("\"" ++ s ++ "\"").data) = s.data
  rw [String.data_append, String.data_append]
  show List.drop 1 (List.take (s.length + 2 - 1) (('"' :: s.data) ++ ['"'])) = s.data
  have : s.length + 2 - 1 = ('"' :: s.data).length := by
    show _ = s.data.length + 1
    rfl
  rw [this, List.take_left]
  rfl

/-- C31. Amount JSON round trip.  For every integer `a`, `MarshalJSON` returns,
without an error, the decimal representation of `a` (digits, at least one, no
leading zero except for zero; after a `-` when `a` is negative) between two
double quotes: a JSON string.  `UnmarshalJSON` applied to that output, on any
receiver, returns `a` without an error. -/
theorem amount_json_round_trip (a cur : Int) :
    Amount.MarshalJSON a = .ok ("\"" ++ bigIntString a ++ "\"")
    ∧ IsDecimalOf (bigIntString a).data a
    ∧ ("\"" ++ bigIntString a ++ "\"").data.head? = some '"'
    ∧ ("\"" ++ bigIntString a ++ "\"").data.getLast? = some '"'
    ∧ (∀ c ∈ (bigIntString a).data, c ≠ '"')
    ∧ Amount.UnmarshalJSON cur ("\"" ++ bigIntString a ++ "\"") = some (.ok a) := by
  have hdec := string_isDecimalOf a
  obtain ⟨hread, hnull⟩ := bigIntUnmarshalText_decimal _ a hdec
  obtain ⟨hlen, hslice⟩ := strSlice_quoted (bigIntString a)
  refine ⟨rfl, hdec, ?_, ?_, ?_, ?_⟩
  · rw [String.data_append, String.data_append]
    rfl
  · rw [String.data_append]
    exact List.getLast?_concat _
  · intro c hc hq
    rw [hq] at hc
    by_cases ha : 0 ≤ a
    · exact absurd ((hdec.1 ha).2.1 _ hc) (by decide)
    · obtain ⟨t, hst, hd⟩ := hdec.2 (not_le.mp ha)
      rw [hst, List.mem_cons] at hc
      rcases hc with hc | hc
      · exact absurd hc (by decide)
      · exact absurd (hd.2.1 _ hc) (by decide)
  · unfold Amount.UnmarshalJSON
    have h2 : ¬ ("\"" ++ bigIntString a ++ "\"").length < 2 := by omega
    simp only [h2, if_false, hslice]
    have hn : bigIntString a ≠ "null" := fun h => hnull (congrArg String.data h)
    simp only [hn, if_false, hread]

/-- The round trip on samples: -12, 0, and an amount beyond 64 bits. -/
theorem amount_json_samples :
    Amount.MarshalJSON (-12) = .ok "\"-12\""
    ∧ Amount.UnmarshalJSON 7 "\"-12\"" = some (.ok (-12))
    ∧ Amount.MarshalJSON 0 = .ok "\"0\""
    ∧ Amount.UnmarshalJSON 7 "\"0\"" = some (.ok 0)
    ∧ Amount.UnmarshalJSON 7 "\"340282366920938463463374607431768211456\""
        = some (.ok 340282366920938463463374607431768211456)
    ∧ Amount.UnmarshalJSON 7 "\"0x10\"" = some (.ok 16)
    ∧ Amount.UnmarshalJSON 7 "\"null\"" = some (.ok 7)
    ∧ Amount.UnmarshalJSON 7 "\"" = none := by
  decide

/-! ## The pay row of the escrowed path -/

/-- C32.  The escrowed pay path does not write the row of the instant path.
For the contract document `["pay", pending id, sender, receiver, amount, o, m]`
of a pay with order id `o` and memo `m`, on a valid pending balance, `executePay`
succeeds and the Pay row it stores has `OrderID = m` and `Memo = o`: the two are
exchanged.  The row `PayStub.Pay` stores for the same request has `OrderID = o`
and `Memo = m`. -/
theorem executePay_exchanges_order_and_memo (ctx : Ctx) (st : State)
    (cid id sid merchant amt o m : String) (pb : PendingBalance) (rAddr : Address)
    (fee ts : Int) (sender : Balance) (amount fee0 : Int)
    (hpb : BalanceStub.GetPendingBalance st id = .ok pb)
    (htyp : pb.Typ = PendingBalanceType.Contract) (hrid : pb.RID = cid)
    (hparse : ParseAddress ctx.shake merchant = .ok rAddr)
    (hfee : FeeStub.CalcFee st rAddr "pay" pb.Amount = .ok fee)
    (hts : GetTime ctx = .ok ts) :
    (executePay ctx st cid (payDocument id sid merchant amt o m)).1 = .success .empty
    ∧ PayStub.GetPay (executePay ctx st cid (payDocument id sid merchant amt o m)).2
        (toString ts ++ ctx.txID)
      = .ok (NewPay merchant (toString ts ++ ctx.txID) pb.Amount fee pb.Account "" m o ts)
    ∧ (NewPay merchant (toString ts ++ ctx.txID) pb.Amount fee pb.Account "" m o ts).OrderID = m
    ∧ (NewPay merchant (toString ts ++ ctx.txID) pb.Amount fee pb.Account "" m o ts).Memo = o
    ∧ PayStub.GetPay (PayStub.Pay ctx st sender merchant amount fee0 o m).2
        (toString ts ++ ctx.txID)
      = .ok (NewPay merchant (toString ts ++ ctx.txID) amount fee0 sender.GetID "" o m ts) := by
  have hne : ¬ (pb.Typ ≠ PendingBalanceType.Contract ∨ pb.RID ≠ cid) := by
    rw [htyp, hrid]
    simp
  have hrun : executePay ctx st cid (payDocument id sid merchant amt o m)
      = (.success .empty, (PayStub.PayPendingBalance ctx st pb fee merchant o m).2) := by
    unfold executePay payDocument
    simp only [List.length_cons, List.length_nil, docString, List.get?_cons_succ,
      List.get?_cons_zero, hpb, hne, hparse, hfee]
    unfold PayStub.PayPendingBalance
    simp [hts]
  refine ⟨by rw [hrun], ?_, rfl, rfl, ?_⟩
  · rw [hrun]
    unfold PayStub.PayPendingBalance PayStub.GetPay
    simp [hts, BalanceStub.DelPendingBalance, PayStub.PutPay, kvGet_kvPut, NewPay]
  · unfold PayStub.Pay PayStub.GetPay
    simp [hts, BalanceStub.PutBalanceLog, BalanceStub.PutBalance, PayStub.PutPay, kvGet_kvPut,
      NewPay]

/-- C32 on `samplePayEscrowLedger`: the pay of 30 with order id `order-7` and
memo `thanks` is stored with order id `thanks` and memo `order-7`. -/
theorem executePay_exchanges_order_and_memo_witness :
    (PayStub.GetPay (executePay sampleCtx samplePayEscrowLedger "c1"
        (payDocument "tx0" sampleSenderID sampleReceiverID "30" "order-7" "thanks")).2
        (toString (1000 : Int) ++ sampleCtx.txID)).map (fun p => (p.OrderID, p.Memo))
      = .ok ("thanks", "order-7")
    ∧ (PayStub.GetPay (PayStub.Pay sampleCtx samplePayEscrowLedger
          (sampleBalance sampleSenderID 70) sampleReceiverID 30 0 "order-7" "thanks").2
        (toString (1000 : Int) ++ sampleCtx.txID)).map (fun p => (p.OrderID, p.Memo))
      = .ok ("order-7", "thanks") :=
  have h := executePay_exchanges_order_and_memo sampleCtx samplePayEscrowLedger "c1" "tx0"
    sampleSenderID sampleReceiverID "30" "order-7" "thanks" samplePayPending
    { Code := "ABC", Typ := 1,
      Hash := [0, 0, 0, 0, 0, 0, 0, 0, 0, 0, 0, 0, 0, 0, 0, 0, 0, 0, 0, 178, 0, 0, 0, 0] }
    0 1000 (sampleBalance sampleSenderID 70) 30 0
    (by decide) rfl rfl (by decide) (by decide) rfl
  ⟨by rw [h.2.1]; rfl, by rw [h.2.2.2.2]; rfl⟩

/-! ## The contract callback on an unknown document type -/

theorem lookup_none_of_not_mem {V : Type} (k : String) :
    ∀ l : List (String × V), k ∉ l.map Prod.fst → l.lookup k = none
  | [], _ => rfl
  | (a, v) :: rest, h => by
    rw [List.map_cons, List.mem_cons, not_or] at h
    have hne : (k == a) = false := beq_false_of_ne h.1
    rw [List.lookup_cons, hne]
    exact lookup_none_of_not_mem k rest h.2

/-- C33.  The contract callback is not total on documents.  For a call that
passes the checks of the caller and whose document is a JSON array: when the
first element of the document is a string that names none of the eight
registered contract types, `contractCallback` panics (it indexes the nil slice
`ctrRoutes[dtype]`) and does not return the error `unknown contract: [<type>]`;
it panics as well when the document is the empty array or its first element is
no string.  No state is written in these cases.  For a registered type the
callback is the registered cancel or execute function. -/
theorem contractCallback_unknown_type_panics (ctx : Ctx) (st : State) (fnIdx : Nat)
    (params : List String) (ccid kid : String) (doc : List DocVal)
    (hlen : params.length = 2) (hcc : ctx.ccid = .ok ccid)
    (hacc : ccid = "kiesnet-contract" ∨ ccid = "kiesnet-cc-contract")
    (hkid : ctx.kid = .ok kid) (hdoc : ctx.unmarshalDoc (param params 1) = .ok doc) :
    (∀ dtype, docString doc 0 = some dtype → dtype ∉ ctrRoutes.map Prod.fst →
        contractCallback ctx st fnIdx params = (.panic, st)
        ∧ (contractCallback ctx st fnIdx params).1
            ≠ .error ("unknown contract: [" ++ dtype ++ "]"))
    ∧ (docString doc 0 = none → contractCallback ctx st fnIdx params = (.panic, st))
    ∧ (∀ dtype fns ctrFn, docString doc 0 = some dtype → ctrRoutes.lookup dtype = some fns →
        fns.get? fnIdx = some ctrFn →
        contractCallback ctx st fnIdx params = ctrFn ctx st (param params 0) doc) := by
  have h2 : ¬ params.length ≠ 2 := not_not.mpr hlen
  have ha : ¬ ("kiesnet-contract" ≠ ccid ∧ "kiesnet-cc-contract" ≠ ccid) := by
    rcases hacc with h | h <;> simp [h]
  refine ⟨?_, ?_, ?_⟩
  · intro dtype h0 hun
    have hrun : contractCallback ctx st fnIdx params = (.panic, st) := by
      unfold contractCallback
      simp only [h2, if_false, hcc, ha, hkid, hdoc, h0,
        lookup_none_of_not_mem dtype ctrRoutes hun, Option.getD_none, List.get?_nil]
    refine ⟨hrun, ?_⟩
    rw [hrun]
    exact fun h => Response.noConfusion h
  · intro h0
    unfold contractCallback
    simp only [h2, if_false, hcc, ha, hkid, hdoc, h0]
  · intro dtype fns ctrFn h0 hl hf
    unfold contractCallback
    simp only [h2, if_false, hcc, ha, hkid, hdoc, h0, hl, Option.getD_some, hf]

/-- C33 on the document `["nope"]`, on the empty document, and on a cancel of
the registered type `token/mint`. -/
theorem contractCallback_unknown_type_panics_witness :
    contractCallback (sampleDocCtx [.str "nope"]) emptyState 1 ["c1", "[\"nope\"]"]
      = (.panic, emptyState)
    ∧ contractCallback (sampleDocCtx []) emptyState 1 ["c1", "[]"] = (.panic, emptyState)
    ∧ contractCallback (sampleDocCtx [.str "token/mint"]) emptyState 0 ["c1", "[\"token/mint\"]"]
      = (.success .empty, emptyState) :=
  ⟨((contractCallback_unknown_type_panics (sampleDocCtx [.str "nope"]) emptyState 1
      ["c1", "[\"nope\"]"] "kiesnet-contract" sampleKid [.str "nope"] rfl rfl (Or.inl rfl) rfl
      rfl).1 "nope" rfl (by decide)).1,
   (contractCallback_unknown_type_panics (sampleDocCtx []) emptyState 1
      ["c1", "[]"] "kiesnet-contract" sampleKid [] rfl rfl (Or.inl rfl) rfl rfl).2.1 rfl,
   (contractCallback_unknown_type_panics (sampleDocCtx [.str "token/mint"]) emptyState 0
      ["c1", "[\"token/mint\"]"] "kiesnet-contract" sampleKid [.str "token/mint"] rfl rfl
      (Or.inl rfl) rfl rfl).2.2 "token/mint" [contractVoid, executeTokenMint] contractVoid rfl rfl
      rfl⟩

/-! ## Transfer and pay to self -/

/-- C38.  Self-transfer is impossible.  `Equal` addresses are those of the same
token code, type and hash.  When the receiver's address and the sender's
address of a request are `Equal`, `transfer` and `pay` reject the request and
return the state as it was, whatever the state holds: `pay` with the error
`can't pay to self` as soon as the request has its three parameters, `transfer`
with the error `can't transfer to self` when the amount, which it checks
first, is a positive integer.  The check precedes every read of an account or
balance. -/
theorem self_transfer_rejected (ctx : Ctx) (st : State) (params : List String) (kid : String)
    (rAddr sAddr : Address) (hkid : ctx.kid = .ok kid)
    (hr : ParseAddress ctx.shake (param params 1) = .ok rAddr)
    (hs : senderAddress ctx params rAddr kid = .ok sAddr)
    (heq : sAddr.Equal rAddr = true) :
    (sAddr.Code = rAddr.Code ∧ sAddr.Typ = rAddr.Typ ∧ sAddr.Hash = rAddr.Hash)
    ∧ Rejects st (transfer ctx st params) ∧ Rejects st (pay ctx st params)
    ∧ (3 ≤ params.length → pay ctx st params = (.error "can't pay to self", st))
    ∧ (3 ≤ params.length → ∀ amount, NewAmount (param params 2) = .ok amount → 0 < amount →
        transfer ctx st params = (.error "can't transfer to self", st)) := by
  refine ⟨?_, ?_, ?_, ?_, ?_⟩
  · unfold Address.Equal at heq
    simp only [Bool.and_eq_true, decide_eq_true_eq] at heq
    exact ⟨heq.1.1, heq.1.2, heq.2⟩
  · unfold transfer
    simp only [hkid, hr, hs, heq, if_true]
    repeat' (first
      | exact Rejects_error _ _
      | refine Rejects_ite (fun _ => ?_) (fun _ => ?_)
      | split)
  · unfold pay
    simp only [hkid, hr, hs, heq, if_true]
    exact Rejects_ite (fun _ => Rejects_error _ _) (fun _ => Rejects_error _ _)
  · intro hlen
    have h3 : ¬ params.length < 3 := by omega
    unfold pay
    simp only [h3, if_false, hkid, hr, hs, heq, if_true]
  · intro hlen amount hamt hpos
    have h3 : ¬ params.length < 3 := by omega
    have hp : ¬ amount ≤ 0 := not_le.mpr hpos
    unfold transfer
    simp only [h3, if_false, hkid, hamt, hp, hr, hs, heq, if_true]

/-- C38 on `sampleLedger 70 0`: the invoker's transfer and pay of 30 to the
invoker's own account. -/
theorem self_transfer_rejected_witness :
    transfer sampleCtx (sampleLedger 70 0) ["", sampleSenderID, "30"]
      = (.error "can't transfer to self", sampleLedger 70 0)
    ∧ pay sampleCtx (sampleLedger 70 0) ["", sampleSenderID, "30"]
      = (.error "can't pay to self", sampleLedger 70 0) :=
  have h := self_transfer_rejected sampleCtx (sampleLedger 70 0) ["", sampleSenderID, "30"]
    sampleKid sampleSenderAddr sampleSenderAddr rfl (by decide) (by decide) (by decide)
  ⟨h.2.2.2.2 (by decide) 30 (by decide) (by decide), h.2.2.2.1 (by decide)⟩

/-! ## The fee policy of a token stays -/

theorem FeePolicyKept_refl (st : State) : FeePolicyKept st st :=
  fun _ t h hp => ⟨t, h, hp⟩

theorem FeePolicyKept_put (st : State) (token : Token) (h : token.FeePolicy ≠ none) :
    FeePolicyKept st (TokenStub.PutToken st token) := by
  intro key t hk hp
  unfold TokenStub.PutToken
  simp only [kvGet_kvPut]
  by_cases hkey : TokenStub.CreateKey token.DOCTYPEID = key
  · rw [if_pos hkey]
    exact ⟨token, rfl, h⟩
  · rw [if_neg hkey]
    exact ⟨t, hk, hp⟩

/-- A token `tokenUpdate` decides to store has a fee policy; without an update
the token had none and the metadata carry none. -/
theorem tokenUpdatePolicy_spec (st : State) (token token1 : Token) (policy : Option FeePolicy)
    (update : Bool) (h : tokenUpdatePolicy st token policy = .ok (token1, update)) :
    (update = true → token1.FeePolicy ≠ none)
    ∧ (update = false → token1 = token ∧ token.FeePolicy = none ∧ policy = none) := by
  unfold tokenUpdatePolicy at h
  repeat' split at h
  all_goals cases h
  all_goals refine ⟨fun hu => ?_, fun hf => ?_⟩
  all_goals first
    | exact fun hn => Option.noConfusion hn
    | exact absurd hu Bool.false_ne_true
    | exact ⟨rfl, by assumption, rfl⟩
    | exact absurd hf (by decide)

theorem tokenUpdate_final {st : State} {token token1 : Token} {policy : Option FeePolicy}
    {update : Bool} {ts : Int} (h : tokenUpdatePolicy st token policy = .ok (token1, update))
    (hu : update = true) :
    FeePolicyKept st (TokenStub.PutToken st { token1 with UpdatedTime := some ts }) :=
  FeePolicyKept_put _ _ ((tokenUpdatePolicy_spec _ _ _ _ _ h).1 hu)

theorem tokenUpdate_kept (ctx : Ctx) (st : State) (params : List String) :
    FeePolicyKept st (tokenUpdate ctx st params).2 := by
  unfold tokenUpdate
  repeat' (first
    | exact FeePolicyKept_refl _
    | exact tokenUpdate_final (by assumption) (by assumption)
    | split)

/-- C39.  A token's fee policy never returns to nil.  Whatever the token
metadata lookup returns and however `tokenUpdate` ends, every token row that
had a fee policy before the call has one after it.  When the call reaches the
update (one parameter, a valid code, a known invoker, the token issued, the
metadata valid, the transaction time known): if the metadata carry no fee and
the token has a policy, the token is stored with that policy's target address
and no rates; if the metadata carry a policy without target address, the token
is stored with that policy and the previous target address, or the genesis
account when the token had no policy; if neither has a policy nothing is
stored. -/
theorem fee_policy_stays (ctx : Ctx) (st : State) (params : List String) :
    FeePolicyKept st (tokenUpdate ctx st params).2
    ∧ ∀ (code kid : String) (token : Token) (d m s ts : Int) (policy : Option FeePolicy),
        params.length = 1 → ValidateTokenCode (param params 0) = .ok code → ctx.kid = .ok kid →
        TokenStub.GetToken st code = .ok token →
        getValidatedTokenMeta ctx code = .ok (d, m, s, policy) → GetTime ctx = .ok ts →
        (∀ old, policy = none → token.FeePolicy = some old →
          tokenUpdate ctx st params
            = (.success (.token { token with
                  FeePolicy := some { TargetAddress := old.TargetAddress, Rates := [] },
                  UpdatedTime := some ts }),
               TokenStub.PutToken st { token with
                  FeePolicy := some { TargetAddress := old.TargetAddress, Rates := [] },
                  UpdatedTime := some ts }))
        ∧ (∀ p old, policy = some p → p.TargetAddress = "" → token.FeePolicy = some old →
          tokenUpdate ctx st params
            = (.success (.token { token with
                  FeePolicy := some { TargetAddress := old.TargetAddress, Rates := p.Rates },
                  UpdatedTime := some ts }),
               TokenStub.PutToken st { token with
                  FeePolicy := some { TargetAddress := old.TargetAddress, Rates := p.Rates },
                  UpdatedTime := some ts }))
        ∧ (∀ p, policy = some p → p.TargetAddress = "" → token.FeePolicy = none →
          tokenUpdate ctx st params
            = (.success (.token { token with
                  FeePolicy := some { TargetAddress := token.GenesisAccount, Rates := p.Rates },
                  UpdatedTime := some ts }),
               TokenStub.PutToken st { token with
                  FeePolicy := some { TargetAddress := token.GenesisAccount, Rates := p.Rates },
                  UpdatedTime := some ts }))
        ∧ (policy = none → token.FeePolicy = none →
          tokenUpdate ctx st params = (.success (.token token), st)) := by
  refine ⟨tokenUpdate_kept ctx st params, ?_⟩
  intro code kid token d m s ts policy hlen hcode hkid htoken hmeta hts
  have h1 : ¬ params.length ≠ 1 := not_not.mpr hlen
  refine ⟨?_, ?_, ?_, ?_⟩
  · intro old hp hold
    subst hp
    unfold tokenUpdate tokenUpdatePolicy
    simp only [h1, if_false, hcode, hkid, htoken, hmeta, hold, if_true, hts]
  · intro p old hp htarget hold
    subst hp
    have hl : ¬ p.TargetAddress.length > 0 := by
      rw [htarget]
      decide
    unfold tokenUpdate tokenUpdatePolicy
    simp only [h1, if_false, hcode, hkid, htoken, hmeta, hl, hold, if_true, hts]
  · intro p hp htarget hold
    subst hp
    have hl : ¬ p.TargetAddress.length > 0 := by
      rw [htarget]
      decide
    unfold tokenUpdate tokenUpdatePolicy
    simp only [h1, if_false, hcode, hkid, htoken, hmeta, hl, hold, if_true, hts]
  · intro hp hold
    subst hp
    unfold tokenUpdate tokenUpdatePolicy
    simp only [h1, if_false, hcode, hkid, htoken, hmeta, hold, Bool.false_eq_true]

/-- C39 on `sampleLedger 0 0`, whose token `ABC` has a policy with two rates:
an update from metadata without fee leaves the target address and no rates,
and the token row keeps a policy. -/
theorem fee_policy_stays_witness :
    (TokenStub.GetToken (tokenUpdate sampleMetaCtx (sampleLedger 0 0) ["ABC"]).2 "ABC").map
        (fun t => t.FeePolicy)
      = .ok (some { TargetAddress := "ABC01000000000000000000000000000000000000000000000000",
                    Rates := [] })
    ∧ FeePolicyKept (sampleLedger 0 0) (tokenUpdate sampleMetaCtx (sampleLedger 0 0) ["ABC"]).2 :=
  ⟨by
    rw [((fee_policy_stays sampleMetaCtx (sampleLedger 0 0) ["ABC"]).2 "ABC" sampleKid sampleToken
      0 1000 100 1000 none rfl (by decide) rfl (by decide) (by decide) rfl).1
      { TargetAddress := "ABC01000000000000000000000000000000000000000000000000",
        Rates := [("transfer", ⟨rateTenth, 0⟩), ("pay", ⟨rateHundredth, 5⟩)] } rfl rfl]
    decide,
   (fee_policy_stays sampleMetaCtx (sampleLedger 0 0) ["ABC"]).1⟩

/-- The update decided for `sampleToken` from a policy with the rate
`transfer = 1/10` and no target address: the new rate, the previous target
address. -/
theorem tokenUpdatePolicy_sample :
    (tokenUpdatePolicy (sampleLedger 0 0) sampleToken
        (some { TargetAddress := "", Rates := [("transfer", ⟨rateTenth, 0⟩)] })).map
        (fun r => (r.1.FeePolicy, r.2))
      = .ok (some { TargetAddress := "ABC01000000000000000000000000000000000000000000000000",
                    Rates := [("transfer", ⟨rateTenth, 0⟩)] }, true) := by
  decide

/-! ## The amounts of recorded fees -/

theorem NewFeeRows_of_eq (P : Int → Prop) {st st1 : State} (h : st1.fees = st.fees) :
    NewFeeRows P st st1 := by
  intro key f hk
  rw [h] at hk
  exact Or.inl hk

theorem NewFeeRows_refl (P : Int → Prop) (st : State) : NewFeeRows P st st :=
  NewFeeRows_of_eq P rfl

/-- `CreateFee` records at most one row, of the amount it is given, and none
for the amount zero. -/
theorem CreateFee_rows (P : Int → Prop) {ctx : Ctx} {st0 st st1 : State} {addr : String}
    {amount : Int} {r : Except Error (Option Fee)}
    (heq : FeeStub.CreateFee ctx st addr amount = (r, st1)) (hf : st.fees = st0.fees)
    (hP : amount ≠ 0 → P amount) : NewFeeRows P st0 st1 := by
  unfold FeeStub.CreateFee at heq
  by_cases h0 : amount = 0
  · rw [if_pos h0] at heq
    cases heq
    exact NewFeeRows_of_eq P hf
  · rw [if_neg h0] at heq
    rcases hts : GetTime ctx with e | ts
    · simp only [hts] at heq
      cases heq
      exact NewFeeRows_of_eq P hf
    · simp only [hts, Prod.mk.injEq] at heq
      rw [← heq.2]
      intro key f hk
      simp only [FeeStub.PutFee, kvGet_kvPut] at hk
      split at hk
      · cases hk
        exact Or.inr (hP h0)
      · rw [hf] at hk
        exact Or.inl hk

theorem Deposit_fees (ctx : Ctx) (st : State) (id : String) (sender : Balance) (con : Contract)
    (amount : Int) (fee : Option Int) (memo : String) :
    (BalanceStub.Deposit ctx st id sender con amount fee memo).2.fees = st.fees := by
  unfold BalanceStub.Deposit
  repeat' split
  all_goals rfl

theorem Transfer_rows (P : Int → Prop) (ctx : Ctx) (st : State) (sender receiver : Balance)
    (amount fee : Int) (memo : String) (pendingTime : Option Int) (hP : fee ≠ 0 → P fee) :
    NewFeeRows P st (BalanceStub.Transfer ctx st sender receiver amount fee memo pendingTime).2 := by
  unfold BalanceStub.Transfer
  rcases hts : GetTime ctx with e | ts
  · exact NewFeeRows_refl P st
  · simp only []
    split
    · rename_i heq
      refine CreateFee_rows P heq ?_ hP
      split <;> rfl
    · rename_i heq
      refine CreateFee_rows P heq ?_ hP
      split <;> rfl

theorem TransferPendingBalance_rows (P : Int → Prop) (ctx : Ctx) (st : State)
    (pb : PendingBalance) (receiver : Balance) (pendingTime : Option Int)
    (hP : ∀ f, pb.Fee = some f → f ≠ 0 → P f) :
    NewFeeRows P st (BalanceStub.TransferPendingBalance ctx st pb receiver pendingTime).2 := by
  unfold BalanceStub.TransferPendingBalance
  rcases hts : GetTime ctx with e | ts
  · exact NewFeeRows_refl P st
  · simp only []
    cases hfee : pb.Fee with
    | none =>
      simp only []
      refine NewFeeRows_of_eq P ?_
      split <;> rfl
    | some f =>
      simp only []
      rcases hc : FeeStub.CreateFee ctx
        (if timeLocked pendingTime ts = true then
          (receiver,
            BalanceStub.PutPendingBalance st
              ((NewPendingBalance ctx.txID (Identifiable.balance receiver)
                (Identifiable.balance
                  { DOCTYPEID := pb.Account, Amount := 0, CreatedTime := none, UpdatedTime := none,
                    LastPrunedPayID := "" })
                pb.Amount none pb.Memo pendingTime).created ts))
        else
          ({ receiver with Amount := receiver.Amount + pb.Amount, UpdatedTime := some ts },
            BalanceStub.PutBalanceLog
              (BalanceStub.PutBalance st
                { receiver with Amount := receiver.Amount + pb.Amount, UpdatedTime := some ts })
              ((NewBalanceTransferLog
                { DOCTYPEID := pb.Account, Amount := 0, CreatedTime := none, UpdatedTime := none,
                  LastPrunedPayID := "" }
                { receiver with Amount := receiver.Amount + pb.Amount, UpdatedTime := some ts }
                pb.Amount none pb.Memo).created ts))).2 pb.Account f with ⟨r, st2⟩
      have hrows : NewFeeRows P st st2 := by
        refine CreateFee_rows P hc ?_ (hP f hfee)
        split <;> rfl
      rcases r with e | v
      · exact hrows
      · exact fun key g hk => hrows key g hk

theorem transfer_leaf {ctx : Ctx} {st st1 : State} {sender receiver : Balance} {amount fee : Int}
    {memo : String} {pendingTime : Option Int} {payer : Address}
    {r : Except Error (BalanceLog × Balance × Balance)}
    (heq : BalanceStub.Transfer ctx st sender receiver amount fee memo pendingTime = (r, st1))
    (hfee : FeeStub.CalcFee st payer "transfer" amount = .ok fee) :
    NewFeeRows (fun a => 0 < a) st st1 := by
  have h := Transfer_rows (fun a => 0 < a) ctx st sender receiver amount fee memo pendingTime
    (fun h0 => lt_of_le_of_ne (CalcFee_nonneg hfee) (Ne.symm h0))
  rw [heq] at h
  exact h

theorem deposit_leaf {ctx : Ctx} {st st1 : State} {id : String} {sender : Balance}
    {con : Contract} {amount : Int} {fee : Option Int} {memo : String}
    {r : Except Error (BalanceLog × Balance)} (P : Int → Prop)
    (heq : BalanceStub.Deposit ctx st id sender con amount fee memo = (r, st1)) :
    NewFeeRows P st st1 := by
  have h := Deposit_fees ctx st id sender con amount fee memo
  rw [heq] at h
  exact NewFeeRows_of_eq P h

theorem NewFeeRows_ite {P : Int → Prop} {st : State} {q : Prop} [Decidable q]
    {a b : Response × State} (ha : q → NewFeeRows P st a.2) (hb : ¬ q → NewFeeRows P st b.2) :
    NewFeeRows P st (if q then a else b).2 := by
  split
  · exact ha (by assumption)
  · exact hb (by assumption)

/-- `transfer` records only fees of a positive amount. -/
theorem transfer_rows (ctx : Ctx) (st : State) (params : List String) :
    NewFeeRows (fun a => 0 < a) st (transfer ctx st params).2 := by
  unfold transfer
  repeat' (first
    | exact NewFeeRows_refl _ _
    | exact transfer_leaf (by assumption) (by assumption)
    | exact deposit_leaf _ (by assumption)
    | refine NewFeeRows_ite (fun _ => ?_) (fun _ => ?_)
    | split
    | simp only [])

theorem finalize_leaf {ctx : Ctx} {st st1 : State} {id : String} {pb : PendingBalance}
    {receiver : Balance} {pendingTime : Option Int} {r : Except Error Balance}
    (hinv : PendingNonneg st) (hget : BalanceStub.GetPendingBalance st id = .ok pb)
    (heq : BalanceStub.TransferPendingBalance ctx st pb receiver pendingTime = (r, st1)) :
    NewFeeRows (fun a => 0 < a) st st1 := by
  have hnn : 0 ≤ pb.Fee.getD 0 := by
    unfold BalanceStub.GetPendingBalance at hget
    split at hget
    · rename_i hk
      cases hget
      exact (hinv _ _ hk).2
    · cases hget
  have h := TransferPendingBalance_rows (fun a => 0 < a) ctx st pb receiver pendingTime
    (fun f hf h0 => by
      rw [hf] at hnn
      exact lt_of_le_of_ne hnn (Ne.symm h0))
  rw [heq] at h
  exact h

/-- `executeTransfer` records only fees of a positive amount, when no stored
pending balance holds a negative fee. -/
theorem executeTransfer_rows (ctx : Ctx) (st : State) (cid : String) (doc : List DocVal)
    (hinv : PendingNonneg st) :
    NewFeeRows (fun a => 0 < a) st (executeTransfer ctx st cid doc).2 := by
  unfold executeTransfer
  repeat' (first
    | exact NewFeeRows_refl _ _
    | exact finalize_leaf hinv (by assumption) (by assumption)
    | refine NewFeeRows_ite (fun _ => ?_) (fun _ => ?_)
    | split
    | simp only [])

theorem payPrune_leaf {ctx : Ctx} {st st2 st3 : State} {bal1 : Balance} {addr id : String}
    {stime etime : Int} {r : Except Error (Option Fee)}
    (heq : FeeStub.CreateFee ctx (BalanceStub.PutBalance st bal1) addr
      (PayStub.GetPaySumByTime st id stime etime).Fee = (r, st2))
    (hf : st3.fees = st2.fees) :
    NewFeeRows (fun a => a ≠ 0 ∧ ∃ id stime etime,
      a = batchFee ((queryPrunePays st id stime etime).take PaysPruneSize)) st st3 := by
  have h : NewFeeRows (fun a => a ≠ 0 ∧ ∃ id stime etime,
      a = batchFee ((queryPrunePays st id stime etime).take PaysPruneSize)) st st2 := by
    refine CreateFee_rows _ heq rfl (fun h0 => ⟨h0, id, stime, etime, ?_⟩)
    rw [GetPaySumByTime_batch]
  intro key f hk
  rw [hf] at hk
  exact h key f hk

/-- `payPrune` records only a fee that is not zero: the sum of the fees of the
batch it prunes. -/
theorem payPrune_rows (ctx : Ctx) (st : State) (params : List String) :
    NewFeeRows (fun a => a ≠ 0 ∧ ∃ id stime etime,
      a = batchFee ((queryPrunePays st id stime etime).take PaysPruneSize)) st
      (payPrune ctx st params).2 := by
  unfold payPrune
  simp only []
  repeat' (first
    | exact NewFeeRows_refl _ _
    | (rename_i heq
       exact payPrune_leaf heq rfl)
    | refine NewFeeRows_ite (fun _ => ?_) (fun _ => ?_)
    | split)

theorem queryPrunePays_mem (st : State) (id : String) (stime etime : Int) (c : Pay)
    (h : c ∈ queryPrunePays st id stime etime) : c ∈ st.pays.map Prod.snd := by
  unfold queryPrunePays at h
  have h1 := (List.perm_insertionSort _ _).mem_iff.mp h
  simp only [List.mem_filter, List.mem_map, List.mem_reverse] at h1
  exact List.mem_map.mpr h1.1

/-- C37, counterexample.  On `sampleRefundedLedger` the merchant has pruned a
pay of 100 with fee 5 and then refunded it in full; the refund row carries the
fee -5.  The merchant's next `pay/prune` succeeds and records a Fee row of
amount -5. -/
theorem payPrune_records_negative_fee :
    kvGet sampleRefundedLedger.fees (FeeStub.CreateKey "2000tx2") = none
    ∧ (payPrune sampleLaterCtx sampleRefundedLedger ["ABC", "false"]).1.isSuccess = true
    ∧ (kvGet (payPrune sampleLaterCtx sampleRefundedLedger ["ABC", "false"]).2.fees
        (FeeStub.CreateKey "2000tx2")).map (fun f => (f.Account, f.Amount))
      = some (sampleSenderID, -5) := by
  decide

/-- C37 (amended).  The Fee rows recorded by an instant or time-locked
`transfer` have a strictly positive amount, and so have the rows recorded by
the escrow finalize `executeTransfer` when no stored pending balance holds a
negative fee (no operation stores one).  `payPrune` records the sum of the fees
of the batch of pay rows it prunes, in which refund rows count negative: the
amount of the row is never zero, it is strictly positive when no stored pay row
has a negative fee, and it can be negative otherwise.  `CreateFee` itself
records the amount it is given unless that is zero. -/
theorem fee_rows_amounts (ctx : Ctx) (st : State) :
    (∀ params, NewFeeRows (fun a => 0 < a) st (transfer ctx st params).2)
    ∧ (PendingNonneg st →
        ∀ cid doc, NewFeeRows (fun a => 0 < a) st (executeTransfer ctx st cid doc).2)
    ∧ (∀ params, NewFeeRows (fun a => a ≠ 0 ∧ ∃ id stime etime,
          a = batchFee ((queryPrunePays st id stime etime).take PaysPruneSize)) st
        (payPrune ctx st params).2)
    ∧ ((∀ c ∈ st.pays.map Prod.snd, 0 ≤ c.Fee) →
        ∀ params, NewFeeRows (fun a => 0 < a) st (payPrune ctx st params).2)
    ∧ (∀ addr amount, NewFeeRows (fun a => a = amount ∧ a ≠ 0) st
        (FeeStub.CreateFee ctx st addr amount).2) := by
  refine ⟨transfer_rows ctx st, fun hinv cid doc => executeTransfer_rows ctx st cid doc hinv,
    payPrune_rows ctx st, ?_, ?_⟩
  · intro hfees params key f hk
    rcases payPrune_rows ctx st params key f hk with h | ⟨h0, id, stime, etime, hsum⟩
    · exact Or.inl h
    · refine Or.inr (lt_of_le_of_ne ?_ (Ne.symm h0))
      rw [hsum]
      unfold batchFee
      refine List.sum_nonneg ?_
      intro x hx
      obtain ⟨c, hc, rfl⟩ := List.mem_map.mp hx
      exact hfees c (queryPrunePays_mem st id stime etime c (List.mem_of_mem_take hc))
  · intro addr amount
    exact CreateFee_rows _ (r := (FeeStub.CreateFee ctx st addr amount).1) rfl rfl
      (fun h0 => ⟨rfl, h0⟩)

/-- C37 (amended) on `sampleEscrowLedger`: the finalize of the escrow of 40 with
fee 2 records a Fee row of 2. -/
theorem fee_rows_amounts_witness :
    (kvGet (executeTransfer sampleCtx sampleEscrowLedger "c1" (sampleTransferDoc "tx0")).2.fees
        (FeeStub.CreateKey "1000tx1")).map (fun f => f.Amount) = some 2
    ∧ NewFeeRows (fun a => 0 < a) sampleEscrowLedger
        (executeTransfer sampleCtx sampleEscrowLedger "c1" (sampleTransferDoc "tx0")).2 :=
  ⟨by decide,
   (fee_rows_amounts sampleCtx sampleEscrowLedger).2.1
     (@LedgerInv_of_rows sampleEscrowLedger (by decide) (by decide)).2 "c1"
     (sampleTransferDoc "tx0")⟩

/-! ## Audit-log consistency -/

theorem append_right_cancel_str (a b s : String) (h : a ++ s = b ++ s) : a = b := by
  have h1 := congrArg String.data h
  simp only [String.data_append, List.append_cancel_right_eq] at h1
  exact String.ext h1

theorem BalanceStub.CreateLogKey_ne (a b : String) (ts : Int) (h : a ≠ b) :
    BalanceStub.CreateLogKey a ts ≠ BalanceStub.CreateLogKey b ts := by
  intro hk
  unfold BalanceStub.CreateLogKey at hk
  have h1 := append_right_cancel_str _ _ _ hk
  have h2 := append_right_cancel_str _ _ _ h1
  exact h (append_left_cancel_str _ _ _ h2)

theorem CreateFee_snd (ctx : Ctx) (st : State) (addr : String) (amount : Int) :
    ∃ fees1, (FeeStub.CreateFee ctx st addr amount).2 = { st with fees := fees1 } := by
  unfold FeeStub.CreateFee
  split
  · exact ⟨st.fees, rfl⟩
  · split
    · exact ⟨st.fees, rfl⟩
    · exact ⟨_, rfl⟩

theorem audit_supply (ctx : Ctx) (st : State) (bal : Balance) (amount ts : Int)
    (hts : GetTime ctx = .ok ts) :
    ∃ log bal1 st1, BalanceStub.Supply ctx st bal amount = (.ok (log, bal1), st1)
      ∧ AuditConsistent bal st1 log
      ∧ log.Typ = (if amount < 0 then BalanceLogType.Burn else BalanceLogType.Mint)
      ∧ log.Diff = amount := by
  rw [BalanceStub.Supply_spec ctx st bal amount ts hts]
  have hf := supplyLog_fields
    { bal with Amount := bal.Amount + amount, UpdatedTime := some ts } amount ts
  refine ⟨_, _, _, rfl, ⟨hf.1, ?_, ?_, ?_⟩, hf.2.2.2.2, hf.2.2.1⟩
  · rw [hf.1, hf.2.1]
    simp [kvGet_kvPut]
  · rw [hf.1, hf.2.2.2.1]
    simp [Except.map, BalanceStub.GetBalance, kvGet_kvPut]
  · unfold NewBalanceSupplyLog
    split <;> simp [BalanceLog.created, BalanceLog.zero]

theorem audit_deposit (ctx : Ctx) (st : State) (id : String) (sender : Balance)
    (con : Contract) (amount : Int) (fee : Option Int) (memo : String) (ts expiry : Int)
    (hts : GetTime ctx = .ok ts) (hexp : con.expiryTime = .ok expiry) :
    ∃ log bal1 st1,
      BalanceStub.Deposit ctx st id sender con amount fee memo = (.ok (log, bal1), st1)
      ∧ AuditConsistent sender st1 log ∧ log.Typ = BalanceLogType.Deposit
      ∧ log.Diff = -amount ∧ log.Fee = fee := by
  unfold BalanceStub.Deposit
  simp only [hts, hexp]
  refine ⟨_, _, _, rfl, ⟨rfl, ?_, ?_, ?_⟩, rfl, rfl, rfl⟩
  · simp [BalanceStub.PutBalanceLog, NewBalanceDepositLog, BalanceLog.created, BalanceLog.zero,
      kvGet_kvPut]
  · simp [Except.map, BalanceStub.GetBalance, BalanceStub.PutBalanceLog, BalanceStub.PutBalance,
      BalanceStub.PutPendingBalance, NewBalanceDepositLog, BalanceLog.created, BalanceLog.zero,
      kvGet_kvPut]
  · simp only [NewBalanceDepositLog, BalanceLog.created, BalanceLog.zero, NewPendingBalance,
      PendingBalance.created, appliedAmount_eq]
    omega

theorem audit_withdraw (ctx : Ctx) (st : State) (pb : PendingBalance) (bal : Balance)
    (ts : Int) (hts : GetTime ctx = .ok ts)
    (hbal : BalanceStub.GetBalance st pb.Account = .ok bal) :
    ∃ log st1, BalanceStub.Withdraw ctx st pb = (.ok log, st1)
      ∧ AuditConsistent bal st1 log ∧ log.Typ = BalanceLogType.Withdraw
      ∧ log.Diff = pb.Amount + pb.Fee.getD 0 ∧ log.Fee = none := by
  unfold BalanceStub.Withdraw
  simp only [hts, hbal]
  refine ⟨_, _, rfl, ⟨rfl, ?_, ?_, ?_⟩, rfl, ?_, rfl⟩
  · simp [BalanceStub.DelPendingBalance, BalanceStub.PutBalanceLog, NewBalanceWithdrawLog,
      BalanceLog.created, BalanceLog.zero, kvGet_kvPut]
  · simp [Except.map, BalanceStub.GetBalance, BalanceStub.DelPendingBalance, BalanceStub.PutBalanceLog,
      BalanceStub.PutBalance, NewBalanceWithdrawLog, BalanceLog.created, BalanceLog.zero,
      kvGet_kvPut]
  · simp only [NewBalanceWithdrawLog, BalanceLog.created, BalanceLog.zero, appliedAmount_eq,
      Option.getD_none]
    omega
  · simp only [NewBalanceWithdrawLog, BalanceLog.created, BalanceLog.zero, appliedAmount_eq]

theorem audit_pay (ctx : Ctx) (st : State) (sender : Balance) (receiver : String)
    (amount fee : Int) (orderID memo : String) (ts : Int) (hts : GetTime ctx = .ok ts) :
    ∃ pay log bal1 st1,
      PayStub.Pay ctx st sender receiver amount fee orderID memo
        = (.ok ({ Pay := some pay, BalanceLog := some log }, bal1), st1)
      ∧ AuditConsistent sender st1 log ∧ log.Typ = BalanceLogType.Pay
      ∧ log.Diff = -amount ∧ log.Fee = none := by
  unfold PayStub.Pay
  simp only [hts]
  refine ⟨_, _, _, _, rfl, ⟨rfl, ?_, ?_, ?_⟩, rfl, rfl, rfl⟩
  · simp [BalanceStub.PutBalanceLog, NewBalancePayLog, BalanceLog.created, BalanceLog.zero,
      kvGet_kvPut]
  · simp [Except.map, BalanceStub.GetBalance, BalanceStub.PutBalanceLog, BalanceStub.PutBalance,
      PayStub.PutPay, NewBalancePayLog, BalanceLog.created, BalanceLog.zero, kvGet_kvPut]
  · simp only [NewBalancePayLog, BalanceLog.created, BalanceLog.zero, NewPay, Option.getD_none]
    omega

theorem audit_refund (ctx : Ctx) (st : State) (sender receiver : Balance) (amount fee : Int)
    (memo : String) (parentPay : Pay) (ts : Int) (hts : GetTime ctx = .ok ts) :
    ∃ log bal1 parent1 st1,
      PayStub.Refund ctx st sender receiver amount fee memo parentPay
        = (.ok (log, bal1, parent1), st1)
      ∧ AuditConsistent receiver st1 log ∧ log.Typ = BalanceLogType.Refund
      ∧ log.Diff = amount ∧ log.Fee = none := by
  unfold PayStub.Refund
  simp only [hts]
  refine ⟨_, _, _, _, rfl, ⟨rfl, ?_, ?_, ?_⟩, rfl, ?_, rfl⟩
  · simp [BalanceStub.PutBalanceLog, NewBalanceRefundLog, BalanceLog.created, BalanceLog.zero,
      kvGet_kvPut]
  · simp [Except.map, BalanceStub.GetBalance, BalanceStub.PutBalanceLog, BalanceStub.PutBalance,
      PayStub.PutPay, PayStub.PutParentPay, NewBalanceRefundLog, BalanceLog.created,
      BalanceLog.zero, kvGet_kvPut]
  · simp only [NewBalanceRefundLog, BalanceLog.created, BalanceLog.zero, NewPay,
      Option.getD_none, neg_neg]
    omega
  · simp only [NewBalanceRefundLog, BalanceLog.created, BalanceLog.zero, NewPay, neg_neg]

theorem CreateFee_of_time {ctx : Ctx} {st st1 : State} {addr : String} {amount ts : Int}
    {r : Except Error (Option Fee)} (heq : FeeStub.CreateFee ctx st addr amount = (r, st1))
    (hts : GetTime ctx = .ok ts) :
    ∃ v fees1, r = .ok v ∧ st1 = { st with fees := fees1 } := by
  obtain ⟨v, fees1, h⟩ := FeeStub.CreateFee_frame ctx st addr amount ts hts
  rw [heq] at h
  exact ⟨v, fees1, (Prod.mk.inj h).1, (Prod.mk.inj h).2⟩

theorem audit_transfer (ctx : Ctx) (st : State) (sender receiver : Balance) (amount fee : Int)
    (memo : String) (pendingTime : Option Int) (ts : Int) (hts : GetTime ctx = .ok ts)
    (hpos : 0 < amount) :
    ∃ sbl sender1 receiver1 st1,
      BalanceStub.Transfer ctx st sender receiver amount fee memo pendingTime
        = (.ok (sbl, sender1, receiver1), st1)
      ∧ AuditConsistent sender st1 sbl ∧ sbl.Typ = BalanceLogType.Send
      ∧ sbl.Diff = -amount ∧ sbl.Fee = some fee
      ∧ (timeLocked pendingTime ts = false → sender.DOCTYPEID ≠ receiver.DOCTYPEID →
          ∃ rbl, AuditConsistent receiver st1 rbl ∧ rbl.Typ = BalanceLogType.Receive
            ∧ rbl.Diff = amount ∧ rbl.Fee = none) := by
  have hneg : -amount < 0 := by omega
  have hnn : ¬ amount < 0 := by omega
  unfold BalanceStub.Transfer
  simp only [hts]
  split
  · rename_i heq
    obtain ⟨v, fees1, hr, -⟩ := CreateFee_of_time heq hts
    cases hr
  · rename_i heq
    obtain ⟨v, fees1, -, hst⟩ := CreateFee_of_time heq hts
    rw [hst]
    refine ⟨_, _, _, _, rfl, ⟨?_, ?_, ?_, ?_⟩, ?_, ?_, ?_, ?_⟩
    · simp [NewBalanceTransferLog, hneg, BalanceLog.created, BalanceLog.zero]
    · simp [NewBalanceTransferLog, hneg, BalanceLog.created, BalanceLog.zero,
        BalanceStub.PutBalanceLog, kvGet_kvPut]
    · simp [Except.map, NewBalanceTransferLog, hneg, BalanceLog.created, BalanceLog.zero,
        BalanceStub.GetBalance, BalanceStub.PutBalanceLog, BalanceStub.PutBalance, kvGet_kvPut]
    · simp only [NewBalanceTransferLog, hneg, if_true, BalanceLog.created, BalanceLog.zero,
        Option.getD_some]
      omega
    · simp [NewBalanceTransferLog, hneg, BalanceLog.created, BalanceLog.zero]
    · simp [NewBalanceTransferLog, hneg, BalanceLog.created, BalanceLog.zero]
    · simp [NewBalanceTransferLog, hneg, BalanceLog.created, BalanceLog.zero]
    · intro hl hne
      have hk : BalanceStub.CreateKey sender.DOCTYPEID ≠ BalanceStub.CreateKey receiver.DOCTYPEID :=
        fun h => hne (BalanceStub.CreateKey_inj _ _ h)
      have hlk := BalanceStub.CreateLogKey_ne _ _ ts hne
      refine ⟨(NewBalanceTransferLog sender
        { receiver with Amount := receiver.Amount + amount, UpdatedTime := some ts }
        amount none memo).created ts, ⟨?_, ?_, ?_, ?_⟩, ?_, ?_, ?_⟩
      · simp [NewBalanceTransferLog, hnn, BalanceLog.created, BalanceLog.zero]
      · simp [hl, NewBalanceTransferLog, hnn, hneg, BalanceLog.created, BalanceLog.zero,
          BalanceStub.PutBalanceLog, BalanceStub.PutBalance, kvGet_kvPut, hlk]
      · simp [Except.map, hl, NewBalanceTransferLog, hnn, hneg, BalanceLog.created,
          BalanceLog.zero, BalanceStub.GetBalance, BalanceStub.PutBalanceLog,
          BalanceStub.PutBalance, kvGet_kvPut, hk]
      · simp [NewBalanceTransferLog, hnn, BalanceLog.created, BalanceLog.zero]
      · simp [NewBalanceTransferLog, hnn, BalanceLog.created, BalanceLog.zero]
      · simp [NewBalanceTransferLog, hnn, BalanceLog.created, BalanceLog.zero]
      · simp [NewBalanceTransferLog, hnn, BalanceLog.created, BalanceLog.zero]

theorem audit_finalize (ctx : Ctx) (st : State) (pb : PendingBalance) (receiver : Balance)
    (pendingTime : Option Int) (ts : Int) (hts : GetTime ctx = .ok ts) (ha : 0 ≤ pb.Amount)
    (hl : timeLocked pendingTime ts = false) :
    ∃ receiver1 st1,
      BalanceStub.TransferPendingBalance ctx st pb receiver pendingTime = (.ok receiver1, st1)
      ∧ ∃ rbl, AuditConsistent receiver st1 rbl ∧ rbl.Typ = BalanceLogType.Receive
          ∧ rbl.Diff = pb.Amount ∧ rbl.Fee = none := by
  rw [TransferPendingBalance_unlocked ctx st pb receiver pendingTime ts hts ha hl]
  refine ⟨_, _, rfl, specReceiveLog receiver pb.Account pb.Amount pb.Memo ts,
    ⟨rfl, ?_, ?_, ?_⟩, rfl, rfl, rfl⟩
  · simp [specFinalizeState, specReceiveLog, kvGet_kvPut]
  · simp [Except.map, BalanceStub.GetBalance, specFinalizeState, specReceiveLog, kvGet_kvPut]
  · simp only [specReceiveLog, Option.getD_none]
    omega

theorem audit_payPrune (ctx : Ctx) (st : State) (params : List String) (kid : String)
    (addr : Address) (account : AccountDoc) (bal : Balance) (stime etime ts : Int)
    (hlen : 2 ≤ params.length) (hkid : ctx.kid = .ok kid)
    (haddr : codeOrAddress ctx (param params 0) kid = .ok addr)
    (hacc : AccountStub.GetAccount st addr = .ok account)
    (hholder : account.HasHolder kid = true) (hsus : account.IsSuspended = false)
    (hbal : BalanceStub.GetBalance st account.GetID = .ok bal)
    (hstart : pruneStartTime bal.LastPrunedPayID = some (.ok stime))
    (hts : GetTime ctx = .ok ts)
    (hend : pruneEndTime params ts "wrong first params value. the value must be true or false"
      = .ok etime)
    (hids : ∀ c ∈ (queryPrunePays st account.GetID stime etime).take PaysPruneSize,
      c.PayID ≠ "") :
    (payPrune ctx st params).1.isSuccess = true
    ∧ ∃ log, AuditConsistent bal (payPrune ctx st params).2 log
        ∧ log.Typ = BalanceLogType.PrunePay ∧ log.Fee = none
        ∧ log.Diff = (PayStub.GetPaySumByTime st account.GetID stime etime).Sum
            - (PayStub.GetPaySumByTime st account.GetID stime etime).Fee := by
  rw [payPrune_accepted ctx st params kid addr account bal stime etime ts hlen hkid haddr hacc
    hholder hsus hbal hstart hts hend hids]
  refine ⟨rfl, specPrunePayLog bal
    ((queryPrunePays st account.GetID stime etime).take PaysPruneSize) ts,
    ⟨rfl, ?_, ?_, ?_⟩, rfl, rfl, ?_⟩
  · simp [specPrunePayState, specPrunePayLog, kvGet_kvPut]
  · simp [Except.map, BalanceStub.GetBalance, specPrunePayState, specPrunePayLog,
      specPrunedBalance, kvGet_kvPut]
  · simp only [specPrunePayLog, Option.getD_none]
    omega
  · rw [GetPaySumByTime_batch]
    rfl

theorem audit_feePrune (ctx : Ctx) (st : State) (params : List String) (code kid : String)
    (token : Token) (policy : FeePolicy) (addr : Address) (account : AccountDoc) (bal : Balance)
    (stime etime ts : Int)
    (hlen : 2 ≤ params.length) (hcode : ValidateTokenCode (param params 0) = .ok code)
    (hkid : ctx.kid = .ok kid) (hts : GetTime ctx = .ok ts)
    (hend : pruneEndTime params ts "invalid boolean flag" = .ok etime)
    (htok : TokenStub.GetToken st code = .ok token)
    (hpol : token.FeePolicy = some policy)
    (haddr : ParseAddress ctx.shake policy.TargetAddress = .ok addr)
    (hacc : AccountStub.GetAccount st addr = .ok account)
    (hhold : account.HasHolder kid = true)
    (hbal : BalanceStub.GetBalance st account.GetID = .ok bal)
    (hid : bal.DOCTYPEID = account.GetID)
    (hcur : pruneStartTime token.LastPrunedFeeID = some (.ok stime)) :
    (feePrune ctx st params).1.isSuccess = true
    ∧ ∃ log, AuditConsistent bal (feePrune ctx st params).2 log
        ∧ log.Typ = BalanceLogType.PruneFee ∧ log.Fee = none
        ∧ log.Diff = (FeeStub.GetFeeSumByTime st code stime etime).Sum := by
  have h2 : ¬ params.length < 2 := by omega
  have hzero : (FeeStub.GetFeeSumByTime st code stime etime).Count = 0 →
      (FeeStub.GetFeeSumByTime st code stime etime).Sum = 0 := by
    unfold FeeStub.GetFeeSumByTime
    obtain ⟨h1, -, h3, -⟩ := feeSumLoop_spec (queryPruneFee st code stime etime) 0
      { Sum := 0, Count := 0, Start := "", End := "", HasMore := false } (Nat.zero_le _)
    intro hc
    rw [h1] at hc
    have hnil : queryPruneFee st code stime etime = [] := by
      apply List.length_eq_zero.mp
      have : FeePruneSize = 900 := rfl
      omega
    rw [h3, hnil]
    rfl
  have hstored : kvGet st.balances (BalanceStub.CreateKey bal.DOCTYPEID) = some bal := by
    rw [hid]
    unfold BalanceStub.GetBalance at hbal
    split at hbal
    · rename_i hk
      cases hbal
      exact hk
    · cases hbal
  unfold feePrune
  simp only [h2, if_false, hcode, htok, hkid, hpol, haddr, hacc, hhold, Bool.not_true,
    Bool.false_eq_true, hcur, hts, hend, hbal]
  refine ⟨rfl, ?_⟩
  by_cases hc : (FeeStub.GetFeeSumByTime st code stime etime).Count > 0
  · simp only [hc, if_true]
    refine ⟨(NewBalancePruneFeeLog
      { bal with Amount := bal.Amount + (FeeStub.GetFeeSumByTime st code stime etime).Sum,
                 UpdatedTime := some ts }
      (FeeStub.GetFeeSumByTime st code stime etime).Sum
      (FeeStub.GetFeeSumByTime st code stime etime).Start
      (FeeStub.GetFeeSumByTime st code stime etime).End).created ts,
      ⟨rfl, ?_, ?_, ?_⟩, rfl, rfl, rfl⟩
    · simp [NewBalancePruneFeeLog, BalanceLog.created, BalanceLog.zero,
        BalanceStub.PutBalanceLog, kvGet_kvPut]
    · simp [Except.map, BalanceStub.GetBalance, NewBalancePruneFeeLog, BalanceLog.created,
        BalanceLog.zero, BalanceStub.PutBalanceLog, BalanceStub.PutBalance, TokenStub.PutToken,
        kvGet_kvPut]
    · simp only [NewBalancePruneFeeLog, BalanceLog.created, BalanceLog.zero, Option.getD_none]
      omega
  · simp only [hc, if_false]
    refine ⟨(NewBalancePruneFeeLog bal
      (FeeStub.GetFeeSumByTime st code stime etime).Sum
      (FeeStub.GetFeeSumByTime st code stime etime).Start
      (FeeStub.GetFeeSumByTime st code stime etime).End).created ts,
      ⟨rfl, ?_, ?_, ?_⟩, rfl, rfl, rfl⟩
    · simp [NewBalancePruneFeeLog, BalanceLog.created, BalanceLog.zero,
        BalanceStub.PutBalanceLog, kvGet_kvPut]
    · simp [Except.map, BalanceStub.GetBalance, NewBalancePruneFeeLog, BalanceLog.created,
        BalanceLog.zero, BalanceStub.PutBalanceLog, hstored]
    · have h0 := hzero (by omega)
      simp only [NewBalancePruneFeeLog, BalanceLog.created, BalanceLog.zero, Option.getD_none,
        h0]
      omega

/-- C34.  Audit-log consistency.  Once the transaction time is known, every
mutation stores its balance log, the log's amount is the balance the mutation
stores for the log's account, and that amount is the balance before the
mutation plus the log's diff minus the log's fee (a missing fee taken as 0):
the Mint or Burn log of `Supply`; the Send log of `Transfer` of a positive
amount and, when the transfer is not time-locked and the two balances differ,
its Receive log; the Receive log of `TransferPendingBalance` without time lock
for an escrow that is not negative; the Deposit log of `Deposit`; the Withdraw
log of `Withdraw`; the Pay log of `Pay`; the Refund log of `Refund`; the
PrunePay log of an accepted `payPrune`, whose diff is the sum of the batch
minus its fees; the PruneFee log of an accepted `feePrune`. -/
theorem audit_log_consistency (ctx : Ctx) (st : State) (ts : Int) (hts : GetTime ctx = .ok ts) :
    (∀ bal amount, ∃ log bal1 st1,
        BalanceStub.Supply ctx st bal amount = (.ok (log, bal1), st1)
        ∧ AuditConsistent bal st1 log
        ∧ log.Typ = (if amount < 0 then BalanceLogType.Burn else BalanceLogType.Mint)
        ∧ log.Diff = amount)
    ∧ (∀ sender receiver amount fee memo pendingTime, 0 < amount →
        ∃ sbl sender1 receiver1 st1,
          BalanceStub.Transfer ctx st sender receiver amount fee memo pendingTime
            = (.ok (sbl, sender1, receiver1), st1)
          ∧ AuditConsistent sender st1 sbl ∧ sbl.Typ = BalanceLogType.Send
          ∧ sbl.Diff = -amount ∧ sbl.Fee = some fee
          ∧ (timeLocked pendingTime ts = false → sender.DOCTYPEID ≠ receiver.DOCTYPEID →
              ∃ rbl, AuditConsistent receiver st1 rbl ∧ rbl.Typ = BalanceLogType.Receive
                ∧ rbl.Diff = amount ∧ rbl.Fee = none))
    ∧ (∀ pb receiver pendingTime, 0 ≤ pb.Amount → timeLocked pendingTime ts = false →
        ∃ receiver1 st1,
          BalanceStub.TransferPendingBalance ctx st pb receiver pendingTime
            = (.ok receiver1, st1)
          ∧ ∃ rbl, AuditConsistent receiver st1 rbl ∧ rbl.Typ = BalanceLogType.Receive
              ∧ rbl.Diff = pb.Amount ∧ rbl.Fee = none)
    ∧ (∀ id sender con amount fee memo expiry, con.expiryTime = .ok expiry →
        ∃ log bal1 st1,
          BalanceStub.Deposit ctx st id sender con amount fee memo = (.ok (log, bal1), st1)
          ∧ AuditConsistent sender st1 log ∧ log.Typ = BalanceLogType.Deposit
          ∧ log.Diff = -amount ∧ log.Fee = fee)
    ∧ (∀ pb bal, BalanceStub.GetBalance st pb.Account = .ok bal →
        ∃ log st1, BalanceStub.Withdraw ctx st pb = (.ok log, st1)
          ∧ AuditConsistent bal st1 log ∧ log.Typ = BalanceLogType.Withdraw
          ∧ log.Diff = pb.Amount + pb.Fee.getD 0 ∧ log.Fee = none)
    ∧ (∀ sender receiver amount fee orderID memo, ∃ pay log bal1 st1,
        PayStub.Pay ctx st sender receiver amount fee orderID memo
          = (.ok ({ Pay := some pay, BalanceLog := some log }, bal1), st1)
        ∧ AuditConsistent sender st1 log ∧ log.Typ = BalanceLogType.Pay
        ∧ log.Diff = -amount ∧ log.Fee = none)
    ∧ (∀ sender receiver amount fee memo parentPay, ∃ log bal1 parent1 st1,
        PayStub.Refund ctx st sender receiver amount fee memo parentPay
          = (.ok (log, bal1, parent1), st1)
        ∧ AuditConsistent receiver st1 log ∧ log.Typ = BalanceLogType.Refund
        ∧ log.Diff = amount ∧ log.Fee = none)
    ∧ (∀ params kid addr account bal stime etime,
        2 ≤ params.length → ctx.kid = .ok kid →
        codeOrAddress ctx (param params 0) kid = .ok addr →
        AccountStub.GetAccount st addr = .ok account →
        account.HasHolder kid = true → account.IsSuspended = false →
        BalanceStub.GetBalance st account.GetID = .ok bal →
        pruneStartTime bal.LastPrunedPayID = some (.ok stime) →
        pruneEndTime params ts "wrong first params value. the value must be true or false"
          = .ok etime →
        (∀ c ∈ (queryPrunePays st account.GetID stime etime).take PaysPruneSize,
          c.PayID ≠ "") →
        (payPrune ctx st params).1.isSuccess = true
        ∧ ∃ log, AuditConsistent bal (payPrune ctx st params).2 log
            ∧ log.Typ = BalanceLogType.PrunePay ∧ log.Fee = none
            ∧ log.Diff = (PayStub.GetPaySumByTime st account.GetID stime etime).Sum
                - (PayStub.GetPaySumByTime st account.GetID stime etime).Fee)
    ∧ (∀ params code kid token policy addr account bal stime etime,
        2 ≤ params.length → ValidateTokenCode (param params 0) = .ok code →
        ctx.kid = .ok kid → pruneEndTime params ts "invalid boolean flag" = .ok etime →
        TokenStub.GetToken st code = .ok token → token.FeePolicy = some policy →
        ParseAddress ctx.shake policy.TargetAddress = .ok addr →
        AccountStub.GetAccount st addr = .ok account → account.HasHolder kid = true →
        BalanceStub.GetBalance st account.GetID = .ok bal → bal.DOCTYPEID = account.GetID →
        pruneStartTime token.LastPrunedFeeID = some (.ok stime) →
        (feePrune ctx st params).1.isSuccess = true
        ∧ ∃ log, AuditConsistent bal (feePrune ctx st params).2 log
            ∧ log.Typ = BalanceLogType.PruneFee ∧ log.Fee = none
            ∧ log.Diff = (FeeStub.GetFeeSumByTime st code stime etime).Sum) :=
  ⟨fun bal amount => audit_supply ctx st bal amount ts hts,
   fun sender receiver amount fee memo pendingTime hpos =>
     audit_transfer ctx st sender receiver amount fee memo pendingTime ts hts hpos,
   fun pb receiver pendingTime ha hl => audit_finalize ctx st pb receiver pendingTime ts hts ha hl,
   fun id sender con amount fee memo expiry hexp =>
     audit_deposit ctx st id sender con amount fee memo ts expiry hts hexp,
   fun pb bal hbal => audit_withdraw ctx st pb bal ts hts hbal,
   fun sender receiver amount fee orderID memo =>
     audit_pay ctx st sender receiver amount fee orderID memo ts hts,
   fun sender receiver amount fee memo parentPay =>
     audit_refund ctx st sender receiver amount fee memo parentPay ts hts,
   fun params kid addr account bal stime etime hlen hkid haddr hacc hholder hsus hbal hstart
       hend hids =>
     audit_payPrune ctx st params kid addr account bal stime etime ts hlen hkid haddr hacc
       hholder hsus hbal hstart hts hend hids,
   fun params code kid token policy addr account bal stime etime hlen hcode hkid hend htok hpol
       haddr hacc hhold hbal hid hcur =>
     audit_feePrune ctx st params code kid token policy addr account bal stime etime ts hlen
       hcode hkid hts hend htok hpol haddr hacc hhold hbal hid hcur⟩

/-- C34 on `sampleLedger 100 5`: the logs of an instant transfer of 30 with fee
3 from the first sample balance to the second. -/
theorem audit_log_consistency_witness :
    ∃ sbl sender1 receiver1 st1,
      BalanceStub.Transfer sampleCtx (sampleLedger 100 5) (sampleBalance sampleSenderID 100)
          (sampleBalance sampleReceiverID 5) 30 3 "m" none
        = (.ok (sbl, sender1, receiver1), st1)
      ∧ AuditConsistent (sampleBalance sampleSenderID 100) st1 sbl
      ∧ sbl.Typ = BalanceLogType.Send ∧ sbl.Diff = -30 ∧ sbl.Fee = some 3
      ∧ (timeLocked none 1000 = false →
          (sampleBalance sampleSenderID 100).DOCTYPEID
            ≠ (sampleBalance sampleReceiverID 5).DOCTYPEID →
          ∃ rbl, AuditConsistent (sampleBalance sampleReceiverID 5) st1 rbl
            ∧ rbl.Typ = BalanceLogType.Receive ∧ rbl.Diff = 30 ∧ rbl.Fee = none) :=
  (audit_log_consistency sampleCtx (sampleLedger 100 5) 1000 rfl).2.1
    (sampleBalance sampleSenderID 100) (sampleBalance sampleReceiverID 5) 30 3 "m" none
    (by decide)

/-- The amounts of the two logs of that transfer: 67 = 100 - 30 - 3 for the
sender and 35 = 5 + 30 for the receiver. -/
theorem audit_log_sample :
    ((BalanceStub.Transfer sampleCtx (sampleLedger 100 5) (sampleBalance sampleSenderID 100)
        (sampleBalance sampleReceiverID 5) 30 3 "m" none).2.balanceLogs.map
      (fun p => (p.2.Typ, p.2.Diff, p.2.Fee, p.2.Amount)))
      = [(BalanceLogType.Send, -30, some 3, 67), (BalanceLogType.Receive, 30, none, 35)] := by
  decide

/-! ## The fees of repeated refunds -/

/-- The refunded fee `f` of a refund of `r > 0` against a pay of amount `A > 0`
and fee `F ≥ 0` is not negative, and `f × A ≤ r × F`. -/
theorem refundFee_bound (r A F : Int) (hr : 0 < r) (hA : 0 < A) (hF : 0 ≤ F) :
    0 ≤ (if r ≠ A then Amount.MulRat r (Rat.divInt F A) else F)
    ∧ (if r ≠ A then Amount.MulRat r (Rat.divInt F A) else F) * A ≤ r * F := by
  rw [refundFee_eq]
  by_cases h : r = A
  · rw [if_pos h, h]
    exact ⟨hF, le_of_eq (mul_comm _ _)⟩
  · rw [if_neg h]
    have hAq : (0 : ℚ) < (A : ℚ) := by exact_mod_cast hA
    have hx : (0 : ℚ) ≤ ((r : ℚ) * (F : ℚ)) / (A : ℚ) :=
      div_nonneg (mul_nonneg (by exact_mod_cast hr.le) (by exact_mod_cast hF)) hAq.le
    refine ⟨Int.floor_nonneg.mpr hx, ?_⟩
    have hfl : ((⌊((r : ℚ) * (F : ℚ)) / (A : ℚ)⌋ : Int) : ℚ) ≤ ((r : ℚ) * (F : ℚ)) / (A : ℚ) :=
      Int.floor_le _
    have h2 : ((⌊((r : ℚ) * (F : ℚ)) / (A : ℚ)⌋ : Int) : ℚ) * (A : ℚ) ≤ (r : ℚ) * (F : ℚ) :=
      (le_div_iff₀ hAq).mp hfl
    exact_mod_cast h2

/-- What an accepted refund leaves, for the leaf of `payRefund`. -/
theorem payRefund_final {ctx : Ctx} {st st1 : State} {sender receiver : Balance}
    {amount fee : Int} {memo : String} {parentPay : Pay} {ts : Int}
    {res : BalanceLog × Balance × Pay}
    (heq : PayStub.Refund ctx st sender receiver amount fee memo parentPay = (.ok res, st1))
    (hts : GetTime ctx = .ok ts) (hid : parentPay.PayID ≠ toString ts ++ ctx.txID) :
    PayStub.GetPay st1 parentPay.PayID
      = .ok { parentPay with TotalRefund := parentPay.TotalRefund + amount }
    ∧ refundedFee ctx st1 = fee := by
  obtain ⟨log', receiver1', st2', hspec, hget⟩ :=
    refundStub_spec ctx st sender receiver amount fee memo parentPay ts hts
  rw [heq] at hspec
  have hst : st1 = st2' := (Prod.mk.inj hspec).2
  refine ⟨?_, ?_⟩
  · unfold PayStub.GetPay
    rw [hst, hget]
  · unfold refundedFee
    rw [hts]
    simp only [refundStub_row heq hts hid, NewPay, neg_neg]

/-- One accepted refund against the pay stored under `params[0]`. -/
theorem payRefund_step (ctx : Ctx) (st : State) (params : List String) (parentPay : Pay)
    (ts : Int) (hpay : PayStub.GetPay st (param params 0) = .ok parentPay)
    (hpid : parentPay.PayID = param params 0)
    (hts : GetTime ctx = .ok ts) (hid : param params 0 ≠ toString ts ++ ctx.txID) :
    SuccessImplies (fun st1 => ∃ r, NewAmount (param params 1) = .ok r ∧ 0 < r
      ∧ parentPay.TotalRefund + r ≤ parentPay.Amount
      ∧ PayStub.GetPay st1 (param params 0)
          = .ok { parentPay with TotalRefund := parentPay.TotalRefund + r }
      ∧ refundedFee ctx st1
          = (if r ≠ parentPay.Amount then
              Amount.MulRat r (Rat.divInt parentPay.Fee parentPay.Amount)
             else parentPay.Fee)) (payRefund ctx st params) := by
  have hid1 : parentPay.PayID ≠ toString ts ++ ctx.txID := by
    rw [hpid]
    exact hid
  unfold payRefund
  simp only [hpay]
  repeat' (first
    | exact SuccessImplies_error _ _ _
    | exact SuccessImplies_panic _ _
    | exact SuccessImplies_responseError _ _ _ _
    | refine SuccessImplies_ite (fun _ => ?_) (fun hno => ?_)
    | split)
  rename_i heq
  obtain ⟨h1, h2⟩ := payRefund_final heq hts hid1
  refine fun _ => ⟨_, by assumption, by omega, by omega, ?_, h2⟩
  rw [← hpid]
  exact h1

theorem refundFees_sum_le (A F : Int) :
    ∀ (fees reqs : List Int), List.Forall₂ (fun f r => 0 ≤ f ∧ f * A ≤ r * F) fees reqs →
      fees.sum * A ≤ reqs.sum * F ∧ ∀ f ∈ fees, 0 ≤ f := by
  intro fees reqs h
  induction h with
  | nil => simp
  | cons hab _ ih =>
    refine ⟨?_, ?_⟩
    · rw [List.sum_cons, List.sum_cons, add_mul, add_mul]
      exact add_le_add hab.2 ih.1
    · intro f hf
      rcases List.mem_cons.mp hf with h | h
      · rw [h]
        exact hab.1
      · exact ih.2 f h

/-- Accepted refunds against one pay, in turn: each refunded fee `f` is not
negative and satisfies `f × A ≤ r × F` for its request `r`, and the requests
fit in what is left of the pay. -/
theorem payRefundRounds_spec (p : String) (A F : Int) (hA : 0 < A) (hF : 0 ≤ F) :
    ∀ (calls : List (Ctx × List String)) (st : State) (parentPay : Pay),
      PayStub.GetPay st p = .ok parentPay → parentPay.PayID = p →
      parentPay.Amount = A → parentPay.Fee = F → parentPay.TotalRefund ≤ A →
      (∀ c ∈ calls, param c.2 0 = p
        ∧ ∃ ts, GetTime c.1 = .ok ts ∧ p ≠ toString ts ++ c.1.txID) →
      (∀ x ∈ payRefundRounds calls st, x.1.isSuccess = true) →
      List.Forall₂ (fun f r => 0 ≤ f ∧ f * A ≤ r * F) (refundedFees calls st)
        (refundRequests calls)
      ∧ (∀ r ∈ refundRequests calls, 0 < r)
      ∧ parentPay.TotalRefund + (refundRequests calls).sum ≤ A
  | [], _, parentPay, _, _, _, _, hT, _, _ => by
    refine ⟨List.Forall₂.nil, fun r hr => absurd hr (List.not_mem_nil r), ?_⟩
    show parentPay.TotalRefund + 0 ≤ A
    omega
  | (ctx, params) :: rest, st, parentPay, hpay, hpid, hAmt, hFee, _, hcalls, hok => by
    obtain ⟨hp0, ts, hts, hid⟩ := hcalls (ctx, params) (List.mem_cons_self _ _)
    simp only at hp0
    have hsucc : (payRefund ctx st params).1.isSuccess = true :=
      hok _ (List.mem_cons_self _ _)
    obtain ⟨r, hreq, hpos, hle, hparent, hfee⟩ :=
      payRefund_step ctx st params parentPay ts (by rw [hp0]; exact hpay) (by rw [hp0]; exact hpid)
        hts (by rw [hp0]; exact hid) hsucc
    rw [hp0] at hparent
    obtain ⟨ih1, ih2, ih3⟩ := payRefundRounds_spec p A F hA hF rest (payRefund ctx st params).2
      { parentPay with TotalRefund := parentPay.TotalRefund + r } hparent hpid hAmt hFee
      (by rw [← hAmt]; exact hle)
      (fun c hc => hcalls c (List.mem_cons_of_mem _ hc))
      (fun x hx => hok x (List.mem_cons_of_mem _ hx))
    have hb := refundFee_bound r A F hpos hA hF
    rw [hAmt, hFee] at hfee
    have hreq1 : refundRequests ((ctx, params) :: rest) = r :: refundRequests rest := by
      unfold refundRequests
      rw [List.map_cons]
      simp only [hreq]
    rw [hreq1]
    refine ⟨?_, ?_, ?_⟩
    · show List.Forall₂ _ (refundedFee ctx (payRefund ctx st params).2
        :: refundedFees rest (payRefund ctx st params).2) _
      rw [hfee]
      exact List.Forall₂.cons hb ih1
    · intro x hx
      rcases List.mem_cons.mp hx with h | h
      · rw [h]
        exact hpos
      · exact ih2 x h
    · rw [List.sum_cons]
      have : parentPay.TotalRefund + r + (refundRequests rest).sum ≤ A := ih3
      omega

/-- C36.  Refunded fees never exceed the original fee.  For a pay stored under
its id `p` with amount `A > 0`, fee `F ≥ 0` and `0 ≤ totalRefund ≤ A`, and
`payRefund` calls against `p` in successive transactions (each with a known
time, and none with `p` as the id of its own row) that are all accepted: every
request is positive, the requests add up to at most `A - totalRefund`, every fee
portion attached to a refund row is not negative, and the fee portions add up
to at most `F`. -/
theorem refunded_fees_bounded (calls : List (Ctx × List String)) (st : State) (p : String)
    (parentPay : Pay) (hpay : PayStub.GetPay st p = .ok parentPay) (hpid : parentPay.PayID = p)
    (hA : 0 < parentPay.Amount) (hF : 0 ≤ parentPay.Fee)
    (hT0 : 0 ≤ parentPay.TotalRefund) (hT : parentPay.TotalRefund ≤ parentPay.Amount)
    (hcalls : ∀ c ∈ calls, param c.2 0 = p
      ∧ ∃ ts, GetTime c.1 = .ok ts ∧ p ≠ toString ts ++ c.1.txID)
    (hok : ∀ x ∈ payRefundRounds calls st, x.1.isSuccess = true) :
    (refundedFees calls st).sum ≤ parentPay.Fee
    ∧ (∀ f ∈ refundedFees calls st, 0 ≤ f)
    ∧ (∀ r ∈ refundRequests calls, 0 < r)
    ∧ parentPay.TotalRefund + (refundRequests calls).sum ≤ parentPay.Amount := by
  obtain ⟨h1, h2, h3⟩ := payRefundRounds_spec p parentPay.Amount parentPay.Fee hA hF calls st
    parentPay hpay hpid rfl rfl hT hcalls hok
  obtain ⟨hsum, hnn⟩ := refundFees_sum_le parentPay.Amount parentPay.Fee _ _ h1
  refine ⟨?_, hnn, h2, h3⟩
  have hreq : (refundRequests calls).sum ≤ parentPay.Amount := by omega
  have h4 : (refundRequests calls).sum * parentPay.Fee ≤ parentPay.Amount * parentPay.Fee :=
    Int.mul_le_mul_of_nonneg_right hreq hF
  have h5 : (refundedFees calls st).sum * parentPay.Amount
      ≤ parentPay.Fee * parentPay.Amount := by
    rw [mul_comm parentPay.Fee]
    exact le_trans hsum h4
  exact le_of_mul_le_mul_right h5 hA

/-- C36 on `samplePayLedger 0` (the pay `p1` of 100 with fee 5): refunds of 40
and of 60 in two transactions are accepted, with fee portions 2 and 3. -/
theorem refunded_fees_bounded_witness :
    refundedFees [(sampleCtx, ["p1", "40"]), (sampleLaterCtx, ["p1", "60"])] (samplePayLedger 0)
      = [2, 3]
    ∧ (refundedFees [(sampleCtx, ["p1", "40"]), (sampleLaterCtx, ["p1", "60"])]
        (samplePayLedger 0)).sum ≤ (samplePay 0).Fee :=
  ⟨by decide,
   (refunded_fees_bounded [(sampleCtx, ["p1", "40"]), (sampleLaterCtx, ["p1", "60"])]
      (samplePayLedger 0) "p1" (samplePay 0) (by decide) rfl (by decide) (by decide) (by decide)
      (by decide)
      (by
        intro c hc
        simp only [List.mem_cons, List.mem_singleton, List.not_mem_nil, or_false] at hc
        rcases hc with rfl | rfl
        · exact ⟨rfl, 1000, rfl, by decide⟩
        · exact ⟨rfl, 2000, rfl, by decide⟩)
      (by decide)).1⟩

/-! ## Conservation of the total value -/

theorem kvDel_keys {V : Type} (k : String) : ∀ m : KV V,
    (kvDel m k).map Prod.fst = (m.map Prod.fst).filter (fun x => decide (x ≠ k))
  | [] => rfl
  | (k', v) :: rest => by
    unfold kvDel
    by_cases h : k' = k
    · rw [if_pos h, List.map_cons, List.filter_cons_of_neg (by simp [h])]
      exact kvDel_keys k rest
    · rw [if_neg h, List.map_cons, List.map_cons, List.filter_cons_of_pos (by simp [h])]
      rw [kvDel_keys k rest]

theorem kvDel_nodup {V : Type} (m : KV V) (k : String) (h : (m.map Prod.fst).Nodup) :
    ((kvDel m k).map Prod.fst).Nodup := by
  rw [kvDel_keys]
  exact h.filter _

theorem kvPut_nodup {V : Type} (m : KV V) (k : String) (v : V) (h : (m.map Prod.fst).Nodup) :
    ((kvPut m k v).map Prod.fst).Nodup := by
  unfold kvPut
  rw [List.map_cons, List.nodup_cons]
  refine ⟨?_, kvDel_nodup m k h⟩
  rw [kvDel_keys]
  simp

theorem kvDel_of_not_mem {V : Type} (k : String) : ∀ m : KV V, k ∉ m.map Prod.fst →
    kvDel m k = m
  | [], _ => rfl
  | (k', v) :: rest, h => by
    rw [List.map_cons, List.mem_cons, not_or] at h
    unfold kvDel
    rw [if_neg (fun hk => h.1 hk.symm), kvDel_of_not_mem k rest h.2]

theorem kvGet_of_not_mem {V : Type} (k : String) : ∀ m : KV V, k ∉ m.map Prod.fst →
    kvGet m k = none
  | [], _ => rfl
  | (k', v) :: rest, h => by
    rw [List.map_cons, List.mem_cons, not_or] at h
    unfold kvGet
    rw [if_neg (fun hk => h.1 hk.symm)]
    exact kvGet_of_not_mem k rest h.2

/-- Deleting a key takes the value of its row off the sum. -/
theorem kvSum_del {V : Type} (f : V → Int) (k : String) : ∀ m : KV V,
    (m.map Prod.fst).Nodup →
    kvSum f (kvDel m k) = kvSum f m - ((kvGet m k).map f).getD 0
  | [], _ => by simp [kvSum, kvDel, kvGet]
  | (k', v) :: rest, h => by
    rw [List.map_cons, List.nodup_cons] at h
    by_cases hk : k' = k
    · subst hk
      have h1 : kvDel ((k', v) :: rest) k' = rest := by
        unfold kvDel
        rw [if_pos rfl]
        exact kvDel_of_not_mem k' rest h.1
      have h2 : kvGet ((k', v) :: rest) k' = some v := by
        unfold kvGet
        rw [if_pos rfl]
      rw [h1, h2]
      simp [kvSum]
    · have h1 : kvDel ((k', v) :: rest) k = (k', v) :: kvDel rest k := by
        simp only [kvDel, if_neg hk]
      have h2 : kvGet ((k', v) :: rest) k = kvGet rest k := by
        simp only [kvGet, if_neg hk]
      have ih := kvSum_del f k rest h.2
      rw [h1, h2]
      unfold kvSum at ih ⊢
      rw [List.map_cons, List.sum_cons, ih, List.map_cons, List.sum_cons]
      omega

/-- Writing a row replaces the value of the row under its key in the sum. -/
theorem kvSum_put {V : Type} (f : V → Int) (m : KV V) (k : String) (v : V)
    (h : (m.map Prod.fst).Nodup) :
    kvSum f (kvPut m k v) = kvSum f m - ((kvGet m k).map f).getD 0 + f v := by
  have hd := kvSum_del f k m h
  unfold kvPut
  unfold kvSum at hd ⊢
  rw [List.map_cons, List.sum_cons, hd]
  show f v + _ = _
  omega

theorem total_transfer (ctx : Ctx) (st : State) (sender receiver : Balance) (amount fee : Int)
    (memo : String) (pendingTime : Option Int) (ts : Int) (hts : GetTime ctx = .ok ts)
    (hn : KeysNodup st)
    (hs : kvGet st.balances (BalanceStub.CreateKey sender.DOCTYPEID) = some sender)
    (hr : kvGet st.balances (BalanceStub.CreateKey receiver.DOCTYPEID) = some receiver)
    (hne : sender.DOCTYPEID ≠ receiver.DOCTYPEID)
    (hfee : kvGet st.fees (FeeStub.CreateKey (toString ts ++ ctx.txID)) = none)
    (hpb : kvGet st.pendingBalances (BalanceStub.CreatePendingKey ctx.txID) = none) :
    totalValue (BalanceStub.Transfer ctx st sender receiver amount fee memo pendingTime).2
      = totalValue st
    ∧ KeysNodup (BalanceStub.Transfer ctx st sender receiver amount fee memo pendingTime).2 := by
  obtain ⟨hn1, hn2, hn3, hn4⟩ := hn
  have hk : BalanceStub.CreateKey receiver.DOCTYPEID ≠ BalanceStub.CreateKey sender.DOCTYPEID :=
    fun h => hne (BalanceStub.CreateKey_inj _ _ h).symm
  unfold BalanceStub.Transfer FeeStub.CreateFee
  by_cases hl : timeLocked pendingTime ts = true <;> by_cases hz : fee = 0
  all_goals
    simp only [hts, hl, hz, if_true, if_false, Bool.false_eq_true, BalanceStub.PutBalance,
      BalanceStub.PutBalanceLog, BalanceStub.PutPendingBalance, FeeStub.PutFee, totalValue,
      KeysNodup, NewPendingBalance, PendingBalance.created, Identifiable.GetID, Balance.GetID]
  all_goals refine ⟨?_, ?_, ?_, ?_, ?_⟩
  all_goals first
    | (repeat' (first | assumption | apply kvPut_nodup | apply kvDel_nodup)
       done)
    | (simp only [kvSum_put _ _ _ _ hn1, kvSum_put _ _ _ _ (kvPut_nodup _ _ _ hn1),
        kvSum_put _ _ _ _ hn2, kvSum_put _ _ _ _ hn3, kvGet_kvPut, hk, if_false, hs, hr, hfee,
        hpb, Option.map_some', Option.map_none', Option.getD_some, Option.getD_none]
       omega)

theorem total_deposit (ctx : Ctx) (st : State) (id : String) (sender : Balance) (con : Contract)
    (amount : Int) (fee : Option Int) (memo : String) (hn : KeysNodup st)
    (hs : kvGet st.balances (BalanceStub.CreateKey sender.DOCTYPEID) = some sender)
    (hpb : kvGet st.pendingBalances (BalanceStub.CreatePendingKey id) = none) :
    totalValue (BalanceStub.Deposit ctx st id sender con amount fee memo).2 = totalValue st
    ∧ KeysNodup (BalanceStub.Deposit ctx st id sender con amount fee memo).2 := by
  obtain ⟨hn1, hn2, hn3, hn4⟩ := hn
  unfold BalanceStub.Deposit
  rcases GetTime ctx with e | ts
  · exact ⟨rfl, hn1, hn2, hn3, hn4⟩
  rcases con.expiryTime with e | expiry
  · exact ⟨rfl, hn1, hn2, hn3, hn4⟩
  simp only [BalanceStub.PutBalance, BalanceStub.PutBalanceLog, BalanceStub.PutPendingBalance,
    totalValue, KeysNodup, NewPendingBalance, PendingBalance.created, appliedAmount_eq]
  refine ⟨?_, ?_, ?_, ?_, ?_⟩
  all_goals first
    | (repeat' (first | assumption | apply kvPut_nodup | apply kvDel_nodup)
       done)
    | (simp only [kvSum_put _ _ _ _ hn1, kvSum_put _ _ _ _ hn2, hs, hpb, Option.map_some',
        Option.map_none', Option.getD_some, Option.getD_none]
       omega)

theorem total_withdraw (ctx : Ctx) (st : State) (pb : PendingBalance) (hn : KeysNodup st)
    (hpb : kvGet st.pendingBalances (BalanceStub.CreatePendingKey pb.DOCTYPEID) = some pb)
    (hid : ∀ bal, BalanceStub.GetBalance st pb.Account = .ok bal → bal.DOCTYPEID = pb.Account) :
    totalValue (BalanceStub.Withdraw ctx st pb).2 = totalValue st
    ∧ KeysNodup (BalanceStub.Withdraw ctx st pb).2 := by
  obtain ⟨hn1, hn2, hn3, hn4⟩ := hn
  unfold BalanceStub.Withdraw
  rcases GetTime ctx with e | ts
  · exact ⟨rfl, hn1, hn2, hn3, hn4⟩
  rcases hb : BalanceStub.GetBalance st pb.Account with e | bal
  · exact ⟨rfl, hn1, hn2, hn3, hn4⟩
  have hs : kvGet st.balances (BalanceStub.CreateKey bal.DOCTYPEID) = some bal := by
    rw [hid bal hb]
    unfold BalanceStub.GetBalance at hb
    split at hb
    · rename_i hk
      cases hb
      exact hk
    · cases hb
  simp only [BalanceStub.PutBalance, BalanceStub.PutBalanceLog, BalanceStub.DelPendingBalance,
    totalValue, KeysNodup, appliedAmount_eq]
  refine ⟨?_, ?_, ?_, ?_, ?_⟩
  all_goals first
    | (repeat' (first | assumption | apply kvPut_nodup | apply kvDel_nodup)
       done)
    | (simp only [kvSum_put _ _ _ _ hn1, kvSum_del _ _ _ hn2, hs, hpb, Option.map_some',
        Option.getD_some]
       omega)

theorem total_finalize (ctx : Ctx) (st : State) (pb : PendingBalance) (receiver : Balance)
    (pendingTime : Option Int) (ts : Int) (hts : GetTime ctx = .ok ts) (hn : KeysNodup st)
    (hpb : kvGet st.pendingBalances (BalanceStub.CreatePendingKey pb.DOCTYPEID) = some pb)
    (hr : kvGet st.balances (BalanceStub.CreateKey receiver.DOCTYPEID) = some receiver)
    (hfee : kvGet st.fees (FeeStub.CreateKey (toString ts ++ ctx.txID)) = none)
    (hnew : kvGet st.pendingBalances (BalanceStub.CreatePendingKey ctx.txID) = none) :
    totalValue (BalanceStub.TransferPendingBalance ctx st pb receiver pendingTime).2
      = totalValue st
    ∧ KeysNodup (BalanceStub.TransferPendingBalance ctx st pb receiver pendingTime).2 := by
  obtain ⟨hn1, hn2, hn3, hn4⟩ := hn
  have hk : BalanceStub.CreatePendingKey ctx.txID ≠ BalanceStub.CreatePendingKey pb.DOCTYPEID := by
    intro h
    rw [h, hpb] at hnew
    cases hnew
  unfold BalanceStub.TransferPendingBalance FeeStub.CreateFee
  rcases hf : pb.Fee with _ | f <;> by_cases hl : timeLocked pendingTime ts = true
  all_goals try by_cases hz : f = 0
  all_goals
    simp only [hts, hl, hf, if_true, if_false, Bool.false_eq_true, BalanceStub.PutBalance,
      BalanceStub.PutBalanceLog, BalanceStub.PutPendingBalance, BalanceStub.DelPendingBalance,
      FeeStub.PutFee, totalValue, KeysNodup, NewPendingBalance, PendingBalance.created,
      Identifiable.GetID, Balance.GetID]
  all_goals try simp only [hz, if_true, if_false]
  all_goals refine ⟨?_, ?_, ?_, ?_, ?_⟩
  all_goals first
    | (repeat' (first | assumption | apply kvPut_nodup | apply kvDel_nodup)
       done)
    | (simp only [kvSum_put _ _ _ _ hn1, kvSum_put _ _ _ _ hn2, kvSum_put _ _ _ _ hn3,
        kvSum_del _ _ _ hn2, kvSum_del _ _ _ (kvPut_nodup _ _ _ hn2), kvGet_kvPut, hk,
        if_false, hr, hfee, hpb, hnew, hf, Option.map_some', Option.map_none',
        Option.getD_some, Option.getD_none]
       omega)

theorem total_pay (ctx : Ctx) (st : State) (sender : Balance) (receiver : String)
    (amount fee : Int) (orderID memo : String) (hn : KeysNodup st)
    (hs : kvGet st.balances (BalanceStub.CreateKey sender.DOCTYPEID) = some sender)
    (hnew : ∀ ts, GetTime ctx = .ok ts →
      kvGet st.pays (PayStub.CreateKey (toString ts ++ ctx.txID)) = none) :
    totalValue (PayStub.Pay ctx st sender receiver amount fee orderID memo).2 = totalValue st
    ∧ KeysNodup (PayStub.Pay ctx st sender receiver amount fee orderID memo).2 := by
  obtain ⟨hn1, hn2, hn3, hn4⟩ := hn
  unfold PayStub.Pay
  rcases hts : GetTime ctx with e | ts
  · exact ⟨rfl, hn1, hn2, hn3, hn4⟩
  have hp := hnew ts hts
  simp only [BalanceStub.PutBalance, BalanceStub.PutBalanceLog, PayStub.PutPay, NewPay,
    totalValue, KeysNodup]
  refine ⟨?_, ?_, ?_, ?_, ?_⟩
  all_goals first
    | (repeat' (first | assumption | apply kvPut_nodup | apply kvDel_nodup)
       done)
    | (simp only [kvSum_put _ _ _ _ hn1, kvSum_put _ _ _ _ hn4, hs, hp, Option.map_some',
        Option.map_none', Option.getD_some, Option.getD_none]
       omega)

theorem total_payPending (ctx : Ctx) (st : State) (pb : PendingBalance) (fee : Int)
    (merchant memo orderID : String) (hn : KeysNodup st)
    (hpb : kvGet st.pendingBalances (BalanceStub.CreatePendingKey pb.DOCTYPEID) = some pb)
    (hfee : pb.Fee.getD 0 = 0)
    (hnew : ∀ ts, GetTime ctx = .ok ts →
      kvGet st.pays (PayStub.CreateKey (toString ts ++ ctx.txID)) = none) :
    totalValue (PayStub.PayPendingBalance ctx st pb fee merchant memo orderID).2 = totalValue st
    ∧ KeysNodup (PayStub.PayPendingBalance ctx st pb fee merchant memo orderID).2 := by
  obtain ⟨hn1, hn2, hn3, hn4⟩ := hn
  unfold PayStub.PayPendingBalance
  rcases hts : GetTime ctx with e | ts
  · exact ⟨rfl, hn1, hn2, hn3, hn4⟩
  have hp := hnew ts hts
  simp only [BalanceStub.DelPendingBalance, PayStub.PutPay, NewPay, totalValue, KeysNodup]
  refine ⟨?_, ?_, ?_, ?_, ?_⟩
  all_goals first
    | (repeat' (first | assumption | apply kvPut_nodup | apply kvDel_nodup)
       done)
    | (simp only [kvSum_del _ _ _ hn2, kvSum_put _ _ _ _ hn4, hpb, hp, Option.map_some',
        Option.map_none', Option.getD_some, Option.getD_none]
       omega)

theorem total_refund (ctx : Ctx) (st : State) (sender receiver : Balance) (amount fee : Int)
    (memo : String) (parentPay : Pay) (hn : KeysNodup st)
    (hr : kvGet st.balances (BalanceStub.CreateKey receiver.DOCTYPEID) = some receiver)
    (hparent : kvGet st.pays (PayStub.CreateKey parentPay.PayID) = some parentPay)
    (hnew : ∀ ts, GetTime ctx = .ok ts →
      kvGet st.pays (PayStub.CreateKey (toString ts ++ ctx.txID)) = none) :
    totalValue (PayStub.Refund ctx st sender receiver amount fee memo parentPay).2
      = totalValue st
    ∧ KeysNodup (PayStub.Refund ctx st sender receiver amount fee memo parentPay).2 := by
  obtain ⟨hn1, hn2, hn3, hn4⟩ := hn
  unfold PayStub.Refund
  rcases hts : GetTime ctx with e | ts
  · exact ⟨rfl, hn1, hn2, hn3, hn4⟩
  have hp := hnew ts hts
  have hk : PayStub.CreateKey (toString ts ++ ctx.txID) ≠ PayStub.CreateKey parentPay.PayID := by
    intro h
    rw [h, hparent] at hp
    cases hp
  simp only [BalanceStub.PutBalance, BalanceStub.PutBalanceLog, PayStub.PutPay,
    PayStub.PutParentPay, NewPay, totalValue, KeysNodup]
  refine ⟨?_, ?_, ?_, ?_, ?_⟩
  all_goals first
    | (repeat' (first | assumption | apply kvPut_nodup | apply kvDel_nodup)
       done)
    | (simp only [kvSum_put _ _ _ _ hn1, kvSum_put _ _ _ _ hn4,
        kvSum_put _ _ _ _ (kvPut_nodup _ _ _ hn4), kvGet_kvPut, hk, if_false, hr, hp, hparent,
        Option.map_some', Option.map_none', Option.getD_some, Option.getD_none]
       omega)

theorem total_supply (ctx : Ctx) (st : State) (bal : Balance) (amount ts : Int)
    (hts : GetTime ctx = .ok ts) (hn : KeysNodup st)
    (hb : kvGet st.balances (BalanceStub.CreateKey bal.DOCTYPEID) = some bal) :
    totalValue (BalanceStub.Supply ctx st bal amount).2 = totalValue st + amount
    ∧ KeysNodup (BalanceStub.Supply ctx st bal amount).2 := by
  obtain ⟨hn1, hn2, hn3, hn4⟩ := hn
  rw [BalanceStub.Supply_spec ctx st bal amount ts hts]
  simp only [totalValue, KeysNodup]
  refine ⟨?_, kvPut_nodup _ _ _ hn1, hn2, hn3, hn4⟩
  simp only [kvSum_put _ _ _ _ hn1, hb, Option.map_some', Option.getD_some]
  omega

theorem total_mint (ctx : Ctx) (st : State) (token : Token) (bal : Balance) (amount : Int)
    (hn : KeysNodup st)
    (hb : kvGet st.balances (BalanceStub.CreateKey bal.DOCTYPEID) = some bal) :
    KeysNodup (TokenStub.Mint ctx st token bal amount).2
    ∧ (∀ e, (TokenStub.Mint ctx st token bal amount).1 = .error e →
        totalValue (TokenStub.Mint ctx st token bal amount).2 = totalValue st)
    ∧ (∀ token1 bal1 log, (TokenStub.Mint ctx st token bal amount).1 = .ok (token1, bal1, log) →
        totalValue (TokenStub.Mint ctx st token bal amount).2
          = totalValue st + (token1.Supply - token.Supply)) := by
  obtain ⟨hn1, hn2, hn3, hn4⟩ := hn
  rcases hts : GetTime ctx with e | ts
  · have hrun : TokenStub.Mint ctx st token bal amount
        = (.error (errorsWrap e "failed to get the timestamp"), st) := by
      unfold TokenStub.Mint
      simp only [hts]
    rw [hrun]
    exact ⟨⟨hn1, hn2, hn3, hn4⟩, (fun _ _ => rfl), (fun _ _ _ h => nomatch h)⟩
  by_cases hmax : token.Supply ≥ token.MaxSupply
  · have hrun : TokenStub.Mint ctx st token bal amount
        = (.error (SupplyError "max supplied"), st) := by
      unfold TokenStub.Mint
      simp only [hts, hmax, if_true]
    rw [hrun]
    exact ⟨⟨hn1, hn2, hn3, hn4⟩, (fun _ _ => rfl), (fun _ _ _ h => nomatch h)⟩
  unfold TokenStub.Mint BalanceStub.Supply
  by_cases hc : token.MaxSupply < token.Supply + amount
  all_goals
    simp only [hts, hmax, hc, if_true, if_false, BalanceStub.PutBalance,
      BalanceStub.PutBalanceLog, TokenStub.PutToken, totalValue, KeysNodup]
    refine ⟨⟨kvPut_nodup _ _ _ hn1, hn2, hn3, hn4⟩, (fun _ h => nomatch h), ?_⟩
    intro token1 bal1 log h
    simp only [Except.ok.injEq, Prod.mk.injEq] at h
    rw [← h.1]
    simp only [kvSum_put _ _ _ _ hn1, hb, Option.map_some', Option.getD_some]
    omega

theorem total_burn (ctx : Ctx) (st : State) (token : Token) (bal : Balance) (amount : Int)
    (hn : KeysNodup st)
    (hb : kvGet st.balances (BalanceStub.CreateKey bal.DOCTYPEID) = some bal) :
    KeysNodup (TokenStub.Burn ctx st token bal amount).2
    ∧ (∀ e, (TokenStub.Burn ctx st token bal amount).1 = .error e →
        totalValue (TokenStub.Burn ctx st token bal amount).2 = totalValue st)
    ∧ (∀ token1 bal1 log, (TokenStub.Burn ctx st token bal amount).1 = .ok (token1, bal1, log) →
        totalValue (TokenStub.Burn ctx st token bal amount).2
          = totalValue st + (token1.Supply - token.Supply)) := by
  obtain ⟨hn1, hn2, hn3, hn4⟩ := hn
  rcases hts : GetTime ctx with e | ts
  · have hrun : TokenStub.Burn ctx st token bal amount
        = (.error (errorsWrap e "failed to get the timestamp"), st) := by
      unfold TokenStub.Burn
      simp only [hts]
    rw [hrun]
    exact ⟨⟨hn1, hn2, hn3, hn4⟩, (fun _ _ => rfl), (fun _ _ _ h => nomatch h)⟩
  by_cases hzero : token.Supply = 0
  · have hrun : TokenStub.Burn ctx st token bal amount
        = (.error (SupplyError "no supply"), st) := by
      unfold TokenStub.Burn
      simp only [hts, hzero, if_true]
    rw [hrun]
    exact ⟨⟨hn1, hn2, hn3, hn4⟩, (fun _ _ => rfl), (fun _ _ _ h => nomatch h)⟩
  by_cases hc : (if bal.Amount < amount then bal.Amount else amount) ≤ 0
  · have hrun : TokenStub.Burn ctx st token bal amount = (.ok (token, bal, none), st) := by
      unfold TokenStub.Burn
      simp only [hts, hzero, hc, if_true, if_false]
    rw [hrun]
    refine ⟨⟨hn1, hn2, hn3, hn4⟩, (fun _ h => nomatch h), ?_⟩
    intro token1 bal1 log h
    simp only [Except.ok.injEq, Prod.mk.injEq] at h
    rw [← h.1]
    show totalValue st = totalValue st + (token.Supply - token.Supply)
    omega
  · unfold TokenStub.Burn BalanceStub.Supply
    simp only [hts, hzero, hc, if_false, BalanceStub.PutBalance, BalanceStub.PutBalanceLog,
      TokenStub.PutToken, totalValue, KeysNodup]
    refine ⟨⟨kvPut_nodup _ _ _ hn1, hn2, hn3, hn4⟩, (fun _ h => nomatch h), ?_⟩
    intro token1 bal1 log h
    simp only [Except.ok.injEq, Prod.mk.injEq] at h
    rw [← h.1]
    simp only [kvSum_put _ _ _ _ hn1, hb, Option.map_some', Option.getD_some]
    omega

/-- C35.  Total value is conserved.  On a ledger without repeated keys, in a
transaction with a known time whose id names no stored Fee row, Pay row or
pending balance yet, the total value (all balances, plus amount and fee of all
pending balances, plus the amounts of all Fee rows, plus the amounts of all Pay
rows) is left unchanged by `Transfer` between two different stored balances
(instant or time-locked), by `Deposit` from a stored balance, by `Withdraw`
and by `TransferPendingBalance` of a stored pending balance (to a stored
balance), by `Pay` from a stored balance, by `PayPendingBalance` of a stored
pending balance without fee (the escrow of a pay), and by `Refund` to a stored
balance against a stored pay; `Mint` and `Burn` on a stored balance change it
by exactly the change of the token supply.  Each of them leaves a ledger
without repeated keys. -/
theorem total_value_conserved (ctx : Ctx) (st : State) (ts : Int) (hts : GetTime ctx = .ok ts)
    (hn : KeysNodup st)
    (hfee : kvGet st.fees (FeeStub.CreateKey (toString ts ++ ctx.txID)) = none)
    (hpay : kvGet st.pays (PayStub.CreateKey (toString ts ++ ctx.txID)) = none)
    (hpb : kvGet st.pendingBalances (BalanceStub.CreatePendingKey ctx.txID) = none) :
    (∀ sender receiver amount fee memo pendingTime,
        kvGet st.balances (BalanceStub.CreateKey sender.DOCTYPEID) = some sender →
        kvGet st.balances (BalanceStub.CreateKey receiver.DOCTYPEID) = some receiver →
        sender.DOCTYPEID ≠ receiver.DOCTYPEID →
        totalValue (BalanceStub.Transfer ctx st sender receiver amount fee memo pendingTime).2
          = totalValue st
        ∧ KeysNodup (BalanceStub.Transfer ctx st sender receiver amount fee memo pendingTime).2)
    ∧ (∀ sender con amount fee memo,
        kvGet st.balances (BalanceStub.CreateKey sender.DOCTYPEID) = some sender →
        totalValue (BalanceStub.Deposit ctx st ctx.txID sender con amount fee memo).2
          = totalValue st
        ∧ KeysNodup (BalanceStub.Deposit ctx st ctx.txID sender con amount fee memo).2)
    ∧ (∀ pb,
        kvGet st.pendingBalances (BalanceStub.CreatePendingKey pb.DOCTYPEID) = some pb →
        (∀ bal, BalanceStub.GetBalance st pb.Account = .ok bal → bal.DOCTYPEID = pb.Account) →
        totalValue (BalanceStub.Withdraw ctx st pb).2 = totalValue st
        ∧ KeysNodup (BalanceStub.Withdraw ctx st pb).2)
    ∧ (∀ pb receiver pendingTime,
        kvGet st.pendingBalances (BalanceStub.CreatePendingKey pb.DOCTYPEID) = some pb →
        kvGet st.balances (BalanceStub.CreateKey receiver.DOCTYPEID) = some receiver →
        totalValue (BalanceStub.TransferPendingBalance ctx st pb receiver pendingTime).2
          = totalValue st
        ∧ KeysNodup (BalanceStub.TransferPendingBalance ctx st pb receiver pendingTime).2)
    ∧ (∀ sender receiver amount fee orderID memo,
        kvGet st.balances (BalanceStub.CreateKey sender.DOCTYPEID) = some sender →
        totalValue (PayStub.Pay ctx st sender receiver amount fee orderID memo).2 = totalValue st
        ∧ KeysNodup (PayStub.Pay ctx st sender receiver amount fee orderID memo).2)
    ∧ (∀ pb fee merchant memo orderID,
        kvGet st.pendingBalances (BalanceStub.CreatePendingKey pb.DOCTYPEID) = some pb →
        pb.Fee.getD 0 = 0 →
        totalValue (PayStub.PayPendingBalance ctx st pb fee merchant memo orderID).2
          = totalValue st
        ∧ KeysNodup (PayStub.PayPendingBalance ctx st pb fee merchant memo orderID).2)
    ∧ (∀ sender receiver amount fee memo parentPay,
        kvGet st.balances (BalanceStub.CreateKey receiver.DOCTYPEID) = some receiver →
        kvGet st.pays (PayStub.CreateKey parentPay.PayID) = some parentPay →
        totalValue (PayStub.Refund ctx st sender receiver amount fee memo parentPay).2
          = totalValue st
        ∧ KeysNodup (PayStub.Refund ctx st sender receiver amount fee memo parentPay).2)
    ∧ (∀ token bal amount,
        kvGet st.balances (BalanceStub.CreateKey bal.DOCTYPEID) = some bal →
        KeysNodup (TokenStub.Mint ctx st token bal amount).2
        ∧ (∀ e, (TokenStub.Mint ctx st token bal amount).1 = .error e →
            totalValue (TokenStub.Mint ctx st token bal amount).2 = totalValue st)
        ∧ (∀ token1 bal1 log,
            (TokenStub.Mint ctx st token bal amount).1 = .ok (token1, bal1, log) →
            totalValue (TokenStub.Mint ctx st token bal amount).2
              = totalValue st + (token1.Supply - token.Supply)))
    ∧ (∀ token bal amount,
        kvGet st.balances (BalanceStub.CreateKey bal.DOCTYPEID) = some bal →
        KeysNodup (TokenStub.Burn ctx st token bal amount).2
        ∧ (∀ e, (TokenStub.Burn ctx st token bal amount).1 = .error e →
            totalValue (TokenStub.Burn ctx st token bal amount).2 = totalValue st)
        ∧ (∀ token1 bal1 log,
            (TokenStub.Burn ctx st token bal amount).1 = .ok (token1, bal1, log) →
            totalValue (TokenStub.Burn ctx st token bal amount).2
              = totalValue st + (token1.Supply - token.Supply))) := by
  have hnew : ∀ t, GetTime ctx = .ok t →
      kvGet st.pays (PayStub.CreateKey (toString t ++ ctx.txID)) = none := by
    intro t ht
    rw [hts] at ht
    cases ht
    exact hpay
  exact ⟨fun sender receiver amount fee memo pendingTime hs hr hne =>
      total_transfer ctx st sender receiver amount fee memo pendingTime ts hts hn hs hr hne hfee
        hpb,
    fun sender con amount fee memo hs =>
      total_deposit ctx st ctx.txID sender con amount fee memo hn hs hpb,
    fun pb hstored hid => total_withdraw ctx st pb hn hstored hid,
    fun pb receiver pendingTime hstored hr =>
      total_finalize ctx st pb receiver pendingTime ts hts hn hstored hr hfee hpb,
    fun sender receiver amount fee orderID memo hs =>
      total_pay ctx st sender receiver amount fee orderID memo hn hs hnew,
    fun pb fee merchant memo orderID hstored hfee0 =>
      total_payPending ctx st pb fee merchant memo orderID hn hstored hfee0 hnew,
    fun sender receiver amount fee memo parentPay hr hparent =>
      total_refund ctx st sender receiver amount fee memo parentPay hn hr hparent hnew,
    fun token bal amount hb => total_mint ctx st token bal amount hn hb,
    fun token bal amount hb => total_burn ctx st token bal amount hn hb⟩

/-- C35 on `sampleLedger 100 5` (total value 105): an instant transfer of 30
with fee 3 leaves the total at 105. -/
theorem total_value_conserved_witness :
    totalValue (sampleLedger 100 5) = 105
    ∧ totalValue (BalanceStub.Transfer sampleCtx (sampleLedger 100 5)
        (sampleBalance sampleSenderID 100) (sampleBalance sampleReceiverID 5) 30 3 "m" none).2
      = totalValue (sampleLedger 100 5) :=
  ⟨by decide,
   ((total_value_conserved sampleCtx (sampleLedger 100 5) 1000 rfl
      ⟨by decide, by decide, by decide, by decide⟩ (by decide) (by decide) (by decide)).1
      (sampleBalance sampleSenderID 100) (sampleBalance sampleReceiverID 5) 30 3 "m" none
      (by decide) (by decide) (by decide)).1⟩

/-- The parts of the total after that transfer: balances 67 and 35, one Fee row
of 3. -/
theorem total_value_sample :
    ((BalanceStub.Transfer sampleCtx (sampleLedger 100 5) (sampleBalance sampleSenderID 100)
        (sampleBalance sampleReceiverID 5) 30 3 "m" none).2.balances.map
      (fun p => p.2.Amount)) = [67, 35]
    ∧ ((BalanceStub.Transfer sampleCtx (sampleLedger 100 5) (sampleBalance sampleSenderID 100)
        (sampleBalance sampleReceiverID 5) 30 3 "m" none).2.fees.map
      (fun p => p.2.Amount)) = [3] := by
  decide

end Kiesnet
